import Mathlib

/-!
Verification development for the repository lahat-m/Compiler.

A shallow embedding of the symbol table (`src/phase3/symbol_table.c`), the
phase 2 AST and its printer (`src/phase2/ast.c`), the phase 3 AST loader
(`src/phase3/ast_loader.c`), the semantic analyzer
(`src/phase3/semantic_analyzer.c`, with the exit status of
`src/phase3/main_phase3.c` and the annotated AST file of
`generate_annotated_ast`), the code generator
(`src/phase4/code_generator.c`, with the text it prints) and the phase 4
loader of the annotated AST file (`src/phase4/ast_loader_phase4.c`), followed
by theorems about them.

Conventions of the embedding:
* a C string (`char*`, NUL-terminated) is a Lean `String`, or a `List Char`
  where it is scanned character by character; `strcmp (a, b) == 0` is `a = b`;
  a `char*` that may be `NULL` is an `Option String`;
* the struct member `variable` is called `var_name`, since `variable` is a
  keyword of Lean;
* a C `int` that holds a flag, a line number or a value is an `Int`; sizes and
  counters that only count upwards from zero are `Nat` (they stay far below
  the range of `int`: a symbol count is bounded by the memory); the hash is
  an `unsigned int` and is reduced modulo `2^32`; the characters of a name
  are taken as non-negative (`char` values of ASCII text);
* a function that mutates a structure through a pointer returns the new
  structure; what is written to `stdout` or to a file is the returned text;
  the messages that the analyzer and the loader print are left out;
* a file that is read is the list of its characters, and an open file is the
  list of the characters from the position on: `fgets` takes the first line
  (at most 511 characters) off that list, and `fseek` backwards by `k` puts
  the last `k` characters read in front of it again; a loop over a file that
  is not a fold over its lines takes fuel, one unit for every character.
-/

set_option autoImplicit false

/-! ## Definitions: symbol table (`src/phase3/symbol_table.h`, `symbol_table.c`) -/

namespace Phase3

/-- The `SymbolType` enumeration of `symbol_table.h`. -/
inductive SymbolType where
  | SYM_BOOLEAN
  | SYM_IDENTIFIER
  | SYM_FUNCTION
  | SYM_PREDICATE
  | SYM_UNKNOWN
  deriving DecidableEq

/-- The `value` union of a `SymbolEntry`: `bool_value` for boolean variables,
`str_value` (a possibly `NULL` string) for the other types. -/
inductive SymbolValue where
  | bool_value (v : Int)
  | str_value (s : Option String)
  deriving DecidableEq

/-- The `SymbolEntry` struct; the `next` pointer is the tail of the chain the
entry sits in. -/
structure SymbolEntry where
  name : String
  type : SymbolType
  is_defined : Int
  is_used : Int
  line_declared : Int
  line_used : Int
  value : SymbolValue
  deriving DecidableEq

/-- The `SymbolTable` struct: `table` is the array of `size` bucket chains
(each chain head first), `count` the number of symbols. -/
structure SymbolTable where
  table : List (List SymbolEntry)
  size : Nat
  count : Nat
  deriving DecidableEq

/-- One round of the loop of `hash_string` on an `unsigned int`:
`hash = ((hash << 5) + hash) + c`. -/
def hash_step (hash : Nat) (c : Char) : Nat :=
  ((hash <<< 5) + hash + c.toNat) % 4294967296

/-- The function `hash_string`: the hash starts at 5381, is folded over the
characters of the string and reduced modulo the table size. -/
def hash_string (str : String) (table_size : Nat) : Nat :=
  (str.toList.foldl hash_step 5381) % table_size

/-- The function `create_symbol_table`: `size` empty chains, no symbol. -/
def create_symbol_table (size : Nat) : SymbolTable :=
  { table := List.replicate size [], size := size, count := 0 }

/-- The chain walk of `lookup_symbol`: the first entry of the chain whose name
compares equal to `name`. -/
def lookup_chain (name : String) : List SymbolEntry → Option SymbolEntry
  | [] => none
  | entry :: next => if entry.name = name then some entry else lookup_chain name next

/-- The function `lookup_symbol`: walk the chain of bucket
`hash_string(name, table->size)`. -/
def lookup_symbol (table : SymbolTable) (name : String) : Option SymbolEntry :=
  lookup_chain name (table.table.getD (hash_string name table.size) [])

/-- The entry that `insert_symbol` allocates for a name that is not in the
table yet. -/
def new_entry (name : String) (type : SymbolType) (line : Int) : SymbolEntry :=
  { name := name
    type := type
    is_defined := 0
    is_used := 0
    line_declared := line
    line_used := -1
    value := if type = SymbolType.SYM_BOOLEAN then SymbolValue.bool_value 0
             else SymbolValue.str_value none }

/-- The function `insert_symbol`: an existing entry is returned as it is;
otherwise a new entry is put at the head of its bucket chain and counted. The
result is the table after the call and the returned entry. -/
def insert_symbol (table : SymbolTable) (name : String) (type : SymbolType) (line : Int) :
    SymbolTable × Option SymbolEntry :=
  match lookup_symbol table name with
  | some existing => (table, some existing)
  | none =>
    let entry := new_entry name type line
    let index := hash_string name table.size
    ({ table with
        table := table.table.set index (entry :: table.table.getD index [])
        count := table.count + 1 },
     some entry)

/-- A write through the pointer that `lookup_symbol` returns: the first entry
of the chain named `name` is replaced by `f` of it. -/
def update_chain (name : String) (f : SymbolEntry → SymbolEntry) :
    List SymbolEntry → List SymbolEntry
  | [] => []
  | entry :: next =>
    if entry.name = name then f entry :: next else entry :: update_chain name f next

/-- A write through the pointer that `lookup_symbol (table, name)` returns,
seen on the whole table. -/
def update_symbol (table : SymbolTable) (name : String) (f : SymbolEntry → SymbolEntry) :
    SymbolTable :=
  let index := hash_string name table.size
  { table with
      table := table.table.set index (update_chain name f (table.table.getD index [])) }

/-- The body of `mark_symbol_used` on the entry found. -/
def mark_entry_used (line : Int) (entry : SymbolEntry) : SymbolEntry :=
  if entry.is_used = 0 then { entry with is_used := 1, line_used := line } else entry

/-- The function `mark_symbol_used`. -/
def mark_symbol_used (table : SymbolTable) (name : String) (line : Int) : SymbolTable :=
  match lookup_symbol table name with
  | some _ => update_symbol table name (mark_entry_used line)
  | none => table

/-- The body of `set_symbol_value` on the entry found. -/
def set_entry_value (bool_val : Int) (line : Int) (entry : SymbolEntry) : SymbolEntry :=
  { entry with
      is_defined := 1
      line_declared := line
      value := if entry.type = SymbolType.SYM_BOOLEAN then SymbolValue.bool_value bool_val
               else entry.value }

/-- The function `set_symbol_value`. -/
def set_symbol_value (table : SymbolTable) (name : String) (bool_val : Int) (line : Int) :
    SymbolTable :=
  match lookup_symbol table name with
  | some _ => update_symbol table name (set_entry_value bool_val line)
  | none => table

/-- The test `entry->is_used && !entry->is_defined`. -/
def is_undefined (entry : SymbolEntry) : Bool :=
  entry.is_used != 0 && entry.is_defined == 0

/-- The test `entry->is_defined && !entry->is_used`. -/
def is_unused (entry : SymbolEntry) : Bool :=
  entry.is_defined != 0 && entry.is_used == 0

/-- The inner `while (entry)` loop of the two checks: walk one chain and
increment the counter at every entry that passes the test. -/
def count_chain (test : SymbolEntry → Bool) : List SymbolEntry → Nat → Nat
  | [], counter => counter
  | entry :: next, counter => count_chain test next (if test entry then counter + 1 else counter)

/-- The outer `for (i = 0; i < table->size; i++)` loop of the two checks. -/
def count_table (test : SymbolEntry → Bool) (table : SymbolTable) : Nat :=
  (List.range table.size).foldl
    (fun counter i => count_chain test (table.table.getD i []) counter) 0

/-- The function `check_undefined_symbols`. -/
def check_undefined_symbols (table : SymbolTable) : Nat :=
  count_table is_undefined table

/-- The function `check_unused_symbols`. -/
def check_unused_symbols (table : SymbolTable) : Nat :=
  count_table is_unused table

/-- All the entries of a table, bucket after bucket, each chain head first. -/
def entries (table : SymbolTable) : List SymbolEntry :=
  table.table.flatten

/-- The tables that the interface of `symbol_table.h` can produce: a table
made by `create_symbol_table` with a positive size, then any calls of
`insert_symbol`, `mark_symbol_used` and `set_symbol_value`. -/
inductive Reachable : SymbolTable → Prop where
  | create (size : Nat) (h : 0 < size) : Reachable (create_symbol_table size)
  | insert (table : SymbolTable) (name : String) (type : SymbolType) (line : Int) :
      Reachable table → Reachable (insert_symbol table name type line).1
  | mark (table : SymbolTable) (name : String) (line : Int) :
      Reachable table → Reachable (mark_symbol_used table name line)
  | set (table : SymbolTable) (name : String) (bool_val : Int) (line : Int) :
      Reachable table → Reachable (set_symbol_value table name bool_val line)

/-- The representation invariant of a symbol table: the bucket array has
`size > 0` cells, every entry sits in the bucket of its hash, no name occurs
twice, and `count` is the number of entries. -/
structure WellFormed (table : SymbolTable) : Prop where
  size_pos : 0 < table.size
  length_eq : table.table.length = table.size
  bucket : ∀ i entry, entry ∈ table.table.getD i [] → hash_string entry.name table.size = i
  nodup : ((entries table).map SymbolEntry.name).Nodup
  count_eq : table.count = (entries table).length

/-- A table built from `create_symbol_table size` by `insert_symbol` calls
only, one call per element of `calls`, in order. -/
def build (size : Nat) (calls : List (String × SymbolType × Int)) : SymbolTable :=
  calls.foldl (fun table call => (insert_symbol table call.1 call.2.1 call.2.2).1)
    (create_symbol_table size)

end Phase3

/-! ## Definitions: the phase 2 AST and its printer (`src/phase2/ast.h`, `ast.c`) -/

namespace Phase2

/-- The `ASTNodeType` enumeration of `ast.h`. -/
inductive ASTNodeType where
  | AST_IDENTIFIER
  | AST_BOOLEAN_LITERAL
  | AST_ASSIGNMENT
  | AST_AND
  | AST_OR
  | AST_XOR
  | AST_XNOR
  | AST_IMPLIES
  | AST_IFF
  | AST_EQUIV
  | AST_NOT
  | AST_EXISTS
  | AST_FORALL
  | AST_IF
  | AST_IFF_STMT
  | AST_PROGRAM
  | AST_STATEMENT_LIST
  | AST_EXPRESSION_STMT
  deriving DecidableEq

/-- The tags that `print_ast` and `free_ast` treat as binary operations: the
`type` argument of `create_binary_node`. -/
inductive BinaryOp where
  | AND
  | OR
  | XOR
  | XNOR
  | IMPLIES
  | IFF
  | EQUIV
  deriving DecidableEq

/-- The tags that `print_ast` and `free_ast` treat as quantifiers: the `type`
argument of `create_quantifier_node`. -/
inductive QuantifierKind where
  | EXISTS
  | FORALL
  deriving DecidableEq

/-- The node tag of a binary operation. -/
def BinaryOp.type : BinaryOp → ASTNodeType
  | BinaryOp.AND => ASTNodeType.AST_AND
  | BinaryOp.OR => ASTNodeType.AST_OR
  | BinaryOp.XOR => ASTNodeType.AST_XOR
  | BinaryOp.XNOR => ASTNodeType.AST_XNOR
  | BinaryOp.IMPLIES => ASTNodeType.AST_IMPLIES
  | BinaryOp.IFF => ASTNodeType.AST_IFF
  | BinaryOp.EQUIV => ASTNodeType.AST_EQUIV

/-- The node tag of a quantifier. -/
def QuantifierKind.type : QuantifierKind → ASTNodeType
  | QuantifierKind.EXISTS => ASTNodeType.AST_EXISTS
  | QuantifierKind.FORALL => ASTNodeType.AST_FORALL

/-- A value of type `ASTNode*`: `NULL`, or a node built by one of the eight
constructors of `ast.c`; the last argument of every constructor is the
`line_number`. `binary` is `create_binary_node` with one of the seven binary
tags, `not` is `create_unary_node` with `AST_NOT`, `quantifier` is
`create_quantifier_node` with one of the two quantifier tags; `program` holds
the statements added so far (their number is `count`) and the `capacity`. -/
inductive ASTNode where
  | null
  | identifier (name : String) (line : Int)
  | boolean (value : Int) (line : Int)
  | binary (op : BinaryOp) (left right : ASTNode) (line : Int)
  | not (operand : ASTNode) (line : Int)
  | assignment (var_name : String) (value : ASTNode) (line : Int)
  | quantifier (kind : QuantifierKind) (var_name : String) (expression : ASTNode) (line : Int)
  | program (statements : List ASTNode) (capacity : Nat) (line : Int)
  | expression_stmt (expression : ASTNode) (line : Int)

/-- The function `create_identifier_node`. -/
def create_identifier_node (name : String) (line : Int) : ASTNode :=
  ASTNode.identifier name line

/-- The function `create_boolean_node`. -/
def create_boolean_node (value : Int) (line : Int) : ASTNode :=
  ASTNode.boolean value line

/-- The function `create_binary_node`. -/
def create_binary_node (type : BinaryOp) (left right : ASTNode) (line : Int) : ASTNode :=
  ASTNode.binary type left right line

/-- The function `create_unary_node`, called with `AST_NOT`. -/
def create_unary_node (operand : ASTNode) (line : Int) : ASTNode :=
  ASTNode.not operand line

/-- The function `create_assignment_node`. -/
def create_assignment_node (var_name : String) (value : ASTNode) (line : Int) : ASTNode :=
  ASTNode.assignment var_name value line

/-- The function `create_quantifier_node`. -/
def create_quantifier_node (type : QuantifierKind) (var_name : String) (expression : ASTNode)
    (line : Int) : ASTNode :=
  ASTNode.quantifier type var_name expression line

/-- The function `create_program_node`: no statement, capacity 10. -/
def create_program_node (line : Int) : ASTNode :=
  ASTNode.program [] 10 line

/-- The function `add_statement_to_program`: the program node after the call.
A node that is not a program is left as it is (no constructor builds a node
with the tag `AST_STATEMENT_LIST`); the capacity is doubled when the count has
reached it, and the statement is stored behind the others. -/
def add_statement_to_program (program statement : ASTNode) : ASTNode :=
  match program with
  | ASTNode.program statements capacity line =>
    ASTNode.program (statements ++ [statement])
      (if statements.length ≥ capacity then capacity * 2 else capacity) line
  | other => other

/-- The function `create_expression_stmt_node`. -/
def create_expression_stmt_node (expression : ASTNode) (line : Int) : ASTNode :=
  ASTNode.expression_stmt expression line

/-- The function `ast_node_type_to_string`. -/
def ast_node_type_to_string : ASTNodeType → String
  | ASTNodeType.AST_IDENTIFIER => "IDENTIFIER"
  | ASTNodeType.AST_BOOLEAN_LITERAL => "BOOLEAN"
  | ASTNodeType.AST_ASSIGNMENT => "ASSIGNMENT"
  | ASTNodeType.AST_AND => "AND"
  | ASTNodeType.AST_OR => "OR"
  | ASTNodeType.AST_XOR => "XOR"
  | ASTNodeType.AST_XNOR => "XNOR"
  | ASTNodeType.AST_NOT => "NOT"
  | ASTNodeType.AST_IMPLIES => "IMPLIES"
  | ASTNodeType.AST_IFF => "IFF"
  | ASTNodeType.AST_EQUIV => "EQUIV"
  | ASTNodeType.AST_EXISTS => "EXISTS"
  | ASTNodeType.AST_FORALL => "FORALL"
  | ASTNodeType.AST_IF => "IF"
  | ASTNodeType.AST_IFF_STMT => "IFF_STMT"
  | ASTNodeType.AST_PROGRAM => "PROGRAM"
  | ASTNodeType.AST_STATEMENT_LIST => "STMT_LIST"
  | ASTNodeType.AST_EXPRESSION_STMT => "EXPR_STMT"

/-- What `printf ("%d", n)` writes: the decimal digits, after a minus sign for
a negative number. -/
def print_int : Int → List Char
  | Int.ofNat n => Nat.toDigits 10 n
  | Int.negSucc n => '-' :: Nat.toDigits 10 (n + 1)

/-- The loop `for (i = 0; i < indent; i++) printf ("  ")`. -/
def print_indent (indent : Nat) : List Char :=
  (List.replicate indent [' ', ' ']).flatten

/-- What `printf (" (line %d)\n", line)` writes at the end of a header. -/
def print_line_marker (line : Int) : List Char :=
  " (line ".toList ++ print_int line ++ ")\n".toList

mutual
/-- The function `print_ast`: the text written to `stdout` for a node at an
indentation level. -/
def print_ast : ASTNode → Nat → List Char
  | ASTNode.null, indent => print_indent indent ++ "(null)\n".toList
  | ASTNode.identifier name line, indent =>
    print_indent indent ++ "IDENTIFIER: ".toList ++ name.toList ++ print_line_marker line
  | ASTNode.boolean value line, indent =>
    print_indent indent ++ "BOOLEAN: ".toList
      ++ (if value ≠ 0 then "TRUE" else "FALSE").toList ++ print_line_marker line
  | ASTNode.assignment var_name value line, indent =>
    print_indent indent ++ "ASSIGNMENT".toList ++ print_line_marker line
      ++ print_indent (indent + 1) ++ "Variable: ".toList ++ var_name.toList ++ "\n".toList
      ++ print_indent (indent + 1) ++ "Value:\n".toList
      ++ print_ast value (indent + 2)
  | ASTNode.binary op left right line, indent =>
    print_indent indent ++ (ast_node_type_to_string op.type).toList ++ print_line_marker line
      ++ print_indent (indent + 1) ++ "Left:\n".toList
      ++ print_ast left (indent + 2)
      ++ print_indent (indent + 1) ++ "Right:\n".toList
      ++ print_ast right (indent + 2)
  | ASTNode.not operand line, indent =>
    print_indent indent ++ "NOT".toList ++ print_line_marker line
      ++ print_indent (indent + 1) ++ "Operand:\n".toList
      ++ print_ast operand (indent + 2)
  | ASTNode.quantifier kind var_name expression line, indent =>
    print_indent indent ++ (ast_node_type_to_string kind.type).toList ++ print_line_marker line
      ++ print_indent (indent + 1) ++ "Variable: ".toList ++ var_name.toList ++ "\n".toList
      ++ print_indent (indent + 1) ++ "Expression:\n".toList
      ++ print_ast expression (indent + 2)
  | ASTNode.program statements _ line, indent =>
    print_indent indent ++ "PROGRAM (line ".toList ++ print_int line ++ ") - ".toList
      ++ Nat.toDigits 10 statements.length ++ " statements\n".toList
      ++ print_statements statements 0 indent
  | ASTNode.expression_stmt expression line, indent =>
    print_indent indent ++ "EXPRESSION_STMT".toList ++ print_line_marker line
      ++ print_ast expression (indent + 1)
/-- The loop of `print_ast` over the statements of a program, from index `i`
on: a `Statement i+1:` label, then the statement two levels deeper. -/
def print_statements : List ASTNode → Nat → Nat → List Char
  | [], _, _ => []
  | statement :: rest, i, indent =>
    print_indent (indent + 1) ++ "Statement ".toList ++ Nat.toDigits 10 (i + 1) ++ ":\n".toList
      ++ print_ast statement (indent + 2)
      ++ print_statements rest (i + 1) indent
end

/-- The text that `print_ast_to_file` writes into the file: four comment
lines, an empty line, the tree at indentation 0, and a closing comment. -/
def print_ast_to_file (node : ASTNode) : List Char :=
  "# Abstract Syntax Tree (AST)\n".toList
    ++ "# Generated by Phase 2: Syntax Analysis\n".toList
    ++ "# Input: tokens.txt\n".toList
    ++ "#\n\n".toList
    ++ print_ast node 0
    ++ "\n# End of AST\n".toList

end Phase2

/-! ## Definitions: the phase 3 AST and its loader
(`src/phase3/semantic_analyzer.h`, `ast_loader.c`) -/

namespace Phase3

mutual
/-- A value of type `ASTNode*` of `semantic_analyzer.h`: `NULL` or a node with
its tag, its header text, its line, its three semantic attributes and its
`data` union. The fields `parent`, `children` and `child_count` are left out:
`parent` is written by the loader and read nowhere, `children` stays `NULL`. -/
inductive ASTNode where
  | null
  | mk (type : Int) (node_type_str : String) (line_number : Int)
      (semantic_type : SymbolType) (is_constant : Int) (bool_value : Int) (data : NodeData)
/-- The `data` union of a node, by the member last written; `zero` is the
union right after `memset (&node->data, 0, ...)`, where every member reads as
zero or `NULL`. -/
inductive NodeData where
  | zero
  | identifier (name : Option String)
  | bool_literal (value : Int)
  | assignment (var_name : Option String) (value : ASTNode)
  | binary (left right : ASTNode)
  | unary (operand : ASTNode)
  | program (statements : List ASTNode)
end

/-- The read `node->data.identifier`. -/
def NodeData.get_identifier : NodeData → Option String
  | NodeData.identifier name => name
  | _ => none

/-- The read `node->data.bool_literal`. -/
def NodeData.get_bool_literal : NodeData → Int
  | NodeData.bool_literal value => value
  | _ => 0

/-- The read of `node->data.program.statements[0 .. count-1]`. -/
def NodeData.get_statements : NodeData → List ASTNode
  | NodeData.program statements => statements
  | _ => []

/-- The C function `isspace` in the "C" locale. -/
def isspace (c : Char) : Bool :=
  c = ' ' || c = '\t' || c = '\n' || c.toNat = 11 || c.toNat = 12 || c = '\r'

/-- The C function `isdigit`. -/
def isdigit (c : Char) : Bool :=
  decide ('0'.toNat ≤ c.toNat ∧ c.toNat ≤ '9'.toNat)

/-- The C function `strstr`: the rest of the string from the first occurrence
of `needle` on, or nothing (`NULL`). -/
def strstr : List Char → List Char → Option (List Char)
  | [], needle => if needle = [] then some [] else none
  | c :: rest, needle =>
    if needle.isPrefixOf (c :: rest) then some (c :: rest) else strstr rest needle

/-- The C function `strchr`: the rest of the string from the first occurrence
of the character on, or nothing (`NULL`). -/
def strchr : List Char → Char → Option (List Char)
  | [], _ => none
  | c :: rest, ch => if c = ch then some (c :: rest) else strchr rest ch

/-- The string that `trim_whitespace` returns: leading white space skipped,
trailing white space cut off. -/
def trim_whitespace (str : List Char) : List Char :=
  ((str.dropWhile isspace).reverse.dropWhile isspace).reverse

/-- The buffer that `trim_whitespace` leaves behind: it writes a NUL after the
last character that is not white space, so the buffer keeps its leading white
space and loses its trailing white space. -/
def trim_whitespace_buffer (str : List Char) : List Char :=
  str.takeWhile isspace ++ trim_whitespace str

/-- The function `parse_node_type`. -/
def parse_node_type (type_str : List Char) : Int :=
  if (strstr type_str "PROGRAM".toList).isSome then 1
  else if (strstr type_str "ASSIGNMENT".toList).isSome then 2
  else if (strstr type_str "EXPRESSION_STMT".toList).isSome then 3
  else if (strstr type_str "IDENTIFIER".toList).isSome then 4
  else if (strstr type_str "BOOLEAN".toList).isSome then 5
  else if (strstr type_str "AND".toList).isSome then 6
  else if (strstr type_str "OR".toList).isSome then 7
  else if (strstr type_str "NOT".toList).isSome then 8
  else if (strstr type_str "XOR".toList).isSome then 9
  else if (strstr type_str "IMPLIES".toList).isSome then 10
  else if (strstr type_str "IFF".toList).isSome then 11
  else if (strstr type_str "EQUIV".toList).isSome then 12
  else 0

/-- The function `create_ast_node`. -/
def create_ast_node (type : Int) (type_str : List Char) (line : Int) : ASTNode :=
  ASTNode.mk type (String.mk type_str) line SymbolType.SYM_UNKNOWN 0 0 NodeData.zero

/-- The function `parse_ast_line`: the indentation level (half the number of
leading blanks), the trimmed node text, and whether that text is not empty. -/
def parse_ast_line (line : List Char) : Bool × List Char × Nat :=
  let indent_level := (line.takeWhile (fun c => c = ' ')).length / 2
  let node_info := trim_whitespace (line.dropWhile (fun c => c = ' '))
  (decide (node_info.length > 0), node_info, indent_level)

/-- The function `extract_node_data`. -/
def extract_node_data (node : ASTNode) (info : List Char) : ASTNode :=
  match node with
  | ASTNode.null => ASTNode.null
  | ASTNode.mk type node_type_str line_number semantic_type is_constant bool_value _ =>
    if type = 4 then
      match strchr info ':' with
      | some colon =>
        let name_start := (colon.drop 1).dropWhile (fun c => c = ' ')
        match strchr name_start ' ' with
        | some _ =>
          ASTNode.mk type node_type_str line_number semantic_type is_constant bool_value
            (NodeData.identifier (some (String.mk (name_start.takeWhile (fun c => c ≠ ' ')))))
        | none =>
          ASTNode.mk type node_type_str line_number semantic_type is_constant bool_value
            (NodeData.identifier (some (String.mk name_start)))
      | none => node
    else if type = 5 then
      if (strstr info "TRUE".toList).isSome then
        ASTNode.mk type node_type_str line_number semantic_type 1 1 (NodeData.bool_literal 1)
      else if (strstr info "FALSE".toList).isSome then
        ASTNode.mk type node_type_str line_number semantic_type 1 0 (NodeData.bool_literal 0)
      else node
    else if type = 2 then
      ASTNode.mk type node_type_str line_number semantic_type is_constant bool_value
        (NodeData.assignment none ASTNode.null)
    else node

/-- The conversion `%d` of `sscanf` on digits: the value of the leading run of
decimal digits, nothing when there is no digit. -/
def scan_digits (s : List Char) : Option Nat :=
  if (s.takeWhile isdigit) = [] then none
  else some ((s.takeWhile isdigit).foldl (fun value c => value * 10 + (c.toNat - '0'.toNat)) 0)

/-- The call `sscanf (line_marker, "(line %d)", &line_num)` on a string that
starts with `(line `: white space is skipped, then an optional sign and decimal
digits are converted; the result is nothing when the conversion fails. -/
def sscanf_line (line_marker : List Char) : Option Int :=
  match (line_marker.drop 5).dropWhile isspace with
  | '-' :: rest => (scan_digits rest).map (fun value => - Int.ofNat value)
  | '+' :: rest => (scan_digits rest).map (fun value => Int.ofNat value)
  | rest => (scan_digits rest).map (fun value => Int.ofNat value)

/-- The state of the loop of `load_ast_from_file`: `root` (which is also
`current_program`) and the counter `nodes_loaded`. -/
structure LoaderState where
  root : ASTNode
  nodes_loaded : Nat

/-- The statement `statements[count++] = node` on the program node, done only
while `count < 10`. -/
def append_statement (program : ASTNode) (node : ASTNode) : ASTNode :=
  match program with
  | ASTNode.null => ASTNode.null
  | ASTNode.mk type node_type_str line_number semantic_type is_constant bool_value data =>
    if data.get_statements.length < 10 then
      ASTNode.mk type node_type_str line_number semantic_type is_constant bool_value
        (NodeData.program (data.get_statements ++ [node]))
    else program

/-- Whether a pointer is `NULL`. -/
def ASTNode.is_null : ASTNode → Bool
  | ASTNode.null => true
  | ASTNode.mk _ _ _ _ _ _ _ => false

/-- The initialisation of the first program node: an array for 10 statements
and `count = 0`. -/
def init_program (node : ASTNode) : ASTNode :=
  match node with
  | ASTNode.null => ASTNode.null
  | ASTNode.mk type node_type_str line_number semantic_type is_constant bool_value _ =>
    ASTNode.mk type node_type_str line_number semantic_type is_constant bool_value
      (NodeData.program [])

/-- What `load_ast_from_file` does with a node it has made: the first program
node becomes the root; an assignment or expression statement is appended to
the root, if there is one; every other node is dropped. The result is the
root after that. -/
def attach_node (root : ASTNode) (node : ASTNode) (node_type : Int) : ASTNode :=
  if node_type = 1 ∧ root.is_null = true then init_program node
  else if node_type = 2 ∨ node_type = 3 then append_statement root node
  else root

/-- The body of the `while (fgets (...))` loop of `load_ast_from_file` on one
line read by `fgets`. -/
def load_line (state : LoaderState) (line : List Char) : LoaderState :=
  if line.head? = some '#' ∨ line.head? = some '\n' ∨ (trim_whitespace line).length = 0 then
    state
  else
    match parse_ast_line (trim_whitespace_buffer line) with
    | (false, _, _) => state
    | (true, node_info, _) =>
      let line_num : Int :=
        match strstr node_info "(line ".toList with
        | some line_marker => (sscanf_line line_marker).getD 1
        | none => 1
      let node_type := parse_node_type node_info
      if node_type > 0 then
        let node := extract_node_data (create_ast_node node_type node_info line_num) node_info
        { root := attach_node state.root node node_type
          nodes_loaded := state.nodes_loaded + 1 }
      else state

/-- The successive results of `fgets (line, 512, file)` on the rest of a file:
every line ends after its newline or after 511 characters. `room` is the room
left in the buffer, `current` the characters already read, last first. -/
def fgets_lines : List Char → Nat → List Char → List (List Char)
  | [], _, current => if current = [] then [] else [current.reverse]
  | c :: rest, room, current =>
    if c = '\n' ∨ room ≤ 1 then (c :: current).reverse :: fgets_lines rest 511 []
    else fgets_lines rest (room - 1) (c :: current)

/-- The function `load_ast_from_file` on the contents of a file that could be
opened: the `root` after the loop over all lines. -/
def load_ast_from_file (contents : List Char) : ASTNode :=
  ((fgets_lines contents 511 []).foldl load_line { root := ASTNode.null, nodes_loaded := 0 }).root

end Phase3

/-! ## Definitions: the semantic analyzer
(`src/phase3/semantic_analyzer.h`, `semantic_analyzer.c`) -/

namespace Phase3

/-- The `SemanticErrorType` enumeration. -/
inductive SemanticErrorType where
  | SEM_ERROR_UNDEFINED_VAR
  | SEM_ERROR_TYPE_MISMATCH
  | SEM_ERROR_UNUSED_VAR
  | SEM_ERROR_REDEFINITION
  | SEM_ERROR_INVALID_OPERATION
  deriving DecidableEq

/-- The `SemanticError` struct; the `next` pointer is the tail of the list the
error sits in. -/
structure SemanticError where
  type : SemanticErrorType
  message : String
  line_number : Int
  symbol_name : Option String
  deriving DecidableEq

/-- The `SemanticContext` struct; `errors` is the linked list, newest first. -/
structure SemanticContext where
  symbol_table : SymbolTable
  errors : List SemanticError
  error_count : Int
  warning_count : Int
  deriving DecidableEq

/-- The function `create_semantic_context`. -/
def create_semantic_context : SemanticContext :=
  { symbol_table := create_symbol_table 101, errors := [], error_count := 0, warning_count := 0 }

/-- The function `add_semantic_error`. -/
def add_semantic_error (ctx : SemanticContext) (type : SemanticErrorType) (message : String)
    (line : Int) (symbol : Option String) : SemanticContext :=
  { ctx with
      errors := { type := type, message := message, line_number := line, symbol_name := symbol }
        :: ctx.errors
      error_count := ctx.error_count + 1 }

/-- The assignment `node->semantic_type = type`. -/
def ASTNode.set_semantic_type (node : ASTNode) (new_type : SymbolType) : ASTNode :=
  match node with
  | ASTNode.null => ASTNode.null
  | ASTNode.mk type node_type_str line_number _ is_constant bool_value data =>
    ASTNode.mk type node_type_str line_number new_type is_constant bool_value data

/-- The assignment `node->is_constant = value`. -/
def ASTNode.set_is_constant (node : ASTNode) (value : Int) : ASTNode :=
  match node with
  | ASTNode.null => ASTNode.null
  | ASTNode.mk type node_type_str line_number semantic_type _ bool_value data =>
    ASTNode.mk type node_type_str line_number semantic_type value bool_value data

/-- The read `node->semantic_type`; nothing for `NULL`. -/
def ASTNode.get_semantic_type : ASTNode → Option SymbolType
  | ASTNode.null => none
  | ASTNode.mk _ _ _ semantic_type _ _ _ => some semantic_type

/-- The function `analyze_identifier`: the context and the node after the
call. -/
def analyze_identifier (ctx : SemanticContext) (node : ASTNode) : SemanticContext × ASTNode :=
  match node with
  | ASTNode.null => (ctx, node)
  | ASTNode.mk _ _ line_number _ _ _ data =>
    match data.get_identifier with
    | none => (ctx, node)
    | some name =>
      let table1 :=
        match lookup_symbol ctx.symbol_table name with
        | some _ => ctx.symbol_table
        | none => (insert_symbol ctx.symbol_table name SymbolType.SYM_IDENTIFIER line_number).1
      let table2 := mark_symbol_used table1 name line_number
      ({ ctx with symbol_table := table2 }, node.set_semantic_type SymbolType.SYM_BOOLEAN)

/-- The function `analyze_assignment`: the context is not used, the node gets
the Boolean type. -/
def analyze_assignment (ctx : SemanticContext) (node : ASTNode) : SemanticContext × ASTNode :=
  match node with
  | ASTNode.null => (ctx, node)
  | ASTNode.mk _ _ _ _ _ _ _ => (ctx, node.set_semantic_type SymbolType.SYM_BOOLEAN)

/-- The function `analyze_binary_operation`. -/
def analyze_binary_operation (ctx : SemanticContext) (node : ASTNode) :
    SemanticContext × ASTNode :=
  match node with
  | ASTNode.null => (ctx, node)
  | ASTNode.mk type _ _ _ _ _ _ =>
    if type = 6 ∨ type = 7 ∨ type = 9 ∨ type = 10 ∨ type = 11 ∨ type = 12 then
      (ctx, (node.set_semantic_type SymbolType.SYM_BOOLEAN).set_is_constant 0)
    else (ctx, node)

/-- The function `analyze_unary_operation`. -/
def analyze_unary_operation (ctx : SemanticContext) (node : ASTNode) :
    SemanticContext × ASTNode :=
  match node with
  | ASTNode.null => (ctx, node)
  | ASTNode.mk type _ _ _ _ _ _ =>
    if type = 8 then (ctx, node.set_semantic_type SymbolType.SYM_BOOLEAN) else (ctx, node)

/-- The function `analyze_expression`. -/
def analyze_expression (ctx : SemanticContext) (node : ASTNode) : SemanticContext × ASTNode :=
  match node with
  | ASTNode.null => (ctx, node)
  | ASTNode.mk type _ _ _ _ _ _ =>
    if type = 4 then analyze_identifier ctx node
    else if type = 5 then
      (ctx, (node.set_semantic_type SymbolType.SYM_BOOLEAN).set_is_constant 1)
    else if type = 6 ∨ type = 7 ∨ type = 9 ∨ type = 10 ∨ type = 11 ∨ type = 12 then
      analyze_binary_operation ctx node
    else if type = 8 then analyze_unary_operation ctx node
    else (ctx, node)

mutual
/-- The function `analyze_node`: the context and the node after the call. -/
def analyze_node (ctx : SemanticContext) : ASTNode → SemanticContext × ASTNode
  | ASTNode.null => (ctx, ASTNode.null)
  | ASTNode.mk type node_type_str line_number semantic_type is_constant bool_value data =>
    if type = 1 then
      match data with
      | NodeData.program statements =>
        ((analyze_statements ctx statements).1,
         ASTNode.mk type node_type_str line_number semantic_type is_constant bool_value
           (NodeData.program (analyze_statements ctx statements).2))
      | other =>
        (ctx, ASTNode.mk type node_type_str line_number semantic_type is_constant bool_value other)
    else if type = 2 then
      analyze_assignment ctx
        (ASTNode.mk type node_type_str line_number semantic_type is_constant bool_value data)
    else if type = 3 then
      (ctx, ASTNode.mk type node_type_str line_number semantic_type is_constant bool_value data)
    else
      analyze_expression ctx
        (ASTNode.mk type node_type_str line_number semantic_type is_constant bool_value data)
/-- The loop of `analyze_node` over the statements of a program, in order. -/
def analyze_statements (ctx : SemanticContext) :
    List ASTNode → SemanticContext × List ASTNode
  | [] => (ctx, [])
  | statement :: rest =>
    ((analyze_statements (analyze_node ctx statement).1 rest).1,
     (analyze_node ctx statement).2 :: (analyze_statements (analyze_node ctx statement).1 rest).2)
end

/-- The symbols that phase 2 of `perform_semantic_analysis` adds to every
table: `B` (Boolean, value 1, declared at line 1, used at line 3) and `C`
(Boolean, value 0, declared at line 2, used at line 3). -/
def process_known_symbols (table : SymbolTable) : SymbolTable :=
  let t1 := (insert_symbol table "B" SymbolType.SYM_BOOLEAN 1).1
  let t2 := set_symbol_value t1 "B" 1 1
  let t3 := mark_symbol_used t2 "B" 3
  let t4 := (insert_symbol t3 "C" SymbolType.SYM_BOOLEAN 2).1
  let t5 := set_symbol_value t4 "C" 0 2
  mark_symbol_used t5 "C" 3

/-- Phase 3 of `perform_semantic_analysis`: one error when some symbol is used
and not defined, one warning for every symbol that is defined and not used. -/
def semantic_validation (ctx : SemanticContext) : SemanticContext :=
  let ctx1 :=
    if check_undefined_symbols ctx.symbol_table > 0 then
      add_semantic_error ctx SemanticErrorType.SEM_ERROR_UNDEFINED_VAR
        "Variables referenced but not defined" 0 none
    else ctx
  if check_unused_symbols ctx1.symbol_table > 0 then
    { ctx1 with
        warning_count := ctx1.warning_count + (check_unused_symbols ctx1.symbol_table : Int) }
  else ctx1

/-- The function `perform_semantic_analysis`: the returned value, the context
and the tree after the call. The result is -1 for a `NULL` tree. -/
def perform_semantic_analysis (ctx : SemanticContext) (ast : ASTNode) :
    Int × SemanticContext × ASTNode :=
  match ast with
  | ASTNode.null => (-1, ctx, ast)
  | ASTNode.mk _ _ _ _ _ _ _ =>
    let walked := analyze_node ctx ast
    let ctx2 := { walked.1 with symbol_table := process_known_symbols walked.1.symbol_table }
    let ctx3 := semantic_validation ctx2
    (ctx3.error_count, ctx3, walked.2)

end Phase3

/-! ## Definitions used to state the claims -/

namespace Phase3

mutual
/-- The names that occur in a tree, as the name of an identifier node or as
the target variable of an assignment node. -/
def ASTNode.names : ASTNode → List String
  | ASTNode.null => []
  | ASTNode.mk _ _ _ _ _ _ data => data.names
/-- The names that occur in the `data` of a node. -/
def NodeData.names : NodeData → List String
  | NodeData.zero => []
  | NodeData.identifier name => name.toList
  | NodeData.bool_literal _ => []
  | NodeData.assignment var_name value => var_name.toList ++ value.names
  | NodeData.binary left right => left.names ++ right.names
  | NodeData.unary operand => operand.names
  | NodeData.program statements => names_of_list statements
/-- The names that occur in a list of trees. -/
def names_of_list : List ASTNode → List String
  | [] => []
  | node :: rest => node.names ++ names_of_list rest
end

/-- The names of the entries of a table. -/
def table_names (table : SymbolTable) : List String :=
  (entries table).map SymbolEntry.name

end Phase3

/-! ## Definitions used to state the round trip through the AST file -/

namespace Codec

/-- The phase 3 tag of a phase 2 binary operation: the code that
`parse_node_type` has for its keyword; `XNOR` has none. -/
def binary_code : Phase2.BinaryOp → Option Int
  | Phase2.BinaryOp.AND => some 6
  | Phase2.BinaryOp.OR => some 7
  | Phase2.BinaryOp.XOR => some 9
  | Phase2.BinaryOp.XNOR => none
  | Phase2.BinaryOp.IMPLIES => some 10
  | Phase2.BinaryOp.IFF => some 11
  | Phase2.BinaryOp.EQUIV => some 12

/-- The read `node->data.binary.left`. -/
def get_left : Phase3.NodeData → Phase3.ASTNode
  | Phase3.NodeData.binary left _ => left
  | _ => Phase3.ASTNode.null

/-- The read `node->data.binary.right`. -/
def get_right : Phase3.NodeData → Phase3.ASTNode
  | Phase3.NodeData.binary _ right => right
  | _ => Phase3.ASTNode.null

/-- The read `node->data.unary.operand`. -/
def get_operand : Phase3.NodeData → Phase3.ASTNode
  | Phase3.NodeData.unary operand => operand
  | _ => Phase3.ASTNode.null

/-- The read `node->data.assignment.variable`. -/
def get_variable : Phase3.NodeData → Option String
  | Phase3.NodeData.assignment var_name _ => var_name
  | _ => none

/-- The read `node->data.assignment.value`. -/
def get_value : Phase3.NodeData → Phase3.ASTNode
  | Phase3.NodeData.assignment _ value => value
  | _ => Phase3.ASTNode.null

/-- The tag of a phase 3 node (0 for `NULL`). -/
def get_type : Phase3.ASTNode → Int
  | Phase3.ASTNode.null => 0
  | Phase3.ASTNode.mk type _ _ _ _ _ _ => type

/-- The line of a phase 3 node (0 for `NULL`). -/
def get_line : Phase3.ASTNode → Int
  | Phase3.ASTNode.null => 0
  | Phase3.ASTNode.mk _ _ line_number _ _ _ _ => line_number

/-- The `data` of a phase 3 node. -/
def get_data : Phase3.ASTNode → Phase3.NodeData
  | Phase3.ASTNode.null => Phase3.NodeData.zero
  | Phase3.ASTNode.mk _ _ _ _ _ _ data => data

mutual
/-- Structural equality of a phase 2 tree and a phase 3 tree: the same kind of
node, the same line, the same name or value, and structurally equal children
in the same positions. A quantifier and an `XNOR` node have no phase 3 kind and
are equal to nothing. -/
def struct_eq : Phase2.ASTNode → Phase3.ASTNode → Bool
  | Phase2.ASTNode.null, loaded => loaded.is_null
  | Phase2.ASTNode.identifier name line, loaded =>
    get_type loaded == 4 && get_line loaded == line
      && (get_data loaded).get_identifier == some name
  | Phase2.ASTNode.boolean value line, loaded =>
    get_type loaded == 5 && get_line loaded == line
      && (get_data loaded).get_bool_literal == value
  | Phase2.ASTNode.binary op left right line, loaded =>
    some (get_type loaded) == binary_code op && get_line loaded == line
      && struct_eq left (get_left (get_data loaded))
      && struct_eq right (get_right (get_data loaded))
  | Phase2.ASTNode.not operand line, loaded =>
    get_type loaded == 8 && get_line loaded == line
      && struct_eq operand (get_operand (get_data loaded))
  | Phase2.ASTNode.assignment var_name value line, loaded =>
    get_type loaded == 2 && get_line loaded == line
      && get_variable (get_data loaded) == some var_name
      && struct_eq value (get_value (get_data loaded))
  | Phase2.ASTNode.quantifier _ _ _ _, _ => false
  | Phase2.ASTNode.program statements _ line, loaded =>
    get_type loaded == 1 && get_line loaded == line
      && struct_eq_list statements (get_data loaded).get_statements
  | Phase2.ASTNode.expression_stmt expression line, loaded =>
    get_type loaded == 3 && get_line loaded == line
      && struct_eq expression (get_operand (get_data loaded))
/-- Structural equality of two statement lists: the same length and
structurally equal statements at every index. -/
def struct_eq_list : List Phase2.ASTNode → List Phase3.ASTNode → Bool
  | [], loaded => loaded.isEmpty
  | statement :: rest, loaded =>
    match loaded with
    | [] => false
    | first :: others => struct_eq statement first && struct_eq_list rest others
end

/-- What the loader keeps of a statement: an assignment becomes a node of tag 2
with its header text and line and neither variable nor value, an expression
statement a node of tag 3 with its header text and line and no operand. Other
nodes are no statements. -/
def statement_skeleton : Phase2.ASTNode → Phase3.ASTNode
  | Phase2.ASTNode.assignment _ _ line =>
    Phase3.ASTNode.mk 2 (String.mk ("ASSIGNMENT (line ".toList ++ Phase2.print_int line ++ [')']))
      line Phase3.SymbolType.SYM_UNKNOWN 0 0
      (Phase3.NodeData.assignment none Phase3.ASTNode.null)
  | Phase2.ASTNode.expression_stmt _ line =>
    Phase3.ASTNode.mk 3
      (String.mk ("EXPRESSION_STMT (line ".toList ++ Phase2.print_int line ++ [')']))
      line Phase3.SymbolType.SYM_UNKNOWN 0 0 Phase3.NodeData.zero
  | _ => Phase3.ASTNode.null

/-- What the loader keeps of a program: a node of tag 1 with the header text
and the line of the program, whose statements are what it keeps of the first
ten statements. -/
def program_skeleton (statements : List Phase2.ASTNode) (line : Int) : Phase3.ASTNode :=
  Phase3.ASTNode.mk 1
    (String.mk ("PROGRAM (line ".toList ++ Phase2.print_int line ++ ") - ".toList
      ++ Nat.toDigits 10 statements.length ++ " statements".toList))
    line Phase3.SymbolType.SYM_UNKNOWN 0 0
    (Phase3.NodeData.program ((statements.map statement_skeleton).take 10))

/-- The root after `load_line`, as a function of the root before (the counter
`nodes_loaded` has no influence on the tree). -/
def load_root (root : Phase3.ASTNode) (line : List Char) : Phase3.ASTNode :=
  (Phase3.load_line { root := root, nodes_loaded := 0 } line).root

/-- The text has no occurrence of `ASSIGNMENT` and none of `EXPRESSION_STMT`,
the two keywords by which the loader recognises a statement. -/
@[reducible] def keyword_free (text : List Char) : Prop :=
  ¬ "ASSIGNMENT".toList <:+: text ∧ ¬ "EXPRESSION_STMT".toList <:+: text

/-- A character that occurs in neither statement keyword: no occurrence of a
keyword runs across it. -/
@[reducible] def keyword_sep (c : Char) : Prop :=
  c ∉ "ASSIGNMENT".toList ∧ c ∉ "EXPRESSION_STMT".toList

/-- An operand tree: identifiers, literals, connectives, `NOT` and quantifiers
(and `NULL` children), none of whose names contains a statement keyword. -/
def plain_expression : Phase2.ASTNode → Prop
  | Phase2.ASTNode.null => True
  | Phase2.ASTNode.identifier name _ => keyword_free name.toList
  | Phase2.ASTNode.boolean _ _ => True
  | Phase2.ASTNode.binary _ left right _ => plain_expression left ∧ plain_expression right
  | Phase2.ASTNode.not operand _ => plain_expression operand
  | Phase2.ASTNode.assignment _ _ _ => False
  | Phase2.ASTNode.quantifier _ var_name expression _ =>
    keyword_free var_name.toList ∧ plain_expression expression
  | Phase2.ASTNode.program _ _ _ => False
  | Phase2.ASTNode.expression_stmt _ _ => False

/-- The value fits a C `int`. -/
@[reducible] def int_range (n : Int) : Prop :=
  -2147483648 ≤ n ∧ n ≤ 2147483647

/-- A statement of the language: an assignment or an expression statement
whose line fits an `int`, over an operand tree, with no statement keyword in
the name of the target variable. -/
def plain_statement : Phase2.ASTNode → Prop
  | Phase2.ASTNode.assignment var_name value line =>
    keyword_free var_name.toList ∧ plain_expression value ∧ int_range line
  | Phase2.ASTNode.expression_stmt expression line =>
    plain_expression expression ∧ int_range line
  | _ => False

end Codec

/-! ## Definitions used to state the claims about the analysis -/

namespace Phase3

/-- The part of `main` of `main_phase3.c` after the tree is loaded: 1 when no
tree was loaded, otherwise the analysis in a new context and the exit status
`analysis_result == 0 ? 0 : 1`. -/
def main_after_load (ast : ASTNode) : Int :=
  match ast with
  | ASTNode.null => 1
  | ASTNode.mk type node_type_str line_number semantic_type is_constant bool_value data =>
    if (perform_semantic_analysis create_semantic_context
          (ASTNode.mk type node_type_str line_number semantic_type is_constant bool_value
            data)).1 = 0 then 0
    else 1

/-- The exit status of `main` of `main_phase3.c` on the contents of the input
file (`none`: the file does not exist): 1 when the file is missing or no tree
is loaded, otherwise 0 when `perform_semantic_analysis` returns 0 and 1 when
it does not. -/
def main_phase3 (input_file : Option (List Char)) : Int :=
  match input_file with
  | none => 1
  | some contents => main_after_load (load_ast_from_file contents)

mutual
/-- Every expression node of the tree (tag 4 to 12: identifier, literal,
connective, `NOT`), at any depth, has the inferred type Boolean. -/
def ASTNode.expressions_boolean : ASTNode → Bool
  | ASTNode.null => true
  | ASTNode.mk type _ _ semantic_type _ _ data =>
    (if 4 ≤ type ∧ type ≤ 12 then decide (semantic_type = SymbolType.SYM_BOOLEAN) else true)
      && data.expressions_boolean
/-- The same for the children held by the `data` of a node. -/
def NodeData.expressions_boolean : NodeData → Bool
  | NodeData.zero => true
  | NodeData.identifier _ => true
  | NodeData.bool_literal _ => true
  | NodeData.assignment _ value => value.expressions_boolean
  | NodeData.binary left right => left.expressions_boolean && right.expressions_boolean
  | NodeData.unary operand => operand.expressions_boolean
  | NodeData.program statements => expressions_boolean_list statements
/-- The same for a list of trees. -/
def expressions_boolean_list : List ASTNode → Bool
  | [] => true
  | node :: rest => node.expressions_boolean && expressions_boolean_list rest
end

/-- The expression nodes that `analyze_expression` gives a type: a literal, a
connective, a `NOT`, and an identifier node that has a name. -/
@[reducible] def typed_kind (node : ASTNode) : Prop :=
  Codec.get_type node = 5 ∨ Codec.get_type node = 6 ∨ Codec.get_type node = 7 ∨
  Codec.get_type node = 8 ∨ Codec.get_type node = 9 ∨ Codec.get_type node = 10 ∨
  Codec.get_type node = 11 ∨ Codec.get_type node = 12 ∨
  (Codec.get_type node = 4 ∧ (Codec.get_data node).get_identifier ≠ none)

/-- The name has an entry in the table and the entry is marked used. -/
@[reducible] def marked_used (table : SymbolTable) (name : String) : Prop :=
  ∃ entry, lookup_symbol table name = some entry ∧ entry.is_used ≠ 0

end Phase3

/-! ## Definitions: the code generator
(`src/phase4/code_generator.h`, `code_generator.c`)

What the functions print on the standard output is given apart, further
down. The `int` counters of the context (`instruction_count`, `stack_offset`,
`next_label_id`) are integers without wrap-around: they grow by 1 or by 8 per
call, and overflow of a signed `int` is undefined in C. A register is a member
of the enumeration; the array `register_usage` is the list of its cells. -/

namespace Phase4

/-- The `TargetArch` enumeration. -/
inductive TargetArch where
  | TARGET_X86_64
  | TARGET_ARM64
  | TARGET_MIPS
  deriving DecidableEq

/-- The `Register` enumeration; `REG_COUNT` is its last member, the number of
registers. -/
inductive Register where
  | REG_RAX
  | REG_RBX
  | REG_RCX
  | REG_RDX
  | REG_RSI
  | REG_RDI
  | REG_R8
  | REG_R9
  | REG_COUNT
  deriving DecidableEq

/-- The integer value of a member of `Register`. -/
def Register.toNat : Register → Nat
  | Register.REG_RAX => 0
  | Register.REG_RBX => 1
  | Register.REG_RCX => 2
  | Register.REG_RDX => 3
  | Register.REG_RSI => 4
  | Register.REG_RDI => 5
  | Register.REG_R8 => 6
  | Register.REG_R9 => 7
  | Register.REG_COUNT => 8

/-- The cast `(Register)i` of an index below `REG_COUNT`. -/
def Register.cast : Nat → Register
  | 0 => Register.REG_RAX
  | 1 => Register.REG_RBX
  | 2 => Register.REG_RCX
  | 3 => Register.REG_RDX
  | 4 => Register.REG_RSI
  | 5 => Register.REG_RDI
  | 6 => Register.REG_R8
  | 7 => Register.REG_R9
  | _ => Register.REG_COUNT

/-- The `InstructionType` enumeration. -/
inductive InstructionType where
  | INST_MOV
  | INST_ADD
  | INST_SUB
  | INST_CMP
  | INST_JMP
  | INST_JE
  | INST_JNE
  | INST_CALL
  | INST_RET
  | INST_PUSH
  | INST_POP
  | INST_OR
  | INST_AND
  | INST_XOR
  | INST_NOT
  | INST_TEST
  | INST_LABEL
  deriving DecidableEq

/-- The `Operand` struct: the constructor is the `type` tag (`OPERAND_REGISTER`,
`OPERAND_IMMEDIATE`, `OPERAND_MEMORY`, `OPERAND_LABEL`), its arguments are the
member of the `value` union that goes with the tag. -/
inductive Operand where
  | register (reg : Register)
  | immediate (immediate : Int)
  | memory (base : Register) (offset : Int)
  | label (label : String)
  deriving DecidableEq

/-- The `Instruction` struct; `operands` holds the operands that were written
(at most 3), the `next` pointer is the tail of the list the instruction sits
in. -/
structure Instruction where
  type : InstructionType
  operands : List Operand
  operand_count : Int
  comment : Option String
  deriving DecidableEq

/-- The `struct SymbolMap`: a variable name and its stack slot. -/
structure SymbolMap where
  name : String
  stack_offset : Int
  is_boolean : Int
  deriving DecidableEq

/-- The `CodeGenContext` struct. `instructions` is the linked list from
`ctx->instructions` on, in order, and `ctx->last_instruction` is its last
element; `register_usage` is the array of `REG_COUNT` cells; `symbol_map` is
the linked list, newest first. -/
structure CodeGenContext where
  instructions : List Instruction
  instruction_count : Int
  register_usage : List Int
  next_label_id : Int
  stack_offset : Int
  symbol_map : List SymbolMap
  target : TargetArch
  deriving DecidableEq

mutual
/-- The `ASTNode` struct of `code_generator.h`; `null` is the `NULL` pointer. -/
inductive ASTNode where
  | null
  | mk (type : Int) (node_type_str : String) (line_number : Int) (data : NodeData)
/-- The `data` union of a node, by the member last written; `zero` is the
union with every member zero or `NULL`. -/
inductive NodeData where
  | zero
  | identifier (name : Option String)
  | bool_literal (value : Int)
  | assignment (var_name : Option String) (value : ASTNode)
  | binary (left right : ASTNode)
  | unary (operand : ASTNode)
  | program (statements : List ASTNode)
end

/-- The read `node->data.identifier`. -/
def NodeData.get_identifier : NodeData → Option String
  | NodeData.identifier name => name
  | _ => none

/-- The read `node->data.bool_literal`. -/
def NodeData.get_bool_literal : NodeData → Int
  | NodeData.bool_literal value => value
  | _ => 0

/-- The read `node->data.assignment.variable`. -/
def NodeData.get_variable : NodeData → Option String
  | NodeData.assignment var_name _ => var_name
  | _ => none

/-- The read `node->data.assignment.value`. -/
def NodeData.get_value : NodeData → ASTNode
  | NodeData.assignment _ value => value
  | _ => ASTNode.null

/-- The read of `node->data.program.statements[0 .. count-1]`. -/
def NodeData.get_statements : NodeData → List ASTNode
  | NodeData.program statements => statements
  | _ => []

/-- The function `create_codegen_context`. -/
def create_codegen_context (target : TargetArch) : CodeGenContext :=
  { instructions := []
    instruction_count := 0
    register_usage := List.replicate 8 0
    next_label_id := 1
    stack_offset := 0
    symbol_map := []
    target := target }

/-- The loop `for (i = ...; i < REG_COUNT; i++)` of `allocate_register`, from
index `i` on with `remaining = REG_COUNT - i` rounds to go: the first cell
that holds 0 is set to 1 and its register is returned; when the loop ends
without one, the context is as it was and `REG_RAX` is returned. -/
def allocate_register_from (ctx : CodeGenContext) : Nat → Nat → CodeGenContext × Register
  | _, 0 => (ctx, Register.REG_RAX)
  | i, remaining + 1 =>
    if ctx.register_usage.getD i 0 = 0 then
      ({ ctx with register_usage := ctx.register_usage.set i 1 }, Register.cast i)
    else allocate_register_from ctx (i + 1) remaining

/-- The function `allocate_register`: the context after the call and the
register returned. -/
def allocate_register (ctx : CodeGenContext) : CodeGenContext × Register :=
  allocate_register_from ctx 0 8

/-- The function `free_register`. -/
def free_register (ctx : CodeGenContext) (reg : Register) : CodeGenContext :=
  if reg.toNat < 8 then { ctx with register_usage := ctx.register_usage.set reg.toNat 0 }
  else ctx

/-- The function `is_register_free`: whether the returned `int` is not 0. -/
def is_register_free (ctx : CodeGenContext) (reg : Register) : Bool :=
  decide (reg.toNat < 8) && decide (ctx.register_usage.getD reg.toNat 0 = 0)

/-- The function `add_symbol`. -/
def add_symbol (ctx : CodeGenContext) (name : String) (is_boolean : Int) : CodeGenContext :=
  { ctx with
      symbol_map :=
        { name := name, stack_offset := ctx.stack_offset, is_boolean := is_boolean }
          :: ctx.symbol_map
      stack_offset := ctx.stack_offset + 8 }

/-- The loop of `get_symbol_offset` over the symbol map: the offset of the
first symbol of that name, -1 when there is none. -/
def find_symbol_offset (name : String) : List SymbolMap → Int
  | [] => -1
  | sym :: next => if sym.name = name then sym.stack_offset else find_symbol_offset name next

/-- The function `get_symbol_offset`. -/
def get_symbol_offset (ctx : CodeGenContext) (name : String) : Int :=
  find_symbol_offset name ctx.symbol_map

/-- The function `symbol_exists`: whether the returned `int` is not 0. -/
def symbol_exists (ctx : CodeGenContext) (name : String) : Bool :=
  get_symbol_offset ctx name != -1

/-- The function `emit_instruction`; `args` are the operands passed after
`operand_count`, of which the first `operand_count`, at most 3, are stored. -/
def emit_instruction (ctx : CodeGenContext) (type : InstructionType) (operand_count : Int)
    (args : List Operand) : CodeGenContext :=
  { ctx with
      instructions := ctx.instructions ++
        [{ type := type, operands := args.take (min operand_count.toNat 3),
           operand_count := operand_count, comment := none }]
      instruction_count := ctx.instruction_count + 1 }

/-- The function `emit_label`. -/
def emit_label (ctx : CodeGenContext) (label : String) : CodeGenContext :=
  { ctx with
      instructions := ctx.instructions ++
        [{ type := InstructionType.INST_LABEL, operands := [Operand.label label],
           operand_count := 1, comment := none }]
      instruction_count := ctx.instruction_count + 1 }

/-- The write `ctx->last_instruction->comment = strdup (comment)` seen on the
list: the comment of the last instruction is replaced; an empty list is left
as it is. -/
def set_last_comment (comment : String) : List Instruction → List Instruction
  | [] => []
  | [inst] => [{ inst with comment := some comment }]
  | inst :: next :: rest => inst :: set_last_comment comment (next :: rest)

/-- The function `emit_comment`. -/
def emit_comment (ctx : CodeGenContext) (comment : String) : CodeGenContext :=
  { ctx with instructions := set_last_comment comment ctx.instructions }

/-- The function `generate_label`: the context after the call and the label
`<pre>_<id>`, cut to the 63 characters that the buffer holds. -/
def generate_label (ctx : CodeGenContext) (pre : String) : CodeGenContext × String :=
  ({ ctx with next_label_id := ctx.next_label_id + 1 },
   String.mk ((pre.toList ++ '_' :: Phase2.print_int ctx.next_label_id).take 63))

/-- The function `generate_identifier`. -/
def generate_identifier (ctx : CodeGenContext) (name : String) (result_reg : Register) :
    CodeGenContext :=
  let ctx1 := if symbol_exists ctx name then ctx else add_symbol ctx name 1
  let offset := get_symbol_offset ctx1 name
  let ctx2 := emit_instruction ctx1 InstructionType.INST_MOV 2
    [Operand.register result_reg, Operand.memory Register.REG_RBX (-offset)]
  emit_comment ctx2 name

/-- The function `generate_binary_op`: neither the node nor the result
register is used; the code is the fixed one for `B OR C`. -/
def generate_binary_op (ctx : CodeGenContext) (_node : ASTNode) (_result_reg : Register) :
    CodeGenContext :=
  let ctx1 := emit_instruction ctx InstructionType.INST_MOV 2
    [Operand.register Register.REG_RAX, Operand.immediate 1]
  let ctx2 := emit_comment ctx1 "Load B = TRUE"
  let ctx3 := emit_instruction ctx2 InstructionType.INST_MOV 2
    [Operand.register Register.REG_RBX, Operand.immediate 0]
  let ctx4 := emit_comment ctx3 "Load C = FALSE"
  let ctx5 := emit_instruction ctx4 InstructionType.INST_OR 2
    [Operand.register Register.REG_RAX, Operand.register Register.REG_RBX]
  emit_comment ctx5 "B OR C (result in RAX)"

/-- The function `generate_expression`. -/
def generate_expression (ctx : CodeGenContext) (node : ASTNode) (result_reg : Register) :
    CodeGenContext :=
  match node with
  | ASTNode.null => ctx
  | ASTNode.mk type _ _ data =>
    if type = 4 then
      match data.get_identifier with
      | some name => generate_identifier ctx name result_reg
      | none => ctx
    else if type = 5 then
      emit_comment
        (emit_instruction ctx InstructionType.INST_MOV 2
          [Operand.register result_reg, Operand.immediate data.get_bool_literal])
        (if data.get_bool_literal ≠ 0 then "TRUE" else "FALSE")
    else if type = 7 then generate_binary_op ctx node result_reg
    else ctx

/-- The function `generate_assignment`. -/
def generate_assignment (ctx : CodeGenContext) (node : ASTNode) : CodeGenContext :=
  match node with
  | ASTNode.null => ctx
  | ASTNode.mk _ _ _ data =>
    match data.get_variable with
    | none => ctx
    | some var_name =>
      let ctx1 := if symbol_exists ctx var_name then ctx else add_symbol ctx var_name 1
      let allocated := allocate_register ctx1
      let value_reg := allocated.2
      let ctx2 := generate_expression allocated.1 data.get_value value_reg
      let offset := get_symbol_offset ctx2 var_name
      let ctx3 := emit_instruction ctx2 InstructionType.INST_MOV 2
        [Operand.memory Register.REG_RBX (-offset), Operand.register value_reg]
      let ctx4 := emit_comment ctx3 var_name
      free_register ctx4 value_reg

/-- The function `generate_statement`. -/
def generate_statement (ctx : CodeGenContext) (node : ASTNode) : CodeGenContext :=
  match node with
  | ASTNode.null => ctx
  | ASTNode.mk type _ _ _ =>
    if type = 2 then generate_assignment ctx node
    else if type = 3 then
      let allocated := allocate_register ctx
      let expr_reg := allocated.2
      let ctx1 := generate_binary_op allocated.1 (ASTNode.mk 7 "OR" 3 NodeData.zero) expr_reg
      free_register ctx1 expr_reg
    else ctx

/-- The function `generate_program`. -/
def generate_program (ctx : CodeGenContext) (node : ASTNode) : CodeGenContext :=
  match node with
  | ASTNode.null => ctx
  | ASTNode.mk type _ _ data =>
    if type ≠ 1 then ctx
    else
      let ctx1 := data.get_statements.foldl generate_statement ctx
      let ctx2 := emit_instruction ctx1 InstructionType.INST_MOV 2
        [Operand.register Register.REG_RAX, Operand.immediate 0]
      emit_comment ctx2 "Set exit code to 0"

end Phase4

/-! ## Definitions used to state the claims about the generated code -/

namespace Phase4

/-- A machine state to run the instruction list on: the value of every
register, and the value of every memory cell by its address. -/
structure Machine where
  registers : Register → Int
  memory : Int → Int

/-- The value of an operand: the immediate, the content of the register, or
the content of the memory cell at base register plus offset. -/
def Machine.read (machine : Machine) : Operand → Int
  | Operand.register reg => machine.registers reg
  | Operand.immediate immediate => immediate
  | Operand.memory base offset => machine.memory (machine.registers base + offset)
  | Operand.label _ => 0

/-- The store of a value into an operand that is a register or a memory
cell. -/
def Machine.write (machine : Machine) (value : Int) : Operand → Machine
  | Operand.register reg =>
    { machine with
        registers := fun other => if other = reg then value else machine.registers other }
  | Operand.memory base offset =>
    { machine with
        memory := fun address =>
          if address = machine.registers base + offset then value else machine.memory address }
  | _ => machine

/-- The meaning of one instruction as the specification gives it: a Move
copies its source (the second operand) into its destination (the first), an
Or stores the bitwise or of both operands into the first; the generator emits
no other kind of instruction, and any other is taken to leave the state as it
is. -/
def Machine.step (machine : Machine) (inst : Instruction) : Machine :=
  match inst.type, inst.operands with
  | InstructionType.INST_MOV, [destination, source] =>
    machine.write (machine.read source) destination
  | InstructionType.INST_OR, [first, second] =>
    machine.write (Int.lor (machine.read first) (machine.read second)) first
  | _, _ => machine

/-- The run of an instruction list, first instruction first. -/
def Machine.run (machine : Machine) (instructions : List Instruction) : Machine :=
  instructions.foldl Machine.step machine

end Phase4

namespace Phase4

/-- The tree of the program `B := TRUE; C := FALSE; B OR C;`, every node with
its children. -/
def known_program : ASTNode :=
  ASTNode.mk 1 "PROGRAM" 1
    (NodeData.program
      [ASTNode.mk 2 "ASSIGNMENT" 1
         (NodeData.assignment (some "B") (ASTNode.mk 5 "BOOLEAN" 1 (NodeData.bool_literal 1))),
       ASTNode.mk 2 "ASSIGNMENT" 2
         (NodeData.assignment (some "C") (ASTNode.mk 5 "BOOLEAN" 2 (NodeData.bool_literal 0))),
       ASTNode.mk 3 "EXPRESSION_STMT" 3
         (NodeData.unary
           (ASTNode.mk 7 "OR" 3
             (NodeData.binary (ASTNode.mk 4 "IDENTIFIER" 3 (NodeData.identifier (some "B")))
               (ASTNode.mk 4 "IDENTIFIER" 3 (NodeData.identifier (some "C"))))))])

/-- The tree of the same program with statements that hold no children: two
assignments without variable and value, and an expression statement. -/
def known_program_bare : ASTNode :=
  ASTNode.mk 1 "PROGRAM" 1
    (NodeData.program
      [ASTNode.mk 2 "ASSIGNMENT" 1 (NodeData.assignment none ASTNode.null),
       ASTNode.mk 2 "ASSIGNMENT" 1 (NodeData.assignment none ASTNode.null),
       ASTNode.mk 3 "EXPRESSION_STMT" 3 NodeData.zero])

end Phase4

/-! ## Definitions: the phase 4 AST loader (`src/phase4/ast_loader_phase4.c`) -/

namespace Phase4

/-- The function `parse_node_type` of `ast_loader_phase4.c`, the same text as
the one of `ast_loader.c`: the first keyword, in the order of the `if`
statements, that occurs anywhere in the string decides the code. -/
def parse_node_type (type_str : List Char) : Int :=
  if (Phase3.strstr type_str "PROGRAM".toList).isSome then 1
  else if (Phase3.strstr type_str "ASSIGNMENT".toList).isSome then 2
  else if (Phase3.strstr type_str "EXPRESSION_STMT".toList).isSome then 3
  else if (Phase3.strstr type_str "IDENTIFIER".toList).isSome then 4
  else if (Phase3.strstr type_str "BOOLEAN".toList).isSome then 5
  else if (Phase3.strstr type_str "AND".toList).isSome then 6
  else if (Phase3.strstr type_str "OR".toList).isSome then 7
  else if (Phase3.strstr type_str "NOT".toList).isSome then 8
  else if (Phase3.strstr type_str "XOR".toList).isSome then 9
  else if (Phase3.strstr type_str "IMPLIES".toList).isSome then 10
  else if (Phase3.strstr type_str "IFF".toList).isSome then 11
  else if (Phase3.strstr type_str "EQUIV".toList).isSome then 12
  else 0

end Phase4

/-! ## Definitions: what the code generator prints
(`src/phase4/code_generator.c`)

The text that each generating function writes to the standard output, as a
function of the context and the arguments of the call. -/

namespace Phase4

/-- The function `register_to_string`. -/
def register_to_string (reg : Register) (target : TargetArch) : String :=
  if target = TargetArch.TARGET_X86_64 then
    match reg with
    | Register.REG_RAX => "rax"
    | Register.REG_RBX => "rbx"
    | Register.REG_RCX => "rcx"
    | Register.REG_RDX => "rdx"
    | Register.REG_RSI => "rsi"
    | Register.REG_RDI => "rdi"
    | Register.REG_R8 => "r8"
    | Register.REG_R9 => "r9"
    | Register.REG_COUNT => "rax"
  else "r0"

/-- What `generate_identifier` prints. -/
def generate_identifier_output (ctx : CodeGenContext) (name : String) (result_reg : Register) :
    List Char :=
  "│     Loading identifier '".toList ++ name.toList ++ "' into ".toList
    ++ (register_to_string result_reg ctx.target).toList ++ "\n".toList

/-- What `generate_binary_op` prints (it is never called with `NULL`). -/
def generate_binary_op_output (node : ASTNode) : List Char :=
  match node with
  | ASTNode.null => []
  | ASTNode.mk _ node_type_str _ _ =>
    "│     Generating binary operation: ".toList ++ node_type_str.toList ++ "\n".toList
      ++ "│     Simulating B OR C operation\n".toList

/-- What `generate_expression` prints. -/
def generate_expression_output (ctx : CodeGenContext) (node : ASTNode) (result_reg : Register) :
    List Char :=
  match node with
  | ASTNode.null => []
  | ASTNode.mk type _ _ data =>
    if type = 4 then
      match data.get_identifier with
      | some name => generate_identifier_output ctx name result_reg
      | none => []
    else if type = 5 then
      "│     Loading boolean literal: ".toList
        ++ (if data.get_bool_literal ≠ 0 then "TRUE" else "FALSE").toList ++ "\n".toList
    else if type = 7 then generate_binary_op_output node
    else "│     Unsupported expression type: ".toList ++ Phase2.print_int type ++ "\n".toList

/-- What `generate_assignment` prints. -/
def generate_assignment_output (ctx : CodeGenContext) (node : ASTNode) : List Char :=
  match node with
  | ASTNode.null => []
  | ASTNode.mk _ _ _ data =>
    match data.get_variable with
    | none => []
    | some var_name =>
      let ctx1 := if symbol_exists ctx var_name then ctx else add_symbol ctx var_name 1
      let allocated := allocate_register ctx1
      "│   Generating assignment: ".toList ++ var_name.toList ++ "\n".toList
        ++ generate_expression_output allocated.1 data.get_value allocated.2

/-- What `generate_statement` prints. -/
def generate_statement_output (ctx : CodeGenContext) (node : ASTNode) : List Char :=
  match node with
  | ASTNode.null => []
  | ASTNode.mk type _ _ _ =>
    if type = 2 then generate_assignment_output ctx node
    else if type = 3 then
      "│   Generating expression statement\n".toList
        ++ generate_binary_op_output (ASTNode.mk 7 "OR" 3 NodeData.zero)
    else "│   Unsupported statement type: ".toList ++ Phase2.print_int type ++ "\n".toList

/-- What the loop of `generate_program` prints from statement number `i + 1`
on, the context being the one before that statement. -/
def generate_statements_output (ctx : CodeGenContext) : List ASTNode → Nat → List Char
  | [], _ => []
  | statement :: rest, i =>
    "│ \n".toList ++ "│ Statement ".toList ++ Phase2.print_int (Int.ofNat (i + 1))
      ++ ":\n".toList ++ generate_statement_output ctx statement
      ++ generate_statements_output (generate_statement ctx statement) rest (i + 1)

/-- What `generate_program` prints. -/
def generate_program_output (ctx : CodeGenContext) (node : ASTNode) : List Char :=
  match node with
  | ASTNode.null => []
  | ASTNode.mk type _ _ data =>
    if type ≠ 1 then []
    else
      "│ Generating code for program with ".toList
        ++ Phase2.print_int (Int.ofNat data.get_statements.length) ++ " statements\n".toList
        ++ generate_statements_output ctx data.get_statements 0
        ++ "│ \n".toList ++ "│ Generating program exit\n".toList

end Phase4

/-! ## Definitions used to state the claims about the generator -/

namespace Phase4

/-- The instructions that a call has appended: those of the context after the
call behind the ones of the context before it. -/
def emitted (before after : CodeGenContext) : List Instruction :=
  after.instructions.drop before.instructions.length

/-- The code that `generate_statement` emits for each statement of a list, in
order, the first statement being generated in `ctx`. -/
def statement_codes (ctx : CodeGenContext) : List ASTNode → List (List Instruction)
  | [] => []
  | statement :: rest =>
    emitted ctx (generate_statement ctx statement)
      :: statement_codes (generate_statement ctx statement) rest

/-- The three instructions of `generate_binary_op`. -/
def or_code : List Instruction :=
  [{ type := InstructionType.INST_MOV,
     operands := [Operand.register Register.REG_RAX, Operand.immediate 1],
     operand_count := 2, comment := some "Load B = TRUE" },
   { type := InstructionType.INST_MOV,
     operands := [Operand.register Register.REG_RBX, Operand.immediate 0],
     operand_count := 2, comment := some "Load C = FALSE" },
   { type := InstructionType.INST_OR,
     operands := [Operand.register Register.REG_RAX, Operand.register Register.REG_RBX],
     operand_count := 2, comment := some "B OR C (result in RAX)" }]

/-- The last instruction of every generated program: the Move of the
immediate 0 into `RAX`. -/
def exit_move : Instruction :=
  { type := InstructionType.INST_MOV,
    operands := [Operand.register Register.REG_RAX, Operand.immediate 0],
    operand_count := 2, comment := some "Set exit code to 0" }

/-- A call of one of the two functions that reserve stack slots. -/
inductive SlotCall where
  | identifier (name : String) (result_reg : Register)
  | assignment (node : ASTNode)

/-- The context after a call. -/
def SlotCall.run (ctx : CodeGenContext) : SlotCall → CodeGenContext
  | SlotCall.identifier name result_reg => generate_identifier ctx name result_reg
  | SlotCall.assignment node => generate_assignment ctx node

/-- The variable names that a call references, in the order of reference: the
name passed to `generate_identifier`; for `generate_assignment` the variable
of the node, then the name of its value when the value is an identifier node
(the one kind of value whose code references a variable). -/
def SlotCall.names : SlotCall → List String
  | SlotCall.identifier name _ => [name]
  | SlotCall.assignment ASTNode.null => []
  | SlotCall.assignment (ASTNode.mk _ _ _ data) =>
    match data.get_variable with
    | none => []
    | some var_name =>
      var_name ::
        (match data.get_value with
         | ASTNode.null => []
         | ASTNode.mk type _ _ value_data =>
           if type = 4 then value_data.get_identifier.toList else [])

/-- The names seen so far, with one more name: it is put behind the others
unless it is among them. -/
def note_name (seen : List String) (name : String) : List String :=
  if name ∈ seen then seen else seen ++ [name]

/-- The distinct names of a list, in the order of their first occurrence. -/
def distinct_names (names : List String) : List String :=
  names.foldl note_name []

end Phase4

namespace Phase4

/-- The context in which `generate_assignment` generates the value of an
assignment to `var_name`: the context of the call, with the stack slot of the
variable reserved and the register for the value allocated. -/
def value_context (ctx : CodeGenContext) (var_name : String) : CodeGenContext :=
  (allocate_register (if symbol_exists ctx var_name then ctx else add_symbol ctx var_name 1)).1

/-- The register that `generate_assignment` allocates for the value of an
assignment to `var_name`. -/
def value_register (ctx : CodeGenContext) (var_name : String) : Register :=
  (allocate_register (if symbol_exists ctx var_name then ctx else add_symbol ctx var_name 1)).2

end Phase4

namespace Phase4

/-- The stack slots of a context are those of the names of `names`, each name
once: the symbol map holds the names, the newest first, `get_symbol_offset`
has the offset `8 * k` for the name at index `k` (counted from 0), and the
next free slot is at 8 times the number of names. -/
def slots_of (names : List String) (ctx : CodeGenContext) : Prop :=
  ctx.symbol_map.map SymbolMap.name = names.reverse ∧
  names.Nodup ∧
  ctx.stack_offset = 8 * (names.length : Int) ∧
  ∀ (k : Nat) (name : String), names[k]? = some name → get_symbol_offset ctx name = 8 * (k : Int)

end Phase4

namespace Phase4

/-- The register that an instruction writes: the destination of a Move or of
an Or, when it is a register operand. -/
def Instruction.written (inst : Instruction) : Option Register :=
  if inst.type = InstructionType.INST_MOV ∨ inst.type = InstructionType.INST_OR then
    match inst.operands with
    | Operand.register reg :: _ => some reg
    | _ => none
  else none

/-- The context in which `generate_binary_op`, called in `ctx`, emits its
second instruction: `ctx` after the first `emit_instruction` and
`emit_comment`. -/
def binary_op_second (ctx : CodeGenContext) : CodeGenContext :=
  emit_comment
    (emit_instruction ctx InstructionType.INST_MOV 2
      [Operand.register Register.REG_RAX, Operand.immediate 1])
    "Load B = TRUE"

/-- The context in which `generate_binary_op`, called in `ctx`, emits its
third instruction. -/
def binary_op_third (ctx : CodeGenContext) : CodeGenContext :=
  emit_comment
    (emit_instruction (binary_op_second ctx) InstructionType.INST_MOV 2
      [Operand.register Register.REG_RBX, Operand.immediate 0])
    "Load C = FALSE"

end Phase4

/-! ## Definitions used to state the claims about the loaders -/

namespace Codec

/-- The node that the loop body of `load_ast_from_file` makes from the text
`node_info` of a line: the line number read from the `(line ` marker (1
without one), the tag from `parse_node_type`, then `create_ast_node` and
`extract_node_data`. -/
def node_of_info (node_info : List Char) : Phase3.ASTNode :=
  Phase3.extract_node_data
    (Phase3.create_ast_node (Phase3.parse_node_type node_info) node_info
      (match Phase3.strstr node_info "(line ".toList with
        | some line_marker => (Phase3.sscanf_line line_marker).getD 1
        | none => 1))
    node_info

/-- The text has none of the three keywords that `parse_node_type` looks for
before `IDENTIFIER`. -/
@[reducible] def header_keyword_free (text : List Char) : Prop :=
  ¬ "PROGRAM".toList <:+: text ∧ ¬ "ASSIGNMENT".toList <:+: text
    ∧ ¬ "EXPRESSION_STMT".toList <:+: text

end Codec

namespace Codec

/-- The tag that the loaders give the kind of a statement: 2 for an
assignment, 3 for an expression statement (0 for any other node). -/
def statement_kind : Phase2.ASTNode → Int
  | Phase2.ASTNode.assignment _ _ _ => 2
  | Phase2.ASTNode.expression_stmt _ _ => 3
  | _ => 0

/-- The line number of a statement. -/
def statement_line : Phase2.ASTNode → Int
  | Phase2.ASTNode.assignment _ _ line => line
  | Phase2.ASTNode.expression_stmt _ line => line
  | _ => 0

end Codec

/-! ## Definitions used to state the claim about the printed tree -/

namespace Phase2

/-- One line of the printed tree: its indentation level, its text behind the
indentation (without the newline), and whether it is the header of a node. -/
structure TreeLine where
  level : Nat
  text : List Char
  header : Bool

/-- The characters of a line: two spaces per level, the text, a newline. -/
def TreeLine.render (line : TreeLine) : List Char :=
  print_indent line.level ++ line.text ++ ['\n']

/-- The kind keyword of a node. -/
def ASTNode.keyword : ASTNode → List Char
  | ASTNode.null => []
  | ASTNode.identifier _ _ => "IDENTIFIER".toList
  | ASTNode.boolean _ _ => "BOOLEAN".toList
  | ASTNode.binary op _ _ _ => (ast_node_type_to_string op.type).toList
  | ASTNode.not _ _ => "NOT".toList
  | ASTNode.assignment _ _ _ => "ASSIGNMENT".toList
  | ASTNode.quantifier kind _ _ _ => (ast_node_type_to_string kind.type).toList
  | ASTNode.program _ _ _ => "PROGRAM".toList
  | ASTNode.expression_stmt _ _ => "EXPRESSION_STMT".toList

/-- The line number of a node (0 for `NULL`). -/
def ASTNode.line_number : ASTNode → Int
  | ASTNode.null => 0
  | ASTNode.identifier _ line => line
  | ASTNode.boolean _ line => line
  | ASTNode.binary _ _ _ line => line
  | ASTNode.not _ line => line
  | ASTNode.assignment _ _ line => line
  | ASTNode.quantifier _ _ _ line => line
  | ASTNode.program _ _ line => line
  | ASTNode.expression_stmt _ line => line

/-- What a header carries between the keyword and the line marker: the name of
an identifier, `TRUE` or `FALSE` for a literal, nothing for the other kinds. -/
def ASTNode.payload : ASTNode → List Char
  | ASTNode.identifier name _ => ": ".toList ++ name.toList
  | ASTNode.boolean value _ => ": ".toList ++ (if value ≠ 0 then "TRUE" else "FALSE").toList
  | _ => []

/-- What a header carries behind the line marker: the number of statements of
a program, nothing for the other kinds. -/
def ASTNode.trailer : ASTNode → List Char
  | ASTNode.program statements _ _ =>
    " - ".toList ++ Nat.toDigits 10 statements.length ++ " statements".toList
  | _ => []

/-- The header of a node: the kind keyword, the payload, the marker `(line N)`
with the line number of the node, the trailer. -/
def ASTNode.header_text (node : ASTNode) : List Char :=
  node.keyword ++ node.payload ++ " (line ".toList ++ print_int node.line_number ++ [')']
    ++ node.trailer

/-- The children of a node, in order. -/
def ASTNode.children : ASTNode → List ASTNode
  | ASTNode.binary _ left right _ => [left, right]
  | ASTNode.not operand _ => [operand]
  | ASTNode.assignment _ value _ => [value]
  | ASTNode.quantifier _ _ expression _ => [expression]
  | ASTNode.program statements _ _ => statements
  | ASTNode.expression_stmt expression _ => [expression]
  | _ => []

mutual
/-- The nodes of a tree in pre-order: the node, then the nodes of its children
in order (`NULL` is no node). -/
def preorder : ASTNode → List ASTNode
  | ASTNode.null => []
  | ASTNode.identifier name line => [ASTNode.identifier name line]
  | ASTNode.boolean value line => [ASTNode.boolean value line]
  | ASTNode.binary op left right line =>
    ASTNode.binary op left right line :: (preorder left ++ preorder right)
  | ASTNode.not operand line => ASTNode.not operand line :: preorder operand
  | ASTNode.assignment var_name value line =>
    ASTNode.assignment var_name value line :: preorder value
  | ASTNode.quantifier kind var_name expression line =>
    ASTNode.quantifier kind var_name expression line :: preorder expression
  | ASTNode.program statements capacity line =>
    ASTNode.program statements capacity line :: preorder_list statements
  | ASTNode.expression_stmt expression line =>
    ASTNode.expression_stmt expression line :: preorder expression
/-- The nodes of a list of trees in pre-order, tree after tree. -/
def preorder_list : List ASTNode → List ASTNode
  | [] => []
  | node :: rest => preorder node ++ preorder_list rest
end

mutual
/-- The lines of the serialized tree as the specification describes them: a
node is its header line at its level, then its children, each behind a role
label one level deeper and itself two levels deeper (the operand of an
expression statement has no label and is one level deeper); a `NULL` child is
the line `(null)`. -/
def layout : ASTNode → Nat → List TreeLine
  | ASTNode.null, level => [{ level := level, text := "(null)".toList, header := false }]
  | ASTNode.identifier name line, level =>
    [{ level := level, text := (ASTNode.identifier name line).header_text, header := true }]
  | ASTNode.boolean value line, level =>
    [{ level := level, text := (ASTNode.boolean value line).header_text, header := true }]
  | ASTNode.binary op left right line, level =>
    { level := level, text := (ASTNode.binary op left right line).header_text, header := true }
      :: { level := level + 1, text := "Left:".toList, header := false }
      :: (layout left (level + 2)
        ++ { level := level + 1, text := "Right:".toList, header := false }
          :: layout right (level + 2))
  | ASTNode.not operand line, level =>
    { level := level, text := (ASTNode.not operand line).header_text, header := true }
      :: { level := level + 1, text := "Operand:".toList, header := false }
      :: layout operand (level + 2)
  | ASTNode.assignment var_name value line, level =>
    { level := level, text := (ASTNode.assignment var_name value line).header_text,
      header := true }
      :: { level := level + 1, text := "Variable: ".toList ++ var_name.toList, header := false }
      :: { level := level + 1, text := "Value:".toList, header := false }
      :: layout value (level + 2)
  | ASTNode.quantifier kind var_name expression line, level =>
    { level := level, text := (ASTNode.quantifier kind var_name expression line).header_text,
      header := true }
      :: { level := level + 1, text := "Variable: ".toList ++ var_name.toList, header := false }
      :: { level := level + 1, text := "Expression:".toList, header := false }
      :: layout expression (level + 2)
  | ASTNode.program statements capacity line, level =>
    { level := level, text := (ASTNode.program statements capacity line).header_text,
      header := true }
      :: layout_statements statements 0 level
  | ASTNode.expression_stmt expression line, level =>
    { level := level, text := (ASTNode.expression_stmt expression line).header_text,
      header := true }
      :: layout expression (level + 1)
/-- The lines of the statements of a program at `level`, from index `i` on: the
label `Statement i+1:` one level deeper, the statement two levels deeper. -/
def layout_statements : List ASTNode → Nat → Nat → List TreeLine
  | [], _, _ => []
  | statement :: rest, i, level =>
    { level := level + 1, text := "Statement ".toList ++ Nat.toDigits 10 (i + 1) ++ [':'],
      header := false }
      :: (layout statement (level + 2) ++ layout_statements rest (i + 1) level)
end

end Phase2

/-! ## Definitions: the annotated AST file
(`generate_annotated_ast` of `src/phase3/semantic_analyzer.c`)

The text that the function writes into the file it has opened, as a function
of the context and the tree. -/

namespace Phase3

/-- The function `symbol_type_to_string`. -/
def symbol_type_to_string : SymbolType → String
  | SymbolType.SYM_BOOLEAN => "BOOLEAN"
  | SymbolType.SYM_IDENTIFIER => "IDENTIFIER"
  | SymbolType.SYM_FUNCTION => "FUNCTION"
  | SymbolType.SYM_PREDICATE => "PREDICATE"
  | SymbolType.SYM_UNKNOWN => "UNKNOWN"

/-- The lines that `generate_annotated_ast` writes for a statement behind its
header text: the line and the type of the statement, four fixed lines for an
assignment or five for an expression statement, and a line of two spaces. -/
def annotated_window (type : Int) (line_number : Int) (semantic_type : SymbolType) :
    List Char :=
  "Line: ".toList ++ Phase2.print_int line_number ++ "\n".toList
    ++ "Semantic_Type: ".toList ++ (symbol_type_to_string semantic_type).toList
    ++ "\n".toList
    ++ (if type = 2 then
          "Operation: VARIABLE_ASSIGNMENT\n".toList
            ++ "Type_Check: BOOLEAN_ASSIGNMENT\n".toList
            ++ "Symbol_Table_Entry: CREATED\n".toList
            ++ "Validation: PASSED\n".toList
        else if type = 3 then
          "Operation: EXPRESSION_EVALUATION\n".toList
            ++ "Result_Type: BOOLEAN\n".toList
            ++ "Expression: BINARY_LOGICAL_OR\n".toList
            ++ "Operands: BOTH_DEFINED\n".toList
            ++ "Validation: PASSED\n".toList
        else [])
    ++ "  \n".toList

/-- The body of the loop of `generate_annotated_ast` over the statements, for
the statement at index `i`: the label `Statement_<i+1>:`, the header text of
the statement, and the lines behind it. The array holds no `NULL` (the loop
dereferences every element); for `NULL` nothing is written here. -/
def annotated_statement (i : Nat) (stmt : ASTNode) : List Char :=
  match stmt with
  | ASTNode.null => []
  | ASTNode.mk type node_type_str line_number semantic_type _ _ _ =>
    "Statement_".toList ++ Nat.toDigits 10 (i + 1) ++ ":\n".toList
      ++ "Node_Type: ".toList ++ node_type_str.toList ++ "\n".toList
      ++ annotated_window type line_number semantic_type

/-- The loop of `generate_annotated_ast` over the statements, from index `i`
on. -/
def annotated_statements : List ASTNode → Nat → List Char
  | [], _ => []
  | stmt :: rest, i => annotated_statement i stmt ++ annotated_statements rest (i + 1)

/-- The read `entry->value.bool_value`; an entry of type Boolean always holds
this member of the union. -/
def SymbolValue.get_bool_value : SymbolValue → Int
  | SymbolValue.bool_value v => v
  | SymbolValue.str_value _ => 0

/-- The lines that `generate_annotated_ast` writes for one entry of the symbol
table. -/
def annotated_symbol (entry : SymbolEntry) : List Char :=
  entry.name.toList ++ ":\n".toList
    ++ "Type: ".toList ++ (symbol_type_to_string entry.type).toList ++ "\n".toList
    ++ "Defined: ".toList ++ (if entry.is_defined ≠ 0 then "YES" else "NO").toList
    ++ "\n".toList
    ++ "Used: ".toList ++ (if entry.is_used ≠ 0 then "YES" else "NO").toList ++ "\n".toList
    ++ "Declaration_Line: ".toList ++ Phase2.print_int entry.line_declared ++ "\n".toList
    ++ (if entry.is_used ≠ 0 ∧ entry.line_used > 0 then
          "Usage_Line: ".toList ++ Phase2.print_int entry.line_used ++ "\n".toList
        else [])
    ++ (if entry.type = SymbolType.SYM_BOOLEAN ∧ entry.is_defined ≠ 0 then
          "    Value: ".toList
            ++ (if entry.value.get_bool_value ≠ 0 then "TRUE" else "FALSE").toList
            ++ "\n".toList
        else [])
    ++ "\n".toList

/-- The loops of `generate_annotated_ast` over the buckets of the table and
over the chain of each bucket. -/
def annotated_symbols (table : SymbolTable) : List Char :=
  ((List.range table.size).map
    (fun i => ((table.table.getD i []).map annotated_symbol).flatten)).flatten

/-- The tag of a node (0 for `NULL`). -/
def ASTNode.get_type : ASTNode → Int
  | ASTNode.null => 0
  | ASTNode.mk type _ _ _ _ _ _ => type

/-- The read `ast->data.program.count` (0 for `NULL`). -/
def ASTNode.get_count : ASTNode → Nat
  | ASTNode.null => 0
  | ASTNode.mk _ _ _ _ _ _ data => data.get_statements.length

/-- The read of the statements of a node (none for `NULL`). -/
def ASTNode.get_statements : ASTNode → List ASTNode
  | ASTNode.null => []
  | ASTNode.mk _ _ _ _ _ _ data => data.get_statements

/-- What `generate_annotated_ast` writes in front of the statements: the
comment lines and the lines of the program node, with the number of
statements. -/
def annotated_header (count : Nat) : List Char :=
  "# Semantically Annotated Abstract Syntax Tree\n".toList
    ++ "# Generated by Phase 3: Semantic Analysis\n".toList
    ++ "# Input: ast.txt\n".toList
    ++ "#\n".toList
    ++ "# Semantic Annotations:\n".toList
    ++ "# Type information added to nodes\n".toList
    ++ "# - Symbol table references included\n".toList
    ++ "# - Constant propagation applied\n".toList
    ++ "#\n\n".toList
    ++ "ANNOTATED_PROGRAM:\n".toList
    ++ "Node_Type: PROGRAM\n".toList
    ++ "Semantic_Type: PROGRAM_BLOCK\n".toList
    ++ "Line: 1\n".toList
    ++ "Statements: ".toList ++ Nat.toDigits 10 count ++ "\n".toList
    ++ "Analysis_Status: VALIDATED\n".toList
    ++ "\n".toList

/-- What `generate_annotated_ast` writes behind the statements: the summary of
the analysis, the entries of the symbol table, and the closing comment. -/
def annotated_summary (ctx : SemanticContext) : List Char :=
  "SEMANTIC_SUMMARY:\n".toList
    ++ "Symbols_Processed: ".toList ++ Nat.toDigits 10 ctx.symbol_table.count ++ "\n".toList
    ++ "Errors_Found: ".toList ++ Phase2.print_int ctx.error_count ++ "\n".toList
    ++ "Warnings_Issued: ".toList ++ Phase2.print_int ctx.warning_count ++ "\n".toList
    ++ "Type_Safety: ".toList
    ++ (if ctx.error_count = 0 then "GUARANTEED" else "VIOLATED").toList ++ "\n".toList
    ++ "Analysis_Result: ".toList
    ++ (if ctx.error_count = 0 then "SUCCESS" else "FAILED").toList ++ "\n".toList
    ++ "\n".toList
    ++ "SYMBOL_REFERENCES:\n".toList
    ++ annotated_symbols ctx.symbol_table
    ++ "# End of Semantically Annotated AST\n".toList

/-- The function `generate_annotated_ast`: the text written into the file. -/
def generate_annotated_ast (ctx : SemanticContext) (ast : ASTNode) : List Char :=
  annotated_header ast.get_count
    ++ (if ast.get_type = 1 then annotated_statements ast.get_statements 0 else [])
    ++ annotated_summary ctx

end Phase3

/-! ## Definitions: the loader of the annotated AST
(`load_annotated_ast` and `parse_assignment_info` of
`src/phase4/ast_loader_phase4.c`)

The open file is the list of the characters from the file position on. A call
of `fgets` returns the next line and moves the position behind it; `fseek`
with a negative offset relative to the position puts characters that were
read in front again. The counters `nodes_loaded`, `assignments_found` and
`expressions_found` are only printed and are left out. -/

namespace Phase4

/-- The function `trim_whitespace` of `ast_loader_phase4.c`, the same text as
the one of `ast_loader.c`: the string it returns. -/
def trim_whitespace (str : List Char) : List Char :=
  ((str.dropWhile Phase3.isspace).reverse.dropWhile Phase3.isspace).reverse

/-- The buffer that `trim_whitespace` leaves behind: the leading white space
stays, the trailing white space is cut off by the NUL that is written. -/
def trim_whitespace_buffer (str : List Char) : List Char :=
  str.takeWhile Phase3.isspace ++ trim_whitespace str

/-- The function `create_ast_node` of `ast_loader_phase4.c`. -/
def create_ast_node (type : Int) (type_str : String) (line : Int) : ASTNode :=
  ASTNode.mk type type_str line NodeData.zero

/-- One call `fgets (line, 512, file)`: the line read (up to and including the
newline, 511 characters at most) and the file behind it; nothing at the end of
the file. -/
def fgets (file : List Char) : Option (List Char × List Char) :=
  match Phase3.fgets_lines file 511 [] with
  | [] => none
  | line :: _ => some (line, file.drop line.length)

/-- The loop of `parse_assignment_info` over the lines that `fgets` reads from
the file: the `data` of the assignment node and the file after the loop. A
line with `Variable:` sets the variable once; a line with `Value:` or
`BOOLEAN:` and `TRUE` or `FALSE` sets the value and ends the loop; a line with
`Statement_` or `SEMANTIC_SUMMARY` ends the loop after
`fseek (file, -strlen (line), SEEK_CUR)`, where `line` is the buffer that
`trim_whitespace` has cut. -/
def parse_assignment_lines (line_number : Int) :
    NodeData → List (List Char) → NodeData × List Char
  | data, [] => (data, [])
  | data, line :: rest =>
    let trimmed := trim_whitespace line
    let data1 :=
      match Phase3.strstr trimmed "Variable:".toList with
      | some var_start =>
        if data.get_variable = none then
          NodeData.assignment (some (String.mk (trim_whitespace (var_start.drop 9))))
            data.get_value
        else data
      | none => data
    if ((Phase3.strstr trimmed "Value:".toList).isSome
          ∨ (Phase3.strstr trimmed "BOOLEAN:".toList).isSome)
        ∧ (Phase3.strstr trimmed "TRUE".toList).isSome then
      (NodeData.assignment data1.get_variable
        (ASTNode.mk 5 "BOOLEAN" line_number (NodeData.bool_literal 1)), rest.flatten)
    else if ((Phase3.strstr trimmed "Value:".toList).isSome
          ∨ (Phase3.strstr trimmed "BOOLEAN:".toList).isSome)
        ∧ (Phase3.strstr trimmed "FALSE".toList).isSome then
      (NodeData.assignment data1.get_variable
        (ASTNode.mk 5 "BOOLEAN" line_number (NodeData.bool_literal 0)), rest.flatten)
    else if (Phase3.strstr trimmed "Statement_".toList).isSome
        ∨ (Phase3.strstr trimmed "SEMANTIC_SUMMARY".toList).isSome then
      (data1, line.drop (line.length - (trim_whitespace_buffer line).length) ++ rest.flatten)
    else parse_assignment_lines line_number data1 rest

/-- The function `parse_assignment_info` on a node made by
`create_ast_node (2, "ASSIGNMENT", 1)`: the node and the file after the
call. -/
def parse_assignment_info (file : List Char) : ASTNode × List Char :=
  (ASTNode.mk 2 "ASSIGNMENT" 1
      (parse_assignment_lines 1 NodeData.zero (Phase3.fgets_lines file 511 [])).1,
   (parse_assignment_lines 1 NodeData.zero (Phase3.fgets_lines file 511 [])).2)

/-- Whether a pointer is `NULL`. -/
def ASTNode.is_null : ASTNode → Bool
  | ASTNode.null => true
  | ASTNode.mk _ _ _ _ => false

/-- The statement `root->data.program.statements[root->data.program.count++] =
node`, done only when `root` is not `NULL` and holds fewer than 10
statements. -/
def append_statement (root : ASTNode) (node : ASTNode) : ASTNode :=
  match root with
  | ASTNode.null => ASTNode.null
  | ASTNode.mk type node_type_str line_number data =>
    if data.get_statements.length < 10 then
      ASTNode.mk type node_type_str line_number
        (NodeData.program (data.get_statements ++ [node]))
    else root

/-- The `while (fgets (...))` loop of `load_annotated_ast`: the root after the
loop, from the root and the file before it. Every round reads at least one
character, so `fuel` rounds are enough for a file of `fuel` characters. -/
def load_loop : Nat → ASTNode → List Char → ASTNode
  | 0, root, _ => root
  | fuel + 1, root, file =>
    match fgets file with
    | none => root
    | some (line, rest) =>
      if (trim_whitespace line).head? = some '#' ∨ (trim_whitespace line).length = 0 then
        load_loop fuel root rest
      else if (Phase3.strstr (trim_whitespace line) "ANNOTATED_PROGRAM:".toList).isSome
          ∧ root.is_null = true then
        load_loop fuel (ASTNode.mk 1 "PROGRAM" 1 (NodeData.program [])) rest
      else if (Phase3.strstr (trim_whitespace line) "Statement_".toList).isSome
          ∧ (Phase3.strstr (trim_whitespace line) ":".toList).isSome then
        match fgets rest with
        | some (next_line, after) =>
          if (Phase3.strstr next_line "ASSIGNMENT".toList).isSome then
            load_loop fuel (append_statement root (parse_assignment_info after).1)
              (parse_assignment_info after).2
          else if (Phase3.strstr next_line "EXPRESSION_STMT".toList).isSome then
            load_loop fuel (append_statement root (create_ast_node 3 "EXPRESSION_STMT" 3))
              after
          else load_loop fuel root rest
        | none => load_loop fuel root rest
      else load_loop fuel root rest

/-- The function `load_annotated_ast` on the contents of a file that could be
opened: the `root` after the loop over the file. -/
def load_annotated_ast (contents : List Char) : ASTNode :=
  load_loop contents.length ASTNode.null contents

end Phase4

namespace Phase4

/-- A text in which `parse_assignment_info` finds nothing: none of the words
`Variable:`, `Value:`, `BOOLEAN:`, `Statement_` and `SEMANTIC_SUMMARY` occurs
in it. -/
@[reducible] def window_quiet (text : List Char) : Prop :=
  ¬ "Variable:".toList <:+: text ∧ ¬ "Value:".toList <:+: text
    ∧ ¬ "BOOLEAN:".toList <:+: text ∧ ¬ "Statement_".toList <:+: text
    ∧ ¬ "SEMANTIC_SUMMARY".toList <:+: text

/-- The node that `load_annotated_ast` makes for a statement of tag `type`
that `generate_annotated_ast` has written: an assignment without variable and
value for tag 2, an expression statement otherwise. -/
def reloaded_node (type : Int) : ASTNode :=
  if type = 2 then ASTNode.mk 2 "ASSIGNMENT" 1 NodeData.zero
  else create_ast_node 3 "EXPRESSION_STMT" 3

/-- The nodes that `load_annotated_ast` makes for the statements that
`generate_annotated_ast` has written, by the tags of the statements: an
expression statement gives a node; an assignment gives a node, and the
statement behind it gives none. -/
def reloaded : List Int → List ASTNode
  | [] => []
  | [type] => [reloaded_node type]
  | type :: next :: rest =>
    if type = 2 then reloaded_node type :: reloaded rest
    else reloaded_node type :: reloaded (next :: rest)

end Phase4

/-! ## Definitions used to state the claims about the annotated AST -/

namespace Phase3

/-- A statement node as the analysis leaves the statements of a loaded
program: tag 2 with `ASSIGNMENT` in its header text, or tag 3 with
`EXPRESSION_STMT` and without `ASSIGNMENT` in it; the header is one line of at
most 400 characters without `Statement_`. -/
def annotated_plain : ASTNode → Prop
  | ASTNode.null => False
  | ASTNode.mk type node_type_str _ _ _ _ _ =>
    ((type = 2 ∧ "ASSIGNMENT".toList <:+: node_type_str.toList)
      ∨ (type = 3 ∧ "EXPRESSION_STMT".toList <:+: node_type_str.toList
          ∧ ¬ "ASSIGNMENT".toList <:+: node_type_str.toList))
    ∧ (∀ c ∈ node_type_str.toList, c ≠ '\n')
    ∧ node_type_str.toList.length ≤ 400
    ∧ ¬ "Statement_".toList <:+: node_type_str.toList

end Phase3

namespace Phase4

/-- The tag of a node (0 for `NULL`). -/
def ASTNode.get_type : ASTNode → Int
  | ASTNode.null => 0
  | ASTNode.mk type _ _ _ => type

/-- The `data` of a node. -/
def ASTNode.get_data : ASTNode → NodeData
  | ASTNode.null => NodeData.zero
  | ASTNode.mk _ _ _ data => data

/-- The annotated AST file that phase 3 writes for a program of phase 2: the
steps of `main` of `main_phase3.c` on the AST file that `print_ast_to_file`
has written, which are `load_ast_from_file`, `perform_semantic_analysis` in a
new context, and `generate_annotated_ast` with the context and the tree after
the analysis. -/
def annotated_of_program (program : Phase2.ASTNode) : List Char :=
  Phase3.generate_annotated_ast
    (Phase3.perform_semantic_analysis Phase3.create_semantic_context
      (Phase3.load_ast_from_file (Phase2.print_ast_to_file program))).2.1
    (Phase3.perform_semantic_analysis Phase3.create_semantic_context
      (Phase3.load_ast_from_file (Phase2.print_ast_to_file program))).2.2

end Phase4

/-! ## Definitions used to state the claim about the first ten statements -/

namespace Codec

/-- The header that the loop body of `load_ast_from_file` finds on a line read
by `fgets`: nothing for a line that the loop passes over (a comment, an empty
line, a text in which `parse_node_type` finds no keyword), otherwise the
trimmed text of the line. -/
def line_header (line : List Char) : Option (List Char) :=
  if line.head? = some '#' ∨ line.head? = some '\n'
      ∨ (Phase3.trim_whitespace line).length = 0 then none
  else if (Phase3.parse_ast_line (Phase3.trim_whitespace_buffer line)).1 = true
      ∧ Phase3.parse_node_type
          (Phase3.parse_ast_line (Phase3.trim_whitespace_buffer line)).2.1 > 0 then
    some (Phase3.parse_ast_line (Phase3.trim_whitespace_buffer line)).2.1
  else none

/-- The headers of a file, in the order of its lines. -/
def file_headers (contents : List Char) : List (List Char) :=
  (Phase3.fgets_lines contents 511 []).filterMap line_header

/-- Whether a header is that of an assignment or of an expression statement. -/
def is_statement_header (header : List Char) : Bool :=
  decide (Phase3.parse_node_type header = 2 ∨ Phase3.parse_node_type header = 3)

/-- The statement headers behind the first `PROGRAM` header, in order. -/
def statements_after_program : List (List Char) → List (List Char)
  | [] => []
  | header :: rest =>
    if Phase3.parse_node_type header = 1 then rest.filter is_statement_header
    else statements_after_program rest

end Codec

/-! ## Theorems: symbol table -/

namespace Phase3

/-! ### Chains -/

theorem lookup_chain_some {name : String} {chain : List SymbolEntry} {entry : SymbolEntry}
    (h : lookup_chain name chain = some entry) : entry ∈ chain ∧ entry.name = name := by
  induction chain with
  | nil => simp [lookup_chain] at h
  | cons head next ih =>
    unfold lookup_chain at h
    split at h
    · next hname =>
      cases h
      exact ⟨List.mem_cons_self _ _, hname⟩
    · exact ⟨List.mem_cons_of_mem _ (ih h).1, (ih h).2⟩

theorem lookup_chain_eq_none {name : String} {chain : List SymbolEntry} :
    lookup_chain name chain = none ↔ ∀ entry ∈ chain, entry.name ≠ name := by
  induction chain with
  | nil => simp [lookup_chain]
  | cons head next ih =>
    unfold lookup_chain
    split
    · next hname => simp [hname]
    · next hname => simp [ih, hname]

theorem lookup_chain_of_mem {name : String} {chain : List SymbolEntry} {entry : SymbolEntry}
    (hnodup : (chain.map SymbolEntry.name).Nodup) (hmem : entry ∈ chain)
    (hname : entry.name = name) : lookup_chain name chain = some entry := by
  induction chain with
  | nil => simp at hmem
  | cons head next ih =>
    simp only [List.map_cons, List.nodup_cons, List.mem_map, not_exists, not_and] at hnodup
    unfold lookup_chain
    rcases List.mem_cons.1 hmem with rfl | hin
    · simp [hname]
    · have hne : head.name ≠ name := by
        intro hhead
        exact hnodup.1 entry hin (by rw [hname, hhead])
      simp [hne, ih hnodup.2 hin]

theorem update_chain_names (name : String) (f : SymbolEntry → SymbolEntry)
    (hf : ∀ entry, (f entry).name = entry.name) (chain : List SymbolEntry) :
    (update_chain name f chain).map SymbolEntry.name = chain.map SymbolEntry.name := by
  induction chain with
  | nil => rfl
  | cons head next ih =>
    unfold update_chain
    split
    · simp [hf]
    · simp [ih]

theorem update_chain_length (name : String) (f : SymbolEntry → SymbolEntry)
    (chain : List SymbolEntry) : (update_chain name f chain).length = chain.length := by
  induction chain with
  | nil => rfl
  | cons head next ih =>
    unfold update_chain
    split <;> simp [ih]

theorem update_chain_eq_map (name : String) (f : SymbolEntry → SymbolEntry)
    (chain : List SymbolEntry) (hnodup : (chain.map SymbolEntry.name).Nodup) :
    update_chain name f chain = chain.map (fun x => if x.name = name then f x else x) := by
  induction chain with
  | nil => rfl
  | cons head next ih =>
    simp only [List.map_cons, List.nodup_cons, List.mem_map, not_exists, not_and] at hnodup
    unfold update_chain
    split
    · next hname =>
      simp only [List.map_cons, hname, if_true, List.cons.injEq, true_and]
      symm
      calc next.map (fun x => if x.name = name then f x else x)
          = next.map id := by
            apply List.map_congr_left
            intro x hx
            have : x.name ≠ name := fun hxn => hnodup.1 x hx (by rw [hxn, hname])
            simp [this]
        _ = next := List.map_id _
    · next hname =>
      simp [hname, ih hnodup.2]

theorem update_chain_of_not_mem (name : String) (f : SymbolEntry → SymbolEntry)
    (chain : List SymbolEntry) (h : ∀ entry ∈ chain, entry.name ≠ name) :
    update_chain name f chain = chain := by
  induction chain with
  | nil => rfl
  | cons head next ih =>
    unfold update_chain
    have hhead : head.name ≠ name := h head (List.mem_cons_self _ _)
    simp [hhead, ih (fun entry hentry => h entry (List.mem_cons_of_mem _ hentry))]

theorem lookup_update_chain_same (name : String) (f : SymbolEntry → SymbolEntry)
    (hf : ∀ entry, (f entry).name = entry.name) (chain : List SymbolEntry) :
    lookup_chain name (update_chain name f chain) = (lookup_chain name chain).map f := by
  induction chain with
  | nil => rfl
  | cons head next ih =>
    unfold update_chain
    split
    · next hname => simp [lookup_chain, hf, hname]
    · next hname => simp [lookup_chain, hname, ih]

theorem lookup_update_chain_other (name other : String) (f : SymbolEntry → SymbolEntry)
    (hf : ∀ entry, (f entry).name = entry.name) (hne : other ≠ name)
    (chain : List SymbolEntry) :
    lookup_chain other (update_chain name f chain) = lookup_chain other chain := by
  induction chain with
  | nil => rfl
  | cons head next ih =>
    unfold update_chain
    split
    · next hname =>
      have h1 : ¬ (f head).name = other := by rw [hf, hname]; exact fun h => hne h.symm
      have h2 : ¬ head.name = other := by rw [hname]; exact fun h => hne h.symm
      simp [lookup_chain, h1, h2]
    · next hname =>
      by_cases hother : head.name = other
      · simp [lookup_chain, hother]
      · simp [lookup_chain, hother, ih]

theorem count_chain_eq (test : SymbolEntry → Bool) (chain : List SymbolEntry) (counter : Nat) :
    count_chain test chain counter = counter + chain.countP test := by
  induction chain generalizing counter with
  | nil => simp [count_chain]
  | cons head next ih =>
    unfold count_chain
    rw [ih, List.countP_cons]
    split <;> omega

end Phase3

namespace Phase3

/-! ### Bucket arrays -/

theorem getD_set_self {α : Type} (l : List (List α)) (i : Nat) (x : List α)
    (h : i < l.length) : (l.set i x).getD i [] = x := by
  induction l generalizing i with
  | nil => simp at h
  | cons c cs ih =>
    cases i with
    | zero => rfl
    | succ i =>
      simp only [List.set_cons_succ, List.getD_cons_succ]
      exact ih i (by simpa using h)

theorem getD_set_of_ne {α : Type} (l : List (List α)) (i j : Nat) (x : List α)
    (h : i ≠ j) : (l.set i x).getD j [] = l.getD j [] := by
  induction l generalizing i j with
  | nil => rfl
  | cons c cs ih =>
    cases i with
    | zero =>
      cases j with
      | zero => exact absurd rfl h
      | succ j => rfl
    | succ i =>
      cases j with
      | zero => rfl
      | succ j =>
        simp only [List.set_cons_succ, List.getD_cons_succ]
        exact ih i j (fun hij => h (by rw [hij]))

theorem getD_of_length_le {α : Type} (l : List (List α)) (i : Nat) (h : l.length ≤ i) :
    l.getD i [] = [] := by
  induction l generalizing i with
  | nil => rfl
  | cons c cs ih =>
    cases i with
    | zero => simp at h
    | succ i =>
      simp only [List.getD_cons_succ]
      exact ih i (by simpa using h)

theorem mem_flatten_of_mem_getD {α : Type} (l : List (List α)) (i : Nat) (a : α)
    (h : a ∈ l.getD i []) : a ∈ l.flatten := by
  induction l generalizing i with
  | nil => simp at h
  | cons c cs ih =>
    cases i with
    | zero =>
      simp only [List.getD_cons_zero] at h
      simp [h]
    | succ i =>
      simp only [List.getD_cons_succ] at h
      simp [ih i h]

theorem exists_getD_of_mem_flatten {α : Type} (l : List (List α)) (a : α)
    (h : a ∈ l.flatten) : ∃ i, i < l.length ∧ a ∈ l.getD i [] := by
  induction l with
  | nil => simp at h
  | cons c cs ih =>
    simp only [List.flatten_cons, List.mem_append] at h
    rcases h with h | h
    · exact ⟨0, by simp, by simpa using h⟩
    · obtain ⟨i, hi, ha⟩ := ih h
      exact ⟨i + 1, by simpa using hi, by simpa using ha⟩

theorem flatten_set_cons_perm {α : Type} (l : List (List α)) (i : Nat) (x : α)
    (h : i < l.length) : ((l.set i (x :: l.getD i [])).flatten).Perm (x :: l.flatten) := by
  induction l generalizing i with
  | nil => simp at h
  | cons c cs ih =>
    cases i with
    | zero => simp
    | succ i =>
      simp only [List.set_cons_succ, List.getD_cons_succ, List.flatten_cons]
      have hperm := ih i (by simpa using h)
      exact (List.Perm.append_left c hperm).trans List.perm_middle

theorem set_getD_eq_map {α : Type} (g : List α → List α) (l : List (List α)) (i : Nat)
    (h : ∀ j, j ≠ i → j < l.length → g (l.getD j []) = l.getD j []) :
    l.set i (g (l.getD i [])) = l.map g := by
  induction l generalizing i with
  | nil => rfl
  | cons c cs ih =>
    cases i with
    | zero =>
      simp only [List.set_cons_zero, List.getD_cons_zero, List.map_cons, List.cons.injEq,
        true_and]
      have hall : ∀ j, j < cs.length → g (cs.getD j []) = cs.getD j [] := by
        intro j hj
        have := h (j + 1) (by omega) (by simpa using hj)
        simpa using this
      clear h ih
      induction cs with
      | nil => rfl
      | cons d ds ihd =>
        have h0 := hall 0 (by simp)
        simp only [List.getD_cons_zero] at h0
        rw [List.map_cons, h0, ← ihd]
        intro j hj
        have := hall (j + 1) (by simpa using hj)
        simpa using this
    | succ i =>
      simp only [List.set_cons_succ, List.getD_cons_succ, List.map_cons, List.cons.injEq]
      constructor
      · have := h 0 (by omega) (by simp)
        simpa using this.symm
      · apply ih
        intro j hji hj
        have := h (j + 1) (by omega) (by simpa using hj)
        simpa using this

theorem foldl_range_count_chain (test : SymbolEntry → Bool) (l : List (List SymbolEntry))
    (k : Nat) (hk : k ≤ l.length) :
    (List.range k).foldl (fun counter i => count_chain test (l.getD i []) counter) 0
      = ((l.take k).flatten).countP test := by
  induction k with
  | zero => simp
  | succ k ih =>
    have hlt : k < l.length := hk
    rw [List.range_succ, List.foldl_append, ih (by omega)]
    simp only [List.foldl_cons, List.foldl_nil]
    rw [count_chain_eq, List.take_succ, List.flatten_append, List.countP_append]
    have hget : l.getD k [] = l[k] := List.getD_eq_getElem l [] hlt
    simp [hget, List.getElem?_eq_getElem hlt]

theorem count_table_eq (test : SymbolEntry → Bool) (table : SymbolTable)
    (hlen : table.table.length = table.size) :
    count_table test table = (entries table).countP test := by
  unfold count_table entries
  rw [foldl_range_count_chain test table.table table.size (by omega), ← hlen, List.take_length]

end Phase3

namespace Phase3

/-! ### The representation invariant -/

theorem getD_sublist_flatten {α : Type} (l : List (List α)) (i : Nat) :
    (l.getD i []).Sublist l.flatten := by
  induction l generalizing i with
  | nil => simp
  | cons c cs ih =>
    cases i with
    | zero => simp
    | succ i =>
      simp only [List.getD_cons_succ, List.flatten_cons]
      exact (ih i).trans (List.sublist_append_right c cs.flatten)

theorem WellFormed.chain_nodup {table : SymbolTable} (hwf : WellFormed table) (i : Nat) :
    ((table.table.getD i []).map SymbolEntry.name).Nodup :=
  hwf.nodup.sublist ((getD_sublist_flatten table.table i).map SymbolEntry.name)

theorem WellFormed.hash_lt {table : SymbolTable} (hwf : WellFormed table) (name : String) :
    hash_string name table.size < table.table.length := by
  rw [hwf.length_eq]
  exact Nat.mod_lt _ hwf.size_pos

theorem WellFormed.mem_bucket {table : SymbolTable} (hwf : WellFormed table)
    {entry : SymbolEntry} (hmem : entry ∈ entries table) :
    entry ∈ table.table.getD (hash_string entry.name table.size) [] := by
  obtain ⟨i, _, hi⟩ := exists_getD_of_mem_flatten table.table entry hmem
  rw [hwf.bucket i entry hi]
  exact hi

theorem WellFormed.lookup_of_mem {table : SymbolTable} (hwf : WellFormed table)
    {entry : SymbolEntry} (hmem : entry ∈ entries table) :
    lookup_symbol table entry.name = some entry :=
  lookup_chain_of_mem (hwf.chain_nodup _) (hwf.mem_bucket hmem) rfl

theorem lookup_symbol_mem {table : SymbolTable} {name : String} {entry : SymbolEntry}
    (h : lookup_symbol table name = some entry) : entry ∈ entries table ∧ entry.name = name :=
  ⟨mem_flatten_of_mem_getD _ _ _ (lookup_chain_some h).1, (lookup_chain_some h).2⟩

theorem WellFormed.not_mem_of_lookup_none {table : SymbolTable} (hwf : WellFormed table)
    {name : String} (h : lookup_symbol table name = none) :
    ∀ entry ∈ entries table, entry.name ≠ name := by
  intro entry hmem hname
  have := hwf.lookup_of_mem hmem
  rw [hname, h] at this
  cases this

theorem wellFormed_create (size : Nat) (h : 0 < size) : WellFormed (create_symbol_table size) where
  size_pos := h
  length_eq := by simp [create_symbol_table]
  bucket := by
    intro i entry hmem
    have := mem_flatten_of_mem_getD _ _ _ hmem
    simp [create_symbol_table] at this
  nodup := by simp [entries, create_symbol_table]
  count_eq := by simp [entries, create_symbol_table]

theorem insert_symbol_of_lookup_none {table : SymbolTable} {name : String}
    (h : lookup_symbol table name = none) (type : SymbolType) (line : Int) :
    insert_symbol table name type line =
      ({ table with
          table := table.table.set (hash_string name table.size)
            (new_entry name type line :: table.table.getD (hash_string name table.size) [])
          count := table.count + 1 },
       some (new_entry name type line)) := by
  simp [insert_symbol, h]

theorem insert_symbol_of_lookup_some {table : SymbolTable} {name : String}
    {entry : SymbolEntry} (h : lookup_symbol table name = some entry)
    (type : SymbolType) (line : Int) :
    insert_symbol table name type line = (table, some entry) := by
  simp [insert_symbol, h]

theorem entries_insert_perm {table : SymbolTable} (hwf : WellFormed table) {name : String}
    (h : lookup_symbol table name = none) (type : SymbolType) (line : Int) :
    (entries (insert_symbol table name type line).1).Perm
      (new_entry name type line :: entries table) := by
  rw [insert_symbol_of_lookup_none h]
  exact flatten_set_cons_perm _ _ _ (hwf.hash_lt name)

theorem wellFormed_insert {table : SymbolTable} (hwf : WellFormed table) (name : String)
    (type : SymbolType) (line : Int) : WellFormed (insert_symbol table name type line).1 := by
  cases h : lookup_symbol table name with
  | some entry => rw [insert_symbol_of_lookup_some h]; exact hwf
  | none =>
    have hperm := entries_insert_perm hwf h type line
    rw [insert_symbol_of_lookup_none h] at hperm ⊢
    refine ⟨hwf.size_pos, ?_, ?_, ?_, ?_⟩
    · simpa using hwf.length_eq
    · intro i entry hmem
      by_cases hi : hash_string name table.size = i
      · subst hi
        simp only [] at hmem
        rw [getD_set_self _ _ _ (hwf.hash_lt name)] at hmem
        rcases List.mem_cons.1 hmem with rfl | hin
        · rfl
        · exact hwf.bucket _ entry hin
      · simp only [] at hmem
        rw [getD_set_of_ne _ _ _ _ hi] at hmem
        exact hwf.bucket i entry hmem
    · have hnames := hperm.map SymbolEntry.name
      rw [hnames.nodup_iff, List.map_cons, List.nodup_cons]
      refine ⟨?_, hwf.nodup⟩
      intro hin
      obtain ⟨entry, hentry, hname⟩ := List.mem_map.1 hin
      exact hwf.not_mem_of_lookup_none h entry hentry hname
    · rw [hperm.length_eq]
      simp [hwf.count_eq]

theorem update_symbol_table_eq_map {table : SymbolTable} (hwf : WellFormed table)
    (name : String) (f : SymbolEntry → SymbolEntry) :
    (update_symbol table name f).table = table.table.map (update_chain name f) := by
  unfold update_symbol
  apply set_getD_eq_map
  intro j hj _
  apply update_chain_of_not_mem
  intro entry hmem hname
  have := hwf.bucket j entry hmem
  rw [hname] at this
  exact hj this.symm

theorem entries_update_symbol {table : SymbolTable} (hwf : WellFormed table)
    (name : String) (f : SymbolEntry → SymbolEntry) :
    entries (update_symbol table name f)
      = (entries table).map (fun x => if x.name = name then f x else x) := by
  unfold entries
  rw [update_symbol_table_eq_map hwf, List.map_flatten]
  congr 1
  apply List.map_congr_left
  intro chain hchain
  apply update_chain_eq_map
  obtain ⟨i, hi, rfl⟩ := List.getElem_of_mem hchain
  have := hwf.chain_nodup i
  rwa [List.getD_eq_getElem _ _ hi] at this

theorem wellFormed_update {table : SymbolTable} (hwf : WellFormed table) (name : String)
    (f : SymbolEntry → SymbolEntry) (hf : ∀ entry, (f entry).name = entry.name) :
    WellFormed (update_symbol table name f) := by
  have hnames : (entries (update_symbol table name f)).map SymbolEntry.name
      = (entries table).map SymbolEntry.name := by
    rw [entries_update_symbol hwf, List.map_map]
    apply List.map_congr_left
    intro x _
    simp only [Function.comp]
    split <;> simp [hf]
  refine ⟨hwf.size_pos, ?_, ?_, ?_, ?_⟩
  · simpa [update_symbol] using hwf.length_eq
  · intro i entry hmem
    have hsub : (update_symbol table name f).table.getD i []
        = update_chain name f (table.table.getD i []) := by
      by_cases hi : hash_string name table.size = i
      · subst hi
        exact getD_set_self _ _ _ (hwf.hash_lt name)
      · have h1 : (update_symbol table name f).table.getD i [] = table.table.getD i [] :=
          getD_set_of_ne _ _ _ _ hi
        rw [h1]
        symm
        apply update_chain_of_not_mem
        intro e he hname
        have := hwf.bucket i e he
        rw [hname] at this
        exact hi this
    rw [hsub] at hmem
    have hmemn : entry.name ∈ (update_chain name f (table.table.getD i [])).map SymbolEntry.name :=
      List.mem_map_of_mem _ hmem
    rw [update_chain_names name f hf] at hmemn
    obtain ⟨e, he, hname⟩ := List.mem_map.1 hmemn
    have := hwf.bucket i e he
    rw [hname] at this
    exact this
  · rw [hnames]; exact hwf.nodup
  · have hlen := congrArg List.length hnames
    simp only [List.length_map] at hlen
    rw [hlen]
    exact hwf.count_eq

theorem mark_entry_used_name (line : Int) (entry : SymbolEntry) :
    (mark_entry_used line entry).name = entry.name := by
  unfold mark_entry_used
  split <;> rfl

theorem set_entry_value_name (bool_val line : Int) (entry : SymbolEntry) :
    (set_entry_value bool_val line entry).name = entry.name := rfl

theorem wellFormed_mark {table : SymbolTable} (hwf : WellFormed table) (name : String)
    (line : Int) : WellFormed (mark_symbol_used table name line) := by
  unfold mark_symbol_used
  split
  · exact wellFormed_update hwf name _ (mark_entry_used_name line)
  · exact hwf

theorem wellFormed_set {table : SymbolTable} (hwf : WellFormed table) (name : String)
    (bool_val line : Int) : WellFormed (set_symbol_value table name bool_val line) := by
  unfold set_symbol_value
  split
  · exact wellFormed_update hwf name _ (set_entry_value_name bool_val line)
  · exact hwf

theorem Reachable.wellFormed {table : SymbolTable} (h : Reachable table) : WellFormed table := by
  induction h with
  | create size hsize => exact wellFormed_create size hsize
  | insert table name type line _ ih => exact wellFormed_insert ih name type line
  | mark table name line _ ih => exact wellFormed_mark ih name line
  | set table name bool_val line _ ih => exact wellFormed_set ih name bool_val line

end Phase3

namespace Phase3

/-! ### Lookup after an operation -/

theorem WellFormed.eq_of_name_eq {table : SymbolTable} (hwf : WellFormed table)
    {a b : SymbolEntry} (ha : a ∈ entries table) (hb : b ∈ entries table)
    (hname : a.name = b.name) : a = b := by
  have h1 := hwf.lookup_of_mem ha
  have h2 := hwf.lookup_of_mem hb
  rw [hname, h2] at h1
  exact (Option.some.inj h1).symm

theorem lookup_insert_symbol {table : SymbolTable} (hwf : WellFormed table)
    (name : String) (type : SymbolType) (line : Int) (other : String) :
    lookup_symbol (insert_symbol table name type line).1 other =
      if name = other then
        some ((lookup_symbol table other).getD (new_entry name type line))
      else lookup_symbol table other := by
  cases h : lookup_symbol table name with
  | some entry =>
    rw [insert_symbol_of_lookup_some h]
    split
    · next hno => subst hno; simp [h]
    · rfl
  | none =>
    rw [insert_symbol_of_lookup_none h]
    by_cases hi : hash_string name table.size = hash_string other table.size
    · have hchain : lookup_symbol
          { table with
              table := table.table.set (hash_string name table.size)
                (new_entry name type line :: table.table.getD (hash_string name table.size) [])
              count := table.count + 1 } other
          = lookup_chain other
              (new_entry name type line :: table.table.getD (hash_string name table.size) []) := by
        unfold lookup_symbol
        simp only []
        rw [← hi, getD_set_self _ _ _ (hwf.hash_lt name)]
      rw [hchain]
      unfold lookup_chain
      by_cases hno : name = other
      · subst hno
        simp [new_entry, h]
      · have hne : ¬ (new_entry name type line).name = other := hno
        simp only [hne, hno, if_false]
        unfold lookup_symbol
        rw [hi]
    · have hno : name ≠ other := fun hno => hi (by rw [hno])
      simp only [hno, if_false]
      unfold lookup_symbol
      simp only []
      rw [getD_set_of_ne _ _ _ _ hi]

theorem lookup_update_symbol {table : SymbolTable} (hwf : WellFormed table)
    (name : String) (f : SymbolEntry → SymbolEntry)
    (hf : ∀ entry, (f entry).name = entry.name) (other : String) :
    lookup_symbol (update_symbol table name f) other =
      if other = name then (lookup_symbol table name).map f else lookup_symbol table other := by
  by_cases hi : hash_string name table.size = hash_string other table.size
  · have hchain : lookup_symbol (update_symbol table name f) other
        = lookup_chain other
            (update_chain name f (table.table.getD (hash_string name table.size) [])) := by
      unfold lookup_symbol update_symbol
      simp only []
      rw [← hi, getD_set_self _ _ _ (hwf.hash_lt name)]
    rw [hchain]
    by_cases hon : other = name
    · subst hon
      simp only [if_true]
      rw [lookup_update_chain_same _ f hf]
      rfl
    · simp only [hon, if_false]
      rw [lookup_update_chain_other _ _ f hf hon]
      unfold lookup_symbol
      rw [hi]
  · have hon : other ≠ name := fun hon => hi (by rw [hon])
    simp only [hon, if_false]
    unfold lookup_symbol update_symbol
    simp only []
    rw [getD_set_of_ne _ _ _ _ hi]

theorem wellFormed_foldl_insert (calls : List (String × SymbolType × Int))
    {table : SymbolTable} (hwf : WellFormed table) :
    WellFormed
      (calls.foldl (fun table call => (insert_symbol table call.1 call.2.1 call.2.2).1) table) := by
  induction calls generalizing table with
  | nil => exact hwf
  | cons call rest ih => exact ih (wellFormed_insert hwf _ _ _)

theorem wellFormed_build (size : Nat) (hsize : 0 < size)
    (calls : List (String × SymbolType × Int)) : WellFormed (build size calls) :=
  wellFormed_foldl_insert calls (wellFormed_create size hsize)

theorem lookup_foldl_insert (calls : List (String × SymbolType × Int))
    {table : SymbolTable} (hwf : WellFormed table) (name : String) :
    lookup_symbol
      (calls.foldl (fun table call => (insert_symbol table call.1 call.2.1 call.2.2).1) table) name
      = match lookup_symbol table name with
        | some entry => some entry
        | none => (calls.find? (fun call => call.1 == name)).map
            (fun call => new_entry call.1 call.2.1 call.2.2) := by
  induction calls generalizing table with
  | nil => cases h : lookup_symbol table name <;> simp [h]
  | cons call rest ih =>
    rw [List.foldl_cons, ih (wellFormed_insert hwf _ _ _), lookup_insert_symbol hwf]
    by_cases hcall : call.1 = name
    · cases h : lookup_symbol table name with
      | some entry => simp [hcall, h]
      | none => simp [hcall, h, List.find?_cons]
    · cases h : lookup_symbol table name with
      | some entry => simp [hcall, h]
      | none => simp [hcall, h, List.find?_cons]

theorem lookup_create (size : Nat) (name : String) :
    lookup_symbol (create_symbol_table size) name = none := by
  apply lookup_chain_eq_none.2
  intro entry hmem
  have := mem_flatten_of_mem_getD _ _ _ hmem
  simp [create_symbol_table] at this

theorem is_undefined_eq (entry : SymbolEntry) :
    is_undefined entry = decide (entry.is_used ≠ 0 ∧ entry.is_defined = 0) := by
  unfold is_undefined
  by_cases hd : entry.is_defined = 0 <;> by_cases hu : entry.is_used = 0 <;> simp [hd, hu]

theorem is_unused_eq (entry : SymbolEntry) :
    is_unused entry = decide (entry.is_defined ≠ 0 ∧ entry.is_used = 0) := by
  unfold is_unused
  by_cases hd : entry.is_defined = 0 <;> by_cases hu : entry.is_used = 0 <;> simp [hd, hu]

theorem countP_four_classes (l : List SymbolEntry) :
    l.countP is_undefined
      + l.countP (fun entry => entry.is_defined != 0 && entry.is_used != 0)
      + l.countP is_unused
      + l.countP (fun entry => entry.is_defined == 0 && entry.is_used == 0)
      = l.length := by
  induction l with
  | nil => rfl
  | cons head next ih =>
    simp only [List.countP_cons, List.length_cons, is_undefined, is_unused]
    by_cases hd : head.is_defined = 0 <;> by_cases hu : head.is_used = 0 <;>
      simp [hd, hu] <;> omega

end Phase3

namespace Phase3

/-! ### Claims about the symbol table -/

/-- C2: in a well-formed symbol table, `insert_symbol` of a name that is
already present (with any type and any line) finds the existing entry, returns
it, and returns the table unchanged: same count, same chains, hence the same
type, lines, flags and value in every entry. -/
theorem C2_insert_symbol_existing (table : SymbolTable) (hwf : WellFormed table)
    (entry : SymbolEntry) (hmem : entry ∈ entries table) (type : SymbolType) (line : Int) :
    lookup_symbol table entry.name = some entry ∧
    insert_symbol table entry.name type line = (table, some entry) :=
  ⟨hwf.lookup_of_mem hmem, insert_symbol_of_lookup_some (hwf.lookup_of_mem hmem) type line⟩

theorem C2_insert_symbol_existing_witness :
    WellFormed (insert_symbol (create_symbol_table 101) "B" SymbolType.SYM_BOOLEAN 1).1 ∧
    new_entry "B" SymbolType.SYM_BOOLEAN 1
      ∈ entries (insert_symbol (create_symbol_table 101) "B" SymbolType.SYM_BOOLEAN 1).1 ∧
    insert_symbol (insert_symbol (create_symbol_table 101) "B" SymbolType.SYM_BOOLEAN 1).1
        "B" SymbolType.SYM_IDENTIFIER 7
      = ((insert_symbol (create_symbol_table 101) "B" SymbolType.SYM_BOOLEAN 1).1,
         some (new_entry "B" SymbolType.SYM_BOOLEAN 1)) :=
  ⟨wellFormed_insert (wellFormed_create 101 (by decide)) _ _ _, by decide,
   (C2_insert_symbol_existing _
      (wellFormed_insert (wellFormed_create 101 (by decide)) _ _ _)
      (new_entry "B" SymbolType.SYM_BOOLEAN 1) (by decide) SymbolType.SYM_IDENTIFIER 7).2⟩

/-- C3: every table reachable from `create_symbol_table` (positive size) by
`insert_symbol`, `mark_symbol_used` and `set_symbol_value` calls has as many
buckets as its size, no two entries with the same name, every entry in the
bucket `hash_string(name, size)`, and a count field equal to the total length
of the bucket chains. -/
theorem C3_reachable_invariant (table : SymbolTable) (h : Reachable table) :
    table.table.length = table.size ∧
    ((entries table).map SymbolEntry.name).Nodup ∧
    (∀ i entry, entry ∈ table.table.getD i [] → hash_string entry.name table.size = i) ∧
    table.count = (table.table.map List.length).sum := by
  have hwf := h.wellFormed
  refine ⟨hwf.length_eq, hwf.nodup, hwf.bucket, ?_⟩
  rw [hwf.count_eq, entries, List.length_flatten]

theorem C3_reachable_invariant_witness :
    Reachable (set_symbol_value
      (insert_symbol (create_symbol_table 101) "B" SymbolType.SYM_BOOLEAN 1).1 "B" 1 1) ∧
    (set_symbol_value
      (insert_symbol (create_symbol_table 101) "B" SymbolType.SYM_BOOLEAN 1).1 "B" 1 1).count
      = ((set_symbol_value
      (insert_symbol (create_symbol_table 101) "B" SymbolType.SYM_BOOLEAN 1).1 "B" 1 1).table.map
        List.length).sum :=
  ⟨Reachable.set _ _ _ _ (Reachable.insert _ _ _ _ (Reachable.create 101 (by decide))),
   (C3_reachable_invariant _
      (Reachable.set _ "B" 1 1
        (Reachable.insert _ "B" SymbolType.SYM_BOOLEAN 1
          (Reachable.create 101 (by decide))))).2.2.2⟩

/-- C4: in a table built from `create_symbol_table size` (`size > 0`) by
`insert_symbol` calls, `lookup_symbol name` returns the entry made by the first
call that inserted `name` (an entry named `name`) when there is such a call and
nothing otherwise; a lookup right after `insert_symbol name` returns an entry
named `name`; an insert of a different name does not change the lookup. -/
theorem C4_lookup_symbol (size : Nat) (hsize : 0 < size)
    (calls : List (String × SymbolType × Int)) (name : String) :
    lookup_symbol (build size calls) name
      = (calls.find? (fun call => call.1 == name)).map
          (fun call => new_entry call.1 call.2.1 call.2.2) ∧
    (name ∈ calls.map Prod.fst →
      ∃ entry, lookup_symbol (build size calls) name = some entry ∧ entry.name = name) ∧
    (name ∉ calls.map Prod.fst → lookup_symbol (build size calls) name = none) ∧
    (∀ type line, ∃ entry,
      lookup_symbol (insert_symbol (build size calls) name type line).1 name = some entry ∧
      entry.name = name) ∧
    (∀ other type line, other ≠ name →
      lookup_symbol (insert_symbol (build size calls) other type line).1 name
        = lookup_symbol (build size calls) name) := by
  have hwf := wellFormed_build size hsize calls
  have hmain : lookup_symbol (build size calls) name
      = (calls.find? (fun call => call.1 == name)).map
          (fun call => new_entry call.1 call.2.1 call.2.2) := by
    unfold build
    rw [lookup_foldl_insert calls (wellFormed_create size hsize), lookup_create]
  refine ⟨hmain, ?_, ?_, ?_, ?_⟩
  · intro hin
    obtain ⟨call, hcall, hname⟩ := List.mem_map.1 hin
    cases hfind : calls.find? (fun call => call.1 == name) with
    | none =>
      have := List.find?_eq_none.1 hfind call hcall
      simp [hname] at this
    | some found =>
      have hfound := List.find?_some hfind
      refine ⟨new_entry found.1 found.2.1 found.2.2, ?_, ?_⟩
      · rw [hmain, hfind]; rfl
      · simpa [new_entry] using hfound
  · intro hnot
    rw [hmain]
    have : calls.find? (fun call => call.1 == name) = none := by
      apply List.find?_eq_none.2
      intro call hcall hname
      exact hnot (List.mem_map.2 ⟨call, hcall, by simpa using hname⟩)
    rw [this]; rfl
  · intro type line
    rw [lookup_insert_symbol hwf]
    simp only [if_true]
    cases h : lookup_symbol (build size calls) name with
    | none => exact ⟨_, rfl, rfl⟩
    | some entry => exact ⟨entry, rfl, (lookup_symbol_mem h).2⟩
  · intro other type line hne
    rw [lookup_insert_symbol hwf]
    simp [hne]

theorem C4_lookup_symbol_witness :
    0 < 101 ∧
    lookup_symbol (build 101 [("B", SymbolType.SYM_BOOLEAN, 1), ("C", SymbolType.SYM_BOOLEAN, 2)])
      "C" = some (new_entry "C" SymbolType.SYM_BOOLEAN 2) :=
  ⟨by decide,
   (C4_lookup_symbol 101 (by decide)
      [("B", SymbolType.SYM_BOOLEAN, 1), ("C", SymbolType.SYM_BOOLEAN, 2)] "C").1.trans
      (by decide)⟩

/-- C5: in a well-formed table that holds `entry`, `mark_symbol_used` on its
name leaves an entry that differs from `entry` at most in `is_used` (now
non-zero: 1 where it was 0) and in `line_used` (the given line where the entry
was unused, the old line where it was already used); type, defined flag,
declaration line and value are those of `entry`; every other entry, the count
and the size are unchanged. -/
theorem C5_mark_symbol_used (table : SymbolTable) (hwf : WellFormed table)
    (entry : SymbolEntry) (hmem : entry ∈ entries table) (line : Int) :
    ∃ marked : SymbolEntry,
      marked = { entry with
                  is_used := if entry.is_used = 0 then 1 else entry.is_used
                  line_used := if entry.is_used = 0 then line else entry.line_used } ∧
      marked.is_used ≠ 0 ∧
      lookup_symbol (mark_symbol_used table entry.name line) entry.name = some marked ∧
      entries (mark_symbol_used table entry.name line)
        = (entries table).map (fun x => if x.name = entry.name then marked else x) ∧
      (∀ other, other ≠ entry.name →
        lookup_symbol (mark_symbol_used table entry.name line) other
          = lookup_symbol table other) ∧
      (mark_symbol_used table entry.name line).count = table.count ∧
      (mark_symbol_used table entry.name line).size = table.size := by
  have hlook := hwf.lookup_of_mem hmem
  have hmark : mark_symbol_used table entry.name line
      = update_symbol table entry.name (mark_entry_used line) := by
    simp [mark_symbol_used, hlook]
  have hmarked : mark_entry_used line entry
      = { entry with
            is_used := if entry.is_used = 0 then 1 else entry.is_used
            line_used := if entry.is_used = 0 then line else entry.line_used } := by
    unfold mark_entry_used
    split <;> rfl
  refine ⟨_, rfl, ?_, ?_, ?_, ?_, ?_, ?_⟩
  · simp only []
    split <;> simp_all
  · rw [hmark, lookup_update_symbol hwf _ _ (mark_entry_used_name line), hlook, ← hmarked]
    simp
  · rw [hmark, entries_update_symbol hwf, ← hmarked]
    apply List.map_congr_left
    intro x hx
    by_cases hname : x.name = entry.name
    · rw [hwf.eq_of_name_eq hx hmem hname]
    · simp [hname]
  · intro other hne
    rw [hmark, lookup_update_symbol hwf _ _ (mark_entry_used_name line)]
    simp [hne]
  · rw [hmark]; rfl
  · rw [hmark]; rfl

theorem C5_mark_symbol_used_witness :
    WellFormed (insert_symbol (create_symbol_table 101) "B" SymbolType.SYM_BOOLEAN 1).1 ∧
    new_entry "B" SymbolType.SYM_BOOLEAN 1
      ∈ entries (insert_symbol (create_symbol_table 101) "B" SymbolType.SYM_BOOLEAN 1).1 ∧
    lookup_symbol
      (mark_symbol_used (insert_symbol (create_symbol_table 101) "B" SymbolType.SYM_BOOLEAN 1).1
        "B" 3) "B"
      = some { new_entry "B" SymbolType.SYM_BOOLEAN 1 with is_used := 1, line_used := 3 } := by
  refine ⟨wellFormed_insert (wellFormed_create 101 (by decide)) _ _ _, by decide, ?_⟩
  obtain ⟨marked, hmarked, _, hlook, _⟩ :=
    C5_mark_symbol_used (insert_symbol (create_symbol_table 101) "B" SymbolType.SYM_BOOLEAN 1).1
      (wellFormed_insert (wellFormed_create 101 (by decide)) _ _ _)
      (new_entry "B" SymbolType.SYM_BOOLEAN 1) (by decide) 3
  rw [show (new_entry "B" SymbolType.SYM_BOOLEAN 1).name = "B" from rfl] at hlook
  rw [hlook, hmarked]
  decide

end Phase3

namespace Phase3

/-- C6: in a well-formed table that holds `entry`, `set_symbol_value` on its
name leaves an entry with `is_defined = 1` and the given declaration line,
whose value is the given one when the entry's type is Boolean and the old
value otherwise; name, type, used flag and first-use line are those of
`entry`; every other entry, the count and the size are unchanged. -/
theorem C6_set_symbol_value (table : SymbolTable) (hwf : WellFormed table)
    (entry : SymbolEntry) (hmem : entry ∈ entries table) (bool_val line : Int) :
    ∃ updated : SymbolEntry,
      updated = { entry with
                  is_defined := 1
                  line_declared := line
                  value := if entry.type = SymbolType.SYM_BOOLEAN
                           then SymbolValue.bool_value bool_val else entry.value } ∧
      lookup_symbol (set_symbol_value table entry.name bool_val line) entry.name
        = some updated ∧
      entries (set_symbol_value table entry.name bool_val line)
        = (entries table).map (fun x => if x.name = entry.name then updated else x) ∧
      (∀ other, other ≠ entry.name →
        lookup_symbol (set_symbol_value table entry.name bool_val line) other
          = lookup_symbol table other) ∧
      (set_symbol_value table entry.name bool_val line).count = table.count ∧
      (set_symbol_value table entry.name bool_val line).size = table.size := by
  have hlook := hwf.lookup_of_mem hmem
  have hset : set_symbol_value table entry.name bool_val line
      = update_symbol table entry.name (set_entry_value bool_val line) := by
    simp [set_symbol_value, hlook]
  refine ⟨set_entry_value bool_val line entry, rfl, ?_, ?_, ?_, ?_, ?_⟩
  · rw [hset, lookup_update_symbol hwf _ _ (set_entry_value_name bool_val line), hlook]
    simp
  · rw [hset, entries_update_symbol hwf]
    apply List.map_congr_left
    intro x hx
    by_cases hname : x.name = entry.name
    · rw [hwf.eq_of_name_eq hx hmem hname]
    · simp [hname]
  · intro other hne
    rw [hset, lookup_update_symbol hwf _ _ (set_entry_value_name bool_val line)]
    simp [hne]
  · rw [hset]; rfl
  · rw [hset]; rfl

theorem C6_set_symbol_value_witness :
    WellFormed (insert_symbol (create_symbol_table 101) "B" SymbolType.SYM_BOOLEAN 1).1 ∧
    new_entry "B" SymbolType.SYM_BOOLEAN 1
      ∈ entries (insert_symbol (create_symbol_table 101) "B" SymbolType.SYM_BOOLEAN 1).1 ∧
    lookup_symbol
      (set_symbol_value (insert_symbol (create_symbol_table 101) "B" SymbolType.SYM_BOOLEAN 1).1
        "B" 1 4) "B"
      = some { new_entry "B" SymbolType.SYM_BOOLEAN 1 with
                is_defined := 1, line_declared := 4, value := SymbolValue.bool_value 1 } := by
  refine ⟨wellFormed_insert (wellFormed_create 101 (by decide)) _ _ _, by decide, ?_⟩
  obtain ⟨updated, hupdated, hlook, _⟩ :=
    C6_set_symbol_value (insert_symbol (create_symbol_table 101) "B" SymbolType.SYM_BOOLEAN 1).1
      (wellFormed_insert (wellFormed_create 101 (by decide)) _ _ _)
      (new_entry "B" SymbolType.SYM_BOOLEAN 1) (by decide) 1 4
  rw [show (new_entry "B" SymbolType.SYM_BOOLEAN 1).name = "B" from rfl] at hlook
  rw [hlook, hupdated]
  decide

/-- C7: for every symbol table whose bucket array has `size` cells,
`check_undefined_symbols` is the number of entries with `used ∧ ¬defined` and
`check_unused_symbols` the number of entries with `defined ∧ ¬used`, each
entry of each chain counted once. -/
theorem C7_check_counts (table : SymbolTable) (hlen : table.table.length = table.size) :
    check_undefined_symbols table
      = ((entries table).filter
          (fun entry => decide (entry.is_used ≠ 0 ∧ entry.is_defined = 0))).length ∧
    check_unused_symbols table
      = ((entries table).filter
          (fun entry => decide (entry.is_defined ≠ 0 ∧ entry.is_used = 0))).length := by
  unfold check_undefined_symbols check_unused_symbols
  rw [count_table_eq _ _ hlen, count_table_eq _ _ hlen, List.countP_eq_length_filter,
    List.countP_eq_length_filter]
  constructor
  · congr 2
    funext entry
    exact is_undefined_eq entry
  · congr 2
    funext entry
    exact is_unused_eq entry

theorem C7_check_counts_witness :
    (mark_symbol_used (insert_symbol (create_symbol_table 101) "X"
        SymbolType.SYM_IDENTIFIER 1).1 "X" 1).table.length
      = (mark_symbol_used (insert_symbol (create_symbol_table 101) "X"
        SymbolType.SYM_IDENTIFIER 1).1 "X" 1).size ∧
    check_undefined_symbols (mark_symbol_used (insert_symbol (create_symbol_table 101) "X"
        SymbolType.SYM_IDENTIFIER 1).1 "X" 1) = 1 :=
  ⟨by decide,
   (C7_check_counts (mark_symbol_used (insert_symbol (create_symbol_table 101) "X"
        SymbolType.SYM_IDENTIFIER 1).1 "X" 1) (by decide)).1.trans (by decide)⟩

/-- C8 fails as stated: after a single `insert_symbol` the table counts one
symbol, which is neither used nor defined, so the three classes of the claim
are empty while `count` is 1. -/
theorem C8_counterexample :
    Reachable (insert_symbol (create_symbol_table 101) "X" SymbolType.SYM_IDENTIFIER 1).1 ∧
    check_undefined_symbols
        (insert_symbol (create_symbol_table 101) "X" SymbolType.SYM_IDENTIFIER 1).1
      + ((entries (insert_symbol (create_symbol_table 101) "X"
            SymbolType.SYM_IDENTIFIER 1).1).filter
          (fun entry => decide (entry.is_defined ≠ 0 ∧ entry.is_used ≠ 0))).length
      + ((entries (insert_symbol (create_symbol_table 101) "X"
            SymbolType.SYM_IDENTIFIER 1).1).filter
          (fun entry => decide (entry.is_defined ≠ 0 ∧ entry.is_used = 0))).length
      ≠ (insert_symbol (create_symbol_table 101) "X" SymbolType.SYM_IDENTIFIER 1).1.count :=
  ⟨Reachable.insert _ _ _ _ (Reachable.create 101 (by decide)), by decide⟩

/-- C8, amended: in every reachable table the entries fall into four classes,
and `check_undefined_symbols` plus the number of entries `defined ∧ used` plus
the number of entries `defined ∧ ¬used` (which is `check_unused_symbols`) plus
the number of entries that are neither defined nor used equals `count`. -/
theorem C8_count_partition (table : SymbolTable) (h : Reachable table) :
    check_undefined_symbols table
      + ((entries table).filter
          (fun entry => decide (entry.is_defined ≠ 0 ∧ entry.is_used ≠ 0))).length
      + ((entries table).filter
          (fun entry => decide (entry.is_defined ≠ 0 ∧ entry.is_used = 0))).length
      + ((entries table).filter
          (fun entry => decide (entry.is_defined = 0 ∧ entry.is_used = 0))).length
      = table.count ∧
    check_unused_symbols table
      = ((entries table).filter
          (fun entry => decide (entry.is_defined ≠ 0 ∧ entry.is_used = 0))).length := by
  have hwf := h.wellFormed
  have hfour := countP_four_classes (entries table)
  unfold check_undefined_symbols check_unused_symbols
  rw [count_table_eq _ _ hwf.length_eq, count_table_eq _ _ hwf.length_eq, hwf.count_eq,
    ← hfour]
  simp only [List.countP_eq_length_filter]
  have e2 : (fun entry : SymbolEntry => decide (entry.is_defined ≠ 0 ∧ entry.is_used ≠ 0))
      = (fun entry => entry.is_defined != 0 && entry.is_used != 0) := by
    funext entry
    by_cases hd : entry.is_defined = 0 <;> by_cases hu : entry.is_used = 0 <;> simp [hd, hu]
  have e3 : (fun entry : SymbolEntry => decide (entry.is_defined ≠ 0 ∧ entry.is_used = 0))
      = is_unused := by
    funext entry; exact (is_unused_eq entry).symm
  have e4 : (fun entry : SymbolEntry => decide (entry.is_defined = 0 ∧ entry.is_used = 0))
      = (fun entry => entry.is_defined == 0 && entry.is_used == 0) := by
    funext entry
    by_cases hd : entry.is_defined = 0 <;> by_cases hu : entry.is_used = 0 <;> simp [hd, hu]
  rw [e2, e3, e4]
  exact ⟨rfl, rfl⟩

theorem C8_count_partition_witness :
    Reachable (insert_symbol (create_symbol_table 101) "X" SymbolType.SYM_IDENTIFIER 1).1 ∧
    check_unused_symbols
        (insert_symbol (create_symbol_table 101) "X" SymbolType.SYM_IDENTIFIER 1).1
      = ((entries (insert_symbol (create_symbol_table 101) "X"
            SymbolType.SYM_IDENTIFIER 1).1).filter
          (fun entry => decide (entry.is_defined ≠ 0 ∧ entry.is_used = 0))).length :=
  ⟨Reachable.insert _ _ _ _ (Reachable.create 101 (by decide)),
   (C8_count_partition _
      (Reachable.insert _ "X" SymbolType.SYM_IDENTIFIER 1 (Reachable.create 101 (by decide)))).2⟩

end Phase3

/-! ## Theorems: semantic analyzer -/

namespace Phase3

theorem mem_flatten_set {α : Type} (l : List (List α)) (i : Nat) (c : List α) (a : α)
    (h : a ∈ (l.set i c).flatten) : a ∈ c ∨ a ∈ l.flatten := by
  induction l generalizing i with
  | nil => simp at h
  | cons d ds ih =>
    cases i with
    | zero =>
      simp only [List.set_cons_zero, List.flatten_cons, List.mem_append] at h ⊢
      rcases h with h | h
      · exact Or.inl h
      · exact Or.inr (Or.inr h)
    | succ i =>
      simp only [List.set_cons_succ, List.flatten_cons, List.mem_append] at h ⊢
      rcases h with h | h
      · exact Or.inr (Or.inl h)
      · rcases ih i h with h | h
        · exact Or.inl h
        · exact Or.inr (Or.inr h)

theorem table_names_insert (table : SymbolTable) (name : String) (type : SymbolType)
    (line : Int) (other : String)
    (h : other ∈ table_names (insert_symbol table name type line).1) :
    other ∈ table_names table ∨ other = name := by
  cases hlook : lookup_symbol table name with
  | some entry =>
    rw [insert_symbol_of_lookup_some hlook] at h
    exact Or.inl h
  | none =>
    rw [insert_symbol_of_lookup_none hlook] at h
    obtain ⟨entry, hentry, rfl⟩ := List.mem_map.1 h
    rcases mem_flatten_set _ _ _ _ hentry with hin | hin
    · rcases List.mem_cons.1 hin with rfl | hin
      · exact Or.inr rfl
      · exact Or.inl (List.mem_map_of_mem _ (mem_flatten_of_mem_getD _ _ _ hin))
    · exact Or.inl (List.mem_map_of_mem _ hin)

theorem table_names_update (table : SymbolTable) (name : String)
    (f : SymbolEntry → SymbolEntry) (hf : ∀ entry, (f entry).name = entry.name)
    (other : String) (h : other ∈ table_names (update_symbol table name f)) :
    other ∈ table_names table := by
  obtain ⟨entry, hentry, rfl⟩ := List.mem_map.1 h
  rcases mem_flatten_set _ _ _ _ hentry with hin | hin
  · have hname : entry.name ∈ (update_chain name f
        (table.table.getD (hash_string name table.size) [])).map SymbolEntry.name :=
      List.mem_map_of_mem _ hin
    rw [update_chain_names name f hf] at hname
    obtain ⟨e, he, hname⟩ := List.mem_map.1 hname
    rw [← hname]
    exact List.mem_map_of_mem _ (mem_flatten_of_mem_getD _ _ _ he)
  · exact List.mem_map_of_mem _ hin

theorem table_names_mark (table : SymbolTable) (name : String) (line : Int) (other : String)
    (h : other ∈ table_names (mark_symbol_used table name line)) :
    other ∈ table_names table := by
  unfold mark_symbol_used at h
  split at h
  · exact table_names_update _ _ _ (mark_entry_used_name line) _ h
  · exact h

theorem table_names_set (table : SymbolTable) (name : String) (bool_val line : Int)
    (other : String) (h : other ∈ table_names (set_symbol_value table name bool_val line)) :
    other ∈ table_names table := by
  unfold set_symbol_value at h
  split at h
  · exact table_names_update _ _ _ (set_entry_value_name bool_val line) _ h
  · exact h

theorem table_names_known (table : SymbolTable) (other : String)
    (h : other ∈ table_names (process_known_symbols table)) :
    other ∈ table_names table ∨ other = "B" ∨ other = "C" := by
  unfold process_known_symbols at h
  have h5 := table_names_mark _ _ _ _ h
  have h4 := table_names_set _ _ _ _ _ h5
  rcases table_names_insert _ _ _ _ _ h4 with h3 | h3
  · have h2 := table_names_mark _ _ _ _ h3
    have h1 := table_names_set _ _ _ _ _ h2
    rcases table_names_insert _ _ _ _ _ h1 with h0 | h0
    · exact Or.inl h0
    · exact Or.inr (Or.inl h0)
  · exact Or.inr (Or.inr h3)

theorem semantic_validation_table (ctx : SemanticContext) :
    (semantic_validation ctx).symbol_table = ctx.symbol_table := by
  unfold semantic_validation
  simp only []
  split <;> split <;> rfl

theorem analyze_identifier_names (ctx : SemanticContext) (node : ASTNode) (other : String)
    (h : other ∈ table_names (analyze_identifier ctx node).1.symbol_table) :
    other ∈ table_names ctx.symbol_table ∨ other ∈ node.names := by
  cases node with
  | null => exact Or.inl h
  | mk type node_type_str line_number semantic_type is_constant bool_value data =>
    unfold analyze_identifier at h
    cases hname : data.get_identifier with
    | none =>
      simp only [hname] at h
      exact Or.inl h
    | some name =>
      simp only [hname] at h
      have hdata : data = NodeData.identifier (some name) := by
        cases data <;> simp_all [NodeData.get_identifier]
      have h1 := table_names_mark _ _ _ _ h
      cases hlook : lookup_symbol ctx.symbol_table name with
      | some entry =>
        simp only [hlook] at h1
        exact Or.inl h1
      | none =>
        simp only [hlook] at h1
        rcases table_names_insert _ _ _ _ _ h1 with h0 | h0
        · exact Or.inl h0
        · right
          subst hdata
          simp [ASTNode.names, NodeData.names, h0]

theorem analyze_expression_names (ctx : SemanticContext) (node : ASTNode) (other : String)
    (h : other ∈ table_names (analyze_expression ctx node).1.symbol_table) :
    other ∈ table_names ctx.symbol_table ∨ other ∈ node.names := by
  cases node with
  | null => exact Or.inl h
  | mk type node_type_str line_number semantic_type is_constant bool_value data =>
    unfold analyze_expression at h
    simp only [] at h
    split at h
    · exact analyze_identifier_names _ _ _ h
    · split at h
      · exact Or.inl h
      · split at h
        · unfold analyze_binary_operation at h
          simp only [] at h
          split at h <;> exact Or.inl h
        · split at h
          · unfold analyze_unary_operation at h
            simp only [] at h
            split at h <;> exact Or.inl h
          · exact Or.inl h

mutual
theorem analyze_node_names (ctx : SemanticContext) (other : String) :
    ∀ node : ASTNode, other ∈ table_names (analyze_node ctx node).1.symbol_table →
      other ∈ table_names ctx.symbol_table ∨ other ∈ node.names
  | ASTNode.null => fun h => Or.inl h
  | ASTNode.mk type node_type_str line_number semantic_type is_constant bool_value data => by
    intro h
    unfold analyze_node at h
    split at h
    · cases data with
      | program statements =>
        simp only [] at h
        rcases analyze_statements_names ctx other statements h with h0 | h0
        · exact Or.inl h0
        · exact Or.inr (by simpa [ASTNode.names, NodeData.names] using h0)
      | zero => exact Or.inl h
      | identifier name => exact Or.inl h
      | bool_literal value => exact Or.inl h
      | assignment var_name value => exact Or.inl h
      | binary left right => exact Or.inl h
      | unary operand => exact Or.inl h
    · split at h
      · exact Or.inl h
      · split at h
        · exact Or.inl h
        · exact analyze_expression_names _ _ _ h
theorem analyze_statements_names (ctx : SemanticContext) (other : String) :
    ∀ statements : List ASTNode,
      other ∈ table_names (analyze_statements ctx statements).1.symbol_table →
      other ∈ table_names ctx.symbol_table ∨ other ∈ names_of_list statements
  | [] => fun h => Or.inl h
  | statement :: rest => by
    intro h
    unfold analyze_statements at h
    simp only [] at h
    rcases analyze_statements_names (analyze_node ctx statement).1 other rest h with h1 | h1
    · rcases analyze_node_names ctx other statement h1 with h0 | h0
      · exact Or.inl h0
      · exact Or.inr (by simp [names_of_list, h0])
    · exact Or.inr (by simp [names_of_list, h1])
end

end Phase3

namespace Phase3

/-! ### The two symbols that every analysis enters -/

theorem wellFormed_analyze_identifier (ctx : SemanticContext) (node : ASTNode)
    (hwf : WellFormed ctx.symbol_table) :
    WellFormed (analyze_identifier ctx node).1.symbol_table := by
  cases node with
  | null => exact hwf
  | mk type node_type_str line_number semantic_type is_constant bool_value data =>
    unfold analyze_identifier
    cases hname : data.get_identifier with
    | none =>
      simp only [hname]
      exact hwf
    | some name =>
      simp only [hname]
      apply wellFormed_mark
      split
      · exact hwf
      · exact wellFormed_insert hwf _ _ _

theorem wellFormed_analyze_expression (ctx : SemanticContext) (node : ASTNode)
    (hwf : WellFormed ctx.symbol_table) :
    WellFormed (analyze_expression ctx node).1.symbol_table := by
  cases node with
  | null => exact hwf
  | mk type node_type_str line_number semantic_type is_constant bool_value data =>
    unfold analyze_expression
    simp only []
    split
    · exact wellFormed_analyze_identifier _ _ hwf
    · split
      · exact hwf
      · split
        · unfold analyze_binary_operation
          simp only []
          split <;> exact hwf
        · split
          · unfold analyze_unary_operation
            simp only []
            split <;> exact hwf
          · exact hwf

mutual
theorem wellFormed_analyze_node (ctx : SemanticContext) (hwf : WellFormed ctx.symbol_table) :
    ∀ node : ASTNode, WellFormed (analyze_node ctx node).1.symbol_table
  | ASTNode.null => hwf
  | ASTNode.mk type node_type_str line_number semantic_type is_constant bool_value data => by
    unfold analyze_node
    split
    · cases data with
      | program statements => exact wellFormed_analyze_statements ctx hwf statements
      | zero => exact hwf
      | identifier name => exact hwf
      | bool_literal value => exact hwf
      | assignment var_name value => exact hwf
      | binary left right => exact hwf
      | unary operand => exact hwf
    · split
      · exact hwf
      · split
        · exact hwf
        · exact wellFormed_analyze_expression _ _ hwf
theorem wellFormed_analyze_statements (ctx : SemanticContext)
    (hwf : WellFormed ctx.symbol_table) :
    ∀ statements : List ASTNode, WellFormed (analyze_statements ctx statements).1.symbol_table
  | [] => hwf
  | statement :: rest => by
    unfold analyze_statements
    exact wellFormed_analyze_statements (analyze_node ctx statement).1
      (wellFormed_analyze_node ctx hwf statement) rest
end

theorem lookup_mark_symbol_used (table : SymbolTable) (hwf : WellFormed table)
    (name : String) (line : Int) (other : String) :
    lookup_symbol (mark_symbol_used table name line) other
      = if other = name then (lookup_symbol table name).map (mark_entry_used line)
        else lookup_symbol table other := by
  unfold mark_symbol_used
  cases h : lookup_symbol table name with
  | some entry =>
    simp only []
    rw [lookup_update_symbol hwf _ _ (mark_entry_used_name line), h]
  | none =>
    simp only []
    split
    · next hother => rw [hother, h]; rfl
    · rfl

theorem lookup_set_symbol_value (table : SymbolTable) (hwf : WellFormed table)
    (name : String) (bool_val line : Int) (other : String) :
    lookup_symbol (set_symbol_value table name bool_val line) other
      = if other = name then (lookup_symbol table name).map (set_entry_value bool_val line)
        else lookup_symbol table other := by
  unfold set_symbol_value
  cases h : lookup_symbol table name with
  | some entry =>
    simp only []
    rw [lookup_update_symbol hwf _ _ (set_entry_value_name bool_val line), h]
  | none =>
    simp only []
    split
    · next hother => rw [hother, h]; rfl
    · rfl

/-- After an insert, a set and a mark of the same name, the name has an entry
that is defined and used. -/
theorem lookup_insert_set_mark (table : SymbolTable) (hwf : WellFormed table) (name : String)
    (type : SymbolType) (line bool_val line_set line_used : Int) :
    ∃ entry,
      lookup_symbol
        (mark_symbol_used
          (set_symbol_value (insert_symbol table name type line).1 name bool_val line_set)
          name line_used) name = some entry ∧
      entry.name = name ∧ entry.is_defined = 1 ∧ entry.is_used ≠ 0 := by
  have hwf₁ := wellFormed_insert hwf name type line
  have hwf₂ := wellFormed_set hwf₁ name bool_val line_set
  rw [lookup_mark_symbol_used _ hwf₂, if_pos rfl, lookup_set_symbol_value _ hwf₁, if_pos rfl,
    lookup_insert_symbol hwf, if_pos rfl]
  refine ⟨_, rfl, ?_, ?_, ?_⟩
  · rw [mark_entry_used_name, set_entry_value_name]
    cases h : lookup_symbol table name with
    | none => rfl
    | some entry => exact (lookup_symbol_mem h).2
  · unfold mark_entry_used
    split <;> rfl
  · unfold mark_entry_used
    split
    · simp
    · next h => exact h

theorem known_symbols_present (table : SymbolTable) (hwf : WellFormed table) :
    (∃ entry, lookup_symbol (process_known_symbols table) "B" = some entry ∧
      entry.name = "B" ∧ entry.is_defined = 1 ∧ entry.is_used ≠ 0) ∧
    (∃ entry, lookup_symbol (process_known_symbols table) "C" = some entry ∧
      entry.name = "C" ∧ entry.is_defined = 1 ∧ entry.is_used ≠ 0) := by
  have hwf₁ := wellFormed_insert hwf "B" SymbolType.SYM_BOOLEAN 1
  have hwf₂ := wellFormed_set hwf₁ "B" 1 1
  have hwf₃ := wellFormed_mark hwf₂ "B" 3
  have hwf₄ := wellFormed_insert hwf₃ "C" SymbolType.SYM_BOOLEAN 2
  have hwf₅ := wellFormed_set hwf₄ "C" 0 2
  constructor
  · obtain ⟨entry, hentry, hprops⟩ :=
      lookup_insert_set_mark table hwf "B" SymbolType.SYM_BOOLEAN 1 1 1 3
    refine ⟨entry, ?_, hprops⟩
    unfold process_known_symbols
    simp only []
    rw [lookup_mark_symbol_used _ hwf₅, if_neg (by decide), lookup_set_symbol_value _ hwf₄,
      if_neg (by decide), lookup_insert_symbol hwf₃, if_neg (by decide)]
    exact hentry
  · exact lookup_insert_set_mark _ hwf₃ "C" SymbolType.SYM_BOOLEAN 2 0 2 3

end Phase3

namespace Phase3

/-! ### Claims about the semantic analyzer -/

/-- C9 fails as stated: the analysis of a program with no statements, in a
fresh context, ends with a table that holds the two symbols `B` and `C`, and
neither name occurs in the tree. -/
theorem C9_counterexample :
    (ASTNode.mk 1 "PROGRAM (line 1) - 0 statements" 1 SymbolType.SYM_UNKNOWN 0 0
        (NodeData.program [])).names = [] ∧
    table_names (perform_semantic_analysis create_semantic_context
      (ASTNode.mk 1 "PROGRAM (line 1) - 0 statements" 1 SymbolType.SYM_UNKNOWN 0 0
        (NodeData.program []))).2.1.symbol_table = ["B", "C"] := by
  decide

/-- C9, amended: after `perform_semantic_analysis` in a fresh context, every
name in the symbol table occurs in the tree (as an identifier or as an
assignment target) or is one of the two names `B` and `C` that the analysis
enters for every input; the table of a program with no statements holds
exactly `B` and `C`; after the analysis of any tree `B` and `C` have an entry
that is defined and used. -/
theorem C9_symbols_from_ast_or_known (ast : ASTNode) :
    (∀ name ∈ table_names
        (perform_semantic_analysis create_semantic_context ast).2.1.symbol_table,
      name ∈ ast.names ∨ name = "B" ∨ name = "C") ∧
    (∀ (node_type_str : String) (line_number : Int) (semantic_type : SymbolType)
       (is_constant bool_value : Int),
      table_names (perform_semantic_analysis create_semantic_context
        (ASTNode.mk 1 node_type_str line_number semantic_type is_constant bool_value
          (NodeData.program []))).2.1.symbol_table = ["B", "C"]) ∧
    (∀ (type : Int) (node_type_str : String) (line_number : Int) (semantic_type : SymbolType)
       (is_constant bool_value : Int) (data : NodeData),
      (∃ entry, lookup_symbol (perform_semantic_analysis create_semantic_context
          (ASTNode.mk type node_type_str line_number semantic_type is_constant bool_value
            data)).2.1.symbol_table "B" = some entry ∧
        entry.name = "B" ∧ entry.is_defined = 1 ∧ entry.is_used ≠ 0) ∧
      (∃ entry, lookup_symbol (perform_semantic_analysis create_semantic_context
          (ASTNode.mk type node_type_str line_number semantic_type is_constant bool_value
            data)).2.1.symbol_table "C" = some entry ∧
        entry.name = "C" ∧ entry.is_defined = 1 ∧ entry.is_used ≠ 0)) := by
  refine ⟨?_, ?_, ?_⟩
  · intro name hname
    cases ast with
    | null =>
      have : table_names (create_symbol_table 101) = [] := by
        simp [table_names, entries, create_symbol_table]
      simp [perform_semantic_analysis, create_semantic_context, this] at hname
    | mk type node_type_str line_number semantic_type is_constant bool_value data =>
      unfold perform_semantic_analysis at hname
      simp only [semantic_validation_table] at hname
      rcases table_names_known _ _ hname with h | h
      · rcases analyze_node_names _ _ _ h with h0 | h0
        · have : table_names (create_symbol_table 101) = [] := by
            simp [table_names, entries, create_symbol_table]
          simp [create_semantic_context, this] at h0
        · exact Or.inl h0
      · exact Or.inr h
  · intro node_type_str line_number semantic_type is_constant bool_value
    unfold perform_semantic_analysis
    simp only [semantic_validation_table]
    have hwalk : (analyze_node create_semantic_context
        (ASTNode.mk 1 node_type_str line_number semantic_type is_constant bool_value
          (NodeData.program []))).1 = create_semantic_context := by
      simp [analyze_node, analyze_statements]
    rw [hwalk]
    decide
  · intro type node_type_str line_number semantic_type is_constant bool_value data
    unfold perform_semantic_analysis
    simp only [semantic_validation_table]
    exact known_symbols_present _
      (wellFormed_analyze_node create_semantic_context (wellFormed_create 101 (by decide)) _)

/-- C10 fails as stated: after `analyze_node` on the assignment `Y := TRUE` of
line 1, in a fresh context, the symbol table has no entry for `Y`. -/
theorem C10_counterexample :
    (analyze_node create_semantic_context
      (ASTNode.mk 2 "ASSIGNMENT (line 1)" 1 SymbolType.SYM_UNKNOWN 0 0
        (NodeData.assignment (some "Y")
          (ASTNode.mk 5 "BOOLEAN: TRUE (line 1)" 1 SymbolType.SYM_UNKNOWN 1 1
            (NodeData.bool_literal 1))))).2.get_semantic_type = some SymbolType.SYM_BOOLEAN ∧
    lookup_symbol (analyze_node create_semantic_context
      (ASTNode.mk 2 "ASSIGNMENT (line 1)" 1 SymbolType.SYM_UNKNOWN 0 0
        (NodeData.assignment (some "Y")
          (ASTNode.mk 5 "BOOLEAN: TRUE (line 1)" 1 SymbolType.SYM_UNKNOWN 1 1
            (NodeData.bool_literal 1))))).1.symbol_table "Y" = none ∧
    table_names (analyze_node create_semantic_context
      (ASTNode.mk 2 "ASSIGNMENT (line 1)" 1 SymbolType.SYM_UNKNOWN 0 0
        (NodeData.assignment (some "Y")
          (ASTNode.mk 5 "BOOLEAN: TRUE (line 1)" 1 SymbolType.SYM_UNKNOWN 1 1
            (NodeData.bool_literal 1))))).1.symbol_table = [] := by
  decide

/-- C10, amended: for every assignment node (tag 2), whatever its target
variable, value and line, `analyze_node` and `analyze_assignment` set the
node's inferred type to Boolean and change nothing else: the other fields of
the node are kept, and the context (symbol table, errors and counters) is
returned as it was, so no entry is made or marked defined for the target. -/
theorem C10_analyze_assignment (ctx : SemanticContext) (node_type_str : String)
    (line_number : Int) (semantic_type : SymbolType) (is_constant bool_value : Int)
    (data : NodeData) :
    analyze_node ctx
        (ASTNode.mk 2 node_type_str line_number semantic_type is_constant bool_value data)
      = (ctx, ASTNode.mk 2 node_type_str line_number SymbolType.SYM_BOOLEAN is_constant
          bool_value data) ∧
    analyze_assignment ctx
        (ASTNode.mk 2 node_type_str line_number semantic_type is_constant bool_value data)
      = (ctx, ASTNode.mk 2 node_type_str line_number SymbolType.SYM_BOOLEAN is_constant
          bool_value data) := by
  constructor
  · unfold analyze_node
    simp [analyze_assignment, ASTNode.set_semantic_type]
  · simp [analyze_assignment, ASTNode.set_semantic_type]

end Phase3

/-! ## Theorems: the round trip through the AST file -/

namespace Codec

open Phase3 (strstr strchr isspace isdigit trim_whitespace trim_whitespace_buffer
  parse_node_type load_line fgets_lines load_ast_from_file LoaderState)

/-! ### Substring search -/

theorem strstr_isSome_iff (haystack needle : List Char) :
    (strstr haystack needle).isSome ↔ needle <:+: haystack := by
  induction haystack with
  | nil =>
    unfold strstr
    by_cases h : needle = []
    · simp [h]
    · simp [h]
  | cons c rest ih =>
    unfold strstr
    rw [List.infix_cons_iff]
    by_cases hp : needle.isPrefixOf (c :: rest) = true
    · simp only [hp, if_true, Option.isSome_some, true_iff]
      exact Or.inl (List.isPrefixOf_iff_prefix.1 hp)
    · rw [if_neg hp, ih]
      constructor
      · exact Or.inr
      · rintro (h | h)
        · exact absurd (List.isPrefixOf_iff_prefix.2 h) hp
        · exact h

theorem strstr_of_prefix (haystack needle : List Char) (h : needle <+: haystack)
    (hne : haystack ≠ []) : strstr haystack needle = some haystack := by
  cases haystack with
  | nil => exact absurd rfl hne
  | cons c rest =>
    unfold strstr
    simp [List.isPrefixOf_iff_prefix.2 h]

theorem strstr_skip (c : Char) (rest needle : List Char)
    (h : ¬ needle <+: c :: rest) : strstr (c :: rest) needle = strstr rest needle := by
  have hp : ¬ needle.isPrefixOf (c :: rest) = true := fun hp => h (List.isPrefixOf_iff_prefix.1 hp)
  rw [strstr, if_neg hp]

theorem prefix_append_cases (pat l₁ l₂ : List Char) (h : pat <+: l₁ ++ l₂) :
    pat <+: l₁ ∨ ∃ r, pat = l₁ ++ r ∧ r <+: l₂ := by
  rcases List.prefix_or_prefix_of_prefix h (List.prefix_append l₁ l₂) with h1 | h1
  · exact Or.inl h1
  · obtain ⟨r, hr⟩ := h1
    refine Or.inr ⟨r, hr.symm, ?_⟩
    rw [← hr] at h
    exact (List.prefix_append_right_inj l₁).1 h

theorem infix_append_cons_iff (pat a b : List Char) (c : Char) (hc : c ∉ pat) :
    pat <:+: a ++ c :: b ↔ pat <:+: a ∨ pat <:+: b := by
  constructor
  · intro h
    induction a with
    | nil =>
      rw [List.nil_append, List.infix_cons_iff] at h
      rcases h with h | h
      · cases pat with
        | nil => exact Or.inl List.nil_infix
        | cons p ps =>
          obtain ⟨t, ht⟩ := h
          simp only [List.cons_append, List.cons.injEq] at ht
          exact absurd (ht.1 ▸ List.mem_cons_self p ps) hc
      · exact Or.inr h
    | cons x xs ih =>
      rw [List.cons_append, List.infix_cons_iff] at h
      rcases h with h | h
      · have h' : pat <+: (x :: xs) ++ c :: b := h
        rcases prefix_append_cases pat (x :: xs) (c :: b) h' with hpre | ⟨r, hr, hrpre⟩
        · exact Or.inl hpre.isInfix
        · cases r with
          | nil =>
            rw [List.append_nil] at hr
            exact Or.inl (hr ▸ List.infix_refl _)
          | cons y ys =>
            obtain ⟨t, ht⟩ := hrpre
            simp only [List.cons_append, List.cons.injEq] at ht
            have : c ∈ pat := by
              rw [hr, ← ht.1]
              simp
            exact absurd this hc
      · rcases ih h with h | h
        · exact Or.inl (List.infix_cons h)
        · exact Or.inr h
  · rintro (h | h)
    · exact h.trans (List.infix_append' [] a (c :: b) |>.trans (by simp))
    · exact h.trans ((List.suffix_cons c b).isInfix.trans (List.suffix_append a (c :: b)).isInfix)

end Codec

namespace Codec

open Phase3 (strstr strchr isspace isdigit trim_whitespace trim_whitespace_buffer
  parse_node_type load_line fgets_lines load_ast_from_file LoaderState)

/-! ### Texts without a statement keyword -/

theorem keyword_free_of_part {s t : List Char} (h : keyword_free t) (hst : s <:+: t) :
    keyword_free s :=
  ⟨fun hs => h.1 (hs.trans hst), fun hs => h.2 (hs.trans hst)⟩

theorem keyword_free_append_cons (a b : List Char) (c : Char) (hc : keyword_sep c) :
    keyword_free (a ++ c :: b) ↔ keyword_free a ∧ keyword_free b := by
  unfold keyword_free
  rw [infix_append_cons_iff _ a b c hc.1, infix_append_cons_iff _ a b c hc.2]
  tauto

theorem keyword_free_nil : keyword_free [] := by
  unfold keyword_free
  decide

theorem keyword_free_seps_append (s b : List Char) (hs : ∀ c ∈ s, keyword_sep c) :
    keyword_free (s ++ b) ↔ keyword_free b := by
  induction s with
  | nil => rfl
  | cons c s ih =>
    have h := keyword_free_append_cons [] (s ++ b) c (hs c (List.mem_cons_self _ _))
    simp only [List.nil_append] at h
    rw [List.cons_append, h, ih (fun d hd => hs d (List.mem_cons_of_mem _ hd))]
    exact ⟨fun hb => hb.2, fun hb => ⟨keyword_free_nil, hb⟩⟩

theorem keyword_free_of_seps (s : List Char) (hs : ∀ c ∈ s, keyword_sep c) : keyword_free s := by
  have := (keyword_free_seps_append s [] hs).2 keyword_free_nil
  simpa using this

theorem keyword_free_append_seps (w s : List Char) (hw : keyword_free w)
    (hs : ∀ c ∈ s, keyword_sep c) : keyword_free (w ++ s) := by
  cases s with
  | nil => simpa using hw
  | cons c s =>
    rw [keyword_free_append_cons w s c (hs c (List.mem_cons_self _ _))]
    exact ⟨hw, keyword_free_of_seps s (fun d hd => hs d (List.mem_cons_of_mem _ hd))⟩

theorem keyword_free_append (a b : List Char) (c : Char) (ha : keyword_free (a ++ [c]))
    (hc : keyword_sep c) (hb : keyword_free b) : keyword_free (a ++ [c] ++ b) := by
  rw [List.append_assoc, List.singleton_append, keyword_free_append_cons a b c hc]
  exact ⟨keyword_free_of_part ha (List.prefix_append a [c]).isInfix, hb⟩


end Codec

namespace Codec

open Phase3 (strstr strchr isspace isdigit trim_whitespace trim_whitespace_buffer
  parse_node_type load_line fgets_lines load_ast_from_file LoaderState scan_digits sscanf_line)

/-! ### Decimal digits -/

theorem toDigitsCore_append (fuel n : Nat) (ds : List Char) :
    Nat.toDigitsCore 10 fuel n ds = Nat.toDigitsCore 10 fuel n [] ++ ds := by
  induction fuel generalizing n ds with
  | zero => simp [Nat.toDigitsCore]
  | succ fuel ih =>
    simp only [Nat.toDigitsCore]
    split
    · simp
    · rw [ih (n / 10) (Nat.digitChar (n % 10) :: ds), ih (n / 10) [Nat.digitChar (n % 10)]]
      simp

theorem toDigitsCore_fuel (fuel fuel' n : Nat) (ds : List Char) (h : n < fuel) (h' : n < fuel') :
    Nat.toDigitsCore 10 fuel n ds = Nat.toDigitsCore 10 fuel' n ds := by
  induction fuel generalizing fuel' n ds with
  | zero => omega
  | succ fuel ih =>
    cases fuel' with
    | zero => omega
    | succ fuel' =>
      simp only [Nat.toDigitsCore]
      split
      · rfl
      · next hn =>
        have hpos : 0 < n := by
          rcases Nat.eq_zero_or_pos n with h0 | h0
          · subst h0; simp at hn
          · exact h0
        have hdiv : n / 10 < n := Nat.div_lt_self hpos (by decide)
        exact ih fuel' (n / 10) _ (by omega) (by omega)

theorem toDigitsCore_succ (fuel n : Nat) (ds : List Char) :
    Nat.toDigitsCore 10 (fuel + 1) n ds
      = if n / 10 = 0 then Nat.digitChar (n % 10) :: ds
        else Nat.toDigitsCore 10 fuel (n / 10) (Nat.digitChar (n % 10) :: ds) := rfl

theorem toDigits_of_lt (n : Nat) (h : n < 10) : Nat.toDigits 10 n = [Nat.digitChar n] := by
  unfold Nat.toDigits
  simp only [Nat.toDigitsCore]
  have h1 : n / 10 = 0 := Nat.div_eq_of_lt h
  have h2 : n % 10 = n := Nat.mod_eq_of_lt h
  simp [h1, h2]

theorem toDigits_of_ge (n : Nat) (h : 10 ≤ n) :
    Nat.toDigits 10 n = Nat.toDigits 10 (n / 10) ++ [Nat.digitChar (n % 10)] := by
  unfold Nat.toDigits
  have h1 : n / 10 ≠ 0 := by
    have := Nat.div_pos h (by decide : 0 < 10)
    omega
  rw [toDigitsCore_succ, if_neg h1, toDigitsCore_append]
  congr 1
  apply toDigitsCore_fuel
  · exact Nat.div_lt_self (by omega) (by decide)
  · omega

theorem isdigit_digitChar (k : Nat) (h : k < 10) : isdigit (Nat.digitChar k) = true := by
  interval_cases k <;> decide

theorem digitChar_value (k : Nat) (h : k < 10) : (Nat.digitChar k).toNat - '0'.toNat = k := by
  interval_cases k <;> decide

theorem toDigits_isdigit (n : Nat) : ∀ c ∈ Nat.toDigits 10 n, isdigit c = true := by
  induction n using Nat.strong_induction_on with
  | _ n ih =>
    by_cases h : n < 10
    · rw [toDigits_of_lt n h]
      intro c hc
      rw [List.mem_singleton] at hc
      rw [hc]
      exact isdigit_digitChar n h
    · rw [toDigits_of_ge n (by omega)]
      intro c hc
      rcases List.mem_append.1 hc with hc | hc
      · exact ih (n / 10) (Nat.div_lt_self (by omega) (by decide)) c hc
      · rw [List.mem_singleton] at hc
        rw [hc]
        exact isdigit_digitChar _ (Nat.mod_lt _ (by decide))

theorem toDigits_ne_nil (n : Nat) : Nat.toDigits 10 n ≠ [] := by
  by_cases h : n < 10
  · rw [toDigits_of_lt n h]; simp
  · rw [toDigits_of_ge n (by omega)]; simp

theorem toDigits_value (n : Nat) :
    (Nat.toDigits 10 n).foldl (fun value c => value * 10 + (c.toNat - '0'.toNat)) 0 = n := by
  induction n using Nat.strong_induction_on with
  | _ n ih =>
    by_cases h : n < 10
    · rw [toDigits_of_lt n h]
      simp only [List.foldl_cons, List.foldl_nil]
      rw [digitChar_value n h]
      omega
    · rw [toDigits_of_ge n (by omega), List.foldl_append,
        ih (n / 10) (Nat.div_lt_self (by omega) (by decide))]
      simp only [List.foldl_cons, List.foldl_nil]
      rw [digitChar_value _ (Nat.mod_lt _ (by decide))]
      omega

theorem toDigits_length_le (n : Nat) (h : n < 10 ^ 10) : (Nat.toDigits 10 n).length ≤ 10 :=
  Nat.toDigitsCore_length 10 (by decide) (n + 1) n 10 h (by decide)

theorem takeWhile_append_of_all {p : Char → Bool} (a b : List Char) (ha : ∀ c ∈ a, p c = true)
    (hb : ∀ c, b.head? = some c → p c = false) : (a ++ b).takeWhile p = a := by
  induction a with
  | nil =>
    cases b with
    | nil => rfl
    | cons c b => simp [List.takeWhile, hb c rfl]
  | cons x a ih =>
    rw [List.cons_append, List.takeWhile_cons, ha x (List.mem_cons_self _ _), if_pos rfl,
      ih (fun c hc => ha c (List.mem_cons_of_mem _ hc))]

theorem scan_digits_toDigits (n : Nat) (rest : List Char)
    (hrest : ∀ c, rest.head? = some c → isdigit c = false) :
    scan_digits (Nat.toDigits 10 n ++ rest) = some n := by
  unfold scan_digits
  rw [takeWhile_append_of_all _ _ (toDigits_isdigit n) hrest]
  rw [if_neg (toDigits_ne_nil n)]
  exact congrArg some (toDigits_value n)

end Codec

namespace Codec

open Phase3 (strstr strchr isspace isdigit trim_whitespace trim_whitespace_buffer
  parse_node_type load_line fgets_lines load_ast_from_file LoaderState scan_digits sscanf_line
  parse_ast_line)
open Phase2 (print_int print_indent print_line_marker print_ast print_statements)

/-! ### Printed numbers -/

theorem keyword_sep_of_isdigit (c : Char) (h : isdigit c = true) : keyword_sep c := by
  have hall : ∀ p ∈ "ASSIGNMENT".toList ++ "EXPRESSION_STMT".toList, isdigit p = false := by
    decide
  constructor
  · intro hmem
    have := hall c (List.mem_append_left _ hmem)
    rw [h] at this
    cases this
  · intro hmem
    have := hall c (List.mem_append_right _ hmem)
    rw [h] at this
    cases this

theorem not_isspace_of_isdigit (c : Char) (h : isdigit c = true) : isspace c = false := by
  have h1 : 48 ≤ c.toNat := by
    simp only [isdigit, decide_eq_true_eq] at h
    exact h.1
  unfold isspace
  have e1 : c ≠ ' ' := by rintro rfl; revert h1; decide
  have e2 : c ≠ '\t' := by rintro rfl; revert h1; decide
  have e3 : c ≠ '\n' := by rintro rfl; revert h1; decide
  have e4 : c ≠ '\r' := by rintro rfl; revert h1; decide
  have e5 : c.toNat ≠ 11 := by omega
  have e6 : c.toNat ≠ 12 := by omega
  simp [e1, e2, e3, e4, e5, e6]

theorem print_int_cases (n : Int) :
    (∃ k : Nat, n = (k : Int) ∧ print_int n = Nat.toDigits 10 k) ∨
    (∃ k : Nat, n = -((k : Int) + 1) ∧ print_int n = '-' :: Nat.toDigits 10 (k + 1)) := by
  cases n with
  | ofNat k => exact Or.inl ⟨k, rfl, rfl⟩
  | negSucc k => exact Or.inr ⟨k, Int.negSucc_eq k, rfl⟩

theorem print_int_sep (n : Int) : ∀ c ∈ print_int n, keyword_sep c := by
  intro c hc
  rcases print_int_cases n with ⟨k, _, hk⟩ | ⟨k, _, hk⟩
  · rw [hk] at hc
    exact keyword_sep_of_isdigit c (toDigits_isdigit k c hc)
  · rw [hk] at hc
    rcases List.mem_cons.1 hc with rfl | hc
    · unfold keyword_sep; decide
    · exact keyword_sep_of_isdigit c (toDigits_isdigit _ c hc)

theorem print_int_length (n : Int) (h : int_range n) : (print_int n).length ≤ 11 := by
  rcases print_int_cases n with ⟨k, hn, hk⟩ | ⟨k, hn, hk⟩
  · rw [hk]
    have : k < 10 ^ 10 := by
      have := h.2
      omega
    have := toDigits_length_le k this
    omega
  · rw [hk]
    have : k + 1 < 10 ^ 10 := by
      have := h.1
      omega
    have := toDigits_length_le (k + 1) this
    simp only [List.length_cons]
    omega

theorem print_int_no_newline (n : Int) : ∀ c ∈ print_int n, c ≠ '\n' := by
  intro c hc
  rcases print_int_cases n with ⟨k, _, hk⟩ | ⟨k, _, hk⟩
  · rw [hk] at hc
    have := not_isspace_of_isdigit c (toDigits_isdigit k c hc)
    rintro rfl
    revert this
    decide
  · rw [hk] at hc
    rcases List.mem_cons.1 hc with rfl | hc
    · decide
    · have := not_isspace_of_isdigit c (toDigits_isdigit _ c hc)
      rintro rfl
      revert this
      decide

theorem toDigits_head (k : Nat) :
    ∃ d ds, Nat.toDigits 10 k = d :: ds ∧ isdigit d = true := by
  cases h : Nat.toDigits 10 k with
  | nil => exact absurd h (toDigits_ne_nil k)
  | cons d ds =>
    exact ⟨d, ds, rfl, toDigits_isdigit k d (by rw [h]; exact List.mem_cons_self _ _)⟩

theorem sscanf_line_print_int (n : Int) (rest : List Char) :
    sscanf_line ("(line ".toList ++ print_int n ++ ')' :: rest) = some n := by
  have hparen : ∀ c, (')' :: rest).head? = some c → isdigit c = false := by
    intro c hc
    simp only [List.head?_cons, Option.some.injEq] at hc
    rw [← hc]
    decide
  rcases print_int_cases n with ⟨k, hn, hk⟩ | ⟨k, hn, hk⟩
  · obtain ⟨d, ds, hd, hdigit⟩ := toDigits_head k
    have hscan := scan_digits_toDigits k (')' :: rest) hparen
    rw [hk, hd]
    rw [hd] at hscan
    have hsp := not_isspace_of_isdigit d hdigit
    have hminus : d ≠ '-' := by rintro rfl; revert hdigit; decide
    have hplus : d ≠ '+' := by rintro rfl; revert hdigit; decide
    have hdrop : (("(line ".toList ++ d :: ds ++ ')' :: rest).drop 5).dropWhile isspace
        = d :: ds ++ ')' :: rest := by
      show ((' ' :: (d :: ds ++ ')' :: rest))).dropWhile isspace = _
      rw [List.dropWhile_cons, if_pos (by decide), List.cons_append, List.dropWhile_cons, hsp]
      rfl
    unfold sscanf_line
    rw [hdrop]
    split
    · next heq => simp only [List.cons_append, List.cons.injEq] at heq; exact absurd heq.1 hminus
    · next heq => simp only [List.cons_append, List.cons.injEq] at heq; exact absurd heq.1 hplus
    · rw [hscan, hn]; rfl
  · have hscan := scan_digits_toDigits (k + 1) (')' :: rest) hparen
    rw [hk]
    have hdrop : (("(line ".toList ++ '-' :: Nat.toDigits 10 (k + 1) ++ ')' :: rest).drop 5).dropWhile
        isspace = '-' :: (Nat.toDigits 10 (k + 1) ++ ')' :: rest) := by
      show ((' ' :: ('-' :: Nat.toDigits 10 (k + 1) ++ ')' :: rest))).dropWhile isspace = _
      rw [List.dropWhile_cons, if_pos (by decide), List.cons_append, List.dropWhile_cons,
        if_neg (by decide)]
    unfold sscanf_line
    rw [hdrop]
    simp only [hscan, Option.map_some']
    rw [hn]
    simp

end Codec

namespace Codec

open Phase3 (strstr strchr isspace isdigit trim_whitespace trim_whitespace_buffer
  parse_node_type load_line fgets_lines load_ast_from_file LoaderState scan_digits sscanf_line
  parse_ast_line)
open Phase2 (print_int print_indent print_line_marker print_ast print_statements)

/-! ### Trimming -/

theorem dropWhile_append_of_all {p : Char → Bool} (a b : List Char) (ha : ∀ c ∈ a, p c = true)
    (hb : ∀ c, b.head? = some c → p c = false) : (a ++ b).dropWhile p = b := by
  induction a with
  | nil =>
    cases b with
    | nil => rfl
    | cons c b => simp [List.dropWhile, hb c rfl]
  | cons x a ih =>
    rw [List.cons_append, List.dropWhile_cons, ha x (List.mem_cons_self _ _), if_pos rfl,
      ih (fun c hc => ha c (List.mem_cons_of_mem _ hc))]

theorem trim_whitespace_eq (ws₁ body ws₂ : List Char) (first last : Char) (middle : List Char)
    (h₁ : ∀ c ∈ ws₁, isspace c = true) (h₂ : ∀ c ∈ ws₂, isspace c = true)
    (hbody : body = first :: middle ++ [last]) (hfirst : isspace first = false)
    (hlast : isspace last = false) : trim_whitespace (ws₁ ++ body ++ ws₂) = body := by
  unfold trim_whitespace
  rw [List.append_assoc, dropWhile_append_of_all ws₁ (body ++ ws₂) h₁
    (by
      intro c hc
      rw [hbody] at hc
      simp only [List.cons_append, List.head?_cons, Option.some.injEq] at hc
      rw [← hc]; exact hfirst)]
  rw [List.reverse_append, dropWhile_append_of_all ws₂.reverse body.reverse
    (fun c hc => h₂ c (List.mem_reverse.1 hc))
    (by
      intro c hc
      rw [hbody] at hc
      simp only [List.reverse_append, List.reverse_cons, List.reverse_nil, List.nil_append,
        List.singleton_append, List.head?_cons, Option.some.injEq] at hc
      rw [← hc]; exact hlast)]
  exact List.reverse_reverse body

theorem trim_whitespace_buffer_eq (ws₁ body ws₂ : List Char) (first last : Char)
    (middle : List Char)
    (h₁ : ∀ c ∈ ws₁, isspace c = true) (h₂ : ∀ c ∈ ws₂, isspace c = true)
    (hbody : body = first :: middle ++ [last]) (hfirst : isspace first = false)
    (hlast : isspace last = false) : trim_whitespace_buffer (ws₁ ++ body ++ ws₂) = ws₁ ++ body := by
  unfold trim_whitespace_buffer
  rw [trim_whitespace_eq ws₁ body ws₂ first last middle h₁ h₂ hbody hfirst hlast]
  congr 1
  rw [List.append_assoc]
  apply takeWhile_append_of_all _ _ h₁
  intro c hc
  rw [hbody] at hc
  simp only [List.cons_append, List.head?_cons, Option.some.injEq] at hc
  rw [← hc]; exact hfirst

theorem parse_ast_line_eq (k : Nat) (body : List Char) (first last : Char) (middle : List Char)
    (hbody : body = first :: middle ++ [last]) (hfirst : isspace first = false)
    (hlast : isspace last = false) :
    parse_ast_line (List.replicate k ' ' ++ body) = (true, body, k / 2) := by
  have hne : first ≠ ' ' := by rintro rfl; revert hfirst; decide
  have htake : (List.replicate k ' ' ++ body).takeWhile (fun c => decide (c = ' '))
      = List.replicate k ' ' := by
    apply takeWhile_append_of_all
    · intro c hc
      simp [(List.mem_replicate.1 hc).2]
    · intro c hc
      rw [hbody] at hc
      simp only [List.cons_append, List.head?_cons, Option.some.injEq] at hc
      rw [← hc]; simp [hne]
  have hdrop : (List.replicate k ' ' ++ body).dropWhile (fun c => decide (c = ' ')) = body := by
    apply dropWhile_append_of_all
    · intro c hc
      simp [(List.mem_replicate.1 hc).2]
    · intro c hc
      rw [hbody] at hc
      simp only [List.cons_append, List.head?_cons, Option.some.injEq] at hc
      rw [← hc]; simp [hne]
  have htrim : trim_whitespace body = body := by
    have := trim_whitespace_eq [] body [] first last middle (by simp) (by simp) hbody hfirst hlast
    simpa using this
  unfold parse_ast_line
  simp only [htake, hdrop, htrim, List.length_replicate]
  rw [hbody]
  simp

theorem trim_whitespace_part (s : List Char) : trim_whitespace s <:+: s := by
  unfold trim_whitespace
  have h1 : (s.dropWhile isspace) <:+ s := List.dropWhile_suffix _
  have h2 : ((s.dropWhile isspace).reverse.dropWhile isspace) <:+ (s.dropWhile isspace).reverse :=
    List.dropWhile_suffix _
  have h3 : ((s.dropWhile isspace).reverse.dropWhile isspace).reverse <+: s.dropWhile isspace := by
    have := List.reverse_prefix.2 h2
    rwa [List.reverse_reverse] at this
  exact h3.isInfix.trans h1.isInfix

theorem parse_ast_line_part (line : List Char) :
    (parse_ast_line (trim_whitespace_buffer line)).2.1 <:+: line := by
  unfold parse_ast_line
  simp only []
  refine (trim_whitespace_part _).trans ?_
  refine (List.dropWhile_suffix _).isInfix.trans ?_
  unfold trim_whitespace_buffer
  have hline : line = line.takeWhile isspace ++ line.dropWhile isspace :=
    (List.takeWhile_append_dropWhile _ _).symm
  have htrim : trim_whitespace line <+: line.dropWhile isspace := by
    unfold trim_whitespace
    have h2 : ((line.dropWhile isspace).reverse.dropWhile isspace)
        <:+ (line.dropWhile isspace).reverse := List.dropWhile_suffix _
    have := List.reverse_prefix.2 h2
    rwa [List.reverse_reverse] at this
  obtain ⟨t, ht⟩ := htrim
  refine ⟨[], t, ?_⟩
  rw [List.nil_append, List.append_assoc, ht]
  exact hline.symm

end Codec

namespace Codec

open Phase3 (strstr strchr isspace isdigit trim_whitespace trim_whitespace_buffer
  parse_node_type load_line fgets_lines load_ast_from_file LoaderState scan_digits sscanf_line
  parse_ast_line attach_node append_statement init_program extract_node_data create_ast_node)
open Phase2 (print_int print_indent print_line_marker print_ast print_statements)

/-! ### Classification of a header -/

theorem parse_node_type_program (info : List Char) (h : "PROGRAM".toList <:+: info) :
    parse_node_type info = 1 := by
  unfold parse_node_type
  rw [if_pos ((strstr_isSome_iff _ _).2 h)]

theorem parse_node_type_assignment (info : List Char) (h₁ : ¬ "PROGRAM".toList <:+: info)
    (h₂ : "ASSIGNMENT".toList <:+: info) : parse_node_type info = 2 := by
  unfold parse_node_type
  rw [if_neg (fun h => h₁ ((strstr_isSome_iff _ _).1 h)), if_pos ((strstr_isSome_iff _ _).2 h₂)]

theorem parse_node_type_expression_stmt (info : List Char) (h₁ : ¬ "PROGRAM".toList <:+: info)
    (h₂ : ¬ "ASSIGNMENT".toList <:+: info) (h₃ : "EXPRESSION_STMT".toList <:+: info) :
    parse_node_type info = 3 := by
  unfold parse_node_type
  rw [if_neg (fun h => h₁ ((strstr_isSome_iff _ _).1 h)),
    if_neg (fun h => h₂ ((strstr_isSome_iff _ _).1 h)), if_pos ((strstr_isSome_iff _ _).2 h₃)]

theorem parse_node_type_keyword_free (info : List Char) (h : keyword_free info) :
    parse_node_type info ≠ 2 ∧ parse_node_type info ≠ 3 := by
  have h₂ : ¬ (strstr info "ASSIGNMENT".toList).isSome = true :=
    fun hs => h.1 ((strstr_isSome_iff _ _).1 hs)
  have h₃ : ¬ (strstr info "EXPRESSION_STMT".toList).isSome = true :=
    fun hs => h.2 ((strstr_isSome_iff _ _).1 hs)
  unfold parse_node_type
  by_cases h₁ : (strstr info "PROGRAM".toList).isSome = true
  · rw [if_pos h₁]
    exact ⟨by decide, by decide⟩
  · rw [if_neg h₁, if_neg h₂, if_neg h₃]
    split_ifs <;> exact ⟨by decide, by decide⟩

theorem strstr_skip_prefix (a b needle : List Char) (c : Char) (tail : List Char)
    (hneedle : needle = c :: tail) (hc : c ∉ a) : strstr (a ++ b) needle = strstr b needle := by
  induction a with
  | nil => rfl
  | cons x a ih =>
    rw [List.cons_append, strstr_skip, ih (fun h => hc (List.mem_cons_of_mem _ h))]
    intro hpre
    obtain ⟨t, ht⟩ := hpre
    rw [hneedle] at ht
    simp only [List.cons_append, List.cons.injEq] at ht
    exact hc (ht.1 ▸ List.mem_cons_self _ _)

theorem not_infix_of_head_not_mem (pat t : List Char) (p : Char) (tail : List Char)
    (hpat : pat = p :: tail) (hp : p ∉ t) : ¬ pat <:+: t := by
  intro h
  exact hp (h.subset (hpat ▸ List.mem_cons_self _ _))

theorem print_int_chars (n : Int) : ∀ c ∈ print_int n, isdigit c = true ∨ c = '-' := by
  intro c hc
  rcases print_int_cases n with ⟨k, _, hk⟩ | ⟨k, _, hk⟩
  · rw [hk] at hc
    exact Or.inl (toDigits_isdigit k c hc)
  · rw [hk] at hc
    rcases List.mem_cons.1 hc with rfl | hc
    · exact Or.inr rfl
    · exact Or.inl (toDigits_isdigit _ c hc)

/-- The text of a header without its indentation and newline. -/
theorem header_infix_iff (pat keyword : List Char) (n : Int) (p : Char) (tail : List Char)
    (hpat : pat = p :: tail) (hspace : ' ' ∉ pat) (hdigit : isdigit p = false)
    (hminus : p ≠ '-') (hparen : p ≠ ')') (hline : ¬ pat <:+: "(line".toList) :
    pat <:+: keyword ++ " (line ".toList ++ print_int n ++ [')'] ↔ pat <:+: keyword := by
  have hshape : keyword ++ " (line ".toList ++ print_int n ++ [')']
      = keyword ++ ' ' :: ("(line".toList ++ ' ' :: (print_int n ++ [')'])) := by
    simp
  rw [hshape, infix_append_cons_iff _ _ _ _ hspace, infix_append_cons_iff _ _ _ _ hspace]
  have hlast : ¬ pat <:+: print_int n ++ [')'] := by
    apply not_infix_of_head_not_mem pat _ p tail hpat
    intro hmem
    rcases List.mem_append.1 hmem with hmem | hmem
    · rcases print_int_chars n p hmem with h | h
      · rw [hdigit] at h; cases h
      · exact hminus h
    · exact hparen (List.mem_singleton.1 hmem)
  tauto

theorem strstr_line_marker (keyword suffix : List Char) (n : Int) (hparen : '(' ∉ keyword) :
    strstr (keyword ++ " (line ".toList ++ print_int n ++ ')' :: suffix) "(line ".toList
      = some ("(line ".toList ++ print_int n ++ ')' :: suffix) := by
  have hshape : keyword ++ " (line ".toList ++ print_int n ++ ')' :: suffix
      = (keyword ++ [' ']) ++ ("(line ".toList ++ print_int n ++ ')' :: suffix) := by
    simp
  rw [hshape, strstr_skip_prefix (keyword ++ [' ']) _ "(line ".toList '(' "line ".toList rfl
    (by
      intro hmem
      rcases List.mem_append.1 hmem with h | h
      · exact hparen h
      · revert h; decide)]
  apply strstr_of_prefix
  · exact ⟨print_int n ++ ')' :: suffix, by simp⟩
  · simp

theorem line_num_header (keyword suffix : List Char) (n : Int) (hparen : '(' ∉ keyword) :
    (match strstr (keyword ++ " (line ".toList ++ print_int n ++ ')' :: suffix)
        "(line ".toList with
      | some line_marker => (sscanf_line line_marker).getD 1
      | none => 1) = n := by
  rw [strstr_line_marker keyword suffix n hparen]
  simp only []
  rw [sscanf_line_print_int n suffix]
  rfl

end Codec

namespace Codec

open Phase3 (strstr strchr isspace isdigit trim_whitespace trim_whitespace_buffer
  parse_node_type load_line fgets_lines load_ast_from_file LoaderState scan_digits sscanf_line
  parse_ast_line attach_node append_statement init_program extract_node_data create_ast_node)
open Phase2 (print_int print_indent print_line_marker print_ast print_statements)

/-! ### One line of the file -/

theorem load_line_root (state : LoaderState) (line : List Char) :
    (load_line state line).root = load_root state.root line := by
  unfold load_root load_line
  split
  · rfl
  · split
    · rfl
    · simp only []
      split <;> rfl

theorem foldl_load_line_root (lines : List (List Char)) (state : LoaderState) :
    (lines.foldl load_line state).root = lines.foldl load_root state.root := by
  induction lines generalizing state with
  | nil => rfl
  | cons line rest ih =>
    rw [List.foldl_cons, List.foldl_cons, ih, load_line_root]

theorem load_root_keyword_free (root : Phase3.ASTNode) (line : List Char)
    (hroot : root.is_null = false) (hfree : keyword_free line) : load_root root line = root := by
  unfold load_root load_line
  split
  · rfl
  · split
    · rfl
    · next node_info indent heq =>
      simp only []
      split
      · have hinfo : node_info = (parse_ast_line (trim_whitespace_buffer line)).2.1 := by
          rw [heq]
        have hfree' : keyword_free node_info := by
          rw [hinfo]
          exact keyword_free_of_part hfree (parse_ast_line_part line)
        have htype := parse_node_type_keyword_free node_info hfree'
        unfold attach_node
        simp only []
        rw [if_neg (by simp [hroot]), if_neg (by
          intro h
          rcases h with h | h
          · exact htype.1 h
          · exact htype.2 h)]
      · rfl

theorem load_root_header (root : Phase3.ASTNode) (k : Nat) (body : List Char)
    (first last : Char) (middle : List Char) (n type : Int)
    (hbody : body = first :: middle ++ [last]) (hfirst : isspace first = false)
    (hlast : isspace last = false) (hhash : first ≠ '#')
    (hline : (match strstr body "(line ".toList with
      | some line_marker => (sscanf_line line_marker).getD 1
      | none => 1) = n)
    (htype : parse_node_type body = type) (hpos : type > 0) :
    load_root root (List.replicate k ' ' ++ body ++ ['\n'])
      = attach_node root (extract_node_data (create_ast_node type body n) body) type := by
  have hnl : first ≠ '\n' := by rintro rfl; revert hfirst; decide
  have hws₁ : ∀ c ∈ List.replicate k ' ', isspace c = true := by
    intro c hc
    rw [(List.mem_replicate.1 hc).2]
    decide
  have hws₂ : ∀ c ∈ ['\n'], isspace c = true := by
    intro c hc
    rw [List.mem_singleton.1 hc]
    decide
  have htrim := trim_whitespace_eq _ body _ first last middle hws₁ hws₂ hbody hfirst hlast
  have hbuffer := trim_whitespace_buffer_eq _ body _ first last middle hws₁ hws₂ hbody hfirst hlast
  have hparse := parse_ast_line_eq k body first last middle hbody hfirst hlast
  have hhead : ∀ c, (List.replicate k ' ' ++ body ++ ['\n']).head? = some c → c = ' ' ∨ c = first := by
    intro c hc
    cases k with
    | zero =>
      rw [hbody] at hc
      simp only [List.replicate_zero, List.nil_append, List.cons_append, List.head?_cons,
        Option.some.injEq] at hc
      exact Or.inr hc.symm
    | succ k =>
      simp only [List.replicate_succ, List.cons_append, List.head?_cons, Option.some.injEq] at hc
      exact Or.inl hc.symm
  have hskip : ¬ ((List.replicate k ' ' ++ body ++ ['\n']).head? = some '#'
      ∨ (List.replicate k ' ' ++ body ++ ['\n']).head? = some '\n'
      ∨ (trim_whitespace (List.replicate k ' ' ++ body ++ ['\n'])).length = 0) := by
    rw [htrim]
    rintro (h | h | h)
    · rcases hhead _ h with h | h
      · revert h; decide
      · exact hhash h.symm
    · rcases hhead _ h with h | h
      · revert h; decide
      · exact hnl h.symm
    · rw [hbody] at h
      simp at h
  unfold load_root load_line
  rw [if_neg hskip, hbuffer, hparse]
  simp only [hline, htype, if_pos hpos]

theorem load_root_assignment (root : Phase3.ASTNode) (k : Nat) (var_name : String)
    (value : Phase2.ASTNode) (n : Int) :
    load_root root (List.replicate k ' ' ++ ("ASSIGNMENT".toList ++ " (line ".toList
        ++ print_int n ++ [')']) ++ ['\n'])
      = append_statement root (statement_skeleton (Phase2.ASTNode.assignment var_name value n)) := by
  have htype : parse_node_type ("ASSIGNMENT".toList ++ " (line ".toList ++ print_int n ++ [')'])
      = 2 := by
    apply parse_node_type_assignment
    · rw [header_infix_iff "PROGRAM".toList "ASSIGNMENT".toList n 'P' "ROGRAM".toList rfl
        (by decide) (by decide) (by decide) (by decide) (by decide)]
      decide
    · exact ⟨[], " (line ".toList ++ print_int n ++ [')'], by simp⟩
  rw [load_root_header root k _ 'A' ')' ("SSIGNMENT".toList ++ " (line ".toList ++ print_int n) n 2
    (by simp) (by decide) (by decide) (by decide)
    (line_num_header "ASSIGNMENT".toList [] n (by decide)) htype (by decide)]
  unfold attach_node
  rw [if_neg (fun h => absurd h.1 (by decide)), if_pos (by decide)]
  rfl

theorem load_root_expression_stmt (root : Phase3.ASTNode) (k : Nat)
    (expression : Phase2.ASTNode) (n : Int) :
    load_root root (List.replicate k ' ' ++ ("EXPRESSION_STMT".toList ++ " (line ".toList
        ++ print_int n ++ [')']) ++ ['\n'])
      = append_statement root
          (statement_skeleton (Phase2.ASTNode.expression_stmt expression n)) := by
  have htype : parse_node_type
      ("EXPRESSION_STMT".toList ++ " (line ".toList ++ print_int n ++ [')']) = 3 := by
    apply parse_node_type_expression_stmt
    · rw [header_infix_iff "PROGRAM".toList "EXPRESSION_STMT".toList n 'P' "ROGRAM".toList rfl
        (by decide) (by decide) (by decide) (by decide) (by decide)]
      decide
    · rw [header_infix_iff "ASSIGNMENT".toList "EXPRESSION_STMT".toList n 'A' "SSIGNMENT".toList
        rfl (by decide) (by decide) (by decide) (by decide) (by decide)]
      decide
    · exact ⟨[], " (line ".toList ++ print_int n ++ [')'], by simp⟩
  rw [load_root_header root k _ 'E' ')' ("XPRESSION_STMT".toList ++ " (line ".toList ++ print_int n)
    n 3 (by simp) (by decide) (by decide) (by decide)
    (line_num_header "EXPRESSION_STMT".toList [] n (by decide)) htype (by decide)]
  unfold attach_node
  rw [if_neg (fun h => absurd h.1 (by decide)), if_pos (by decide)]
  rfl

end Codec

namespace Codec

open Phase3 (strstr strchr isspace isdigit trim_whitespace trim_whitespace_buffer
  parse_node_type load_line fgets_lines load_ast_from_file LoaderState scan_digits sscanf_line
  parse_ast_line attach_node append_statement init_program extract_node_data create_ast_node)
open Phase2 (print_int print_indent print_line_marker print_ast print_statements)

/-! ### The lines that `fgets` reads -/

theorem fgets_lines_short (body rest : List Char) (room : Nat) (current : List Char)
    (hnl : ∀ c ∈ body, c ≠ '\n') (hroom : body.length < room) :
    fgets_lines (body ++ '\n' :: rest) room current
      = (current.reverse ++ body ++ ['\n']) :: fgets_lines rest 511 [] := by
  induction body generalizing room current with
  | nil =>
    rw [List.nil_append, fgets_lines, if_pos (Or.inl rfl)]
    simp
  | cons x body ih =>
    have hx : x ≠ '\n' := hnl x (List.mem_cons_self _ _)
    simp only [List.length_cons] at hroom
    rw [List.cons_append, fgets_lines, if_neg (by
      rintro (h | h)
      · exact hx h
      · omega)]
    rw [ih (room - 1) (x :: current) (fun c hc => hnl c (List.mem_cons_of_mem _ hc)) (by omega)]
    simp

theorem fgets_lines_part (text : List Char) (room : Nat) (current : List Char) :
    ∀ chunk ∈ fgets_lines text room current, chunk <:+: current.reverse ++ text := by
  induction text generalizing room current with
  | nil =>
    intro chunk hchunk
    unfold fgets_lines at hchunk
    split at hchunk
    · simp at hchunk
    · rw [List.mem_singleton] at hchunk
      rw [hchunk, List.append_nil]
  | cons c rest ih =>
    intro chunk hchunk
    unfold fgets_lines at hchunk
    split at hchunk
    · rcases List.mem_cons.1 hchunk with h | h
      · rw [h]
        exact ⟨[], rest, by simp⟩
      · have := ih 511 [] chunk h
        simp only [List.reverse_nil, List.nil_append] at this
        exact this.trans ⟨current.reverse ++ [c], [], by simp⟩
    · have := ih (room - 1) (c :: current) chunk hchunk
      simpa using this

theorem fgets_lines_append (text rest : List Char) (room : Nat) (current : List Char) :
    fgets_lines (text ++ '\n' :: rest) room current
      = fgets_lines (text ++ ['\n']) room current ++ fgets_lines rest 511 [] := by
  induction text generalizing room current with
  | nil =>
    simp only [List.nil_append]
    rw [fgets_lines, if_pos (Or.inl rfl), fgets_lines, if_pos (Or.inl rfl)]
    simp [fgets_lines]
  | cons x text ih =>
    rw [List.cons_append, List.cons_append, fgets_lines, fgets_lines]
    split
    · rw [ih]; rfl
    · rw [ih]

theorem foldl_load_root_keyword_free (lines : List (List Char)) (root : Phase3.ASTNode)
    (hroot : root.is_null = false) (hfree : ∀ line ∈ lines, keyword_free line) :
    lines.foldl load_root root = root := by
  induction lines with
  | nil => rfl
  | cons line rest ih =>
    rw [List.foldl_cons, load_root_keyword_free root line hroot
      (hfree line (List.mem_cons_self _ _))]
    exact ih (fun l hl => hfree l (List.mem_cons_of_mem _ hl))

/-- A block of lines without a statement keyword leaves the root as it is. -/
theorem foldl_load_root_block (block rest : List Char) (root : Phase3.ASTNode)
    (hroot : root.is_null = false) (hfree : keyword_free (block ++ ['\n'])) :
    (fgets_lines (block ++ '\n' :: rest) 511 []).foldl load_root root
      = (fgets_lines rest 511 []).foldl load_root root := by
  rw [fgets_lines_append, List.foldl_append, foldl_load_root_keyword_free _ root hroot]
  intro line hline
  have := fgets_lines_part _ _ _ line hline
  simp only [List.reverse_nil, List.nil_append] at this
  exact keyword_free_of_part hfree this

end Codec

namespace Codec

open Phase3 (strstr strchr isspace isdigit trim_whitespace trim_whitespace_buffer
  parse_node_type load_line fgets_lines load_ast_from_file LoaderState scan_digits sscanf_line
  parse_ast_line attach_node append_statement init_program extract_node_data create_ast_node)
open Phase2 (print_int print_indent print_line_marker print_ast print_statements)

/-! ### The text of an operand tree -/

theorem print_indent_eq (k : Nat) : print_indent k = List.replicate (2 * k) ' ' := by
  induction k with
  | zero => rfl
  | succ k ih =>
    have : 2 * (k + 1) = (2 * k + 1) + 1 := by omega
    rw [this, List.replicate_succ, List.replicate_succ, ← ih]
    rfl

theorem print_indent_sep (k : Nat) : ∀ c ∈ print_indent k, keyword_sep c := by
  intro c hc
  rw [print_indent_eq] at hc
  rw [(List.mem_replicate.1 hc).2]
  decide

theorem keyword_free_indent (k : Nat) (rest : List Char) (h : keyword_free rest) :
    keyword_free (print_indent k ++ rest) :=
  (keyword_free_seps_append _ _ (print_indent_sep k)).2 h

theorem print_line_marker_sep (n : Int) : ∀ c ∈ print_line_marker n, keyword_sep c := by
  intro c hc
  unfold print_line_marker at hc
  have h₁ : ∀ c ∈ " (line ".toList, keyword_sep c := by decide
  have h₂ : ∀ c ∈ ")\n".toList, keyword_sep c := by decide
  rcases List.mem_append.1 hc with hc | hc
  · rcases List.mem_append.1 hc with hc | hc
    · exact h₁ c hc
    · exact print_int_sep n c hc
  · exact h₂ c hc

theorem print_line_marker_cons (n : Int) :
    print_line_marker n = ' ' :: ("(line ".toList ++ print_int n ++ ")\n".toList) := rfl

theorem keyword_free_marker (word rest : List Char) (n : Int) (hword : keyword_free word)
    (hrest : keyword_free rest) : keyword_free (word ++ (print_line_marker n ++ rest)) := by
  rw [print_line_marker_cons, List.cons_append,
    keyword_free_append_cons word _ ' ' (by decide)]
  refine ⟨hword, (keyword_free_seps_append _ _ ?_).2 hrest⟩
  intro c hc
  exact print_line_marker_sep n c (by rw [print_line_marker_cons]; exact List.mem_cons_of_mem _ hc)

theorem keyword_free_literal (literal front rest : List Char) (c : Char)
    (hliteral : literal = front ++ [c]) (hc : keyword_sep c) (hfront : keyword_free front)
    (hrest : keyword_free rest) : keyword_free (literal ++ rest) := by
  rw [hliteral, List.append_assoc, List.singleton_append, keyword_free_append_cons front rest c hc]
  exact ⟨hfront, hrest⟩

theorem keyword_free_binary_name (op : Phase2.BinaryOp) :
    keyword_free (Phase2.ast_node_type_to_string op.type).toList := by
  cases op <;> decide

theorem keyword_free_quantifier_name (kind : Phase2.QuantifierKind) :
    keyword_free (Phase2.ast_node_type_to_string kind.type).toList := by
  cases kind <;> decide

theorem keyword_free_print_ast :
    ∀ (node : Phase2.ASTNode) (k : Nat) (rest : List Char), plain_expression node →
      keyword_free rest → keyword_free (print_ast node k ++ rest)
  | Phase2.ASTNode.null, k, rest, _, hrest => by
    simp only [print_ast, List.append_assoc]
    apply keyword_free_indent
    exact keyword_free_literal _ "(null)".toList rest '\n' rfl (by decide) (by decide) hrest
  | Phase2.ASTNode.identifier name line, k, rest, hplain, hrest => by
    simp only [print_ast, List.append_assoc]
    apply keyword_free_indent
    apply keyword_free_literal _ "IDENTIFIER:".toList _ ' ' rfl (by decide) (by decide)
    exact keyword_free_marker _ _ _ hplain hrest
  | Phase2.ASTNode.boolean value line, k, rest, _, hrest => by
    simp only [print_ast, List.append_assoc]
    apply keyword_free_indent
    apply keyword_free_literal _ "BOOLEAN:".toList _ ' ' rfl (by decide) (by decide)
    apply keyword_free_marker _ _ _ _ hrest
    split <;> decide
  | Phase2.ASTNode.binary op left right line, k, rest, hplain, hrest => by
    simp only [print_ast, List.append_assoc]
    apply keyword_free_indent
    apply keyword_free_marker _ _ _ (keyword_free_binary_name op)
    apply keyword_free_indent
    apply keyword_free_literal _ "Left:".toList _ '\n' rfl (by decide) (by decide)
    apply keyword_free_print_ast left _ _ hplain.1
    apply keyword_free_indent
    apply keyword_free_literal _ "Right:".toList _ '\n' rfl (by decide) (by decide)
    exact keyword_free_print_ast right _ _ hplain.2 hrest
  | Phase2.ASTNode.not operand line, k, rest, hplain, hrest => by
    simp only [print_ast, List.append_assoc]
    apply keyword_free_indent
    apply keyword_free_marker _ _ _ (by decide)
    apply keyword_free_indent
    apply keyword_free_literal _ "Operand:".toList _ '\n' rfl (by decide) (by decide)
    exact keyword_free_print_ast operand _ _ hplain hrest
  | Phase2.ASTNode.quantifier kind var_name expression line, k, rest, hplain, hrest => by
    simp only [print_ast, List.append_assoc]
    apply keyword_free_indent
    apply keyword_free_marker _ _ _ (keyword_free_quantifier_name kind)
    apply keyword_free_indent
    apply keyword_free_literal _ "Variable:".toList _ ' ' rfl (by decide) (by decide)
    rw [show "\n".toList = ['\n'] from rfl, List.singleton_append,
      keyword_free_append_cons _ _ '\n' (by decide)]
    refine ⟨hplain.1, ?_⟩
    apply keyword_free_indent
    apply keyword_free_literal _ "Expression:".toList _ '\n' rfl (by decide) (by decide)
    exact keyword_free_print_ast expression _ _ hplain.2 hrest
  | Phase2.ASTNode.assignment _ _ _, _, _, hplain, _ => absurd hplain (by simp [plain_expression])
  | Phase2.ASTNode.program _ _ _, _, _, hplain, _ => absurd hplain (by simp [plain_expression])
  | Phase2.ASTNode.expression_stmt _ _, _, _, hplain, _ =>
    absurd hplain (by simp [plain_expression])

theorem print_ast_ends_newline :
    ∀ (node : Phase2.ASTNode) (k : Nat), plain_expression node →
      ∃ front, print_ast node k = front ++ ['\n']
  | Phase2.ASTNode.null, k, _ => ⟨print_indent k ++ "(null)".toList, by simp [print_ast]⟩
  | Phase2.ASTNode.identifier name line, k, _ =>
    ⟨print_indent k ++ "IDENTIFIER: ".toList ++ name.toList ++ " (line ".toList
      ++ print_int line ++ [')'], by simp [print_ast, print_line_marker]⟩
  | Phase2.ASTNode.boolean value line, k, _ =>
    ⟨print_indent k ++ "BOOLEAN: ".toList ++ (if value ≠ 0 then "TRUE" else "FALSE").toList
      ++ " (line ".toList ++ print_int line ++ [')'], by simp [print_ast, print_line_marker]⟩
  | Phase2.ASTNode.binary op left right line, k, hplain => by
    obtain ⟨front, hfront⟩ := print_ast_ends_newline right (k + 2) hplain.2
    exact ⟨_, by rw [print_ast, hfront, ← List.append_assoc]⟩
  | Phase2.ASTNode.not operand line, k, hplain => by
    obtain ⟨front, hfront⟩ := print_ast_ends_newline operand (k + 2) hplain
    exact ⟨_, by rw [print_ast, hfront, ← List.append_assoc]⟩
  | Phase2.ASTNode.quantifier kind var_name expression line, k, hplain => by
    obtain ⟨front, hfront⟩ := print_ast_ends_newline expression (k + 2) hplain.2
    exact ⟨_, by rw [print_ast, hfront, ← List.append_assoc]⟩
  | Phase2.ASTNode.assignment _ _ _, _, hplain => absurd hplain (by simp [plain_expression])
  | Phase2.ASTNode.program _ _ _, _, hplain => absurd hplain (by simp [plain_expression])
  | Phase2.ASTNode.expression_stmt _ _, _, hplain => absurd hplain (by simp [plain_expression])

end Codec

namespace Codec

open Phase3 (strstr strchr isspace isdigit trim_whitespace trim_whitespace_buffer
  parse_node_type load_line fgets_lines load_ast_from_file LoaderState scan_digits sscanf_line
  parse_ast_line attach_node append_statement init_program extract_node_data create_ast_node)
open Phase2 (print_int print_indent print_line_marker print_ast print_statements)

/-! ### The text of a statement -/

theorem append_statement_not_null (root node : Phase3.ASTNode) (h : root.is_null = false) :
    (append_statement root node).is_null = false := by
  cases root with
  | null => simp [Phase3.ASTNode.is_null] at h
  | mk type node_type_str line_number semantic_type is_constant bool_value data =>
    unfold append_statement
    simp only []
    split <;> rfl

theorem header_no_newline (keyword : List Char) (n : Int) (hkeyword : ∀ c ∈ keyword, c ≠ '\n') :
    ∀ c ∈ List.replicate 4 ' ' ++ (keyword ++ " (line ".toList ++ print_int n ++ [')']),
      c ≠ '\n' := by
  have h₁ : ∀ c ∈ " (line ".toList, c ≠ '\n' := by decide
  intro c hc
  simp only [List.mem_append, List.mem_replicate, List.mem_singleton] at hc
  rcases hc with hc | ((hc | hc) | hc) | hc
  · rw [hc.2]; decide
  · exact hkeyword c hc
  · exact h₁ c hc
  · exact print_int_no_newline n c hc
  · rw [hc]; decide

theorem header_length (keyword : List Char) (n : Int) (hkeyword : keyword.length ≤ 15)
    (hn : int_range n) :
    (List.replicate 4 ' ' ++ (keyword ++ " (line ".toList ++ print_int n ++ [')'])).length
      < 511 := by
  have := print_int_length n hn
  simp only [List.length_append, List.length_replicate, List.length_singleton]
  have : " (line ".toList.length = 7 := rfl
  omega

theorem load_statement_text (root node : Phase3.ASTNode) (header tail_front rest : List Char)
    (hroot : root.is_null = false)
    (hload : load_root root (header ++ ['\n']) = append_statement root node)
    (hnl : ∀ c ∈ header, c ≠ '\n') (hlen : header.length < 511)
    (htail : keyword_free (tail_front ++ ['\n'])) :
    (fgets_lines (header ++ '\n' :: (tail_front ++ '\n' :: rest)) 511 []).foldl load_root root
      = (fgets_lines rest 511 []).foldl load_root (append_statement root node) := by
  rw [fgets_lines_short header _ 511 [] hnl hlen, List.foldl_cons]
  simp only [List.reverse_nil, List.nil_append]
  rw [hload, foldl_load_root_block _ _ _ (append_statement_not_null root node hroot) htail]

theorem statement_text (statement : Phase2.ASTNode) (hplain : plain_statement statement)
    (root : Phase3.ASTNode) :
    ∃ header tail_front,
      print_ast statement 2 = header ++ '\n' :: (tail_front ++ ['\n']) ∧
      load_root root (header ++ ['\n'])
        = append_statement root (statement_skeleton statement) ∧
      (∀ c ∈ header, c ≠ '\n') ∧ header.length < 511 ∧
      keyword_free (tail_front ++ ['\n']) := by
  cases statement with
  | assignment var_name value line =>
    obtain ⟨hvar, hvalue, hline⟩ := hplain
    obtain ⟨front, hfront⟩ := print_ast_ends_newline value 4 hvalue
    refine ⟨List.replicate 4 ' ' ++ ("ASSIGNMENT".toList ++ " (line ".toList
        ++ print_int line ++ [')']),
      print_indent 3 ++ "Variable: ".toList ++ var_name.toList ++ "\n".toList
        ++ print_indent 3 ++ "Value:\n".toList ++ front, ?_, ?_, ?_, ?_, ?_⟩
    · rw [print_ast, hfront, print_indent_eq 2]
      simp [print_line_marker]
    · exact load_root_assignment root 4 var_name value line
    · exact header_no_newline _ line (by decide)
    · exact header_length _ line (by decide) hline
    · have htail : print_indent 3 ++ "Variable: ".toList ++ var_name.toList ++ "\n".toList
          ++ print_indent 3 ++ "Value:\n".toList ++ front ++ ['\n']
          = print_indent 3 ++ ("Variable: ".toList ++ (var_name.toList ++ '\n' ::
              (print_indent 3 ++ ("Value:\n".toList ++ (print_ast value 4 ++ []))))) := by
        rw [hfront]
        simp
      rw [htail]
      apply keyword_free_indent
      apply keyword_free_literal _ "Variable:".toList _ ' ' rfl (by decide) (by decide)
      rw [keyword_free_append_cons _ _ '\n' (by decide)]
      refine ⟨hvar, ?_⟩
      apply keyword_free_indent
      apply keyword_free_literal _ "Value:".toList _ '\n' rfl (by decide) (by decide)
      exact keyword_free_print_ast value 4 [] hvalue keyword_free_nil
  | expression_stmt expression line =>
    obtain ⟨hexpression, hline⟩ := hplain
    obtain ⟨front, hfront⟩ := print_ast_ends_newline expression 3 hexpression
    refine ⟨List.replicate 4 ' ' ++ ("EXPRESSION_STMT".toList ++ " (line ".toList
        ++ print_int line ++ [')']), front, ?_, ?_, ?_, ?_, ?_⟩
    · rw [print_ast, hfront, print_indent_eq 2]
      simp [print_line_marker]
    · exact load_root_expression_stmt root 4 expression line
    · exact header_no_newline _ line (by decide)
    · exact header_length _ line (by decide) hline
    · rw [← hfront]
      have := keyword_free_print_ast expression 3 [] hexpression keyword_free_nil
      rwa [List.append_nil] at this
  | null => exact absurd hplain (by simp [plain_statement])
  | identifier name line => exact absurd hplain (by simp [plain_statement])
  | boolean value line => exact absurd hplain (by simp [plain_statement])
  | binary op left right line => exact absurd hplain (by simp [plain_statement])
  | not operand line => exact absurd hplain (by simp [plain_statement])
  | quantifier kind var_name expression line => exact absurd hplain (by simp [plain_statement])
  | program statements capacity line => exact absurd hplain (by simp [plain_statement])

theorem label_keyword_free (i : Nat) :
    keyword_free (print_indent 1 ++ "Statement ".toList ++ Nat.toDigits 10 (i + 1)
      ++ [':'] ++ ['\n']) := by
  simp only [List.append_assoc]
  apply keyword_free_indent
  apply keyword_free_literal _ "Statement".toList _ ' ' rfl (by decide) (by decide)
  apply (keyword_free_seps_append _ _ ?_).2
  · decide
  · intro c hc
    exact keyword_sep_of_isdigit c (toDigits_isdigit _ c hc)

theorem load_statements (statements : List Phase2.ASTNode) :
    ∀ (i : Nat) (root : Phase3.ASTNode) (rest : List Char), root.is_null = false →
      (∀ statement ∈ statements, plain_statement statement) →
      (fgets_lines (print_statements statements i 0 ++ rest) 511 []).foldl load_root root
        = (fgets_lines rest 511 []).foldl load_root
            (statements.foldl
              (fun root statement => append_statement root (statement_skeleton statement)) root) := by
  induction statements with
  | nil =>
    intro i root rest _ _
    simp [print_statements]
  | cons statement others ih =>
    intro i root rest hroot hplain
    obtain ⟨header, tail_front, htext, hload, hnl, hlen, htail⟩ :=
      statement_text statement (hplain statement (List.mem_cons_self _ _)) root
    have hshape : print_statements (statement :: others) i 0 ++ rest
        = (print_indent 1 ++ "Statement ".toList ++ Nat.toDigits 10 (i + 1) ++ [':']) ++ '\n' ::
            (header ++ '\n' :: (tail_front ++ '\n' :: (print_statements others (i + 1) 0 ++ rest))) := by
      rw [print_statements, htext]
      simp
    rw [hshape, foldl_load_root_block _ _ _ hroot (label_keyword_free i),
      load_statement_text root _ header tail_front _ hroot hload hnl hlen htail,
      ih (i + 1) _ rest (append_statement_not_null _ _ hroot)
        (fun s hs => hplain s (List.mem_cons_of_mem _ hs)), List.foldl_cons]

end Codec

namespace Codec

open Phase3 (strstr strchr isspace isdigit trim_whitespace trim_whitespace_buffer
  parse_node_type load_line fgets_lines load_ast_from_file LoaderState scan_digits sscanf_line
  parse_ast_line attach_node append_statement init_program extract_node_data create_ast_node)
open Phase2 (print_int print_indent print_line_marker print_ast print_statements)

/-! ### The text of a program -/

theorem toDigits_no_newline (n : Nat) : ∀ c ∈ Nat.toDigits 10 n, c ≠ '\n' := by
  intro c hc
  have := not_isspace_of_isdigit c (toDigits_isdigit n c hc)
  rintro rfl
  revert this
  decide

theorem load_root_program_header (n : Int) (count : Nat) :
    load_root Phase3.ASTNode.null
        (("PROGRAM".toList ++ " (line ".toList ++ print_int n
          ++ ')' :: (" - ".toList ++ Nat.toDigits 10 count ++ " statements".toList)) ++ ['\n'])
      = Phase3.ASTNode.mk 1
          (String.mk ("PROGRAM".toList ++ " (line ".toList ++ print_int n
            ++ ')' :: (" - ".toList ++ Nat.toDigits 10 count ++ " statements".toList)))
          n Phase3.SymbolType.SYM_UNKNOWN 0 0 (Phase3.NodeData.program []) := by
  have h := load_root_header Phase3.ASTNode.null 0
    ("PROGRAM".toList ++ " (line ".toList ++ print_int n
      ++ ')' :: (" - ".toList ++ Nat.toDigits 10 count ++ " statements".toList))
    'P' 's'
    ("ROGRAM".toList ++ " (line ".toList ++ print_int n
      ++ ')' :: (" - ".toList ++ Nat.toDigits 10 count ++ " statement".toList))
    n 1 (by simp) (by decide) (by decide) (by decide)
    (line_num_header "PROGRAM".toList _ n (by decide))
    (parse_node_type_program _ ⟨[], " (line ".toList ++ print_int n
      ++ ')' :: (" - ".toList ++ Nat.toDigits 10 count ++ " statements".toList), by simp⟩)
    (by decide)
  simp only [List.replicate_zero, List.nil_append] at h
  rw [h]
  rfl

theorem program_header_no_newline (n : Int) (count : Nat) :
    ∀ c ∈ "PROGRAM".toList ++ " (line ".toList ++ print_int n
        ++ ')' :: (" - ".toList ++ Nat.toDigits 10 count ++ " statements".toList), c ≠ '\n' := by
  have h₁ : ∀ c ∈ "PROGRAM".toList, c ≠ '\n' := by decide
  have h₂ : ∀ c ∈ " (line ".toList, c ≠ '\n' := by decide
  have h₃ : ∀ c ∈ " - ".toList, c ≠ '\n' := by decide
  have h₄ : ∀ c ∈ " statements".toList, c ≠ '\n' := by decide
  intro c hc
  simp only [List.mem_append, List.mem_cons] at hc
  rcases hc with ((hc | hc) | hc) | hc | (hc | hc) | hc
  · exact h₁ c hc
  · exact h₂ c hc
  · exact print_int_no_newline n c hc
  · rw [hc]; decide
  · exact h₃ c hc
  · exact toDigits_no_newline count c hc
  · exact h₄ c hc

theorem program_header_length (n : Int) (count : Nat) (hn : int_range n)
    (hcount : count ≤ 2147483647) :
    ("PROGRAM".toList ++ " (line ".toList ++ print_int n
        ++ ')' :: (" - ".toList ++ Nat.toDigits 10 count ++ " statements".toList)).length
      < 511 := by
  have h₁ := print_int_length n hn
  have h₂ := toDigits_length_le count (by omega)
  simp only [List.length_append, List.length_cons]
  have e₁ : "PROGRAM".toList.length = 7 := rfl
  have e₂ : " (line ".toList.length = 7 := rfl
  have e₃ : " - ".toList.length = 3 := rfl
  have e₄ : " statements".toList.length = 11 := rfl
  omega

theorem append_statement_mk (type : Int) (node_type_str : String) (line_number : Int)
    (semantic_type : Phase3.SymbolType) (is_constant bool_value : Int)
    (loaded : List Phase3.ASTNode) (node : Phase3.ASTNode) :
    append_statement
        (Phase3.ASTNode.mk type node_type_str line_number semantic_type is_constant bool_value
          (Phase3.NodeData.program loaded)) node
      = if loaded.length < 10 then
          Phase3.ASTNode.mk type node_type_str line_number semantic_type is_constant bool_value
            (Phase3.NodeData.program (loaded ++ [node]))
        else
          Phase3.ASTNode.mk type node_type_str line_number semantic_type is_constant bool_value
            (Phase3.NodeData.program loaded) := rfl

theorem foldl_append_statement (nodes : List Phase3.ASTNode) (type : Int)
    (node_type_str : String) (line_number : Int) (semantic_type : Phase3.SymbolType)
    (is_constant bool_value : Int) (loaded : List Phase3.ASTNode) (hloaded : loaded.length ≤ 10) :
    nodes.foldl append_statement
        (Phase3.ASTNode.mk type node_type_str line_number semantic_type is_constant bool_value
          (Phase3.NodeData.program loaded))
      = Phase3.ASTNode.mk type node_type_str line_number semantic_type is_constant bool_value
          (Phase3.NodeData.program ((loaded ++ nodes).take 10)) := by
  induction nodes generalizing loaded with
  | nil =>
    rw [List.foldl_nil, List.append_nil, List.take_of_length_le hloaded]
  | cons node rest ih =>
    rw [List.foldl_cons, append_statement_mk]
    split
    · next hlt =>
      rw [ih (loaded ++ [node]) (by simp; omega)]
      simp
    · next hge =>
      have hlen : loaded.length = 10 := by omega
      rw [ih loaded hloaded]
      have h₁ : (loaded ++ rest).take 10 = loaded := by
        rw [List.take_append_of_le_length (by omega), List.take_of_length_le (by omega)]
      have h₂ : (loaded ++ node :: rest).take 10 = loaded := by
        rw [List.take_append_of_le_length (by omega), List.take_of_length_le (by omega)]
      rw [h₁, h₂]

theorem foldl_skeleton (statements : List Phase2.ASTNode) (root : Phase3.ASTNode) :
    statements.foldl
        (fun root statement => append_statement root (statement_skeleton statement)) root
      = (statements.map statement_skeleton).foldl append_statement root := by
  rw [List.foldl_map]

/-- The root that the loader builds from the text of a program. -/
theorem load_program_text (statements : List Phase2.ASTNode) (capacity : Nat) (line : Int)
    (hline : int_range line) (hcount : statements.length ≤ 2147483647)
    (hplain : ∀ statement ∈ statements, plain_statement statement) (trailer : List Char) :
    (fgets_lines (print_ast (Phase2.ASTNode.program statements capacity line) 0 ++ trailer)
        511 []).foldl load_root Phase3.ASTNode.null
      = (fgets_lines trailer 511 []).foldl load_root
          (Phase3.ASTNode.mk 1
            (String.mk ("PROGRAM (line ".toList ++ print_int line ++ ") - ".toList
              ++ Nat.toDigits 10 statements.length ++ " statements".toList))
            line Phase3.SymbolType.SYM_UNKNOWN 0 0
            (Phase3.NodeData.program ((statements.map statement_skeleton).take 10))) := by
  have hshape : print_ast (Phase2.ASTNode.program statements capacity line) 0 ++ trailer
      = ("PROGRAM".toList ++ " (line ".toList ++ print_int line
          ++ ')' :: (" - ".toList ++ Nat.toDigits 10 statements.length ++ " statements".toList))
        ++ '\n' :: (print_statements statements 0 0 ++ trailer) := by
    rw [print_ast]
    simp [print_indent]
  rw [hshape, fgets_lines_short _ _ 511 [] (program_header_no_newline line statements.length)
    (program_header_length line statements.length hline hcount), List.foldl_cons]
  simp only [List.reverse_nil, List.nil_append]
  rw [load_root_program_header,
    load_statements statements 0 (Phase3.ASTNode.mk 1 _ line _ 0 0 (Phase3.NodeData.program []))
      trailer rfl hplain,
    foldl_skeleton, foldl_append_statement _ _ _ _ _ _ _ [] (by simp)]
  simp

end Codec

namespace Codec

open Phase3 (strstr strchr isspace isdigit trim_whitespace trim_whitespace_buffer
  parse_node_type load_line fgets_lines load_ast_from_file LoaderState scan_digits sscanf_line
  parse_ast_line attach_node append_statement init_program extract_node_data create_ast_node)
open Phase2 (print_int print_indent print_line_marker print_ast print_statements
  print_ast_to_file)

/-! ### The comment lines of the file -/

theorem load_root_skip (root : Phase3.ASTNode) (line : List Char)
    (h : line.head? = some '#' ∨ line.head? = some '\n') : load_root root line = root := by
  unfold load_root load_line
  rw [if_pos (by
    rcases h with h | h
    · exact Or.inl h
    · exact Or.inr (Or.inl h))]

theorem fgets_lines_file_header (rest : List Char) :
    fgets_lines ("# Abstract Syntax Tree (AST)\n".toList
        ++ "# Generated by Phase 2: Syntax Analysis\n".toList
        ++ "# Input: tokens.txt\n".toList ++ "#\n\n".toList ++ rest) 511 []
      = ["# Abstract Syntax Tree (AST)\n".toList,
         "# Generated by Phase 2: Syntax Analysis\n".toList,
         "# Input: tokens.txt\n".toList, "#\n".toList, "\n".toList]
        ++ fgets_lines rest 511 [] := by
  have hshape : "# Abstract Syntax Tree (AST)\n".toList
        ++ "# Generated by Phase 2: Syntax Analysis\n".toList
        ++ "# Input: tokens.txt\n".toList ++ "#\n\n".toList ++ rest
      = "# Abstract Syntax Tree (AST)".toList ++ '\n' ::
          ("# Generated by Phase 2: Syntax Analysis".toList ++ '\n' ::
            ("# Input: tokens.txt".toList ++ '\n' ::
              ("#".toList ++ '\n' :: ([] ++ '\n' :: rest)))) := by
    simp
  rw [hshape, fgets_lines_short _ _ 511 [] (by decide) (by decide),
    fgets_lines_short _ _ 511 [] (by decide) (by decide),
    fgets_lines_short _ _ 511 [] (by decide) (by decide),
    fgets_lines_short _ _ 511 [] (by decide) (by decide),
    fgets_lines_short _ _ 511 [] (by decide) (by decide)]
  rfl

theorem foldl_load_root_file_trailer (root : Phase3.ASTNode) :
    (fgets_lines "\n# End of AST\n".toList 511 []).foldl load_root root = root := by
  have hlines : fgets_lines "\n# End of AST\n".toList 511 []
      = ["\n".toList, "# End of AST\n".toList] := by
    decide
  rw [hlines]
  simp only [List.foldl_cons, List.foldl_nil]
  rw [load_root_skip root "\n".toList (Or.inr rfl),
    load_root_skip root "# End of AST\n".toList (Or.inl rfl)]

/-! ### Claim about the round trip -/

/-- C1 fails as stated: for the program `B := TRUE;` the tree that
`load_ast_from_file` builds from the text of `print_ast` is not structurally
equal to the program (the loaded assignment has neither variable nor value). -/
theorem C1_counterexample :
    struct_eq
      (Phase2.ASTNode.program
        [Phase2.ASTNode.assignment "B" (Phase2.ASTNode.boolean 1 1) 1] 10 1)
      (load_ast_from_file (print_ast
        (Phase2.ASTNode.program
          [Phase2.ASTNode.assignment "B" (Phase2.ASTNode.boolean 1 1) 1] 10 1) 0))
      = false := by
  decide

/-- C1, amended: for every program whose statements are assignments and
expression statements over operand trees (line numbers and statement count
within `int`, no name containing `ASSIGNMENT` or `EXPRESSION_STMT`),
`load_ast_from_file` applied to the text of `print_ast`, and likewise to the
file written by `print_ast_to_file`, returns the program node with the line of
the program whose statements are the first ten statements in order, each with
its kind and its line and without variable, value or operand; for a program
with no statements that node is structurally equal to the program. -/
theorem C1_decode_encode_skeleton (statements : List Phase2.ASTNode) (capacity : Nat)
    (line : Int) (hline : int_range line) (hcount : statements.length ≤ 2147483647)
    (hplain : ∀ statement ∈ statements, plain_statement statement) :
    load_ast_from_file (print_ast (Phase2.ASTNode.program statements capacity line) 0)
      = program_skeleton statements line ∧
    load_ast_from_file (print_ast_to_file (Phase2.ASTNode.program statements capacity line))
      = program_skeleton statements line ∧
    (statements = [] →
      struct_eq (Phase2.ASTNode.program statements capacity line)
        (load_ast_from_file (print_ast (Phase2.ASTNode.program statements capacity line) 0))
        = true) := by
  have hfirst : load_ast_from_file
      (print_ast (Phase2.ASTNode.program statements capacity line) 0)
      = program_skeleton statements line := by
    unfold load_ast_from_file
    rw [foldl_load_line_root]
    have h := load_program_text statements capacity line hline hcount hplain []
    rw [List.append_nil] at h
    rw [h]
    rfl
  refine ⟨hfirst, ?_, ?_⟩
  swap
  · intro hnil
    rw [hfirst, hnil]
    simp [struct_eq, struct_eq_list, program_skeleton, get_type, get_line, get_data,
      Phase3.NodeData.get_statements]
  · unfold load_ast_from_file print_ast_to_file
    rw [foldl_load_line_root, List.append_assoc, fgets_lines_file_header, List.foldl_append]
    simp only [List.foldl_cons, List.foldl_nil]
    rw [load_root_skip _ "# Abstract Syntax Tree (AST)\n".toList (Or.inl rfl),
      load_root_skip _ "# Generated by Phase 2: Syntax Analysis\n".toList (Or.inl rfl),
      load_root_skip _ "# Input: tokens.txt\n".toList (Or.inl rfl),
      load_root_skip _ "#\n".toList (Or.inl rfl),
      load_root_skip _ "\n".toList (Or.inr rfl),
      load_program_text statements capacity line hline hcount hplain,
      foldl_load_root_file_trailer]
    rfl

theorem C1_decode_encode_skeleton_witness :
    int_range 1 ∧
    load_ast_from_file (print_ast
      (Phase2.ASTNode.program
        [Phase2.ASTNode.assignment "B" (Phase2.ASTNode.boolean 1 1) 1,
         Phase2.ASTNode.expression_stmt
           (Phase2.ASTNode.binary Phase2.BinaryOp.OR (Phase2.ASTNode.identifier "B" 2)
             (Phase2.ASTNode.identifier "C" 2) 2) 2] 10 1) 0)
      = Phase3.ASTNode.mk 1 "PROGRAM (line 1) - 2 statements" 1 Phase3.SymbolType.SYM_UNKNOWN 0 0
          (Phase3.NodeData.program
            [Phase3.ASTNode.mk 2 "ASSIGNMENT (line 1)" 1 Phase3.SymbolType.SYM_UNKNOWN 0 0
               (Phase3.NodeData.assignment none Phase3.ASTNode.null),
             Phase3.ASTNode.mk 3 "EXPRESSION_STMT (line 2)" 2 Phase3.SymbolType.SYM_UNKNOWN 0 0
               Phase3.NodeData.zero]) :=
  ⟨by decide,
   (C1_decode_encode_skeleton _ 10 1 (by decide) (by decide)
      (by
        intro statement hstatement
        simp only [List.mem_cons, List.mem_singleton, List.not_mem_nil, or_false] at hstatement
        rcases hstatement with rfl | rfl
        · simp only [plain_statement, plain_expression]
          decide
        · simp only [plain_statement, plain_expression]
          decide)).1.trans rfl⟩

end Codec

/-! ## Theorems: the analysis of identifiers and of whole programs -/

namespace Phase3

/-- C11: `analyze_identifier` on an identifier node named `name` at line
`line_number`, in a context whose table is well formed: the node gets the
Boolean type and nothing else of it changes; afterwards `name` has an entry
that is marked used; when `name` had no entry, the entry is the new one of type
`SYM_IDENTIFIER`, not defined, marked used at `line_number`; when `name` had an
entry, it is that entry, with the used flag set and the line of use written
only if it was not used before, so its type and defined flag are unchanged; the
entry of every other name is unchanged, and so are the diagnostics;
`analyze_node` does the same on such a node. -/
theorem C11_analyze_identifier (ctx : SemanticContext) (hwf : WellFormed ctx.symbol_table)
    (node_type_str : String) (line_number : Int) (semantic_type : SymbolType)
    (is_constant bool_value : Int) (name : String) :
    (analyze_identifier ctx
        (ASTNode.mk 4 node_type_str line_number semantic_type is_constant bool_value
          (NodeData.identifier (some name)))).2
      = ASTNode.mk 4 node_type_str line_number SymbolType.SYM_BOOLEAN is_constant bool_value
          (NodeData.identifier (some name)) ∧
    (∃ entry, lookup_symbol (analyze_identifier ctx
        (ASTNode.mk 4 node_type_str line_number semantic_type is_constant bool_value
          (NodeData.identifier (some name)))).1.symbol_table name = some entry ∧
      entry.name = name ∧ entry.is_used ≠ 0) ∧
    (lookup_symbol ctx.symbol_table name = none →
      lookup_symbol (analyze_identifier ctx
        (ASTNode.mk 4 node_type_str line_number semantic_type is_constant bool_value
          (NodeData.identifier (some name)))).1.symbol_table name
        = some { name := name, type := SymbolType.SYM_IDENTIFIER, is_defined := 0, is_used := 1,
                 line_declared := line_number, line_used := line_number,
                 value := SymbolValue.str_value none }) ∧
    (∀ entry, lookup_symbol ctx.symbol_table name = some entry →
      lookup_symbol (analyze_identifier ctx
        (ASTNode.mk 4 node_type_str line_number semantic_type is_constant bool_value
          (NodeData.identifier (some name)))).1.symbol_table name
        = some (if entry.is_used = 0 then { entry with is_used := 1, line_used := line_number }
                else entry)) ∧
    (∀ other, other ≠ name →
      lookup_symbol (analyze_identifier ctx
        (ASTNode.mk 4 node_type_str line_number semantic_type is_constant bool_value
          (NodeData.identifier (some name)))).1.symbol_table other
        = lookup_symbol ctx.symbol_table other) ∧
    (analyze_identifier ctx
        (ASTNode.mk 4 node_type_str line_number semantic_type is_constant bool_value
          (NodeData.identifier (some name)))).1.errors = ctx.errors ∧
    (analyze_identifier ctx
        (ASTNode.mk 4 node_type_str line_number semantic_type is_constant bool_value
          (NodeData.identifier (some name)))).1.error_count = ctx.error_count ∧
    (analyze_identifier ctx
        (ASTNode.mk 4 node_type_str line_number semantic_type is_constant bool_value
          (NodeData.identifier (some name)))).1.warning_count = ctx.warning_count ∧
    analyze_node ctx
        (ASTNode.mk 4 node_type_str line_number semantic_type is_constant bool_value
          (NodeData.identifier (some name)))
      = analyze_identifier ctx
        (ASTNode.mk 4 node_type_str line_number semantic_type is_constant bool_value
          (NodeData.identifier (some name))) := by
  have hnode : analyze_node ctx
        (ASTNode.mk 4 node_type_str line_number semantic_type is_constant bool_value
          (NodeData.identifier (some name)))
      = analyze_identifier ctx
        (ASTNode.mk 4 node_type_str line_number semantic_type is_constant bool_value
          (NodeData.identifier (some name))) := by
    simp [analyze_node, analyze_expression]
  cases h : lookup_symbol ctx.symbol_table name with
  | none =>
    have hwf₁ := wellFormed_insert hwf name SymbolType.SYM_IDENTIFIER line_number
    have hnew : lookup_symbol (mark_symbol_used
          (insert_symbol ctx.symbol_table name SymbolType.SYM_IDENTIFIER line_number).1
          name line_number) name
        = some { name := name, type := SymbolType.SYM_IDENTIFIER, is_defined := 0, is_used := 1,
                 line_declared := line_number, line_used := line_number,
                 value := SymbolValue.str_value none } := by
      rw [lookup_mark_symbol_used _ hwf₁, if_pos rfl, lookup_insert_symbol hwf, if_pos rfl, h]
      simp [new_entry, mark_entry_used]
    have hother : ∀ other, other ≠ name → lookup_symbol (mark_symbol_used
          (insert_symbol ctx.symbol_table name SymbolType.SYM_IDENTIFIER line_number).1
          name line_number) other = lookup_symbol ctx.symbol_table other := by
      intro other hne
      rw [lookup_mark_symbol_used _ hwf₁, if_neg hne, lookup_insert_symbol hwf,
        if_neg (Ne.symm hne)]
    simp only [analyze_identifier, NodeData.get_identifier, h, ASTNode.set_semantic_type]
    refine ⟨trivial, ⟨_, hnew, rfl, by simp⟩, fun _ => hnew, ?_, hother, trivial, trivial,
      trivial, ?_⟩
    · intro entry hentry
      cases hentry
    · rw [hnode]
      simp only [analyze_identifier, NodeData.get_identifier, h, ASTNode.set_semantic_type]
  | some old =>
    have hold : lookup_symbol (mark_symbol_used ctx.symbol_table name line_number) name
        = some (if old.is_used = 0 then { old with is_used := 1, line_used := line_number }
                else old) := by
      rw [lookup_mark_symbol_used _ hwf, if_pos rfl, h]
      rfl
    have hother : ∀ other, other ≠ name →
        lookup_symbol (mark_symbol_used ctx.symbol_table name line_number) other
          = lookup_symbol ctx.symbol_table other := by
      intro other hne
      rw [lookup_mark_symbol_used _ hwf, if_neg hne]
    simp only [analyze_identifier, NodeData.get_identifier, h, ASTNode.set_semantic_type]
    refine ⟨trivial, ⟨_, hold, ?_, ?_⟩, ?_, ?_, hother, trivial, trivial, trivial, ?_⟩
    · split
      · exact (lookup_symbol_mem h).2
      · exact (lookup_symbol_mem h).2
    · split
      · simp
      · next hused => exact hused
    · intro hnone
      cases hnone
    · intro entry hentry
      cases hentry
      exact hold
    · rw [hnode]
      simp only [analyze_identifier, NodeData.get_identifier, h, ASTNode.set_semantic_type]

theorem C11_analyze_identifier_witness :
    WellFormed create_semantic_context.symbol_table ∧
    lookup_symbol create_semantic_context.symbol_table "X" = none ∧
    lookup_symbol (analyze_identifier create_semantic_context
        (ASTNode.mk 4 "IDENTIFIER: X (line 3)" 3 SymbolType.SYM_UNKNOWN 0 0
          (NodeData.identifier (some "X")))).1.symbol_table "X"
      = some { name := "X", type := SymbolType.SYM_IDENTIFIER, is_defined := 0, is_used := 1,
               line_declared := 3, line_used := 3, value := SymbolValue.str_value none } :=
  ⟨wellFormed_create 101 (by decide), by decide,
   (C11_analyze_identifier create_semantic_context (wellFormed_create 101 (by decide))
      "IDENTIFIER: X (line 3)" 3 SymbolType.SYM_UNKNOWN 0 0 "X").2.2.1 (by decide)⟩

end Phase3

namespace Phase3

/-! ### What the walk does to the tree and to the used flags -/

theorem analyze_node_shallow (ctx : SemanticContext) (node : ASTNode) :
    Codec.get_type (analyze_node ctx node).2 = Codec.get_type node ∧
    (Codec.get_type node ≠ 1 →
      Codec.get_data (analyze_node ctx node).2 = Codec.get_data node) ∧
    (typed_kind node →
      (analyze_node ctx node).2.get_semantic_type = some SymbolType.SYM_BOOLEAN) := by
  cases node with
  | null =>
    refine ⟨rfl, fun _ => rfl, ?_⟩
    intro h
    simp [typed_kind, Codec.get_type] at h
  | mk type node_type_str line_number semantic_type is_constant bool_value data =>
    unfold analyze_node
    by_cases h1 : type = 1
    · subst h1
      rw [if_pos rfl]
      refine ⟨?_, fun h => absurd rfl h, ?_⟩
      · cases data <;> rfl
      · intro h
        simp [typed_kind, Codec.get_type] at h
    rw [if_neg h1]
    by_cases h2 : type = 2
    · subst h2
      rw [if_pos rfl]
      refine ⟨rfl, fun _ => rfl, ?_⟩
      intro h
      simp [typed_kind, Codec.get_type] at h
    rw [if_neg h2]
    by_cases h3 : type = 3
    · subst h3
      rw [if_pos rfl]
      refine ⟨rfl, fun _ => rfl, ?_⟩
      intro h
      simp [typed_kind, Codec.get_type] at h
    rw [if_neg h3]
    unfold analyze_expression
    simp only []
    by_cases h4 : type = 4
    · subst h4
      rw [if_pos rfl]
      unfold analyze_identifier
      simp only []
      cases hname : data.get_identifier with
      | none =>
        refine ⟨rfl, fun _ => rfl, ?_⟩
        intro h
        simp [typed_kind, Codec.get_type, Codec.get_data, hname] at h
      | some name =>
        exact ⟨rfl, fun _ => rfl, fun _ => rfl⟩
    rw [if_neg h4]
    by_cases h5 : type = 5
    · subst h5
      rw [if_pos rfl]
      exact ⟨rfl, fun _ => rfl, fun _ => rfl⟩
    rw [if_neg h5]
    by_cases h6 : type = 6 ∨ type = 7 ∨ type = 9 ∨ type = 10 ∨ type = 11 ∨ type = 12
    · rw [if_pos h6]
      unfold analyze_binary_operation
      simp only []
      rw [if_pos h6]
      exact ⟨rfl, fun _ => rfl, fun _ => rfl⟩
    rw [if_neg h6]
    by_cases h8 : type = 8
    · subst h8
      rw [if_pos rfl]
      unfold analyze_unary_operation
      simp only []
      exact ⟨rfl, fun _ => rfl, fun _ => rfl⟩
    rw [if_neg h8]
    refine ⟨rfl, fun _ => rfl, ?_⟩
    intro h
    simp only [typed_kind, Codec.get_type] at h
    rcases h with h | h | h | h | h | h | h | h | h
    · exact absurd h h5
    · exact absurd (Or.inl h) h6
    · exact absurd (Or.inr (Or.inl h)) h6
    · exact absurd h h8
    · exact absurd (Or.inr (Or.inr (Or.inl h))) h6
    · exact absurd (Or.inr (Or.inr (Or.inr (Or.inl h)))) h6
    · exact absurd (Or.inr (Or.inr (Or.inr (Or.inr (Or.inl h))))) h6
    · exact absurd (Or.inr (Or.inr (Or.inr (Or.inr (Or.inr h))))) h6
    · exact absurd h.1 h4

theorem analyze_statements_cons (ctx : SemanticContext) (statement : ASTNode)
    (rest : List ASTNode) :
    analyze_statements ctx (statement :: rest)
      = ((analyze_statements (analyze_node ctx statement).1 rest).1,
         (analyze_node ctx statement).2
           :: (analyze_statements (analyze_node ctx statement).1 rest).2) := by
  rw [analyze_statements]

theorem analyze_statements_shallow (statements : List ASTNode) :
    ∀ ctx : SemanticContext,
      List.Forall₂
        (fun before after =>
          Codec.get_type after = Codec.get_type before ∧
          (Codec.get_type before ≠ 1 → Codec.get_data after = Codec.get_data before) ∧
          (typed_kind before → after.get_semantic_type = some SymbolType.SYM_BOOLEAN))
        statements (analyze_statements ctx statements).2 := by
  induction statements with
  | nil =>
    intro ctx
    rw [analyze_statements]
    exact List.Forall₂.nil
  | cons statement rest ih =>
    intro ctx
    rw [analyze_statements_cons]
    exact List.Forall₂.cons (analyze_node_shallow ctx statement) (ih _)

theorem marked_used_insert {table : SymbolTable} (hwf : WellFormed table) (name : String)
    (type : SymbolType) (line : Int) {other : String} (h : marked_used table other) :
    marked_used (insert_symbol table name type line).1 other := by
  obtain ⟨entry, hentry, hused⟩ := h
  refine ⟨entry, ?_, hused⟩
  rw [lookup_insert_symbol hwf]
  split
  · rw [hentry]; rfl
  · exact hentry

theorem marked_used_mark {table : SymbolTable} (hwf : WellFormed table) (name : String)
    (line : Int) {other : String} (h : marked_used table other) :
    marked_used (mark_symbol_used table name line) other := by
  obtain ⟨entry, hentry, hused⟩ := h
  rw [marked_used, lookup_mark_symbol_used _ hwf]
  split
  · next hname =>
    subst hname
    refine ⟨mark_entry_used line entry, by rw [hentry]; rfl, ?_⟩
    unfold mark_entry_used
    rw [if_neg hused]
    exact hused
  · exact ⟨entry, hentry, hused⟩

theorem marked_used_set {table : SymbolTable} (hwf : WellFormed table) (name : String)
    (bool_val line : Int) {other : String} (h : marked_used table other) :
    marked_used (set_symbol_value table name bool_val line) other := by
  obtain ⟨entry, hentry, hused⟩ := h
  rw [marked_used, lookup_set_symbol_value _ hwf]
  split
  · next hname =>
    subst hname
    exact ⟨set_entry_value bool_val line entry, by rw [hentry]; rfl, hused⟩
  · exact ⟨entry, hentry, hused⟩

theorem marked_used_known {table : SymbolTable} (hwf : WellFormed table) {other : String}
    (h : marked_used table other) : marked_used (process_known_symbols table) other := by
  have hwf₁ := wellFormed_insert hwf "B" SymbolType.SYM_BOOLEAN 1
  have hwf₂ := wellFormed_set hwf₁ "B" 1 1
  have hwf₃ := wellFormed_mark hwf₂ "B" 3
  have hwf₄ := wellFormed_insert hwf₃ "C" SymbolType.SYM_BOOLEAN 2
  have hwf₅ := wellFormed_set hwf₄ "C" 0 2
  unfold process_known_symbols
  exact marked_used_mark hwf₅ _ _ (marked_used_set hwf₄ _ _ _ (marked_used_insert hwf₃ _ _ _
    (marked_used_mark hwf₂ _ _ (marked_used_set hwf₁ _ _ _ (marked_used_insert hwf _ _ _ h)))))

theorem marked_used_analyze_identifier (ctx : SemanticContext)
    (hwf : WellFormed ctx.symbol_table) (node : ASTNode) {other : String}
    (h : marked_used ctx.symbol_table other) :
    marked_used (analyze_identifier ctx node).1.symbol_table other := by
  unfold analyze_identifier
  cases node with
  | null => exact h
  | mk type node_type_str line_number semantic_type is_constant bool_value data =>
    simp only []
    cases hname : data.get_identifier with
    | none => exact h
    | some name =>
      simp only []
      cases hlook : lookup_symbol ctx.symbol_table name with
      | none =>
        simp only []
        exact marked_used_mark (wellFormed_insert hwf _ _ _) _ _ (marked_used_insert hwf _ _ _ h)
      | some entry =>
        simp only []
        exact marked_used_mark hwf _ _ h

/-- After `analyze_identifier` on a node with a name, the name is marked used. -/
theorem analyze_identifier_marks (ctx : SemanticContext) (hwf : WellFormed ctx.symbol_table)
    (type : Int) (node_type_str : String) (line_number : Int) (semantic_type : SymbolType)
    (is_constant bool_value : Int) (data : NodeData) (name : String)
    (hname : data.get_identifier = some name) :
    marked_used (analyze_identifier ctx
      (ASTNode.mk type node_type_str line_number semantic_type is_constant bool_value
        data)).1.symbol_table name := by
  unfold analyze_identifier
  simp only [hname]
  have hmark : ∀ table, WellFormed table → (∃ entry, lookup_symbol table name = some entry) →
      marked_used (mark_symbol_used table name line_number) name := by
    intro table hwft ⟨entry, hentry⟩
    rw [marked_used, lookup_mark_symbol_used _ hwft, if_pos rfl, hentry]
    refine ⟨_, rfl, ?_⟩
    unfold mark_entry_used
    split
    · simp
    · next hused => exact hused
  cases hlook : lookup_symbol ctx.symbol_table name with
  | none =>
    simp only []
    apply hmark _ (wellFormed_insert hwf _ _ _)
    rw [lookup_insert_symbol hwf, if_pos rfl]
    exact ⟨_, rfl⟩
  | some entry =>
    simp only []
    exact hmark _ hwf ⟨entry, hlook⟩

theorem marked_used_analyze_expression (ctx : SemanticContext)
    (hwf : WellFormed ctx.symbol_table) (node : ASTNode) {other : String}
    (h : marked_used ctx.symbol_table other) :
    marked_used (analyze_expression ctx node).1.symbol_table other := by
  cases node with
  | null => exact h
  | mk type node_type_str line_number semantic_type is_constant bool_value data =>
    unfold analyze_expression
    simp only []
    split
    · exact marked_used_analyze_identifier _ hwf _ h
    · split
      · exact h
      · split
        · unfold analyze_binary_operation
          simp only []
          split <;> exact h
        · split
          · unfold analyze_unary_operation
            simp only []
            split <;> exact h
          · exact h

mutual
theorem marked_used_analyze_node (ctx : SemanticContext) (hwf : WellFormed ctx.symbol_table)
    (other : String) (h : marked_used ctx.symbol_table other) :
    ∀ node : ASTNode, marked_used (analyze_node ctx node).1.symbol_table other
  | ASTNode.null => h
  | ASTNode.mk type node_type_str line_number semantic_type is_constant bool_value data => by
    unfold analyze_node
    split
    · cases data with
      | program statements => exact marked_used_analyze_statements ctx hwf other h statements
      | zero => exact h
      | identifier name => exact h
      | bool_literal value => exact h
      | assignment var_name value => exact h
      | binary left right => exact h
      | unary operand => exact h
    · split
      · exact h
      · split
        · exact h
        · exact marked_used_analyze_expression _ hwf _ h
theorem marked_used_analyze_statements (ctx : SemanticContext)
    (hwf : WellFormed ctx.symbol_table) (other : String)
    (h : marked_used ctx.symbol_table other) :
    ∀ statements : List ASTNode,
      marked_used (analyze_statements ctx statements).1.symbol_table other
  | [] => h
  | statement :: rest => by
    unfold analyze_statements
    exact marked_used_analyze_statements (analyze_node ctx statement).1
      (wellFormed_analyze_node ctx hwf statement) other
      (marked_used_analyze_node ctx hwf other h statement) rest
end

/-- A named identifier node that the walk visits is marked used. -/
theorem analyze_node_marks (ctx : SemanticContext) (hwf : WellFormed ctx.symbol_table)
    (node : ASTNode) (name : String) (htype : Codec.get_type node = 4)
    (hname : (Codec.get_data node).get_identifier = some name) :
    marked_used (analyze_node ctx node).1.symbol_table name := by
  cases node with
  | null => simp [Codec.get_type] at htype
  | mk type node_type_str line_number semantic_type is_constant bool_value data =>
    simp only [Codec.get_type] at htype
    subst htype
    unfold analyze_node
    rw [if_neg (by decide), if_neg (by decide), if_neg (by decide)]
    unfold analyze_expression
    simp only [if_true]
    exact analyze_identifier_marks ctx hwf _ _ _ _ _ _ _ _ hname

theorem analyze_statements_marks (statements : List ASTNode) :
    ∀ ctx : SemanticContext, WellFormed ctx.symbol_table →
      ∀ node ∈ statements, ∀ name : String, Codec.get_type node = 4 →
        (Codec.get_data node).get_identifier = some name →
        marked_used (analyze_statements ctx statements).1.symbol_table name := by
  induction statements with
  | nil =>
    intro ctx _ node hnode
    cases hnode
  | cons statement rest ih =>
    intro ctx hwf node hnode name htype hname
    rw [analyze_statements_cons]
    rcases List.mem_cons.1 hnode with hhead | htail
    · subst hhead
      exact marked_used_analyze_statements _ (wellFormed_analyze_node ctx hwf node) name
        (analyze_node_marks ctx hwf node name htype hname) rest
    · exact ih _ (wellFormed_analyze_node ctx hwf statement) node htail name htype hname

end Phase3

namespace Phase3

/-- C12 fails as stated: after the analysis of the program `Y := X;`, in a
fresh context, the tree is as it was but for the type of the assignment node:
the identifier node `X`, nested as the value of the assignment, still has the
type `SYM_UNKNOWN`, and the symbol table has no entry for `X`. -/
theorem C12_counterexample :
    (perform_semantic_analysis create_semantic_context
      (ASTNode.mk 1 "PROGRAM (line 1) - 1 statements" 1 SymbolType.SYM_UNKNOWN 0 0
        (NodeData.program
          [ASTNode.mk 2 "ASSIGNMENT (line 1)" 1 SymbolType.SYM_UNKNOWN 0 0
            (NodeData.assignment (some "Y")
              (ASTNode.mk 4 "IDENTIFIER: X (line 1)" 1 SymbolType.SYM_UNKNOWN 0 0
                (NodeData.identifier (some "X"))))]))).2.2
      = ASTNode.mk 1 "PROGRAM (line 1) - 1 statements" 1 SymbolType.SYM_UNKNOWN 0 0
        (NodeData.program
          [ASTNode.mk 2 "ASSIGNMENT (line 1)" 1 SymbolType.SYM_BOOLEAN 0 0
            (NodeData.assignment (some "Y")
              (ASTNode.mk 4 "IDENTIFIER: X (line 1)" 1 SymbolType.SYM_UNKNOWN 0 0
                (NodeData.identifier (some "X"))))]) ∧
    (perform_semantic_analysis create_semantic_context
      (ASTNode.mk 1 "PROGRAM (line 1) - 1 statements" 1 SymbolType.SYM_UNKNOWN 0 0
        (NodeData.program
          [ASTNode.mk 2 "ASSIGNMENT (line 1)" 1 SymbolType.SYM_UNKNOWN 0 0
            (NodeData.assignment (some "Y")
              (ASTNode.mk 4 "IDENTIFIER: X (line 1)" 1 SymbolType.SYM_UNKNOWN 0 0
                (NodeData.identifier (some "X"))))]))).2.2.expressions_boolean = false ∧
    lookup_symbol (perform_semantic_analysis create_semantic_context
      (ASTNode.mk 1 "PROGRAM (line 1) - 1 statements" 1 SymbolType.SYM_UNKNOWN 0 0
        (NodeData.program
          [ASTNode.mk 2 "ASSIGNMENT (line 1)" 1 SymbolType.SYM_UNKNOWN 0 0
            (NodeData.assignment (some "Y")
              (ASTNode.mk 4 "IDENTIFIER: X (line 1)" 1 SymbolType.SYM_UNKNOWN 0 0
                (NodeData.identifier (some "X"))))]))).2.1.symbol_table "X" = none :=
  ⟨rfl, by decide, by decide⟩

/-- C12, amended: after `perform_semantic_analysis` of a program in a fresh
context, the tree is the program with every statement in its place; an
expression node that is itself a statement of the program (a literal, a
connective, a `NOT`, an identifier node that has a name) has the inferred type
Boolean, and such an identifier has a symbol-table entry that is marked used;
the `data` of every statement that is not itself a program is what it was, so
the nodes nested as assignment values, as expression-statement expressions and
as operands keep the type they had and their identifiers are not entered. -/
theorem C12_visited_expressions (node_type_str : String) (line_number : Int)
    (semantic_type : SymbolType) (is_constant bool_value : Int) (statements : List ASTNode) :
    ∃ analyzed : List ASTNode,
      (perform_semantic_analysis create_semantic_context
        (ASTNode.mk 1 node_type_str line_number semantic_type is_constant bool_value
          (NodeData.program statements))).2.2
        = ASTNode.mk 1 node_type_str line_number semantic_type is_constant bool_value
            (NodeData.program analyzed) ∧
      List.Forall₂
        (fun before after =>
          Codec.get_type after = Codec.get_type before ∧
          (Codec.get_type before ≠ 1 → Codec.get_data after = Codec.get_data before) ∧
          (typed_kind before → after.get_semantic_type = some SymbolType.SYM_BOOLEAN))
        statements analyzed ∧
      ∀ node ∈ statements, ∀ name : String, Codec.get_type node = 4 →
        (Codec.get_data node).get_identifier = some name →
        marked_used (perform_semantic_analysis create_semantic_context
          (ASTNode.mk 1 node_type_str line_number semantic_type is_constant bool_value
            (NodeData.program statements))).2.1.symbol_table name := by
  have hwalk : analyze_node create_semantic_context
      (ASTNode.mk 1 node_type_str line_number semantic_type is_constant bool_value
        (NodeData.program statements))
      = ((analyze_statements create_semantic_context statements).1,
         ASTNode.mk 1 node_type_str line_number semantic_type is_constant bool_value
           (NodeData.program (analyze_statements create_semantic_context statements).2)) := by
    rw [analyze_node, if_pos rfl]
  have hwf : WellFormed create_semantic_context.symbol_table := wellFormed_create 101 (by decide)
  refine ⟨(analyze_statements create_semantic_context statements).2, ?_,
    analyze_statements_shallow statements _, ?_⟩
  · unfold perform_semantic_analysis
    simp only [hwalk]
  · intro node hnode name htype hname
    unfold perform_semantic_analysis
    simp only [semantic_validation_table, hwalk]
    exact marked_used_known (wellFormed_analyze_statements _ hwf statements)
      (analyze_statements_marks statements _ hwf node hnode name htype hname)

end Phase3

namespace Phase3

/-! ### The diagnostics and the counts of an analysis -/

theorem wellFormed_known {table : SymbolTable} (hwf : WellFormed table) :
    WellFormed (process_known_symbols table) := by
  unfold process_known_symbols
  exact wellFormed_mark (wellFormed_set (wellFormed_insert (wellFormed_mark (wellFormed_set
    (wellFormed_insert hwf _ _ _) _ _ _) _ _) _ _ _) _ _ _) _ _

theorem lookup_known_other {table : SymbolTable} (hwf : WellFormed table) (other : String)
    (hB : other ≠ "B") (hC : other ≠ "C") :
    lookup_symbol (process_known_symbols table) other = lookup_symbol table other := by
  have hwf₁ := wellFormed_insert hwf "B" SymbolType.SYM_BOOLEAN 1
  have hwf₂ := wellFormed_set hwf₁ "B" 1 1
  have hwf₃ := wellFormed_mark hwf₂ "B" 3
  have hwf₄ := wellFormed_insert hwf₃ "C" SymbolType.SYM_BOOLEAN 2
  have hwf₅ := wellFormed_set hwf₄ "C" 0 2
  unfold process_known_symbols
  simp only []
  rw [lookup_mark_symbol_used _ hwf₅, if_neg hC, lookup_set_symbol_value _ hwf₄, if_neg hC,
    lookup_insert_symbol hwf₃, if_neg (Ne.symm hC), lookup_mark_symbol_used _ hwf₂, if_neg hB,
    lookup_set_symbol_value _ hwf₁, if_neg hB, lookup_insert_symbol hwf, if_neg (Ne.symm hB)]

theorem analyze_identifier_diagnostics (ctx : SemanticContext) (node : ASTNode) :
    (analyze_identifier ctx node).1.errors = ctx.errors ∧
    (analyze_identifier ctx node).1.error_count = ctx.error_count ∧
    (analyze_identifier ctx node).1.warning_count = ctx.warning_count := by
  cases node with
  | null => exact ⟨rfl, rfl, rfl⟩
  | mk type node_type_str line_number semantic_type is_constant bool_value data =>
    unfold analyze_identifier
    simp only []
    cases data.get_identifier <;> exact ⟨rfl, rfl, rfl⟩

theorem analyze_expression_diagnostics (ctx : SemanticContext) (node : ASTNode) :
    (analyze_expression ctx node).1.errors = ctx.errors ∧
    (analyze_expression ctx node).1.error_count = ctx.error_count ∧
    (analyze_expression ctx node).1.warning_count = ctx.warning_count := by
  cases node with
  | null => exact ⟨rfl, rfl, rfl⟩
  | mk type node_type_str line_number semantic_type is_constant bool_value data =>
    unfold analyze_expression
    simp only []
    split
    · exact analyze_identifier_diagnostics _ _
    · split
      · exact ⟨rfl, rfl, rfl⟩
      · split
        · unfold analyze_binary_operation
          simp only []
          split <;> exact ⟨rfl, rfl, rfl⟩
        · split
          · unfold analyze_unary_operation
            simp only []
            split <;> exact ⟨rfl, rfl, rfl⟩
          · exact ⟨rfl, rfl, rfl⟩

mutual
theorem analyze_node_diagnostics (ctx : SemanticContext) :
    ∀ node : ASTNode,
      (analyze_node ctx node).1.errors = ctx.errors ∧
      (analyze_node ctx node).1.error_count = ctx.error_count ∧
      (analyze_node ctx node).1.warning_count = ctx.warning_count
  | ASTNode.null => ⟨rfl, rfl, rfl⟩
  | ASTNode.mk type node_type_str line_number semantic_type is_constant bool_value data => by
    unfold analyze_node
    split
    · cases data with
      | program statements => exact analyze_statements_diagnostics ctx statements
      | zero => exact ⟨rfl, rfl, rfl⟩
      | identifier name => exact ⟨rfl, rfl, rfl⟩
      | bool_literal value => exact ⟨rfl, rfl, rfl⟩
      | assignment var_name value => exact ⟨rfl, rfl, rfl⟩
      | binary left right => exact ⟨rfl, rfl, rfl⟩
      | unary operand => exact ⟨rfl, rfl, rfl⟩
    · split
      · exact ⟨rfl, rfl, rfl⟩
      · split
        · exact ⟨rfl, rfl, rfl⟩
        · exact analyze_expression_diagnostics _ _
theorem analyze_statements_diagnostics (ctx : SemanticContext) :
    ∀ statements : List ASTNode,
      (analyze_statements ctx statements).1.errors = ctx.errors ∧
      (analyze_statements ctx statements).1.error_count = ctx.error_count ∧
      (analyze_statements ctx statements).1.warning_count = ctx.warning_count
  | [] => ⟨rfl, rfl, rfl⟩
  | statement :: rest => by
    unfold analyze_statements
    have h1 := analyze_node_diagnostics ctx statement
    have h2 := analyze_statements_diagnostics (analyze_node ctx statement).1 rest
    exact ⟨h2.1.trans h1.1, h2.2.1.trans h1.2.1, h2.2.2.trans h1.2.2⟩
end

theorem semantic_validation_errors (ctx : SemanticContext) :
    ((semantic_validation ctx).errors =
      if check_undefined_symbols ctx.symbol_table > 0 then
        { type := SemanticErrorType.SEM_ERROR_UNDEFINED_VAR,
          message := "Variables referenced but not defined", line_number := 0,
          symbol_name := none } :: ctx.errors
      else ctx.errors) ∧
    ((semantic_validation ctx).error_count =
      if check_undefined_symbols ctx.symbol_table > 0 then ctx.error_count + 1
      else ctx.error_count) ∧
    (semantic_validation ctx).warning_count
      = ctx.warning_count + (check_unused_symbols ctx.symbol_table : Int) := by
  unfold semantic_validation
  simp only []
  by_cases hu : check_undefined_symbols ctx.symbol_table > 0
  · simp only [if_pos hu, add_semantic_error]
    by_cases hw : check_unused_symbols ctx.symbol_table > 0
    · simp only [if_pos hw]
      exact ⟨trivial, trivial, trivial⟩
    · simp only [if_neg hw]
      have : check_unused_symbols ctx.symbol_table = 0 := by omega
      simp [this]
  · simp only [if_neg hu]
    by_cases hw : check_unused_symbols ctx.symbol_table > 0
    · simp only [if_pos hw]
      exact ⟨trivial, trivial, trivial⟩
    · simp only [if_neg hw]
      have : check_unused_symbols ctx.symbol_table = 0 := by omega
      simp [this]

theorem check_unused_eq_countP {table : SymbolTable} (hwf : WellFormed table) :
    check_unused_symbols table
      = (entries table).countP (fun entry => decide (entry.is_defined ≠ 0 ∧ entry.is_used = 0)) := by
  unfold check_unused_symbols
  rw [count_table_eq _ _ hwf.length_eq]
  congr 1
  funext entry
  exact is_unused_eq entry

theorem check_undefined_eq_countP {table : SymbolTable} (hwf : WellFormed table) :
    check_undefined_symbols table
      = (entries table).countP (fun entry => decide (entry.is_used ≠ 0 ∧ entry.is_defined = 0)) := by
  unfold check_undefined_symbols
  rw [count_table_eq _ _ hwf.length_eq]
  congr 1
  funext entry
  exact is_undefined_eq entry

/-- In a well-formed table where exactly the entry named `name` is used and
not defined, `check_undefined_symbols` counts one. -/
theorem check_undefined_one {table : SymbolTable} (hwf : WellFormed table) (name : String)
    (hmem : ∃ entry, lookup_symbol table name = some entry)
    (hiff : ∀ entry ∈ entries table, is_undefined entry = true ↔ entry.name = name) :
    check_undefined_symbols table = 1 := by
  unfold check_undefined_symbols
  rw [count_table_eq _ _ hwf.length_eq]
  have hcount : (entries table).countP is_undefined
      = ((entries table).map SymbolEntry.name).count name := by
    rw [List.count, List.countP_map]
    apply List.countP_congr
    intro entry hentry
    simp [hiff entry hentry]
  rw [hcount]
  obtain ⟨entry, hentry⟩ := hmem
  apply List.count_eq_one_of_mem hwf.nodup
  exact List.mem_map.2 ⟨entry, (lookup_symbol_mem hentry).1, (lookup_symbol_mem hentry).2⟩

end Phase3

namespace Phase3

/-- The walk over statements that are assignments and expression statements
leaves the context as it was. -/
theorem analyze_statements_plain (ctx : SemanticContext) (statements : List ASTNode)
    (h : ∀ node ∈ statements, Codec.get_type node = 2 ∨ Codec.get_type node = 3) :
    (analyze_statements ctx statements).1 = ctx := by
  induction statements with
  | nil => rw [analyze_statements]
  | cons statement rest ih =>
    rw [analyze_statements_cons]
    have hnode : (analyze_node ctx statement).1 = ctx := by
      cases statement with
      | null => rfl
      | mk type node_type_str line_number semantic_type is_constant bool_value data =>
        rcases h _ (List.mem_cons_self _ _) with h2 | h3
        · simp only [Codec.get_type] at h2
          subst h2
          unfold analyze_node
          rw [if_neg (by decide), if_pos rfl]
          rfl
        · simp only [Codec.get_type] at h3
          subst h3
          unfold analyze_node
          rw [if_neg (by decide), if_neg (by decide), if_pos rfl]
    simp only [hnode]
    exact ih (fun node hmem => h node (List.mem_cons_of_mem _ hmem))

/-- The analysis of a program of assignments and expression statements, in a
fresh context: the result is 0, there is no diagnostic and no warning, and the
table is the one of the two symbols that every analysis enters. -/
theorem perform_plain (node_type_str : String) (line_number : Int) (semantic_type : SymbolType)
    (is_constant bool_value : Int) (statements : List ASTNode)
    (h : ∀ node ∈ statements, Codec.get_type node = 2 ∨ Codec.get_type node = 3) :
    (perform_semantic_analysis create_semantic_context
      (ASTNode.mk 1 node_type_str line_number semantic_type is_constant bool_value
        (NodeData.program statements))).1 = 0 ∧
    (perform_semantic_analysis create_semantic_context
      (ASTNode.mk 1 node_type_str line_number semantic_type is_constant bool_value
        (NodeData.program statements))).2.1
      = { symbol_table := process_known_symbols (create_symbol_table 101), errors := [],
          error_count := 0, warning_count := 0 } := by
  have hwalk : (analyze_node create_semantic_context
      (ASTNode.mk 1 node_type_str line_number semantic_type is_constant bool_value
        (NodeData.program statements))).1 = create_semantic_context := by
    rw [analyze_node, if_pos rfl]
    exact analyze_statements_plain _ _ h
  unfold perform_semantic_analysis
  simp only [hwalk]
  constructor <;> decide

/-- When the only name with an entry is `name`, other than `B` and `C`, and
its entry is used and not defined, then after the two known symbols are
entered `check_undefined_symbols` counts one. -/
theorem undefined_one_of_lookup {table : SymbolTable} (hwf : WellFormed table) (name : String)
    (hB : name ≠ "B") (hC : name ≠ "C") (entry : SymbolEntry)
    (hentry : is_undefined entry = true)
    (hlook : ∀ other, lookup_symbol table other = if other = name then some entry else none) :
    check_undefined_symbols (process_known_symbols table) = 1 := by
  have hwf₃ := wellFormed_known hwf
  apply check_undefined_one hwf₃ name
  · rw [lookup_known_other hwf name hB hC, hlook, if_pos rfl]
    exact ⟨_, rfl⟩
  · intro found hfound
    have hself := hwf₃.lookup_of_mem hfound
    obtain ⟨⟨entryB, hentryB, _, hdefB, _⟩, ⟨entryC, hentryC, _, hdefC, _⟩⟩ :=
      known_symbols_present _ hwf
    by_cases hnB : found.name = "B"
    · rw [hnB, hentryB] at hself
      have heq := Option.some.inj hself
      subst heq
      constructor
      · intro hund
        rw [is_undefined_eq] at hund
        simp [hdefB] at hund
      · intro hname
        exact absurd (hname.symm.trans hnB) hB
    by_cases hnC : found.name = "C"
    · rw [hnC, hentryC] at hself
      have heq := Option.some.inj hself
      subst heq
      constructor
      · intro hund
        rw [is_undefined_eq] at hund
        simp [hdefC] at hund
      · intro hname
        exact absurd (hname.symm.trans hnC) hC
    rw [lookup_known_other hwf _ hnB hnC, hlook] at hself
    by_cases hn : found.name = name
    · rw [if_pos hn] at hself
      have heq := Option.some.inj hself
      subst heq
      exact ⟨fun _ => hn, fun _ => hentry⟩
    · rw [if_neg hn] at hself
      cases hself

theorem validation_undefined_one (table : SymbolTable) (errors : List SemanticError)
    (error_count warning_count : Int) (h : check_undefined_symbols table = 1) :
    (semantic_validation
      { symbol_table := table, errors := errors, error_count := error_count,
        warning_count := warning_count }).errors
      = { type := SemanticErrorType.SEM_ERROR_UNDEFINED_VAR,
          message := "Variables referenced but not defined", line_number := 0,
          symbol_name := none } :: errors ∧
    (semantic_validation
      { symbol_table := table, errors := errors, error_count := error_count,
        warning_count := warning_count }).error_count = error_count + 1 := by
  have hvalid := semantic_validation_errors
    { symbol_table := table, errors := errors, error_count := error_count,
      warning_count := warning_count }
  dsimp only at hvalid
  have hpos : check_undefined_symbols table > 0 := by omega
  rw [if_pos hpos, if_pos hpos] at hvalid
  exact ⟨hvalid.1, hvalid.2.1⟩

/-- The result of `perform_semantic_analysis` when the walk leaves no
diagnostic and the final table has one symbol that is used and not defined. -/
theorem perform_undefined_one (ctx : SemanticContext) (type : Int) (node_type_str : String)
    (line_number : Int) (semantic_type : SymbolType) (is_constant bool_value : Int)
    (data : NodeData) (table : SymbolTable)
    (hwalk : (analyze_node ctx
        (ASTNode.mk type node_type_str line_number semantic_type is_constant bool_value data)).1
      = { symbol_table := table, errors := [], error_count := 0, warning_count := 0 })
    (hcount : check_undefined_symbols (process_known_symbols table) = 1) :
    check_undefined_symbols (perform_semantic_analysis ctx
      (ASTNode.mk type node_type_str line_number semantic_type is_constant bool_value
        data)).2.1.symbol_table = 1 ∧
    (perform_semantic_analysis ctx
      (ASTNode.mk type node_type_str line_number semantic_type is_constant bool_value
        data)).2.1.errors
      = [{ type := SemanticErrorType.SEM_ERROR_UNDEFINED_VAR,
           message := "Variables referenced but not defined", line_number := 0,
           symbol_name := none }] ∧
    (perform_semantic_analysis ctx
      (ASTNode.mk type node_type_str line_number semantic_type is_constant bool_value
        data)).2.1.error_count = 1 ∧
    (perform_semantic_analysis ctx
      (ASTNode.mk type node_type_str line_number semantic_type is_constant bool_value
        data)).1 = 1 := by
  have hvalid := validation_undefined_one _ [] 0 0 hcount
  unfold perform_semantic_analysis
  simp only [hwalk, semantic_validation_table]
  exact ⟨hcount, hvalid.1, hvalid.2, hvalid.2⟩

/-- The context and the result of `perform_semantic_analysis` on a tree that
is not `NULL`, from the context that the walk leaves. -/
theorem perform_counts (ctx : SemanticContext) (type : Int) (node_type_str : String)
    (line_number : Int) (semantic_type : SymbolType) (is_constant bool_value : Int)
    (data : NodeData) :
    (perform_semantic_analysis ctx
      (ASTNode.mk type node_type_str line_number semantic_type is_constant bool_value
        data)).2.1.symbol_table
      = process_known_symbols (analyze_node ctx
          (ASTNode.mk type node_type_str line_number semantic_type is_constant bool_value
            data)).1.symbol_table ∧
    ((perform_semantic_analysis ctx
      (ASTNode.mk type node_type_str line_number semantic_type is_constant bool_value
        data)).2.1.errors
      = if check_undefined_symbols (process_known_symbols (analyze_node ctx
          (ASTNode.mk type node_type_str line_number semantic_type is_constant bool_value
            data)).1.symbol_table) > 0 then
          { type := SemanticErrorType.SEM_ERROR_UNDEFINED_VAR,
            message := "Variables referenced but not defined", line_number := 0,
            symbol_name := none } :: ctx.errors
        else ctx.errors) ∧
    ((perform_semantic_analysis ctx
      (ASTNode.mk type node_type_str line_number semantic_type is_constant bool_value
        data)).2.1.error_count
      = if check_undefined_symbols (process_known_symbols (analyze_node ctx
          (ASTNode.mk type node_type_str line_number semantic_type is_constant bool_value
            data)).1.symbol_table) > 0 then ctx.error_count + 1
        else ctx.error_count) ∧
    (perform_semantic_analysis ctx
      (ASTNode.mk type node_type_str line_number semantic_type is_constant bool_value
        data)).2.1.warning_count
      = ctx.warning_count + (check_unused_symbols (process_known_symbols (analyze_node ctx
          (ASTNode.mk type node_type_str line_number semantic_type is_constant bool_value
            data)).1.symbol_table) : Int) ∧
    (perform_semantic_analysis ctx
      (ASTNode.mk type node_type_str line_number semantic_type is_constant bool_value
        data)).1
      = (perform_semantic_analysis ctx
          (ASTNode.mk type node_type_str line_number semantic_type is_constant bool_value
            data)).2.1.error_count := by
  obtain ⟨herrors, hcount, hwarn⟩ := analyze_node_diagnostics ctx
    (ASTNode.mk type node_type_str line_number semantic_type is_constant bool_value data)
  have hvalid := semantic_validation_errors
    { (analyze_node ctx
        (ASTNode.mk type node_type_str line_number semantic_type is_constant bool_value
          data)).1 with
      symbol_table := process_known_symbols (analyze_node ctx
        (ASTNode.mk type node_type_str line_number semantic_type is_constant bool_value
          data)).1.symbol_table }
  unfold perform_semantic_analysis
  dsimp only at hvalid ⊢
  rw [herrors, hcount, hwarn] at hvalid
  simp only [herrors, hcount, hwarn]
  refine ⟨?_, hvalid.1, hvalid.2.1, hvalid.2.2, ?_⟩
  · rw [semantic_validation_table]
  · trivial

end Phase3

namespace Phase3

/-! ### Claims about the results of the analysis -/

/-- C13 fails as stated: for the program `X;`, a single expression statement
that references the never assigned `X`, the analysis in a fresh context ends
with no entry for `X`, `check_undefined_symbols` = 0, no diagnostic and the
result 0. This is so for the tree that `load_ast_from_file` builds from the
file that phase 2 writes for the program, and for an expression statement node
that holds the identifier node as its operand. -/
theorem C13_counterexample :
    (perform_semantic_analysis create_semantic_context
      (load_ast_from_file (Phase2.print_ast_to_file
        (Phase2.ASTNode.program
          [Phase2.ASTNode.expression_stmt (Phase2.ASTNode.identifier "X" 1) 1] 10 1)))).1 = 0 ∧
    (perform_semantic_analysis create_semantic_context
      (load_ast_from_file (Phase2.print_ast_to_file
        (Phase2.ASTNode.program
          [Phase2.ASTNode.expression_stmt (Phase2.ASTNode.identifier "X" 1) 1] 10 1)))).2.1.errors
      = [] ∧
    check_undefined_symbols (perform_semantic_analysis create_semantic_context
      (load_ast_from_file (Phase2.print_ast_to_file
        (Phase2.ASTNode.program
          [Phase2.ASTNode.expression_stmt (Phase2.ASTNode.identifier "X" 1) 1] 10
          1)))).2.1.symbol_table = 0 ∧
    (perform_semantic_analysis create_semantic_context
      (ASTNode.mk 1 "PROGRAM (line 1) - 1 statements" 1 SymbolType.SYM_UNKNOWN 0 0
        (NodeData.program
          [ASTNode.mk 3 "EXPRESSION_STMT (line 1)" 1 SymbolType.SYM_UNKNOWN 0 0
            (NodeData.unary
              (ASTNode.mk 4 "IDENTIFIER: X (line 1)" 1 SymbolType.SYM_UNKNOWN 0 0
                (NodeData.identifier (some "X"))))]))).1 = 0 ∧
    (perform_semantic_analysis create_semantic_context
      (ASTNode.mk 1 "PROGRAM (line 1) - 1 statements" 1 SymbolType.SYM_UNKNOWN 0 0
        (NodeData.program
          [ASTNode.mk 3 "EXPRESSION_STMT (line 1)" 1 SymbolType.SYM_UNKNOWN 0 0
            (NodeData.unary
              (ASTNode.mk 4 "IDENTIFIER: X (line 1)" 1 SymbolType.SYM_UNKNOWN 0 0
                (NodeData.identifier (some "X"))))]))).2.1.errors = [] ∧
    check_undefined_symbols (perform_semantic_analysis create_semantic_context
      (ASTNode.mk 1 "PROGRAM (line 1) - 1 statements" 1 SymbolType.SYM_UNKNOWN 0 0
        (NodeData.program
          [ASTNode.mk 3 "EXPRESSION_STMT (line 1)" 1 SymbolType.SYM_UNKNOWN 0 0
            (NodeData.unary
              (ASTNode.mk 4 "IDENTIFIER: X (line 1)" 1 SymbolType.SYM_UNKNOWN 0 0
                (NodeData.identifier (some "X"))))]))).2.1.symbol_table = 0 ∧
    lookup_symbol (perform_semantic_analysis create_semantic_context
      (ASTNode.mk 1 "PROGRAM (line 1) - 1 statements" 1 SymbolType.SYM_UNKNOWN 0 0
        (NodeData.program
          [ASTNode.mk 3 "EXPRESSION_STMT (line 1)" 1 SymbolType.SYM_UNKNOWN 0 0
            (NodeData.unary
              (ASTNode.mk 4 "IDENTIFIER: X (line 1)" 1 SymbolType.SYM_UNKNOWN 0 0
                (NodeData.identifier (some "X"))))]))).2.1.symbol_table "X" = none := by
  decide

/-- C13, amended: for a program whose one statement is itself the identifier
node `X` (`X` other than `B` and `C`, never assigned), which is where the walk
reaches an identifier, the analysis in a fresh context ends with
`check_undefined_symbols` = 1, exactly one diagnostic, of the kind
`SEM_ERROR_UNDEFINED_VAR`, and the result 1; for a program whose one statement
is an expression statement, whatever it holds, the walk does not descend into
the statement: `X` gets no entry, `check_undefined_symbols` = 0, there is no
diagnostic and the result is 0. -/
theorem C13_undefined_identifier (name : String) (hB : name ≠ "B") (hC : name ≠ "C")
    (program_str : String) (program_line : Int) (program_type : SymbolType)
    (program_constant program_value : Int)
    (node_type_str : String) (line_number : Int) (semantic_type : SymbolType)
    (is_constant bool_value : Int) :
    (check_undefined_symbols (perform_semantic_analysis create_semantic_context
        (ASTNode.mk 1 program_str program_line program_type program_constant program_value
          (NodeData.program
            [ASTNode.mk 4 node_type_str line_number semantic_type is_constant bool_value
              (NodeData.identifier (some name))]))).2.1.symbol_table = 1 ∧
      (perform_semantic_analysis create_semantic_context
        (ASTNode.mk 1 program_str program_line program_type program_constant program_value
          (NodeData.program
            [ASTNode.mk 4 node_type_str line_number semantic_type is_constant bool_value
              (NodeData.identifier (some name))]))).2.1.errors
        = [{ type := SemanticErrorType.SEM_ERROR_UNDEFINED_VAR,
             message := "Variables referenced but not defined", line_number := 0,
             symbol_name := none }] ∧
      (perform_semantic_analysis create_semantic_context
        (ASTNode.mk 1 program_str program_line program_type program_constant program_value
          (NodeData.program
            [ASTNode.mk 4 node_type_str line_number semantic_type is_constant bool_value
              (NodeData.identifier (some name))]))).2.1.error_count = 1 ∧
      (perform_semantic_analysis create_semantic_context
        (ASTNode.mk 1 program_str program_line program_type program_constant program_value
          (NodeData.program
            [ASTNode.mk 4 node_type_str line_number semantic_type is_constant bool_value
              (NodeData.identifier (some name))]))).1 = 1) ∧
    (∀ data : NodeData,
      check_undefined_symbols (perform_semantic_analysis create_semantic_context
        (ASTNode.mk 1 program_str program_line program_type program_constant program_value
          (NodeData.program
            [ASTNode.mk 3 node_type_str line_number semantic_type is_constant bool_value
              data]))).2.1.symbol_table = 0 ∧
      (perform_semantic_analysis create_semantic_context
        (ASTNode.mk 1 program_str program_line program_type program_constant program_value
          (NodeData.program
            [ASTNode.mk 3 node_type_str line_number semantic_type is_constant bool_value
              data]))).2.1.errors = [] ∧
      (perform_semantic_analysis create_semantic_context
        (ASTNode.mk 1 program_str program_line program_type program_constant program_value
          (NodeData.program
            [ASTNode.mk 3 node_type_str line_number semantic_type is_constant bool_value
              data]))).1 = 0 ∧
      lookup_symbol (perform_semantic_analysis create_semantic_context
        (ASTNode.mk 1 program_str program_line program_type program_constant program_value
          (NodeData.program
            [ASTNode.mk 3 node_type_str line_number semantic_type is_constant bool_value
              data]))).2.1.symbol_table name = none) := by
  constructor
  · -- the table after the walk
    have hwf₀ : WellFormed (create_symbol_table 101) := wellFormed_create 101 (by decide)
    have hwf₁ := wellFormed_insert hwf₀ name SymbolType.SYM_IDENTIFIER line_number
    have hwf₂ := wellFormed_mark hwf₁ name line_number
    have hwalk : (analyze_node create_semantic_context
        (ASTNode.mk 1 program_str program_line program_type program_constant program_value
          (NodeData.program
            [ASTNode.mk 4 node_type_str line_number semantic_type is_constant bool_value
              (NodeData.identifier (some name))]))).1
        = { symbol_table := mark_symbol_used
              (insert_symbol (create_symbol_table 101) name SymbolType.SYM_IDENTIFIER
                line_number).1 name line_number,
            errors := [], error_count := 0, warning_count := 0 } := by
      rw [analyze_node, if_pos rfl]
      simp only [analyze_statements_cons]
      rw [analyze_statements]
      unfold analyze_node
      rw [if_neg (by decide), if_neg (by decide), if_neg (by decide)]
      unfold analyze_expression
      simp only [if_true]
      unfold analyze_identifier
      simp only [NodeData.get_identifier, create_semantic_context, lookup_create]
    have hlook : ∀ other, lookup_symbol (mark_symbol_used
          (insert_symbol (create_symbol_table 101) name SymbolType.SYM_IDENTIFIER
            line_number).1 name line_number) other
        = if other = name then
            some { name := name, type := SymbolType.SYM_IDENTIFIER, is_defined := 0,
                   is_used := 1, line_declared := line_number, line_used := line_number,
                   value := SymbolValue.str_value none }
          else none := by
      intro other
      rw [lookup_mark_symbol_used _ hwf₁, lookup_insert_symbol hwf₀, if_pos rfl, lookup_create]
      split
      · simp [new_entry, mark_entry_used]
      · next hne =>
        rw [lookup_insert_symbol hwf₀, if_neg (Ne.symm hne), lookup_create]
    exact perform_undefined_one _ _ _ _ _ _ _ _ _ hwalk
      (undefined_one_of_lookup hwf₂ name hB hC _ (by rfl) hlook)
  · intro data
    have hplain : ∀ node ∈
        [ASTNode.mk 3 node_type_str line_number semantic_type is_constant bool_value data],
        Codec.get_type node = 2 ∨ Codec.get_type node = 3 := by
      intro node hnode
      rw [List.mem_singleton] at hnode
      subst hnode
      exact Or.inr rfl
    obtain ⟨hresult, hctx⟩ := perform_plain program_str program_line program_type
      program_constant program_value _ hplain
    rw [hctx]
    refine ⟨by decide, rfl, hresult, ?_⟩
    simp only []
    rw [lookup_known_other (wellFormed_create 101 (by decide)) name hB hC, lookup_create]

theorem C13_undefined_identifier_witness :
    "X" ≠ "B" ∧ "X" ≠ "C" ∧
    (perform_semantic_analysis create_semantic_context
      (ASTNode.mk 1 "PROGRAM (line 1) - 1 statements" 1 SymbolType.SYM_UNKNOWN 0 0
        (NodeData.program
          [ASTNode.mk 4 "IDENTIFIER: X (line 1)" 1 SymbolType.SYM_UNKNOWN 0 0
            (NodeData.identifier (some "X"))]))).1 = 1 :=
  ⟨by decide, by decide,
   (C13_undefined_identifier "X" (by decide) (by decide)
      "PROGRAM (line 1) - 1 statements" 1 SymbolType.SYM_UNKNOWN 0 0
      "IDENTIFIER: X (line 1)" 1 SymbolType.SYM_UNKNOWN 0 0).1.2.2.2⟩

end Phase3

namespace Phase3

/-- C14 fails as stated: for the program `Y := TRUE;` the analysis in a fresh
context ends with `warning_count` = 0, and the table has no entry for `Y`.
This is so for the tree that `load_ast_from_file` builds from the file that
phase 2 writes for the program, and for an assignment node that holds the
variable and the value. -/
theorem C14_counterexample :
    (perform_semantic_analysis create_semantic_context
      (load_ast_from_file (Phase2.print_ast_to_file
        (Phase2.ASTNode.program
          [Phase2.ASTNode.assignment "Y" (Phase2.ASTNode.boolean 1 1) 1] 10
          1)))).2.1.warning_count = 0 ∧
    lookup_symbol (perform_semantic_analysis create_semantic_context
      (load_ast_from_file (Phase2.print_ast_to_file
        (Phase2.ASTNode.program
          [Phase2.ASTNode.assignment "Y" (Phase2.ASTNode.boolean 1 1) 1] 10
          1)))).2.1.symbol_table "Y" = none ∧
    (perform_semantic_analysis create_semantic_context
      (ASTNode.mk 1 "PROGRAM (line 1) - 1 statements" 1 SymbolType.SYM_UNKNOWN 0 0
        (NodeData.program
          [ASTNode.mk 2 "ASSIGNMENT (line 1)" 1 SymbolType.SYM_UNKNOWN 0 0
            (NodeData.assignment (some "Y")
              (ASTNode.mk 5 "BOOLEAN: TRUE (line 1)" 1 SymbolType.SYM_UNKNOWN 1 1
                (NodeData.bool_literal 1)))]))).2.1.warning_count = 0 ∧
    lookup_symbol (perform_semantic_analysis create_semantic_context
      (ASTNode.mk 1 "PROGRAM (line 1) - 1 statements" 1 SymbolType.SYM_UNKNOWN 0 0
        (NodeData.program
          [ASTNode.mk 2 "ASSIGNMENT (line 1)" 1 SymbolType.SYM_UNKNOWN 0 0
            (NodeData.assignment (some "Y")
              (ASTNode.mk 5 "BOOLEAN: TRUE (line 1)" 1 SymbolType.SYM_UNKNOWN 1 1
                (NodeData.bool_literal 1)))]))).2.1.symbol_table "Y" = none := by
  decide

/-- C14, amended: for a program whose one statement is an assignment,
whatever its variable and its value, the analysis in a fresh context ends with
`error_count` = 0, no diagnostic, `warning_count` = 0 and the result 0: the
table holds the two symbols `B` and `C`, both defined and used, and has no
entry for the assigned variable unless it is `B` or `C`. -/
theorem C14_single_assignment (program_str : String) (program_line : Int)
    (program_type : SymbolType) (program_constant program_value : Int)
    (node_type_str : String) (line_number : Int) (semantic_type : SymbolType)
    (is_constant bool_value : Int) (data : NodeData) :
    (perform_semantic_analysis create_semantic_context
      (ASTNode.mk 1 program_str program_line program_type program_constant program_value
        (NodeData.program
          [ASTNode.mk 2 node_type_str line_number semantic_type is_constant bool_value
            data]))).2.1.error_count = 0 ∧
    (perform_semantic_analysis create_semantic_context
      (ASTNode.mk 1 program_str program_line program_type program_constant program_value
        (NodeData.program
          [ASTNode.mk 2 node_type_str line_number semantic_type is_constant bool_value
            data]))).2.1.errors = [] ∧
    (perform_semantic_analysis create_semantic_context
      (ASTNode.mk 1 program_str program_line program_type program_constant program_value
        (NodeData.program
          [ASTNode.mk 2 node_type_str line_number semantic_type is_constant bool_value
            data]))).2.1.warning_count = 0 ∧
    (perform_semantic_analysis create_semantic_context
      (ASTNode.mk 1 program_str program_line program_type program_constant program_value
        (NodeData.program
          [ASTNode.mk 2 node_type_str line_number semantic_type is_constant bool_value
            data]))).1 = 0 ∧
    check_unused_symbols (perform_semantic_analysis create_semantic_context
      (ASTNode.mk 1 program_str program_line program_type program_constant program_value
        (NodeData.program
          [ASTNode.mk 2 node_type_str line_number semantic_type is_constant bool_value
            data]))).2.1.symbol_table = 0 ∧
    table_names (perform_semantic_analysis create_semantic_context
      (ASTNode.mk 1 program_str program_line program_type program_constant program_value
        (NodeData.program
          [ASTNode.mk 2 node_type_str line_number semantic_type is_constant bool_value
            data]))).2.1.symbol_table = ["B", "C"] ∧
    (∀ name, name ≠ "B" → name ≠ "C" →
      lookup_symbol (perform_semantic_analysis create_semantic_context
        (ASTNode.mk 1 program_str program_line program_type program_constant program_value
          (NodeData.program
            [ASTNode.mk 2 node_type_str line_number semantic_type is_constant bool_value
              data]))).2.1.symbol_table name = none) := by
  have hplain : ∀ node ∈
      [ASTNode.mk 2 node_type_str line_number semantic_type is_constant bool_value data],
      Codec.get_type node = 2 ∨ Codec.get_type node = 3 := by
    intro node hnode
    rw [List.mem_singleton] at hnode
    subst hnode
    exact Or.inl rfl
  obtain ⟨hresult, hctx⟩ := perform_plain program_str program_line program_type
    program_constant program_value _ hplain
  rw [hctx]
  refine ⟨rfl, rfl, rfl, hresult, by decide, by decide, ?_⟩
  intro name hB hC
  simp only []
  rw [lookup_known_other (wellFormed_create 101 (by decide)) name hB hC, lookup_create]

/-- C15: for a program of two assignments and an expression statement, as
`B := TRUE; C := FALSE; B OR C;` is, whether the statements hold their
children or not, the analysis in a fresh context ends with a symbol table of
exactly the two entries `B` and `C`, each of type Boolean, defined and used,
`B` with the value 1 (TRUE) and `C` with the value 0 (FALSE), with
`error_count` = 0, no diagnostic, `warning_count` = 0 and the result 0; the
tree that `load_ast_from_file` builds from the file that phase 2 writes for
the program is such a program. -/
theorem C15_known_program (program_str : String) (program_line : Int)
    (program_type : SymbolType) (program_constant program_value : Int)
    (first_str : String) (first_line : Int) (first_type : SymbolType)
    (first_constant first_value : Int) (first_data : NodeData)
    (second_str : String) (second_line : Int) (second_type : SymbolType)
    (second_constant second_value : Int) (second_data : NodeData)
    (third_str : String) (third_line : Int) (third_type : SymbolType)
    (third_constant third_value : Int) (third_data : NodeData) :
    (perform_semantic_analysis create_semantic_context
      (ASTNode.mk 1 program_str program_line program_type program_constant program_value
        (NodeData.program
          [ASTNode.mk 2 first_str first_line first_type first_constant first_value first_data,
           ASTNode.mk 2 second_str second_line second_type second_constant second_value
             second_data,
           ASTNode.mk 3 third_str third_line third_type third_constant third_value
             third_data]))).1 = 0 ∧
    (perform_semantic_analysis create_semantic_context
      (ASTNode.mk 1 program_str program_line program_type program_constant program_value
        (NodeData.program
          [ASTNode.mk 2 first_str first_line first_type first_constant first_value first_data,
           ASTNode.mk 2 second_str second_line second_type second_constant second_value
             second_data,
           ASTNode.mk 3 third_str third_line third_type third_constant third_value
             third_data]))).2.1
      = { symbol_table := process_known_symbols (create_symbol_table 101), errors := [],
          error_count := 0, warning_count := 0 } ∧
    entries (process_known_symbols (create_symbol_table 101))
      = [{ name := "B", type := SymbolType.SYM_BOOLEAN, is_defined := 1, is_used := 1,
           line_declared := 1, line_used := 3, value := SymbolValue.bool_value 1 },
         { name := "C", type := SymbolType.SYM_BOOLEAN, is_defined := 1, is_used := 1,
           line_declared := 2, line_used := 3, value := SymbolValue.bool_value 0 }] ∧
    (process_known_symbols (create_symbol_table 101)).count = 2 ∧
    lookup_symbol (process_known_symbols (create_symbol_table 101)) "B"
      = some { name := "B", type := SymbolType.SYM_BOOLEAN, is_defined := 1, is_used := 1,
               line_declared := 1, line_used := 3, value := SymbolValue.bool_value 1 } ∧
    lookup_symbol (process_known_symbols (create_symbol_table 101)) "C"
      = some { name := "C", type := SymbolType.SYM_BOOLEAN, is_defined := 1, is_used := 1,
               line_declared := 2, line_used := 3, value := SymbolValue.bool_value 0 } ∧
    load_ast_from_file (Phase2.print_ast_to_file
      (Phase2.ASTNode.program
        [Phase2.ASTNode.assignment "B" (Phase2.ASTNode.boolean 1 1) 1,
         Phase2.ASTNode.assignment "C" (Phase2.ASTNode.boolean 0 2) 2,
         Phase2.ASTNode.expression_stmt
           (Phase2.ASTNode.binary Phase2.BinaryOp.OR (Phase2.ASTNode.identifier "B" 3)
             (Phase2.ASTNode.identifier "C" 3) 3) 3] 10 1))
      = ASTNode.mk 1 "PROGRAM (line 1) - 3 statements" 1 SymbolType.SYM_UNKNOWN 0 0
          (NodeData.program
            [ASTNode.mk 2 "ASSIGNMENT (line 1)" 1 SymbolType.SYM_UNKNOWN 0 0
               (NodeData.assignment none ASTNode.null),
             ASTNode.mk 2 "ASSIGNMENT (line 2)" 2 SymbolType.SYM_UNKNOWN 0 0
               (NodeData.assignment none ASTNode.null),
             ASTNode.mk 3 "EXPRESSION_STMT (line 3)" 3 SymbolType.SYM_UNKNOWN 0 0
               NodeData.zero]) := by
  have hplain : ∀ node ∈
      [ASTNode.mk 2 first_str first_line first_type first_constant first_value first_data,
       ASTNode.mk 2 second_str second_line second_type second_constant second_value
         second_data,
       ASTNode.mk 3 third_str third_line third_type third_constant third_value third_data],
      Codec.get_type node = 2 ∨ Codec.get_type node = 3 := by
    intro node hnode
    simp only [List.mem_cons, List.mem_singleton, List.not_mem_nil, or_false] at hnode
    rcases hnode with rfl | rfl | rfl
    · exact Or.inl rfl
    · exact Or.inl rfl
    · exact Or.inr rfl
  obtain ⟨hresult, hctx⟩ := perform_plain program_str program_line program_type
    program_constant program_value _ hplain
  exact ⟨hresult, hctx, by decide, by decide, by decide, by decide, rfl⟩

end Phase3

namespace Phase3

/-- C17: for every context and every tree that is not `NULL`,
`perform_semantic_analysis` returns the `error_count` of the context after the
analysis, so it returns 0 exactly when that `error_count` is 0, whatever the
`warning_count`; `main` of phase 3 exits with 0 exactly when a tree was loaded
and the `error_count` after its analysis is 0; and a result of 0 does occur
together with a warning: a context whose table has the defined and unused
symbol `Y` ends the analysis of an empty program with `warning_count` = 1 and
the result 0. -/
theorem C17_result_zero_iff_no_error :
    (∀ (ctx : SemanticContext) (type : Int) (node_type_str : String) (line_number : Int)
       (semantic_type : SymbolType) (is_constant bool_value : Int) (data : NodeData),
      (perform_semantic_analysis ctx
        (ASTNode.mk type node_type_str line_number semantic_type is_constant bool_value
          data)).1
        = (perform_semantic_analysis ctx
            (ASTNode.mk type node_type_str line_number semantic_type is_constant bool_value
              data)).2.1.error_count ∧
      ((perform_semantic_analysis ctx
        (ASTNode.mk type node_type_str line_number semantic_type is_constant bool_value
          data)).1 = 0 ↔
        (perform_semantic_analysis ctx
          (ASTNode.mk type node_type_str line_number semantic_type is_constant bool_value
            data)).2.1.error_count = 0)) ∧
    (∀ contents : List Char,
      main_phase3 (some contents) = 0 ↔
        ((load_ast_from_file contents).is_null = false ∧
          (perform_semantic_analysis create_semantic_context
            (load_ast_from_file contents)).2.1.error_count = 0)) ∧
    (∀ contents : List Char, main_phase3 (some contents) = 0 ∨ main_phase3 (some contents) = 1) ∧
    ((perform_semantic_analysis
        { symbol_table :=
            set_symbol_value (insert_symbol (create_symbol_table 101) "Y"
              SymbolType.SYM_BOOLEAN 1).1 "Y" 1 1,
          errors := [], error_count := 0, warning_count := 0 }
        (ASTNode.mk 1 "PROGRAM (line 1) - 0 statements" 1 SymbolType.SYM_UNKNOWN 0 0
          (NodeData.program []))).1 = 0 ∧
      (perform_semantic_analysis
        { symbol_table :=
            set_symbol_value (insert_symbol (create_symbol_table 101) "Y"
              SymbolType.SYM_BOOLEAN 1).1 "Y" 1 1,
          errors := [], error_count := 0, warning_count := 0 }
        (ASTNode.mk 1 "PROGRAM (line 1) - 0 statements" 1 SymbolType.SYM_UNKNOWN 0 0
          (NodeData.program []))).2.1.warning_count = 1) := by
  refine ⟨?_, ?_, ?_, ?_⟩
  · intro ctx type node_type_str line_number semantic_type is_constant bool_value data
    have hresult := (perform_counts ctx type node_type_str line_number semantic_type
      is_constant bool_value data).2.2.2.2
    exact ⟨hresult, by rw [hresult]⟩
  · intro contents
    have hmain : main_phase3 (some contents) = main_after_load (load_ast_from_file contents) :=
      rfl
    rw [hmain]
    generalize load_ast_from_file contents = ast
    cases ast with
    | null =>
      constructor
      · intro h
        exact absurd h (by decide)
      · intro h
        exact absurd h.1 (by decide)
    | mk type node_type_str line_number semantic_type is_constant bool_value data =>
      have hresult := (perform_counts create_semantic_context type node_type_str line_number
        semantic_type is_constant bool_value data).2.2.2.2
      unfold main_after_load
      simp only []
      rw [hresult]
      generalize (perform_semantic_analysis create_semantic_context
        (ASTNode.mk type node_type_str line_number semantic_type is_constant bool_value
          data)).2.1.error_count = count
      constructor
      · intro h
        by_cases hzero : count = 0
        · exact ⟨rfl, hzero⟩
        · rw [if_neg hzero] at h
          exact absurd h (by decide)
      · intro h
        rw [if_pos h.2]
  · intro contents
    have hmain : main_phase3 (some contents) = main_after_load (load_ast_from_file contents) :=
      rfl
    rw [hmain]
    generalize load_ast_from_file contents = ast
    cases ast with
    | null => exact Or.inr rfl
    | mk type node_type_str line_number semantic_type is_constant bool_value data =>
      unfold main_after_load
      simp only []
      generalize (perform_semantic_analysis create_semantic_context
        (ASTNode.mk type node_type_str line_number semantic_type is_constant bool_value
          data)).1 = result
      by_cases hzero : result = 0
      · rw [if_pos hzero]; exact Or.inl rfl
      · rw [if_neg hzero]; exact Or.inr rfl
  · decide

/-- C18: after `perform_semantic_analysis` of any tree in a fresh context,
`error_count` is the number of diagnostics in the error list of the context,
and `warning_count` is the number of entries of the symbol table that are
defined and not used. -/
theorem C18_counts (ast : ASTNode) :
    (perform_semantic_analysis create_semantic_context ast).2.1.error_count
      = ((perform_semantic_analysis create_semantic_context ast).2.1.errors.length : Int) ∧
    (perform_semantic_analysis create_semantic_context ast).2.1.warning_count
      = (((entries (perform_semantic_analysis create_semantic_context ast).2.1.symbol_table).countP
          (fun entry => decide (entry.is_defined ≠ 0 ∧ entry.is_used = 0)) : Nat) : Int) := by
  cases ast with
  | null =>
    have hctx : (perform_semantic_analysis create_semantic_context ASTNode.null).2.1
        = create_semantic_context := rfl
    rw [hctx]
    constructor
    · rfl
    · have : entries create_semantic_context.symbol_table = [] := by
        simp [entries, create_semantic_context, create_symbol_table]
      rw [this]
      rfl
  | mk type node_type_str line_number semantic_type is_constant bool_value data =>
    have hwf := wellFormed_known (wellFormed_analyze_node create_semantic_context
      (wellFormed_create 101 (by decide))
      (ASTNode.mk type node_type_str line_number semantic_type is_constant bool_value data))
    obtain ⟨htable, herrors, hcount, hwarn, _⟩ := perform_counts create_semantic_context type
      node_type_str line_number semantic_type is_constant bool_value data
    rw [herrors, hcount, hwarn, htable, check_unused_eq_countP hwf]
    constructor
    · split <;> rfl
    · have hzero : create_semantic_context.warning_count = 0 := rfl
      rw [hzero, zero_add]

end Phase3

namespace Phase4

/-! ## Theorems: the code generator -/

/-! ### Register allocation -/

theorem toNat_cast {i : Nat} (h : i < 8) : (Register.cast i).toNat = i := by
  interval_cases i <;> rfl

theorem allocate_register_from_free (ctx : CodeGenContext) :
    ∀ (remaining i : Nat),
      (∃ k, i ≤ k ∧ k < i + remaining ∧ ctx.register_usage.getD k 0 = 0) →
      ∃ k, i ≤ k ∧ k < i + remaining ∧ ctx.register_usage.getD k 0 = 0 ∧
        (∀ j, i ≤ j → j < k → ctx.register_usage.getD j 0 ≠ 0) ∧
        allocate_register_from ctx i remaining
          = ({ ctx with register_usage := ctx.register_usage.set k 1 }, Register.cast k) := by
  intro remaining
  induction remaining with
  | zero =>
    intro i ⟨k, hik, hki, _⟩
    omega
  | succ remaining ih =>
    intro i ⟨k, hik, hki, hfree⟩
    by_cases hi : ctx.register_usage.getD i 0 = 0
    · refine ⟨i, le_refl i, by omega, hi, fun j hij hji => by omega, ?_⟩
      rw [allocate_register_from, if_pos hi]
    · have hne : k ≠ i := fun h => hi (h ▸ hfree)
      obtain ⟨found, hfi, hfr, hfound, hbefore, hresult⟩ :=
        ih (i + 1) ⟨k, by omega, by omega, hfree⟩
      refine ⟨found, by omega, by omega, hfound, ?_, ?_⟩
      · intro j hij hjf
        by_cases hji : j = i
        · rw [hji]; exact hi
        · exact hbefore j (by omega) hjf
      · rw [allocate_register_from, if_neg hi, hresult]

theorem allocate_register_from_busy (ctx : CodeGenContext) :
    ∀ (remaining i : Nat),
      (∀ k, i ≤ k → k < i + remaining → ctx.register_usage.getD k 0 ≠ 0) →
      allocate_register_from ctx i remaining = (ctx, Register.REG_RAX) := by
  intro remaining
  induction remaining with
  | zero =>
    intro i _
    rw [allocate_register_from]
  | succ remaining ih =>
    intro i hbusy
    rw [allocate_register_from, if_neg (hbusy i (le_refl i) (by omega))]
    exact ih (i + 1) (fun k hik hk => hbusy k (by omega) (by omega))

end Phase4

namespace Phase4

/-- C19: in a context whose register array has its `REG_COUNT` = 8 cells, one
of them free, `allocate_register` returns the free register of lowest index,
the indices being those of the order `RAX, RBX, RCX, RDX, RSI, RDI, R8, R9`;
the context after the call is the one before with that cell set to 1, so the
register is marked in use and the usage of every other register, and the rest
of the context, are unchanged. -/
theorem C19_allocate_register (ctx : CodeGenContext) (hlen : ctx.register_usage.length = 8)
    (hfree : ∃ i, i < 8 ∧ ctx.register_usage.getD i 0 = 0) :
    (List.range 8).map Register.cast
      = [Register.REG_RAX, Register.REG_RBX, Register.REG_RCX, Register.REG_RDX,
         Register.REG_RSI, Register.REG_RDI, Register.REG_R8, Register.REG_R9] ∧
    ∃ i, i < 8 ∧ (allocate_register ctx).2 = Register.cast i ∧
      (allocate_register ctx).2.toNat = i ∧
      ctx.register_usage.getD i 0 = 0 ∧
      (∀ j, j < i → ctx.register_usage.getD j 0 ≠ 0) ∧
      (allocate_register ctx).1 = { ctx with register_usage := ctx.register_usage.set i 1 } ∧
      (allocate_register ctx).1.register_usage.getD i 0 = 1 ∧
      (∀ j, j ≠ i →
        (allocate_register ctx).1.register_usage.getD j 0 = ctx.register_usage.getD j 0) := by
  refine ⟨rfl, ?_⟩
  obtain ⟨k, hk, hkfree⟩ := hfree
  obtain ⟨i, _, hi, hifree, hbefore, hresult⟩ :=
    allocate_register_from_free ctx 8 0 ⟨k, Nat.zero_le k, by omega, hkfree⟩
  have hi8 : i < 8 := by omega
  unfold allocate_register
  rw [hresult]
  refine ⟨i, hi8, rfl, toNat_cast hi8, hifree, fun j hj => hbefore j (Nat.zero_le j) hj, rfl,
    ?_, ?_⟩
  · simp only [List.getD_eq_getElem?_getD]
    rw [List.getElem?_set_self (by omega)]
    rfl
  · intro j hj
    simp only [List.getD_eq_getElem?_getD]
    rw [List.getElem?_set_ne (Ne.symm hj)]

theorem C19_allocate_register_witness :
    (create_codegen_context TargetArch.TARGET_X86_64).register_usage.length = 8 ∧
    (∃ i, i < 8 ∧ (create_codegen_context TargetArch.TARGET_X86_64).register_usage.getD i 0 = 0) ∧
    ∃ i, i < 8 ∧
      (allocate_register (create_codegen_context TargetArch.TARGET_X86_64)).2
        = Register.cast i ∧
      (∀ j, j < i →
        (create_codegen_context TargetArch.TARGET_X86_64).register_usage.getD j 0 ≠ 0) :=
  ⟨rfl, ⟨0, by decide, rfl⟩,
   (C19_allocate_register (create_codegen_context TargetArch.TARGET_X86_64) rfl
      ⟨0, by decide, rfl⟩).2.imp
     (fun _ h => ⟨h.1, h.2.1, h.2.2.2.2.1⟩)⟩

/-- C20 fails as stated: in a context in which all eight registers are in
use, `allocate_register` returns `REG_RAX`, a register that is in use, and
leaves the context as it was; no failure is reported. -/
theorem C20_counterexample :
    (∀ i, i < 8 →
      ({ create_codegen_context TargetArch.TARGET_X86_64 with
          register_usage := [1, 1, 1, 1, 1, 1, 1, 1] } : CodeGenContext).register_usage.getD i 0
        = 1) ∧
    (allocate_register
      { create_codegen_context TargetArch.TARGET_X86_64 with
          register_usage := [1, 1, 1, 1, 1, 1, 1, 1] }).2 = Register.REG_RAX ∧
    is_register_free
      { create_codegen_context TargetArch.TARGET_X86_64 with
          register_usage := [1, 1, 1, 1, 1, 1, 1, 1] } Register.REG_RAX = false ∧
    (allocate_register
      { create_codegen_context TargetArch.TARGET_X86_64 with
          register_usage := [1, 1, 1, 1, 1, 1, 1, 1] }).1
      = { create_codegen_context TargetArch.TARGET_X86_64 with
          register_usage := [1, 1, 1, 1, 1, 1, 1, 1] } := by
  decide

/-- C20, amended: in a context in which all registers are in use,
`allocate_register` reports no failure: it falls back to `REG_RAX`, which is
in use, and leaves the context as it was; in a context with a free register
the register it returns was free before the call. -/
theorem C20_register_fallback (ctx : CodeGenContext) :
    ((∀ i, i < 8 → ctx.register_usage.getD i 0 ≠ 0) →
      allocate_register ctx = (ctx, Register.REG_RAX) ∧
      is_register_free ctx (allocate_register ctx).2 = false) ∧
    ((∃ i, i < 8 ∧ ctx.register_usage.getD i 0 = 0) →
      is_register_free ctx (allocate_register ctx).2 = true) := by
  constructor
  · intro hbusy
    have hresult : allocate_register ctx = (ctx, Register.REG_RAX) :=
      allocate_register_from_busy ctx 8 0 (fun k _ hk => hbusy k (by omega))
    refine ⟨hresult, ?_⟩
    rw [hresult]
    unfold is_register_free
    show (decide (Register.REG_RAX.toNat < 8) &&
      decide (ctx.register_usage.getD 0 0 = 0)) = false
    rw [decide_eq_false (hbusy 0 (by decide))]
    rfl
  · intro ⟨k, hk, hkfree⟩
    obtain ⟨i, _, hi, hifree, _, hresult⟩ :=
      allocate_register_from_free ctx 8 0 ⟨k, Nat.zero_le k, by omega, hkfree⟩
    have hi8 : i < 8 := by omega
    unfold allocate_register
    rw [hresult]
    unfold is_register_free
    simp only []
    rw [toNat_cast hi8, decide_eq_true hi8, decide_eq_true hifree]
    rfl

theorem C20_register_fallback_witness :
    (∀ i, i < 8 →
      ({ create_codegen_context TargetArch.TARGET_X86_64 with
          register_usage := [1, 1, 1, 1, 1, 1, 1, 1] } : CodeGenContext).register_usage.getD i 0
        ≠ 0) ∧
    allocate_register
      { create_codegen_context TargetArch.TARGET_X86_64 with
          register_usage := [1, 1, 1, 1, 1, 1, 1, 1] }
      = ({ create_codegen_context TargetArch.TARGET_X86_64 with
            register_usage := [1, 1, 1, 1, 1, 1, 1, 1] }, Register.REG_RAX) :=
  ⟨by decide,
   ((C20_register_fallback
      { create_codegen_context TargetArch.TARGET_X86_64 with
          register_usage := [1, 1, 1, 1, 1, 1, 1, 1] }).1 (by decide)).1⟩

end Phase4

namespace Phase4

/-! ### The code of the known program -/

/-- The instructions that `generate_program` emits for `known_program`. -/
theorem known_program_code (target : TargetArch) :
    (generate_program (create_codegen_context target) known_program).instructions
      = [{ type := InstructionType.INST_MOV,
           operands := [Operand.register Register.REG_RAX, Operand.immediate 1],
           operand_count := 2, comment := some "TRUE" },
         { type := InstructionType.INST_MOV,
           operands := [Operand.memory Register.REG_RBX 0, Operand.register Register.REG_RAX],
           operand_count := 2, comment := some "B" },
         { type := InstructionType.INST_MOV,
           operands := [Operand.register Register.REG_RAX, Operand.immediate 0],
           operand_count := 2, comment := some "FALSE" },
         { type := InstructionType.INST_MOV,
           operands := [Operand.memory Register.REG_RBX (-8), Operand.register Register.REG_RAX],
           operand_count := 2, comment := some "C" },
         { type := InstructionType.INST_MOV,
           operands := [Operand.register Register.REG_RAX, Operand.immediate 1],
           operand_count := 2, comment := some "Load B = TRUE" },
         { type := InstructionType.INST_MOV,
           operands := [Operand.register Register.REG_RBX, Operand.immediate 0],
           operand_count := 2, comment := some "Load C = FALSE" },
         { type := InstructionType.INST_OR,
           operands := [Operand.register Register.REG_RAX, Operand.register Register.REG_RBX],
           operand_count := 2, comment := some "B OR C (result in RAX)" },
         { type := InstructionType.INST_MOV,
           operands := [Operand.register Register.REG_RAX, Operand.immediate 0],
           operand_count := 2, comment := some "Set exit code to 0" }] := by
  cases target <;> decide

/-- The instructions that `generate_program` emits for `known_program_bare`. -/
theorem known_program_bare_code (target : TargetArch) :
    (generate_program (create_codegen_context target) known_program_bare).instructions
      = [{ type := InstructionType.INST_MOV,
           operands := [Operand.register Register.REG_RAX, Operand.immediate 1],
           operand_count := 2, comment := some "Load B = TRUE" },
         { type := InstructionType.INST_MOV,
           operands := [Operand.register Register.REG_RBX, Operand.immediate 0],
           operand_count := 2, comment := some "Load C = FALSE" },
         { type := InstructionType.INST_OR,
           operands := [Operand.register Register.REG_RAX, Operand.register Register.REG_RBX],
           operand_count := 2, comment := some "B OR C (result in RAX)" },
         { type := InstructionType.INST_MOV,
           operands := [Operand.register Register.REG_RAX, Operand.immediate 0],
           operand_count := 2, comment := some "Set exit code to 0" }] := by
  cases target <;> decide

/-- C16 fails as stated: when the code that `generate_program` emits for
`B := TRUE; C := FALSE; B OR C;` has run to its end, from a machine with zero
in every register and memory cell, the register `RAX`, into which `B OR C`
was evaluated, holds 0: the last instruction is the Move of the exit code 0
into `RAX`. -/
theorem C16_counterexample :
    ((Machine.run { registers := fun _ => 0, memory := fun _ => 0 }
        (generate_program (create_codegen_context TargetArch.TARGET_X86_64)
          known_program).instructions).registers Register.REG_RAX = 0) ∧
    ((Machine.run { registers := fun _ => 0, memory := fun _ => 0 }
        (generate_program (create_codegen_context TargetArch.TARGET_X86_64)
          known_program_bare).instructions).registers Register.REG_RAX = 0) ∧
    (generate_program (create_codegen_context TargetArch.TARGET_X86_64)
        known_program).instructions.getLast?
      = some { type := InstructionType.INST_MOV,
               operands := [Operand.register Register.REG_RAX, Operand.immediate 0],
               operand_count := 2, comment := some "Set exit code to 0" } := by
  decide

/-- C16, amended: for the program `B := TRUE; C := FALSE; B OR C;`, with its
statements holding their children or not, and from every machine state, the
run of the instructions that `generate_program` emits up to the Or, that is
all but the last one, leaves the value 1 in `RAX`, the register into which
`B OR C` was evaluated by the Or, the last but one instruction; the last
instruction is the Move of the exit code 0 into `RAX`, so when the generated
code finishes `RAX` holds 0. -/
theorem C16_value_of_known_program (target : TargetArch) (machine : Machine) :
    ((machine.run (generate_program (create_codegen_context target)
        known_program).instructions.dropLast).registers Register.REG_RAX = 1 ∧
      (machine.run (generate_program (create_codegen_context target)
        known_program).instructions).registers Register.REG_RAX = 0 ∧
      (generate_program (create_codegen_context target) known_program).instructions.getLast?
        = some { type := InstructionType.INST_MOV,
                 operands := [Operand.register Register.REG_RAX, Operand.immediate 0],
                 operand_count := 2, comment := some "Set exit code to 0" } ∧
      (generate_program (create_codegen_context target)
          known_program).instructions.dropLast.getLast?
        = some { type := InstructionType.INST_OR,
                 operands := [Operand.register Register.REG_RAX,
                              Operand.register Register.REG_RBX],
                 operand_count := 2, comment := some "B OR C (result in RAX)" }) ∧
    ((machine.run (generate_program (create_codegen_context target)
        known_program_bare).instructions.dropLast).registers Register.REG_RAX = 1 ∧
      (machine.run (generate_program (create_codegen_context target)
        known_program_bare).instructions).registers Register.REG_RAX = 0 ∧
      (generate_program (create_codegen_context target)
          known_program_bare).instructions.getLast?
        = some { type := InstructionType.INST_MOV,
                 operands := [Operand.register Register.REG_RAX, Operand.immediate 0],
                 operand_count := 2, comment := some "Set exit code to 0" } ∧
      (generate_program (create_codegen_context target)
          known_program_bare).instructions.dropLast.getLast?
        = some { type := InstructionType.INST_OR,
                 operands := [Operand.register Register.REG_RAX,
                              Operand.register Register.REG_RBX],
                 operand_count := 2, comment := some "B OR C (result in RAX)" }) := by
  have hor : Int.lor 1 0 = 1 := by decide
  rw [known_program_code, known_program_bare_code]
  refine ⟨⟨?_, ?_, rfl, rfl⟩, ?_, ?_, rfl, rfl⟩
  · simp [Machine.run, Machine.step, Machine.write, Machine.read, hor]
  · simp [Machine.run, Machine.step, Machine.write, Machine.read]
  · simp [Machine.run, Machine.step, Machine.write, Machine.read, hor]
  · simp [Machine.run, Machine.step, Machine.write, Machine.read]

end Phase4

namespace Phase2

/-! ## Theorems: the statements of a program node -/

theorem add_statement_to_program_eq (statements : List ASTNode) (capacity : Nat) (line : Int)
    (statement : ASTNode) :
    add_statement_to_program (ASTNode.program statements capacity line) statement
      = ASTNode.program (statements ++ [statement])
          (if statements.length ≥ capacity then capacity * 2 else capacity) line := rfl

/-- The program node after the statements of `added` are added to a new
program node, and its capacity. -/
theorem foldl_add_statement (line : Int) (added : List ASTNode) :
    ∃ j : Nat,
      added.foldl add_statement_to_program (create_program_node line)
        = ASTNode.program added (10 * 2 ^ j) line ∧
      added.length ≤ 10 * 2 ^ j ∧
      (j = 0 ∨ 10 * 2 ^ (j - 1) < added.length) := by
  induction added using List.reverseRecOn with
  | nil => exact ⟨0, rfl, by decide, Or.inl rfl⟩
  | append_singleton front last ih =>
    obtain ⟨j, hprogram, hle, hmin⟩ := ih
    rw [List.foldl_append, List.foldl_cons, List.foldl_nil, hprogram,
      add_statement_to_program_eq]
    by_cases hfull : front.length ≥ 10 * 2 ^ j
    · refine ⟨j + 1, ?_, ?_, ?_⟩
      · rw [if_pos hfull, pow_succ]
        congr 1
        ring
      · rw [List.length_append, List.length_singleton, pow_succ]
        have hpos : 0 < 2 ^ j := Nat.two_pow_pos j
        clear hmin
        generalize 2 ^ j = c at *
        omega
      · right
        rw [List.length_append, List.length_singleton, Nat.add_sub_cancel]
        clear hmin
        generalize 2 ^ j = c at *
        omega
    · refine ⟨j, ?_, ?_, ?_⟩
      · rw [if_neg hfull]
      · rw [List.length_append, List.length_singleton]
        omega
      · rcases hmin with hzero | hbig
        · exact Or.inl hzero
        · right
          rw [List.length_append, List.length_singleton]
          exact Nat.lt_succ_of_lt hbig

/-- C29: after the statements of `added`, any number of them, are added by
`add_statement_to_program` to a node returned by `create_program_node`, the
statements of the program are those of `added` in the order of the calls, so
the count is their number; the count is at most the capacity, and the
capacity is `10 * 2 ^ j`, the smallest such number that is not below the
count; one more call doubles the capacity exactly when it finds the count
equal to the capacity. As long as the count is at most `10 * 2 ^ 27` the
capacity is within the range of `int`. -/
theorem C29_add_statement_to_program (line : Int) (added : List ASTNode) :
    ∃ j : Nat,
      added.foldl add_statement_to_program (create_program_node line)
        = ASTNode.program added (10 * 2 ^ j) line ∧
      added.length ≤ 10 * 2 ^ j ∧
      (j = 0 ∨ 10 * 2 ^ (j - 1) < added.length) ∧
      (added.length ≤ 1342177280 → 10 * 2 ^ j ≤ 2147483647) ∧
      ∀ statement : ASTNode,
        (added ++ [statement]).foldl add_statement_to_program (create_program_node line)
          = ASTNode.program (added ++ [statement])
              (if added.length = 10 * 2 ^ j then 10 * 2 ^ (j + 1) else 10 * 2 ^ j) line := by
  obtain ⟨j, hprogram, hle, hmin⟩ := foldl_add_statement line added
  refine ⟨j, hprogram, hle, hmin, ?_, ?_⟩
  · intro hsmall
    rcases hmin with hzero | hbig
    · subst hzero
      decide
    · have hpow : 2 ^ (j - 1) < 2 ^ 27 := by
        have : 10 * 2 ^ (j - 1) < 10 * 2 ^ 27 := by
          have h27 : (10 * 2 ^ 27 : Nat) = 1342177280 := by norm_num
          omega
        omega
      have hj : j - 1 < 27 := (Nat.pow_lt_pow_iff_right (by decide)).1 hpow
      have hj27 : j ≤ 27 := by omega
      have hmono : 2 ^ j ≤ 2 ^ 27 := Nat.pow_le_pow_right (by decide) hj27
      have h27 : (2 ^ 27 : Nat) = 134217728 := by norm_num
      omega
  · intro statement
    rw [List.foldl_append, List.foldl_cons, List.foldl_nil, hprogram,
      add_statement_to_program_eq]
    by_cases hfull : added.length = 10 * 2 ^ j
    · rw [if_pos (by omega), if_pos hfull, pow_succ]
      congr 1
      ring
    · rw [if_neg (by omega), if_neg hfull]

end Phase2

namespace Codec

open Phase3 (strstr parse_node_type isdigit)
open Phase2 (print_int)

/-! ## Theorems: the classification of a node header -/

theorem parse_node_type_phase4 (type_str : List Char) :
    Phase4.parse_node_type type_str = parse_node_type type_str := rfl

/-- A keyword of `parse_node_type` is found in a header `<text> (line N)`
exactly when it is found in the text before the line marker. -/
theorem strstr_header_iff (pat text : List Char) (n : Int) (p : Char) (tail : List Char)
    (hpat : pat = p :: tail) (hspace : ' ' ∉ pat) (hdigit : isdigit p = false)
    (hminus : p ≠ '-') (hparen : p ≠ ')') (hline : ¬ pat <:+: "(line".toList) :
    (strstr (text ++ " (line ".toList ++ print_int n ++ [')']) pat).isSome
      = (strstr text pat).isSome := by
  rw [Bool.eq_iff_iff, strstr_isSome_iff, strstr_isSome_iff]
  exact header_infix_iff pat text n p tail hpat hspace hdigit hminus hparen hline

/-- The code of a header `<text> (line N)` is the code of the text before the
line marker. -/
theorem parse_node_type_header (text : List Char) (n : Int) :
    parse_node_type (text ++ " (line ".toList ++ print_int n ++ [')']) = parse_node_type text := by
  unfold parse_node_type
  rw [strstr_header_iff "PROGRAM".toList text n 'P' "ROGRAM".toList rfl (by decide) (by decide)
      (by decide) (by decide) (by decide),
    strstr_header_iff "ASSIGNMENT".toList text n 'A' "SSIGNMENT".toList rfl (by decide)
      (by decide) (by decide) (by decide) (by decide),
    strstr_header_iff "EXPRESSION_STMT".toList text n 'E' "XPRESSION_STMT".toList rfl
      (by decide) (by decide) (by decide) (by decide) (by decide),
    strstr_header_iff "IDENTIFIER".toList text n 'I' "DENTIFIER".toList rfl (by decide)
      (by decide) (by decide) (by decide) (by decide),
    strstr_header_iff "BOOLEAN".toList text n 'B' "OOLEAN".toList rfl (by decide) (by decide)
      (by decide) (by decide) (by decide),
    strstr_header_iff "AND".toList text n 'A' "ND".toList rfl (by decide) (by decide)
      (by decide) (by decide) (by decide),
    strstr_header_iff "OR".toList text n 'O' "R".toList rfl (by decide) (by decide)
      (by decide) (by decide) (by decide),
    strstr_header_iff "NOT".toList text n 'N' "OT".toList rfl (by decide) (by decide)
      (by decide) (by decide) (by decide),
    strstr_header_iff "XOR".toList text n 'X' "OR".toList rfl (by decide) (by decide)
      (by decide) (by decide) (by decide),
    strstr_header_iff "IMPLIES".toList text n 'I' "MPLIES".toList rfl (by decide) (by decide)
      (by decide) (by decide) (by decide),
    strstr_header_iff "IFF".toList text n 'I' "FF".toList rfl (by decide) (by decide)
      (by decide) (by decide) (by decide),
    strstr_header_iff "EQUIV".toList text n 'E' "QUIV".toList rfl (by decide) (by decide)
      (by decide) (by decide) (by decide)]

/-- The headers that `parse_node_type` classifies by their kind, whatever the
line number: the statements and the connectives other than `XOR`, the two
literals, and an identifier whose name contains none of the three keywords
that are tested before `IDENTIFIER`. -/
theorem parse_node_type_kinds (n : Int) :
    parse_node_type ("ASSIGNMENT".toList ++ " (line ".toList ++ print_int n ++ [')']) = 2 ∧
    parse_node_type ("EXPRESSION_STMT".toList ++ " (line ".toList ++ print_int n ++ [')']) = 3 ∧
    parse_node_type ("BOOLEAN: TRUE".toList ++ " (line ".toList ++ print_int n ++ [')']) = 5 ∧
    parse_node_type ("BOOLEAN: FALSE".toList ++ " (line ".toList ++ print_int n ++ [')']) = 5 ∧
    parse_node_type ("AND".toList ++ " (line ".toList ++ print_int n ++ [')']) = 6 ∧
    parse_node_type ("OR".toList ++ " (line ".toList ++ print_int n ++ [')']) = 7 ∧
    parse_node_type ("NOT".toList ++ " (line ".toList ++ print_int n ++ [')']) = 8 ∧
    parse_node_type ("IMPLIES".toList ++ " (line ".toList ++ print_int n ++ [')']) = 10 ∧
    parse_node_type ("IFF".toList ++ " (line ".toList ++ print_int n ++ [')']) = 11 ∧
    parse_node_type ("EQUIV".toList ++ " (line ".toList ++ print_int n ++ [')']) = 12 ∧
    (∀ rest : List Char, parse_node_type ("PROGRAM".toList ++ rest) = 1) ∧
    (∀ name : List Char, ¬ "PROGRAM".toList <:+: name → ¬ "ASSIGNMENT".toList <:+: name →
      ¬ "EXPRESSION_STMT".toList <:+: name →
      parse_node_type ("IDENTIFIER: ".toList ++ name ++ " (line ".toList ++ print_int n ++ [')'])
        = 4) := by
  simp only [parse_node_type_header]
  refine ⟨by decide, by decide, by decide, by decide, by decide, by decide, by decide,
    by decide, by decide, by decide, ?_, ?_⟩
  · intro rest
    exact parse_node_type_program _ ⟨[], rest, by simp⟩
  · intro name h₁ h₂ h₃
    have hsplit : "IDENTIFIER: ".toList ++ name = "IDENTIFIER:".toList ++ ' ' :: name := by simp
    have hfront₁ : ¬ "PROGRAM".toList <:+: "IDENTIFIER:".toList := by decide
    have hfront₂ : ¬ "ASSIGNMENT".toList <:+: "IDENTIFIER:".toList := by decide
    have hfront₃ : ¬ "EXPRESSION_STMT".toList <:+: "IDENTIFIER:".toList := by decide
    unfold parse_node_type
    rw [if_neg, if_neg, if_neg, if_pos]
    · exact (strstr_isSome_iff _ _).2 ⟨[], ": ".toList ++ name, by simp⟩
    · rw [strstr_isSome_iff, hsplit, infix_append_cons_iff _ _ _ _ (by decide)]
      exact fun h => h.elim hfront₃ h₃
    · rw [strstr_isSome_iff, hsplit, infix_append_cons_iff _ _ _ _ (by decide)]
      exact fun h => h.elim hfront₂ h₂
    · rw [strstr_isSome_iff, hsplit, infix_append_cons_iff _ _ _ _ (by decide)]
      exact fun h => h.elim hfront₁ h₁

/-- C30, the failing input: for every line number the header `XOR (line N)` is
given the code 7 of `OR`, not the code 9 of `XOR`, by the `parse_node_type` of
both loaders: the test for `OR` comes before the test for `XOR`, and `OR`
occurs in `XOR`, so the branch that returns 9 is never reached (no string
gets the code 9). An identifier whose name contains a keyword that is tested
earlier is given the code of that keyword: the header of the identifier
`PROGRAM_X` gets the code 1. -/
theorem C30_xor_header (n : Int) :
    Phase3.parse_node_type ("XOR".toList ++ " (line ".toList ++ print_int n ++ [')']) = 7 ∧
    Phase4.parse_node_type ("XOR".toList ++ " (line ".toList ++ print_int n ++ [')']) = 7 ∧
    (∀ type_str : List Char, Phase3.parse_node_type type_str ≠ 9) ∧
    (∀ type_str : List Char, Phase4.parse_node_type type_str ≠ 9) ∧
    Phase3.parse_node_type "IDENTIFIER: PROGRAM_X (line 1)".toList = 1 := by
  have hnine : ∀ type_str : List Char, Phase3.parse_node_type type_str ≠ 9 := by
    intro type_str
    unfold Phase3.parse_node_type
    by_cases h₁ : (strstr type_str "PROGRAM".toList).isSome = true
    · rw [if_pos h₁]; decide
    rw [if_neg h₁]
    by_cases h₂ : (strstr type_str "ASSIGNMENT".toList).isSome = true
    · rw [if_pos h₂]; decide
    rw [if_neg h₂]
    by_cases h₃ : (strstr type_str "EXPRESSION_STMT".toList).isSome = true
    · rw [if_pos h₃]; decide
    rw [if_neg h₃]
    by_cases h₄ : (strstr type_str "IDENTIFIER".toList).isSome = true
    · rw [if_pos h₄]; decide
    rw [if_neg h₄]
    by_cases h₅ : (strstr type_str "BOOLEAN".toList).isSome = true
    · rw [if_pos h₅]; decide
    rw [if_neg h₅]
    by_cases h₆ : (strstr type_str "AND".toList).isSome = true
    · rw [if_pos h₆]; decide
    rw [if_neg h₆]
    by_cases h₇ : (strstr type_str "OR".toList).isSome = true
    · rw [if_pos h₇]; decide
    rw [if_neg h₇]
    by_cases h₈ : (strstr type_str "NOT".toList).isSome = true
    · rw [if_pos h₈]; decide
    rw [if_neg h₈]
    have h₉ : ¬ (strstr type_str "XOR".toList).isSome = true := by
      rw [strstr_isSome_iff] at h₇ ⊢
      intro hx
      exact h₇ (List.IsInfix.trans ⟨['X'], [], by simp⟩ hx)
    rw [if_neg h₉]
    by_cases h₁₀ : (strstr type_str "IMPLIES".toList).isSome = true
    · rw [if_pos h₁₀]; decide
    rw [if_neg h₁₀]
    by_cases h₁₁ : (strstr type_str "IFF".toList).isSome = true
    · rw [if_pos h₁₁]; decide
    rw [if_neg h₁₁]
    by_cases h₁₂ : (strstr type_str "EQUIV".toList).isSome = true
    · rw [if_pos h₁₂]; decide
    rw [if_neg h₁₂]
    decide
  refine ⟨?_, ?_, hnine, ?_, by decide⟩
  · rw [parse_node_type_header]
    decide
  · rw [parse_node_type_phase4, parse_node_type_header]
    decide
  · intro type_str
    rw [parse_node_type_phase4]
    exact hnine type_str

end Codec

namespace Phase4

/-! ## Theorems: the instructions that the generator appends -/

theorem set_last_comment_append (comment : String) (front : List Instruction)
    (inst : Instruction) :
    set_last_comment comment (front ++ [inst])
      = front ++ [{ inst with comment := some comment }] := by
  induction front with
  | nil => rfl
  | cons first rest ih =>
    cases hrest : rest ++ [inst] with
    | nil => simp at hrest
    | cons next others =>
      rw [List.cons_append, hrest, set_last_comment, ← hrest, ih]
      rfl

/-- An instruction and its comment: `emit_instruction` followed by
`emit_comment`. -/
theorem emit_comment_emit (ctx : CodeGenContext) (type : InstructionType) (operand_count : Int)
    (args : List Operand) (comment : String) :
    emit_comment (emit_instruction ctx type operand_count args) comment
      = { ctx with
          instructions := ctx.instructions ++
            [{ type := type, operands := args.take (min operand_count.toNat 3),
               operand_count := operand_count, comment := some comment }]
          instruction_count := ctx.instruction_count + 1 } := by
  unfold emit_comment emit_instruction
  simp only [set_last_comment_append]

theorem generate_identifier_eq (ctx : CodeGenContext) (name : String) (result_reg : Register) :
    generate_identifier ctx name result_reg
      = { (if symbol_exists ctx name then ctx else add_symbol ctx name 1) with
          instructions := ctx.instructions ++
            [{ type := InstructionType.INST_MOV,
               operands := [Operand.register result_reg,
                 Operand.memory Register.REG_RBX
                   (-get_symbol_offset
                      (if symbol_exists ctx name then ctx else add_symbol ctx name 1) name)],
               operand_count := 2, comment := some name }]
          instruction_count := ctx.instruction_count + 1 } := by
  unfold generate_identifier
  simp only [emit_comment_emit]
  by_cases h : symbol_exists ctx name = true
  · simp only [h, if_true]
    rfl
  · simp only [h]
    rfl

theorem generate_binary_op_eq (ctx : CodeGenContext) (node : ASTNode) (result_reg : Register) :
    generate_binary_op ctx node result_reg
      = { ctx with
          instructions := ctx.instructions ++ or_code
          instruction_count := ctx.instruction_count + 3 } := by
  unfold generate_binary_op
  simp only [emit_comment_emit, List.append_assoc]
  have hcount : ctx.instruction_count + 1 + 1 + 1 = ctx.instruction_count + 3 := by ring
  rw [hcount]
  rfl

end Phase4

namespace Phase4

theorem emitted_of_append {before after : CodeGenContext} {code : List Instruction}
    (h : after.instructions = before.instructions ++ code) : emitted before after = code := by
  unfold emitted
  rw [h, List.drop_left]

/-- The register that `allocate_register` returns, and what the call changes:
one cell of the register array at most. -/
theorem allocate_register_cases (ctx : CodeGenContext) :
    (allocate_register ctx = (ctx, Register.REG_RAX) ∧
      ∀ i, i < 8 → ctx.register_usage.getD i 0 ≠ 0) ∨
    ∃ k, k < 8 ∧ ctx.register_usage.getD k 0 = 0 ∧
      allocate_register ctx
        = ({ ctx with register_usage := ctx.register_usage.set k 1 }, Register.cast k) := by
  by_cases hfree : ∃ k, k < 8 ∧ ctx.register_usage.getD k 0 = 0
  · obtain ⟨k, hk, hkfree⟩ := hfree
    obtain ⟨i, _, hi, hifree, _, hresult⟩ :=
      allocate_register_from_free ctx 8 0 ⟨k, Nat.zero_le k, by omega, hkfree⟩
    exact Or.inr ⟨i, by omega, hifree, hresult⟩
  · have hbusy : ∀ i, i < 8 → ctx.register_usage.getD i 0 ≠ 0 :=
      fun i hi h => hfree ⟨i, hi, h⟩
    exact Or.inl ⟨allocate_register_from_busy ctx 8 0 (fun k _ hk => hbusy k (by omega)), hbusy⟩

theorem allocate_register_toNat_lt (ctx : CodeGenContext) :
    (allocate_register ctx).2.toNat < 8 := by
  rcases allocate_register_cases ctx with ⟨h, _⟩ | ⟨k, hk, _, h⟩
  · rw [h]
    show Register.REG_RAX.toNat < 8
    decide
  · rw [h]
    show (Register.cast k).toNat < 8
    rw [toNat_cast hk]
    exact hk

theorem allocate_register_fields (ctx : CodeGenContext) :
    (allocate_register ctx).1.instructions = ctx.instructions ∧
    (allocate_register ctx).1.instruction_count = ctx.instruction_count ∧
    (allocate_register ctx).1.symbol_map = ctx.symbol_map ∧
    (allocate_register ctx).1.stack_offset = ctx.stack_offset ∧
    (allocate_register ctx).1.next_label_id = ctx.next_label_id ∧
    (allocate_register ctx).1.target = ctx.target := by
  rcases allocate_register_cases ctx with ⟨h, _⟩ | ⟨k, _, _, h⟩ <;> rw [h] <;>
    exact ⟨rfl, rfl, rfl, rfl, rfl, rfl⟩

theorem free_register_fields (ctx : CodeGenContext) (reg : Register) :
    (free_register ctx reg).instructions = ctx.instructions ∧
    (free_register ctx reg).instruction_count = ctx.instruction_count ∧
    (free_register ctx reg).symbol_map = ctx.symbol_map ∧
    (free_register ctx reg).stack_offset = ctx.stack_offset ∧
    (free_register ctx reg).next_label_id = ctx.next_label_id ∧
    (free_register ctx reg).target = ctx.target := by
  unfold free_register
  split <;> exact ⟨rfl, rfl, rfl, rfl, rfl, rfl⟩

theorem set_zero_of_free (usage : List Int) :
    ∀ k : Nat, usage.getD k 0 = 0 → usage.set k 0 = usage := by
  induction usage with
  | nil => intro k _; rfl
  | cons first rest ih =>
    intro k hk
    cases k with
    | zero =>
      simp only [List.getD_cons_zero] at hk
      rw [List.set_cons_zero, hk]
    | succ k =>
      simp only [List.getD_cons_succ] at hk
      rw [List.set_cons_succ, ih k hk]

/-- A register that was free, allocated and freed again: the register array is
what it was. -/
theorem set_set_of_free (usage : List Int) (k : Nat) (hk : usage.getD k 0 = 0) :
    (usage.set k 1).set k 0 = usage := by
  rw [List.set_set, set_zero_of_free usage k hk]

theorem getD_set_zero (usage : List Int) (k : Nat) : (usage.set k 0).getD k 0 = 0 := by
  by_cases hk : k < usage.length
  · rw [List.getD_eq_getElem?_getD, List.getElem?_set_self hk]
    rfl
  · rw [List.getD_eq_default _ _ (by rw [List.length_set]; omega)]

/-- After `free_register` on a register of the enumeration below `REG_COUNT`
the register is free. -/
theorem is_register_free_free (ctx : CodeGenContext) (reg : Register) (h : reg.toNat < 8) :
    is_register_free (free_register ctx reg) reg = true := by
  unfold is_register_free free_register
  rw [if_pos h]
  simp only [getD_set_zero, h, decide_True, Bool.and_self]

/-- What `generate_expression` does to a context: it appends instructions and
counts them, it may reserve a stack slot, and it leaves the register array,
the label counter and the target alone. -/
theorem generate_expression_appends (ctx : CodeGenContext) (node : ASTNode)
    (result_reg : Register) :
    (∃ code, (generate_expression ctx node result_reg).instructions = ctx.instructions ++ code ∧
      (generate_expression ctx node result_reg).instruction_count
        = ctx.instruction_count + (code.length : Int)) ∧
    (generate_expression ctx node result_reg).register_usage = ctx.register_usage ∧
    (generate_expression ctx node result_reg).next_label_id = ctx.next_label_id ∧
    (generate_expression ctx node result_reg).target = ctx.target := by
  have hsame : (∃ code : List Instruction, ctx.instructions = ctx.instructions ++ code ∧
      ctx.instruction_count = ctx.instruction_count + (code.length : Int)) ∧
      ctx.register_usage = ctx.register_usage ∧ ctx.next_label_id = ctx.next_label_id ∧
      ctx.target = ctx.target := ⟨⟨[], by simp, by simp⟩, rfl, rfl, rfl⟩
  cases node with
  | null => exact hsame
  | mk type node_type_str line_number data =>
    unfold generate_expression
    simp only []
    split
    · cases hname : data.get_identifier with
      | none => exact hsame
      | some name =>
        simp only []
        rw [generate_identifier_eq]
        refine ⟨⟨_, rfl, by simp⟩, ?_, ?_, ?_⟩ <;>
          · by_cases h : symbol_exists ctx name = true
            · rw [if_pos h]
            · rw [if_neg h]
              rfl
    · split
      · rw [emit_comment_emit]
        exact ⟨⟨_, rfl, by simp⟩, rfl, rfl, rfl⟩
      · split
        · rw [generate_binary_op_eq]
          exact ⟨⟨_, rfl, by simp [or_code]⟩, rfl, rfl, rfl⟩
        · exact hsame

end Phase4

namespace Phase4

/-! ### Claims about `generate_expression` -/

/-- C22: for every context and destination register `result_reg`,
`generate_expression` on an identifier node named `name` appends exactly one
instruction, a Move whose destination is `result_reg` and whose source is the
memory operand of the stack slot of `name` (base `REG_RBX`, minus the offset
that `get_symbol_offset` has for `name` from then on: the one it had, or the
next free slot when the name had none); on a literal node with value `b` it
appends exactly one instruction, a Move whose destination is `result_reg` and
whose source is the immediate `b`, and changes nothing else. In both cases the
register array is unchanged. -/
theorem C22_leaf_expression (ctx : CodeGenContext) (result_reg : Register)
    (node_type_str : String) (line_number : Int) :
    (∀ name : String,
      (generate_expression ctx
          (ASTNode.mk 4 node_type_str line_number (NodeData.identifier (some name)))
          result_reg).instructions
        = ctx.instructions ++
          [{ type := InstructionType.INST_MOV,
             operands := [Operand.register result_reg,
               Operand.memory Register.REG_RBX
                 (-get_symbol_offset
                    (generate_expression ctx
                      (ASTNode.mk 4 node_type_str line_number (NodeData.identifier (some name)))
                      result_reg) name)],
             operand_count := 2, comment := some name }] ∧
      get_symbol_offset
          (generate_expression ctx
            (ASTNode.mk 4 node_type_str line_number (NodeData.identifier (some name)))
            result_reg) name
        = (if symbol_exists ctx name then get_symbol_offset ctx name else ctx.stack_offset) ∧
      (generate_expression ctx
          (ASTNode.mk 4 node_type_str line_number (NodeData.identifier (some name)))
          result_reg).instruction_count = ctx.instruction_count + 1 ∧
      (generate_expression ctx
          (ASTNode.mk 4 node_type_str line_number (NodeData.identifier (some name)))
          result_reg).register_usage = ctx.register_usage) ∧
    (∀ b : Int,
      generate_expression ctx
          (ASTNode.mk 5 node_type_str line_number (NodeData.bool_literal b)) result_reg
        = { ctx with
            instructions := ctx.instructions ++
              [{ type := InstructionType.INST_MOV,
                 operands := [Operand.register result_reg, Operand.immediate b],
                 operand_count := 2, comment := some (if b ≠ 0 then "TRUE" else "FALSE") }]
            instruction_count := ctx.instruction_count + 1 } ∧
      (generate_expression ctx
          (ASTNode.mk 5 node_type_str line_number (NodeData.bool_literal b))
          result_reg).register_usage = ctx.register_usage) := by
  constructor
  · intro name
    have hnode : generate_expression ctx
        (ASTNode.mk 4 node_type_str line_number (NodeData.identifier (some name))) result_reg
        = generate_identifier ctx name result_reg := by
      simp [generate_expression, NodeData.get_identifier]
    rw [hnode, generate_identifier_eq]
    refine ⟨rfl, ?_, rfl, ?_⟩
    · by_cases h : symbol_exists ctx name = true
      · rw [if_pos h, if_pos h]
        rfl
      · rw [if_neg h, if_neg h]
        simp [get_symbol_offset, add_symbol, find_symbol_offset]
    · by_cases h : symbol_exists ctx name = true
      · rw [if_pos h]
      · rw [if_neg h]
        rfl
  · intro b
    have hnode : generate_expression ctx
        (ASTNode.mk 5 node_type_str line_number (NodeData.bool_literal b)) result_reg
        = { ctx with
            instructions := ctx.instructions ++
              [{ type := InstructionType.INST_MOV,
                 operands := [Operand.register result_reg, Operand.immediate b],
                 operand_count := 2, comment := some (if b ≠ 0 then "TRUE" else "FALSE") }]
            instruction_count := ctx.instruction_count + 1 } := by
      simp only [generate_expression, NodeData.get_bool_literal, emit_comment_emit]
      rfl
    rw [hnode]
    exact ⟨rfl, rfl⟩

/-- C23 fails as stated: for the node `B AND C` `generate_expression` emits
nothing and returns the context as it was; for the node `FALSE OR FALSE` it
emits the Move of the immediate 1 into `RAX`, the Move of the immediate 0 into
`RBX` and the Or of the two, so the Move for the left operand does not load
the value of that operand, and the run of the code leaves 1 in `RAX`. -/
theorem C23_counterexample :
    generate_expression (create_codegen_context TargetArch.TARGET_X86_64)
        (ASTNode.mk 6 "AND" 3
          (NodeData.binary (ASTNode.mk 4 "IDENTIFIER" 3 (NodeData.identifier (some "B")))
            (ASTNode.mk 4 "IDENTIFIER" 3 (NodeData.identifier (some "C")))))
        Register.REG_RCX
      = create_codegen_context TargetArch.TARGET_X86_64 ∧
    (generate_expression (create_codegen_context TargetArch.TARGET_X86_64)
        (ASTNode.mk 7 "OR" 3
          (NodeData.binary (ASTNode.mk 5 "BOOLEAN" 3 (NodeData.bool_literal 0))
            (ASTNode.mk 5 "BOOLEAN" 3 (NodeData.bool_literal 0))))
        Register.REG_RCX).instructions
      = [{ type := InstructionType.INST_MOV,
           operands := [Operand.register Register.REG_RAX, Operand.immediate 1],
           operand_count := 2, comment := some "Load B = TRUE" },
         { type := InstructionType.INST_MOV,
           operands := [Operand.register Register.REG_RBX, Operand.immediate 0],
           operand_count := 2, comment := some "Load C = FALSE" },
         { type := InstructionType.INST_OR,
           operands := [Operand.register Register.REG_RAX, Operand.register Register.REG_RBX],
           operand_count := 2, comment := some "B OR C (result in RAX)" }] ∧
    (Machine.run { registers := fun _ => 0, memory := fun _ => 0 }
      (generate_expression (create_codegen_context TargetArch.TARGET_X86_64)
        (ASTNode.mk 7 "OR" 3
          (NodeData.binary (ASTNode.mk 5 "BOOLEAN" 3 (NodeData.bool_literal 0))
            (ASTNode.mk 5 "BOOLEAN" 3 (NodeData.bool_literal 0))))
        Register.REG_RCX).instructions).registers Register.REG_RAX = 1 := by
  decide

/-- C23, amended: for every node of kind Or, whatever its operands and
whatever the destination register, `generate_expression` appends the fixed
code of `B OR C` with `B` true and `C` false: the Move of the immediate 1 into
`RAX`, the Move of the immediate 0 into `RBX`, then one Or that combines the
two into `RAX`; nothing else of the context changes, so no register is
allocated or freed; for a node of any other binary connective (And, Xor,
Implies, Iff, Equiv: the codes 6, 9, 10, 11, 12) it emits nothing and returns
the context as it was. -/
theorem C23_binary_connective (ctx : CodeGenContext) (node_type_str : String)
    (line_number : Int) (data : NodeData) (result_reg : Register) :
    generate_expression ctx (ASTNode.mk 7 node_type_str line_number data) result_reg
      = { ctx with
          instructions := ctx.instructions ++
            [{ type := InstructionType.INST_MOV,
               operands := [Operand.register Register.REG_RAX, Operand.immediate 1],
               operand_count := 2, comment := some "Load B = TRUE" },
             { type := InstructionType.INST_MOV,
               operands := [Operand.register Register.REG_RBX, Operand.immediate 0],
               operand_count := 2, comment := some "Load C = FALSE" },
             { type := InstructionType.INST_OR,
               operands := [Operand.register Register.REG_RAX,
                 Operand.register Register.REG_RBX],
               operand_count := 2, comment := some "B OR C (result in RAX)" }]
          instruction_count := ctx.instruction_count + 3 } ∧
    (generate_expression ctx (ASTNode.mk 7 node_type_str line_number data)
      result_reg).register_usage = ctx.register_usage ∧
    (∀ type : Int, type = 6 ∨ type = 9 ∨ type = 10 ∨ type = 11 ∨ type = 12 →
      generate_expression ctx (ASTNode.mk type node_type_str line_number data) result_reg
        = ctx) := by
  have hor : generate_expression ctx (ASTNode.mk 7 node_type_str line_number data) result_reg
      = generate_binary_op ctx (ASTNode.mk 7 node_type_str line_number data) result_reg := by
    simp [generate_expression]
  refine ⟨?_, ?_, ?_⟩
  · rw [hor, generate_binary_op_eq]
    rfl
  · rw [hor, generate_binary_op_eq]
  · intro type htype
    rcases htype with h | h | h | h | h <;> subst h <;> simp [generate_expression]

theorem C23_binary_connective_witness :
    ((6 : Int) = 6 ∨ (6 : Int) = 9 ∨ (6 : Int) = 10 ∨ (6 : Int) = 11 ∨ (6 : Int) = 12) ∧
    generate_expression (create_codegen_context TargetArch.TARGET_X86_64)
        (ASTNode.mk 6 "AND" 3 NodeData.zero) Register.REG_RCX
      = create_codegen_context TargetArch.TARGET_X86_64 :=
  ⟨Or.inl rfl,
   (C23_binary_connective (create_codegen_context TargetArch.TARGET_X86_64) "AND" 3
      NodeData.zero Register.REG_RCX).2.2 6 (Or.inl rfl)⟩

end Phase4

namespace Phase4

/-! ### Claims about the kinds that the generator does not handle -/

/-- C27 fails as stated: `generate_program` on a root that is an assignment
node returns the context as it was and prints nothing; `generate_expression`
on a `NOT` node and `generate_statement` on an identifier node return the
context as it was, with no instruction emitted. -/
theorem C27_counterexample :
    generate_program (create_codegen_context TargetArch.TARGET_X86_64)
        (ASTNode.mk 2 "ASSIGNMENT" 1
          (NodeData.assignment (some "B") (ASTNode.mk 5 "BOOLEAN" 1 (NodeData.bool_literal 1))))
      = create_codegen_context TargetArch.TARGET_X86_64 ∧
    generate_program_output (create_codegen_context TargetArch.TARGET_X86_64)
        (ASTNode.mk 2 "ASSIGNMENT" 1
          (NodeData.assignment (some "B") (ASTNode.mk 5 "BOOLEAN" 1 (NodeData.bool_literal 1))))
      = [] ∧
    generate_expression (create_codegen_context TargetArch.TARGET_X86_64)
        (ASTNode.mk 8 "NOT" 1
          (NodeData.unary (ASTNode.mk 4 "IDENTIFIER" 1 (NodeData.identifier (some "B")))))
        Register.REG_RAX
      = create_codegen_context TargetArch.TARGET_X86_64 ∧
    generate_statement (create_codegen_context TargetArch.TARGET_X86_64)
        (ASTNode.mk 4 "IDENTIFIER" 1 (NodeData.identifier (some "B")))
      = create_codegen_context TargetArch.TARGET_X86_64 ∧
    (generate_expression (create_codegen_context TargetArch.TARGET_X86_64)
        (ASTNode.mk 8 "NOT" 1
          (NodeData.unary (ASTNode.mk 4 "IDENTIFIER" 1 (NodeData.identifier (some "B")))))
        Register.REG_RAX).instructions = [] := by
  decide

/-- C27, amended: for a node whose kind the generator does not handle, every
generating function returns normally with the context as it was, so with no
instruction emitted, and there is no failure value: `generate_expression`, for
any code other than 4 (identifier), 5 (literal) and 7 (Or), prints the line
`Unsupported expression type: <code>`; `generate_statement`, for any code
other than 2 (assignment) and 3 (expression statement), prints the line
`Unsupported statement type: <code>`; `generate_program`, for a root whose
code is not 1 and for `NULL`, prints nothing. -/
theorem C27_unsupported_kind (ctx : CodeGenContext) (type : Int) (node_type_str : String)
    (line_number : Int) (data : NodeData) :
    (type ≠ 4 → type ≠ 5 → type ≠ 7 →
      ∀ result_reg : Register,
        generate_expression ctx (ASTNode.mk type node_type_str line_number data) result_reg
          = ctx ∧
        generate_expression_output ctx (ASTNode.mk type node_type_str line_number data)
            result_reg
          = "│     Unsupported expression type: ".toList ++ Phase2.print_int type
              ++ "\n".toList) ∧
    (type ≠ 2 → type ≠ 3 →
      generate_statement ctx (ASTNode.mk type node_type_str line_number data) = ctx ∧
      generate_statement_output ctx (ASTNode.mk type node_type_str line_number data)
        = "│   Unsupported statement type: ".toList ++ Phase2.print_int type ++ "\n".toList) ∧
    (type ≠ 1 →
      generate_program ctx (ASTNode.mk type node_type_str line_number data) = ctx ∧
      generate_program_output ctx (ASTNode.mk type node_type_str line_number data) = []) ∧
    generate_program ctx ASTNode.null = ctx ∧
    generate_program_output ctx ASTNode.null = [] := by
  refine ⟨?_, ?_, ?_, rfl, rfl⟩
  · intro h4 h5 h7 result_reg
    constructor
    · unfold generate_expression
      simp only []
      rw [if_neg h4, if_neg h5, if_neg h7]
    · unfold generate_expression_output
      simp only []
      rw [if_neg h4, if_neg h5, if_neg h7]
  · intro h2 h3
    constructor
    · unfold generate_statement
      simp only []
      rw [if_neg h2, if_neg h3]
    · unfold generate_statement_output
      simp only []
      rw [if_neg h2, if_neg h3]
  · intro h1
    constructor
    · unfold generate_program
      simp only []
      rw [if_pos h1]
    · unfold generate_program_output
      simp only []
      rw [if_pos h1]

theorem C27_unsupported_kind_witness :
    (8 : Int) ≠ 4 ∧ (8 : Int) ≠ 5 ∧ (8 : Int) ≠ 7 ∧
    generate_expression_output (create_codegen_context TargetArch.TARGET_X86_64)
        (ASTNode.mk 8 "NOT" 1 NodeData.zero) Register.REG_RAX
      = "│     Unsupported expression type: 8\n".toList :=
  ⟨by decide, by decide, by decide,
   ((C27_unsupported_kind (create_codegen_context TargetArch.TARGET_X86_64) 8 "NOT" 1
      NodeData.zero).1 (by decide) (by decide) (by decide) Register.REG_RAX).2.trans
     (by decide)⟩

/-- C28 fails as stated: for the node `NOT B` and the destination register
`RCX`, `generate_expression` emits no instruction, neither a load of `B` nor
a Not, and returns the context as it was. -/
theorem C28_counterexample :
    (generate_expression (create_codegen_context TargetArch.TARGET_X86_64)
        (ASTNode.mk 8 "NOT" 1
          (NodeData.unary (ASTNode.mk 4 "IDENTIFIER" 1 (NodeData.identifier (some "B")))))
        Register.REG_RCX).instructions = [] ∧
    generate_expression (create_codegen_context TargetArch.TARGET_X86_64)
        (ASTNode.mk 8 "NOT" 1
          (NodeData.unary (ASTNode.mk 4 "IDENTIFIER" 1 (NodeData.identifier (some "B")))))
        Register.REG_RCX
      = create_codegen_context TargetArch.TARGET_X86_64 := by
  decide

/-- C28, amended: for every `NOT` node (code 8), whatever its operand, every
destination register and every context, `generate_expression` emits no
instruction, neither the load of the operand nor a Not: it returns the context
as it was, and prints the line `Unsupported expression type: 8`. -/
theorem C28_not_expression (ctx : CodeGenContext) (node_type_str : String) (line_number : Int)
    (data : NodeData) (result_reg : Register) :
    generate_expression ctx (ASTNode.mk 8 node_type_str line_number data) result_reg = ctx ∧
    emitted ctx
        (generate_expression ctx (ASTNode.mk 8 node_type_str line_number data) result_reg)
      = [] ∧
    generate_expression_output ctx (ASTNode.mk 8 node_type_str line_number data) result_reg
      = "│     Unsupported expression type: 8\n".toList := by
  have hctx : generate_expression ctx (ASTNode.mk 8 node_type_str line_number data) result_reg
      = ctx := by
    simp [generate_expression]
  refine ⟨hctx, ?_, ?_⟩
  · rw [hctx]
    simp [emitted]
  · unfold generate_expression_output
    simp only []
    rw [if_neg (by decide), if_neg (by decide), if_neg (by decide)]
    decide

end Phase4

namespace Phase4

/-! ### Claims about statements and programs -/

theorem allocate_register_from_congr (ctx other : CodeGenContext)
    (h : ctx.register_usage = other.register_usage) :
    ∀ remaining i : Nat,
      (allocate_register_from ctx i remaining).2 = (allocate_register_from other i remaining).2 := by
  intro remaining
  induction remaining with
  | zero =>
    intro i
    rw [allocate_register_from, allocate_register_from]
  | succ remaining ih =>
    intro i
    rw [allocate_register_from, allocate_register_from, h]
    split
    · rfl
    · exact ih (i + 1)

theorem add_symbol_usage (ctx : CodeGenContext) (name : String) :
    (if symbol_exists ctx name then ctx else add_symbol ctx name 1).register_usage
        = ctx.register_usage ∧
    (if symbol_exists ctx name then ctx else add_symbol ctx name 1).instructions
        = ctx.instructions ∧
    (if symbol_exists ctx name then ctx else add_symbol ctx name 1).instruction_count
        = ctx.instruction_count := by
  split <;> exact ⟨rfl, rfl, rfl⟩

theorem generate_assignment_eq (ctx : CodeGenContext) (type : Int) (node_type_str : String)
    (line_number : Int) (data : NodeData) (var_name : String)
    (hvar : data.get_variable = some var_name) :
    generate_assignment ctx (ASTNode.mk type node_type_str line_number data)
      = free_register
          { generate_expression (value_context ctx var_name) data.get_value
              (value_register ctx var_name) with
            instructions :=
              (generate_expression (value_context ctx var_name) data.get_value
                (value_register ctx var_name)).instructions ++
              [{ type := InstructionType.INST_MOV,
                 operands :=
                   [Operand.memory Register.REG_RBX
                      (-get_symbol_offset
                        (generate_expression (value_context ctx var_name) data.get_value
                          (value_register ctx var_name)) var_name),
                    Operand.register (value_register ctx var_name)],
                 operand_count := 2, comment := some var_name }]
            instruction_count :=
              (generate_expression (value_context ctx var_name) data.get_value
                (value_register ctx var_name)).instruction_count + 1 }
          (value_register ctx var_name) := by
  unfold generate_assignment
  simp only [hvar, emit_comment_emit]
  rfl

/-- C24: for every assignment node with variable `var_name` and value
`value`, in a context with a free register, `generate_assignment` appends the
code that `generate_expression` emits for the value into the register it
allocated (the free register of lowest index), followed by one Move whose
destination is the memory operand of the stack slot of the variable and whose
source is that register; it counts the instructions, and it returns with the
register array equal to the one before the call. -/
theorem C24_generate_assignment (ctx : CodeGenContext)
    (hfree : ∃ i, i < 8 ∧ ctx.register_usage.getD i 0 = 0)
    (type : Int) (node_type_str : String) (line_number : Int) (var_name : String)
    (value : ASTNode) :
    ∃ code : List Instruction,
      (generate_expression (value_context ctx var_name) value
          (value_register ctx var_name)).instructions = ctx.instructions ++ code ∧
      (generate_assignment ctx
          (ASTNode.mk type node_type_str line_number
            (NodeData.assignment (some var_name) value))).instructions
        = ctx.instructions ++ code ++
          [{ type := InstructionType.INST_MOV,
             operands :=
               [Operand.memory Register.REG_RBX
                  (-get_symbol_offset
                    (generate_assignment ctx
                      (ASTNode.mk type node_type_str line_number
                        (NodeData.assignment (some var_name) value))) var_name),
                Operand.register (value_register ctx var_name)],
             operand_count := 2, comment := some var_name }] ∧
      (generate_assignment ctx
          (ASTNode.mk type node_type_str line_number
            (NodeData.assignment (some var_name) value))).instruction_count
        = ctx.instruction_count + (code.length : Int) + 1 ∧
      (generate_assignment ctx
          (ASTNode.mk type node_type_str line_number
            (NodeData.assignment (some var_name) value))).register_usage
        = ctx.register_usage ∧
      value_register ctx var_name = (allocate_register ctx).2 ∧
      is_register_free ctx (value_register ctx var_name) = true := by
  obtain ⟨husage, hinstructions, hcount⟩ := add_symbol_usage ctx var_name
  have hreg : value_register ctx var_name = (allocate_register ctx).2 :=
    allocate_register_from_congr _ _ husage 8 0
  have hfields := allocate_register_fields
    (if symbol_exists ctx var_name then ctx else add_symbol ctx var_name 1)
  obtain ⟨⟨code, hcode, hcodecount⟩, hexpr_usage, _, _⟩ :=
    generate_expression_appends (value_context ctx var_name) value (value_register ctx var_name)
  have hctx_instructions : (value_context ctx var_name).instructions = ctx.instructions :=
    hfields.1.trans hinstructions
  have hctx_count : (value_context ctx var_name).instruction_count = ctx.instruction_count :=
    hfields.2.1.trans hcount
  rw [hctx_instructions] at hcode
  rw [hctx_count] at hcodecount
  -- the register allocated
  have halloc : ∃ k, k < 8 ∧ ctx.register_usage.getD k 0 = 0 ∧
      value_register ctx var_name = Register.cast k ∧
      (value_context ctx var_name).register_usage = ctx.register_usage.set k 1 := by
    rcases allocate_register_cases
        (if symbol_exists ctx var_name then ctx else add_symbol ctx var_name 1) with
      ⟨_, hbusy⟩ | ⟨k, hk, hkfree, hresult⟩
    · obtain ⟨i, hi, hifree⟩ := hfree
      rw [husage] at hbusy
      exact absurd hifree (hbusy i hi)
    · rw [husage] at hkfree
      refine ⟨k, hk, hkfree, ?_, ?_⟩
      · unfold value_register
        rw [hresult]
      · unfold value_context
        rw [hresult]
        simp only []
        rw [husage]
  obtain ⟨k, hk, hkfree, hregk, hctx_usage⟩ := halloc
  have hassign := generate_assignment_eq ctx type node_type_str line_number
    (NodeData.assignment (some var_name) value) var_name rfl
  simp only [NodeData.get_value] at hassign
  have hfree_fields := free_register_fields
    { generate_expression (value_context ctx var_name) value (value_register ctx var_name) with
      instructions :=
        (generate_expression (value_context ctx var_name) value
          (value_register ctx var_name)).instructions ++
        [{ type := InstructionType.INST_MOV,
           operands :=
             [Operand.memory Register.REG_RBX
                (-get_symbol_offset
                  (generate_expression (value_context ctx var_name) value
                    (value_register ctx var_name)) var_name),
              Operand.register (value_register ctx var_name)],
           operand_count := 2, comment := some var_name }]
      instruction_count :=
        (generate_expression (value_context ctx var_name) value
          (value_register ctx var_name)).instruction_count + 1 }
    (value_register ctx var_name)
  have hoffset : get_symbol_offset
      (generate_assignment ctx
        (ASTNode.mk type node_type_str line_number
          (NodeData.assignment (some var_name) value))) var_name
      = get_symbol_offset
          (generate_expression (value_context ctx var_name) value
            (value_register ctx var_name)) var_name := by
    unfold get_symbol_offset
    rw [hassign, hfree_fields.2.2.1]
  refine ⟨code, hcode, ?_, ?_, ?_, hreg, ?_⟩
  · rw [hoffset, hassign, hfree_fields.1]
    simp only []
    rw [hcode]
  · rw [hassign, hfree_fields.2.1]
    simp only []
    rw [hcodecount]
  · rw [hassign]
    unfold free_register
    rw [if_pos (by rw [hregk, toNat_cast hk]; exact hk)]
    simp only []
    rw [hexpr_usage, hctx_usage, hregk, toNat_cast hk, set_set_of_free _ _ hkfree]
  · unfold is_register_free
    rw [hregk, toNat_cast hk, decide_eq_true hk, decide_eq_true hkfree]
    rfl

theorem C24_generate_assignment_witness :
    (∃ i, i < 8 ∧ (create_codegen_context TargetArch.TARGET_X86_64).register_usage.getD i 0 = 0) ∧
    (generate_assignment (create_codegen_context TargetArch.TARGET_X86_64)
        (ASTNode.mk 2 "ASSIGNMENT" 1
          (NodeData.assignment (some "B")
            (ASTNode.mk 5 "BOOLEAN" 1 (NodeData.bool_literal 1))))).register_usage
      = (create_codegen_context TargetArch.TARGET_X86_64).register_usage :=
  ⟨⟨0, by decide, rfl⟩,
   (C24_generate_assignment (create_codegen_context TargetArch.TARGET_X86_64)
      ⟨0, by decide, rfl⟩ 2 "ASSIGNMENT" 1 "B"
      (ASTNode.mk 5 "BOOLEAN" 1 (NodeData.bool_literal 1))).elim (fun _ h => h.2.2.2.1)⟩

end Phase4

namespace Phase4

theorem generate_statement_expression (ctx : CodeGenContext) (node_type_str : String)
    (line_number : Int) (data : NodeData) :
    generate_statement ctx (ASTNode.mk 3 node_type_str line_number data)
      = free_register
          { (allocate_register ctx).1 with
            instructions := ctx.instructions ++ or_code
            instruction_count := ctx.instruction_count + 3 }
          (allocate_register ctx).2 := by
  obtain ⟨hinstructions, hcount, _⟩ := allocate_register_fields ctx
  unfold generate_statement
  simp only []
  rw [if_pos trivial, generate_binary_op_eq, hinstructions, hcount, if_neg (by decide)]

/-- C25 fails as stated: for the expression statement whose expression is
the literal `TRUE`, in a new context, `generate_statement` appends the three
instructions of `B OR C`, while `generate_expression` for the literal, into
the register that is allocated, emits the one Move of the immediate 1. -/
theorem C25_counterexample :
    emitted (create_codegen_context TargetArch.TARGET_X86_64)
        (generate_statement (create_codegen_context TargetArch.TARGET_X86_64)
          (ASTNode.mk 3 "EXPRESSION_STMT" 3
            (NodeData.unary (ASTNode.mk 5 "BOOLEAN" 3 (NodeData.bool_literal 1)))))
      = [{ type := InstructionType.INST_MOV,
           operands := [Operand.register Register.REG_RAX, Operand.immediate 1],
           operand_count := 2, comment := some "Load B = TRUE" },
         { type := InstructionType.INST_MOV,
           operands := [Operand.register Register.REG_RBX, Operand.immediate 0],
           operand_count := 2, comment := some "Load C = FALSE" },
         { type := InstructionType.INST_OR,
           operands := [Operand.register Register.REG_RAX, Operand.register Register.REG_RBX],
           operand_count := 2, comment := some "B OR C (result in RAX)" }] ∧
    emitted (allocate_register (create_codegen_context TargetArch.TARGET_X86_64)).1
        (generate_expression
          (allocate_register (create_codegen_context TargetArch.TARGET_X86_64)).1
          (ASTNode.mk 5 "BOOLEAN" 3 (NodeData.bool_literal 1))
          (allocate_register (create_codegen_context TargetArch.TARGET_X86_64)).2)
      = [{ type := InstructionType.INST_MOV,
           operands := [Operand.register Register.REG_RAX, Operand.immediate 1],
           operand_count := 2, comment := some "TRUE" }] := by
  decide

/-- C25, amended: for every expression statement node, whatever expression it
holds, the instructions that `generate_statement` appends are exactly the
three that `generate_expression` emits for an Or node into the register it
allocated (the fixed code of `B OR C`: Move `RAX` ← 1, Move `RBX` ← 0, Or
`RAX`, `RBX`); the expression of the statement is not looked at; the register
that was allocated is free on return, and when the context had a free
register the register array is the one before the call. -/
theorem C25_expression_statement (ctx : CodeGenContext) (node_type_str : String)
    (line_number : Int) (data : NodeData) :
    (generate_statement ctx (ASTNode.mk 3 node_type_str line_number data)).instructions
      = ctx.instructions ++ or_code ∧
    emitted ctx (generate_statement ctx (ASTNode.mk 3 node_type_str line_number data))
      = or_code ∧
    emitted (allocate_register ctx).1
        (generate_expression (allocate_register ctx).1 (ASTNode.mk 7 "OR" 3 NodeData.zero)
          (allocate_register ctx).2)
      = or_code ∧
    (generate_statement ctx (ASTNode.mk 3 node_type_str line_number data)).instruction_count
      = ctx.instruction_count + 3 ∧
    is_register_free (generate_statement ctx (ASTNode.mk 3 node_type_str line_number data))
      (allocate_register ctx).2 = true ∧
    ((∃ i, i < 8 ∧ ctx.register_usage.getD i 0 = 0) →
      (generate_statement ctx (ASTNode.mk 3 node_type_str line_number data)).register_usage
        = ctx.register_usage) := by
  have hstatement := generate_statement_expression ctx node_type_str line_number data
  have hfields := free_register_fields
    { (allocate_register ctx).1 with
      instructions := ctx.instructions ++ or_code
      instruction_count := ctx.instruction_count + 3 }
    (allocate_register ctx).2
  have hinstructions :
      (generate_statement ctx (ASTNode.mk 3 node_type_str line_number data)).instructions
        = ctx.instructions ++ or_code := by
    rw [hstatement, hfields.1]
  refine ⟨hinstructions, emitted_of_append hinstructions, ?_, ?_, ?_, ?_⟩
  · apply emitted_of_append
    have hor : generate_expression (allocate_register ctx).1
        (ASTNode.mk 7 "OR" 3 NodeData.zero) (allocate_register ctx).2
        = generate_binary_op (allocate_register ctx).1 (ASTNode.mk 7 "OR" 3 NodeData.zero)
            (allocate_register ctx).2 := by
      simp [generate_expression]
    rw [hor, generate_binary_op_eq]
  · rw [hstatement, hfields.2.1]
  · rw [hstatement]
    exact is_register_free_free _ _ (allocate_register_toNat_lt ctx)
  · intro hfree
    rcases allocate_register_cases ctx with ⟨_, hbusy⟩ | ⟨k, hk, hkfree, hresult⟩
    · obtain ⟨i, hi, hifree⟩ := hfree
      exact absurd hifree (hbusy i hi)
    · rw [hstatement, hresult]
      unfold free_register
      simp only []
      rw [if_pos (by rw [toNat_cast hk]; exact hk), toNat_cast hk]
      simp only []
      exact set_set_of_free _ _ hkfree

/-- What `generate_statement` does to a context: it appends instructions and
counts them. -/
theorem generate_statement_appends (ctx : CodeGenContext) (node : ASTNode) :
    ∃ code, (generate_statement ctx node).instructions = ctx.instructions ++ code ∧
      (generate_statement ctx node).instruction_count
        = ctx.instruction_count + (code.length : Int) := by
  have hsame : ∃ code : List Instruction, ctx.instructions = ctx.instructions ++ code ∧
      ctx.instruction_count = ctx.instruction_count + (code.length : Int) :=
    ⟨[], by simp, by simp⟩
  cases node with
  | null => exact hsame
  | mk type node_type_str line_number data =>
    by_cases h2 : type = 2
    · subst h2
      have hnode : generate_statement ctx (ASTNode.mk 2 node_type_str line_number data)
          = generate_assignment ctx (ASTNode.mk 2 node_type_str line_number data) := by
        simp [generate_statement]
      rw [hnode]
      cases hvar : data.get_variable with
      | none =>
        have hnone : generate_assignment ctx (ASTNode.mk 2 node_type_str line_number data)
            = ctx := by
          simp [generate_assignment, hvar]
        rw [hnone]
        exact hsame
      | some var_name =>
        rw [generate_assignment_eq ctx 2 node_type_str line_number data var_name hvar]
        obtain ⟨⟨code, hcode, hcodecount⟩, _, _, _⟩ := generate_expression_appends
          (value_context ctx var_name) data.get_value (value_register ctx var_name)
        obtain ⟨_, hinstructions, hcount⟩ := add_symbol_usage ctx var_name
        have hfields := allocate_register_fields
          (if symbol_exists ctx var_name then ctx else add_symbol ctx var_name 1)
        have hctx_instructions : (value_context ctx var_name).instructions = ctx.instructions :=
          hfields.1.trans hinstructions
        have hctx_count :
            (value_context ctx var_name).instruction_count = ctx.instruction_count :=
          hfields.2.1.trans hcount
        rw [hctx_instructions] at hcode
        rw [hctx_count] at hcodecount
        refine ⟨code ++
          [{ type := InstructionType.INST_MOV,
             operands :=
               [Operand.memory Register.REG_RBX
                  (-get_symbol_offset
                    (generate_expression (value_context ctx var_name) data.get_value
                      (value_register ctx var_name)) var_name),
                Operand.register (value_register ctx var_name)],
             operand_count := 2, comment := some var_name }], ?_, ?_⟩
        · rw [(free_register_fields _ _).1]
          simp only []
          rw [hcode, List.append_assoc]
        · rw [(free_register_fields _ _).2.1]
          simp only []
          rw [hcodecount, List.length_append, List.length_singleton]
          push_cast
          ring
    by_cases h3 : type = 3
    · subst h3
      refine ⟨or_code, ?_, ?_⟩
      · rw [generate_statement_expression, (free_register_fields _ _).1]
      · rw [generate_statement_expression, (free_register_fields _ _).2.1]
        rfl
    · have hnode : generate_statement ctx (ASTNode.mk type node_type_str line_number data)
          = ctx := by
        simp [generate_statement, h2, h3]
      rw [hnode]
      exact hsame

theorem generate_statement_emitted (ctx : CodeGenContext) (node : ASTNode) :
    (generate_statement ctx node).instructions
        = ctx.instructions ++ emitted ctx (generate_statement ctx node) ∧
    (generate_statement ctx node).instruction_count
        = ctx.instruction_count + ((emitted ctx (generate_statement ctx node)).length : Int) := by
  obtain ⟨code, hcode, hcount⟩ := generate_statement_appends ctx node
  rw [emitted_of_append hcode]
  exact ⟨hcode, hcount⟩

/-- The loop of `generate_program` over the statements. -/
theorem foldl_generate_statement (statements : List ASTNode) :
    ∀ ctx : CodeGenContext,
      (statements.foldl generate_statement ctx).instructions
          = ctx.instructions ++ (statement_codes ctx statements).flatten ∧
      (statements.foldl generate_statement ctx).instruction_count
          = ctx.instruction_count + (((statement_codes ctx statements).flatten).length : Int) := by
  induction statements with
  | nil =>
    intro ctx
    simp [statement_codes]
  | cons statement rest ih =>
    intro ctx
    obtain ⟨hinstructions, hcount⟩ := ih (generate_statement ctx statement)
    obtain ⟨hfirst, hfirstcount⟩ := generate_statement_emitted ctx statement
    rw [List.foldl_cons, hinstructions, hcount, statement_codes, List.flatten_cons,
      List.length_append]
    constructor
    · rw [← List.append_assoc, ← hfirst]
    · rw [hfirstcount]
      push_cast
      ring

/-- C26: for every program node, the instruction list after `generate_program`
on a new context is the concatenation, in the order of the statements, of the
instructions that `generate_statement` emits for each statement (each in the
context that the statements before it leave), followed by exactly one more
instruction, the Move of the immediate 0 into `RAX`; `instruction_count` is
the length of that list; what `generate_statement` emits is what it appends to
the list of its context. -/
theorem C26_generate_program (target : TargetArch) (node_type_str : String)
    (line_number : Int) (data : NodeData) :
    (generate_program (create_codegen_context target)
        (ASTNode.mk 1 node_type_str line_number data)).instructions
      = (statement_codes (create_codegen_context target) data.get_statements).flatten
          ++ [{ type := InstructionType.INST_MOV,
                operands := [Operand.register Register.REG_RAX, Operand.immediate 0],
                operand_count := 2, comment := some "Set exit code to 0" }] ∧
    (generate_program (create_codegen_context target)
        (ASTNode.mk 1 node_type_str line_number data)).instruction_count
      = ((generate_program (create_codegen_context target)
          (ASTNode.mk 1 node_type_str line_number data)).instructions.length : Int) ∧
    (∀ (ctx : CodeGenContext) (statement : ASTNode),
      (generate_statement ctx statement).instructions
        = ctx.instructions ++ emitted ctx (generate_statement ctx statement)) := by
  have hprogram : generate_program (create_codegen_context target)
      (ASTNode.mk 1 node_type_str line_number data)
      = { data.get_statements.foldl generate_statement (create_codegen_context target) with
          instructions :=
            (data.get_statements.foldl generate_statement
              (create_codegen_context target)).instructions ++
            [{ type := InstructionType.INST_MOV,
               operands := [Operand.register Register.REG_RAX, Operand.immediate 0],
               operand_count := 2, comment := some "Set exit code to 0" }]
          instruction_count :=
            (data.get_statements.foldl generate_statement
              (create_codegen_context target)).instruction_count + 1 } := by
    unfold generate_program
    simp only [emit_comment_emit]
    rw [if_neg (by decide)]
    rfl
  obtain ⟨hinstructions, hcount⟩ :=
    foldl_generate_statement data.get_statements (create_codegen_context target)
  have hnil : (create_codegen_context target).instructions = [] := rfl
  have hzero : (create_codegen_context target).instruction_count = 0 := rfl
  rw [hnil, List.nil_append] at hinstructions
  rw [hzero, zero_add] at hcount
  rw [hprogram]
  simp only []
  rw [hinstructions, hcount]
  refine ⟨rfl, ?_, fun ctx statement => (generate_statement_emitted ctx statement).1⟩
  rw [List.length_append, List.length_singleton]
  push_cast
  rfl

end Phase4

namespace Phase4

/-! ### Stack slots -/

theorem note_name_nodup {seen : List String} (h : seen.Nodup) (name : String) :
    (note_name seen name).Nodup := by
  unfold note_name
  split
  · exact h
  · next hmem =>
    rw [List.nodup_append]
    refine ⟨h, List.nodup_singleton name, ?_⟩
    intro a ha hb
    rw [List.mem_singleton] at hb
    exact hmem (hb ▸ ha)

theorem mem_note_name (seen : List String) (name other : String) :
    other ∈ note_name seen name ↔ other ∈ seen ∨ other = name := by
  unfold note_name
  split
  · next hmem =>
    constructor
    · exact Or.inl
    · rintro (h | h)
      · exact h
      · exact h ▸ hmem
  · simp

theorem note_name_part (seen : List String) (name : String) : seen <+: note_name seen name := by
  unfold note_name
  split
  · exact List.prefix_refl seen
  · exact List.prefix_append seen [name]

theorem foldl_note_nodup (names : List String) :
    ∀ seen : List String, seen.Nodup → (names.foldl note_name seen).Nodup := by
  induction names with
  | nil => exact fun _ h => h
  | cons name rest ih => exact fun seen h => ih _ (note_name_nodup h name)

theorem mem_foldl_note (names : List String) :
    ∀ (seen : List String) (other : String),
      other ∈ names.foldl note_name seen ↔ other ∈ seen ∨ other ∈ names := by
  induction names with
  | nil => simp
  | cons name rest ih =>
    intro seen other
    rw [List.foldl_cons, ih, mem_note_name, List.mem_cons]
    tauto

theorem foldl_note_part (names : List String) :
    ∀ seen : List String, seen <+: names.foldl note_name seen := by
  induction names with
  | nil => exact fun seen => List.prefix_refl seen
  | cons name rest ih => exact fun seen => (note_name_part seen name).trans (ih _)

theorem getElem?_of_part {front whole : List String} (h : front <+: whole) (k : Nat)
    (name : String) (hk : front[k]? = some name) : whole[k]? = some name := by
  obtain ⟨rest, rfl⟩ := h
  have hlt : k < front.length := by
    by_contra hge
    rw [List.getElem?_eq_none (by omega)] at hk
    cases hk
  rw [List.getElem?_append_left hlt]
  exact hk

theorem find_symbol_offset_of_not_mem (name : String) (symbols : List SymbolMap)
    (h : name ∉ symbols.map SymbolMap.name) : find_symbol_offset name symbols = -1 := by
  induction symbols with
  | nil => rfl
  | cons sym rest ih =>
    rw [List.map_cons, List.mem_cons, not_or] at h
    rw [find_symbol_offset, if_neg (fun heq => h.1 heq.symm)]
    exact ih h.2

theorem symbol_exists_iff {names : List String} {ctx : CodeGenContext}
    (h : slots_of names ctx) (name : String) : symbol_exists ctx name = true ↔ name ∈ names := by
  obtain ⟨hmap, _, _, hlook⟩ := h
  unfold symbol_exists
  constructor
  · intro hexists
    by_contra hmem
    have hnone : get_symbol_offset ctx name = -1 := by
      apply find_symbol_offset_of_not_mem
      rw [hmap, List.mem_reverse]
      exact hmem
    rw [hnone] at hexists
    exact absurd hexists (by decide)
  · intro hmem
    obtain ⟨k, hk, hname⟩ := List.getElem_of_mem hmem
    have hoffset := hlook k name (by rw [List.getElem?_eq_getElem hk, hname])
    rw [hoffset]
    simp only [bne_iff_ne, ne_eq]
    omega

theorem slots_of_congr {names : List String} {ctx other : CodeGenContext}
    (h : slots_of names ctx) (hmap : other.symbol_map = ctx.symbol_map)
    (hoffset : other.stack_offset = ctx.stack_offset) : slots_of names other := by
  obtain ⟨h₁, h₂, h₃, h₄⟩ := h
  refine ⟨by rw [hmap]; exact h₁, h₂, by rw [hoffset]; exact h₃, ?_⟩
  intro k name hk
  have := h₄ k name hk
  unfold get_symbol_offset at this ⊢
  rw [hmap]
  exact this

/-- The slot of a name is looked up and, when there is none, reserved: the
names of the slots are the ones before, with that name noted. -/
theorem slots_of_note {names : List String} {ctx : CodeGenContext} (h : slots_of names ctx)
    (name : String) :
    slots_of (note_name names name)
      (if symbol_exists ctx name then ctx else add_symbol ctx name 1) := by
  by_cases hexists : symbol_exists ctx name = true
  · have hmem := (symbol_exists_iff h name).1 hexists
    rw [if_pos hexists]
    unfold note_name
    rw [if_pos hmem]
    exact h
  · have hmem : name ∉ names := fun hm => hexists ((symbol_exists_iff h name).2 hm)
    rw [if_neg hexists]
    unfold note_name
    rw [if_neg hmem]
    obtain ⟨h₁, h₂, h₃, h₄⟩ := h
    refine ⟨?_, ?_, ?_, ?_⟩
    · simp [add_symbol, h₁]
    · rw [List.nodup_append]
      refine ⟨h₂, List.nodup_singleton name, ?_⟩
      intro a ha hb
      rw [List.mem_singleton] at hb
      exact hmem (hb ▸ ha)
    · simp only [add_symbol, List.length_append, List.length_singleton]
      rw [h₃]
      push_cast
      ring
    · intro k other hk
      by_cases hlt : k < names.length
      · rw [List.getElem?_append_left hlt] at hk
        have hne : name ≠ other := by
          intro heq
          apply hmem
          rw [heq]
          exact List.getElem?_mem hk
        have hold := h₄ k other hk
        unfold get_symbol_offset at hold ⊢
        simp only [add_symbol, find_symbol_offset]
        rw [if_neg hne]
        exact hold
      · have hk' : k = names.length := by
          by_contra hne
          rw [List.getElem?_eq_none (by
            rw [List.length_append, List.length_singleton]; omega)] at hk
          cases hk
        subst hk'
        rw [List.getElem?_append_right (le_refl _), Nat.sub_self] at hk
        simp only [List.getElem?_cons_zero, Option.some.injEq] at hk
        subst hk
        unfold get_symbol_offset
        simp only [add_symbol, find_symbol_offset, if_true]
        exact h₃

end Phase4

namespace Phase4

theorem slots_of_identifier {names : List String} {ctx : CodeGenContext}
    (h : slots_of names ctx) (name : String) (result_reg : Register) :
    slots_of (note_name names name) (generate_identifier ctx name result_reg) := by
  rw [generate_identifier_eq]
  exact slots_of_congr (slots_of_note h name) rfl rfl

theorem slots_of_expression {names : List String} {ctx : CodeGenContext}
    (h : slots_of names ctx) (node : ASTNode) (result_reg : Register) :
    slots_of
      ((match node with
        | ASTNode.null => []
        | ASTNode.mk type _ _ value_data =>
          if type = 4 then value_data.get_identifier.toList else []).foldl note_name names)
      (generate_expression ctx node result_reg) := by
  cases node with
  | null => exact h
  | mk type node_type_str line_number data =>
    unfold generate_expression
    simp only []
    by_cases h4 : type = 4
    · rw [if_pos h4, if_pos h4]
      cases data.get_identifier with
      | none => exact h
      | some name => exact slots_of_identifier h name result_reg
    · rw [if_neg h4, if_neg h4]
      split
      · rw [emit_comment_emit]
        exact slots_of_congr h rfl rfl
      · split
        · rw [generate_binary_op_eq]
          exact slots_of_congr h rfl rfl
        · exact h

theorem slots_of_assignment {names : List String} {ctx : CodeGenContext}
    (h : slots_of names ctx) (node : ASTNode) :
    slots_of ((SlotCall.assignment node).names.foldl note_name names)
      (generate_assignment ctx node) := by
  cases node with
  | null => exact h
  | mk type node_type_str line_number data =>
    cases hvar : data.get_variable with
    | none =>
      have hnone : generate_assignment ctx (ASTNode.mk type node_type_str line_number data)
          = ctx := by
        simp [generate_assignment, hvar]
      rw [hnone]
      simp only [SlotCall.names, hvar]
      exact h
    | some var_name =>
      rw [generate_assignment_eq ctx type node_type_str line_number data var_name hvar]
      simp only [SlotCall.names, hvar, List.foldl_cons]
      have hfields := allocate_register_fields
        (if symbol_exists ctx var_name then ctx else add_symbol ctx var_name 1)
      have hcontext : slots_of (note_name names var_name) (value_context ctx var_name) :=
        slots_of_congr (slots_of_note h var_name) hfields.2.2.1 hfields.2.2.2.1
      have hvalue := slots_of_expression hcontext data.get_value (value_register ctx var_name)
      exact slots_of_congr hvalue (free_register_fields _ _).2.2.1
        (free_register_fields _ _).2.2.2.1

theorem slots_of_run {names : List String} {ctx : CodeGenContext} (h : slots_of names ctx)
    (call : SlotCall) : slots_of (call.names.foldl note_name names) (call.run ctx) := by
  cases call with
  | identifier name result_reg => exact slots_of_identifier h name result_reg
  | assignment node => exact slots_of_assignment h node

theorem slots_of_calls (calls : List SlotCall) :
    ∀ (names : List String) (ctx : CodeGenContext), slots_of names ctx →
      slots_of ((calls.map SlotCall.names).flatten.foldl note_name names)
        (calls.foldl SlotCall.run ctx) := by
  induction calls with
  | nil => exact fun _ _ h => h
  | cons call rest ih =>
    intro names ctx h
    rw [List.map_cons, List.flatten_cons, List.foldl_append, List.foldl_cons]
    exact ih _ _ (slots_of_run h call)

theorem slots_of_create (target : TargetArch) : slots_of [] (create_codegen_context target) :=
  ⟨rfl, List.nodup_nil, rfl, fun k name hk => by simp at hk⟩

/-- C21: after any sequence of `generate_identifier` and `generate_assignment`
calls on a new context, the distinct variable names that the calls reference,
in the order of their first reference, have the stack offsets 0, 8, 16, ...:
the name at index `k` (counted from 0, so the `k + 1`-th name) has the offset
`8 * k`; there is one slot for each distinct name and `stack_offset` is 8
times their number; distinct names have distinct offsets; and whatever calls
follow, a name keeps its offset. -/
theorem C21_stack_slots (target : TargetArch) (calls : List SlotCall) :
    (∀ (k : Nat) (name : String),
      (distinct_names (calls.map SlotCall.names).flatten)[k]? = some name →
      get_symbol_offset (calls.foldl SlotCall.run (create_codegen_context target)) name
        = 8 * (k : Int)) ∧
    (calls.foldl SlotCall.run (create_codegen_context target)).stack_offset
      = 8 * ((distinct_names (calls.map SlotCall.names).flatten).length : Int) ∧
    (calls.foldl SlotCall.run (create_codegen_context target)).symbol_map.length
      = (distinct_names (calls.map SlotCall.names).flatten).length ∧
    (distinct_names (calls.map SlotCall.names).flatten).Nodup ∧
    (∀ name : String, name ∈ distinct_names (calls.map SlotCall.names).flatten ↔
      name ∈ (calls.map SlotCall.names).flatten) ∧
    (∀ first second : String,
      first ∈ (calls.map SlotCall.names).flatten → second ∈ (calls.map SlotCall.names).flatten →
      first ≠ second →
      get_symbol_offset (calls.foldl SlotCall.run (create_codegen_context target)) first
        ≠ get_symbol_offset (calls.foldl SlotCall.run (create_codegen_context target)) second) ∧
    (∀ (more : List SlotCall) (name : String), name ∈ (calls.map SlotCall.names).flatten →
      get_symbol_offset ((calls ++ more).foldl SlotCall.run (create_codegen_context target)) name
        = get_symbol_offset (calls.foldl SlotCall.run (create_codegen_context target)) name) := by
  have hslots : slots_of (distinct_names (calls.map SlotCall.names).flatten)
      (calls.foldl SlotCall.run (create_codegen_context target)) :=
    slots_of_calls calls [] _ (slots_of_create target)
  have hmem : ∀ name : String, name ∈ distinct_names (calls.map SlotCall.names).flatten ↔
      name ∈ (calls.map SlotCall.names).flatten := by
    intro name
    unfold distinct_names
    rw [mem_foldl_note]
    simp
  obtain ⟨hmap, hnodup, hoffset, hlook⟩ := hslots
  refine ⟨hlook, hoffset, ?_, hnodup, hmem, ?_, ?_⟩
  · have hlen := congrArg List.length hmap
    rw [List.length_map, List.length_reverse] at hlen
    exact hlen
  · intro first second hfirst hsecond hne
    obtain ⟨i, hi, hfi⟩ := List.getElem_of_mem ((hmem first).2 hfirst)
    obtain ⟨j, hj, hsj⟩ := List.getElem_of_mem ((hmem second).2 hsecond)
    rw [hlook i first (by rw [List.getElem?_eq_getElem hi, hfi]),
      hlook j second (by rw [List.getElem?_eq_getElem hj, hsj])]
    intro heq
    have hij : i = j := by omega
    subst hij
    exact hne (hfi.symm.trans hsj)
  · intro more name hname
    obtain ⟨i, hi, hni⟩ := List.getElem_of_mem ((hmem name).2 hname)
    have hhere : (distinct_names (calls.map SlotCall.names).flatten)[i]? = some name := by
      rw [List.getElem?_eq_getElem hi, hni]
    have hlater : slots_of (distinct_names ((calls ++ more).map SlotCall.names).flatten)
        ((calls ++ more).foldl SlotCall.run (create_codegen_context target)) :=
      slots_of_calls (calls ++ more) [] _ (slots_of_create target)
    have hpart : distinct_names (calls.map SlotCall.names).flatten
        <+: distinct_names ((calls ++ more).map SlotCall.names).flatten := by
      unfold distinct_names
      rw [List.map_append, List.flatten_append, List.foldl_append]
      exact foldl_note_part _ _
    rw [hlook i name hhere, hlater.2.2.2 i name (getElem?_of_part hpart i name hhere)]

end Phase4

/-! ## Theorems: the hash of a name -/

namespace Phase3

theorem hash_step_eq (hash : Nat) (c : Char) :
    hash_step hash c = (hash * 33 + c.toNat) % 2 ^ 32 := by
  unfold hash_step
  rw [Nat.shiftLeft_eq]
  have h : hash * 2 ^ 5 + hash = hash * 33 := by omega
  rw [h]
  norm_num

/-- C31: for every string and every bucket count `n > 0`, `hash_string`
returns `h mod n`, where `h` is obtained from 5381 by the step
`h ← (h · 33 + c) mod 2^32` for each character `c` in order (a character
enters by its code, which for ASCII text is the value of the `char`); the
result lies in `[0, n)`. Being a function of the string and the bucket count,
the result depends on nothing else. -/
theorem C31_hash_string (s : String) (n : Nat) (hn : 0 < n) :
    hash_string s n = (s.toList.foldl (fun h c => (h * 33 + c.toNat) % 2 ^ 32) 5381) % n ∧
    hash_string s n < n := by
  have hstep : hash_step = fun h c => (h * 33 + c.toNat) % 2 ^ 32 := by
    funext h c
    exact hash_step_eq h c
  unfold hash_string
  rw [hstep]
  exact ⟨rfl, Nat.mod_lt _ hn⟩

theorem C31_hash_string_witness :
    0 < 101 ∧ hash_string "B" 101 = 177639 % 101 ∧ hash_string "B" 101 < 101 :=
  ⟨by decide, (C31_hash_string "B" 101 (by decide)).1.trans (by decide),
    (C31_hash_string "B" 101 (by decide)).2⟩

end Phase3

/-! ## Theorems: the single diagnostic for undefined symbols -/

namespace Phase3

/-- An entry that is used and not defined sits in the table after the known
symbols are entered exactly when it sits in the table before and is named
neither `B` nor `C`. -/
theorem undefined_known_iff {table : SymbolTable} (hwf : WellFormed table) :
    (∃ entry ∈ entries (process_known_symbols table),
        entry.is_used ≠ 0 ∧ entry.is_defined = 0) ↔
    (∃ entry ∈ entries table,
        entry.is_used ≠ 0 ∧ entry.is_defined = 0 ∧ entry.name ≠ "B" ∧ entry.name ≠ "C") := by
  have hwfk := wellFormed_known hwf
  obtain ⟨⟨entryB, hlookB, _, hdefB, _⟩, ⟨entryC, hlookC, _, hdefC, _⟩⟩ :=
    known_symbols_present table hwf
  constructor
  · rintro ⟨entry, hmem, hused, hdef⟩
    have hlook := hwfk.lookup_of_mem hmem
    have hB : entry.name ≠ "B" := by
      intro hname
      rw [hname, hlookB] at hlook
      cases hlook
      rw [hdefB] at hdef
      cases hdef
    have hC : entry.name ≠ "C" := by
      intro hname
      rw [hname, hlookC] at hlook
      cases hlook
      rw [hdefC] at hdef
      cases hdef
    rw [lookup_known_other hwf entry.name hB hC] at hlook
    exact ⟨entry, (lookup_symbol_mem hlook).1, hused, hdef, hB, hC⟩
  · rintro ⟨entry, hmem, hused, hdef, hB, hC⟩
    have hlook := hwf.lookup_of_mem hmem
    rw [← lookup_known_other hwf entry.name hB hC] at hlook
    exact ⟨entry, (lookup_symbol_mem hlook).1, hused, hdef⟩

theorem check_undefined_pos_iff {table : SymbolTable} (hwf : WellFormed table) :
    check_undefined_symbols table > 0 ↔
      ∃ entry ∈ entries table, entry.is_used ≠ 0 ∧ entry.is_defined = 0 := by
  rw [check_undefined_eq_countP hwf, gt_iff_lt, List.countP_pos_iff]
  simp

/-- C38 fails as stated: for the program whose one statement is the identifier
node `B`, the table after the walk holds the entry `B`, used and not defined,
yet `perform_semantic_analysis` in a fresh context returns 0 and records no
diagnostic (the entry is defined when the known symbols are entered, before
the validation looks at the table). -/
theorem C38_counterexample :
    (∃ entry, lookup_symbol (analyze_node create_semantic_context
        (ASTNode.mk 1 "PROGRAM" 1 SymbolType.SYM_UNKNOWN 0 0
          (NodeData.program
            [ASTNode.mk 4 "IDENTIFIER: B (line 1)" 1 SymbolType.SYM_UNKNOWN 0 0
              (NodeData.identifier (some "B"))]))).1.symbol_table "B" = some entry ∧
      entry.is_used ≠ 0 ∧ entry.is_defined = 0) ∧
    (perform_semantic_analysis create_semantic_context
      (ASTNode.mk 1 "PROGRAM" 1 SymbolType.SYM_UNKNOWN 0 0
        (NodeData.program
          [ASTNode.mk 4 "IDENTIFIER: B (line 1)" 1 SymbolType.SYM_UNKNOWN 0 0
            (NodeData.identifier (some "B"))]))).1 = 0 ∧
    (perform_semantic_analysis create_semantic_context
      (ASTNode.mk 1 "PROGRAM" 1 SymbolType.SYM_UNKNOWN 0 0
        (NodeData.program
          [ASTNode.mk 4 "IDENTIFIER: B (line 1)" 1 SymbolType.SYM_UNKNOWN 0 0
            (NodeData.identifier (some "B"))]))).2.1.errors = [] := by
  refine ⟨⟨_, (by decide : lookup_symbol _ "B" = some
    { name := "B", type := SymbolType.SYM_IDENTIFIER, is_defined := 0, is_used := 1,
      line_declared := 1, line_used := 1, value := SymbolValue.str_value none }),
    by decide, by decide⟩, by decide, by decide⟩

/-- C38, amended: for every tree and a fresh context, `perform_semantic_analysis`
returns 1 if at least one entry of the symbol table is used and not defined
when the validation step looks at the table, that is, after the walk and after
the known symbols `B` and `C` are entered, and 0 otherwise; such an entry is an
entry that the walk left used and not defined and that is named neither `B`
nor `C`. Any number of such entries produces a single diagnostic, of the kind
`SEM_ERROR_UNDEFINED_VAR`, with line 0 and no symbol name, so `error_count` is
at most 1. -/
theorem C38_single_diagnostic (type : Int) (node_type_str : String) (line_number : Int)
    (semantic_type : SymbolType) (is_constant bool_value : Int) (data : NodeData) :
    ((∃ entry ∈ entries (perform_semantic_analysis create_semantic_context
          (ASTNode.mk type node_type_str line_number semantic_type is_constant bool_value
            data)).2.1.symbol_table, entry.is_used ≠ 0 ∧ entry.is_defined = 0) ↔
      (∃ entry ∈ entries (analyze_node create_semantic_context
          (ASTNode.mk type node_type_str line_number semantic_type is_constant bool_value
            data)).1.symbol_table,
        entry.is_used ≠ 0 ∧ entry.is_defined = 0 ∧ entry.name ≠ "B" ∧ entry.name ≠ "C")) ∧
    ((∃ entry ∈ entries (perform_semantic_analysis create_semantic_context
          (ASTNode.mk type node_type_str line_number semantic_type is_constant bool_value
            data)).2.1.symbol_table, entry.is_used ≠ 0 ∧ entry.is_defined = 0) →
      (perform_semantic_analysis create_semantic_context
        (ASTNode.mk type node_type_str line_number semantic_type is_constant bool_value
          data)).1 = 1 ∧
      (perform_semantic_analysis create_semantic_context
        (ASTNode.mk type node_type_str line_number semantic_type is_constant bool_value
          data)).2.1.errors
        = [{ type := SemanticErrorType.SEM_ERROR_UNDEFINED_VAR,
             message := "Variables referenced but not defined", line_number := 0,
             symbol_name := none }]) ∧
    ((¬ ∃ entry ∈ entries (perform_semantic_analysis create_semantic_context
          (ASTNode.mk type node_type_str line_number semantic_type is_constant bool_value
            data)).2.1.symbol_table, entry.is_used ≠ 0 ∧ entry.is_defined = 0) →
      (perform_semantic_analysis create_semantic_context
        (ASTNode.mk type node_type_str line_number semantic_type is_constant bool_value
          data)).1 = 0 ∧
      (perform_semantic_analysis create_semantic_context
        (ASTNode.mk type node_type_str line_number semantic_type is_constant bool_value
          data)).2.1.errors = []) ∧
    (perform_semantic_analysis create_semantic_context
      (ASTNode.mk type node_type_str line_number semantic_type is_constant bool_value
        data)).2.1.error_count ≤ 1 := by
  have hwalk := wellFormed_analyze_node create_semantic_context
    (wellFormed_create 101 (by decide))
    (ASTNode.mk type node_type_str line_number semantic_type is_constant bool_value data)
  have hwf := wellFormed_known hwalk
  obtain ⟨htable, herrors, hcount, _, hresult⟩ := perform_counts create_semantic_context type
    node_type_str line_number semantic_type is_constant bool_value data
  have hzero : create_semantic_context.error_count = 0 := rfl
  have hnil : create_semantic_context.errors = [] := rfl
  rw [hresult, hcount, herrors, htable, hzero, hnil, ← check_undefined_pos_iff hwf]
  refine ⟨?_, ?_, ?_, ?_⟩
  · rw [check_undefined_pos_iff hwf]
    exact undefined_known_iff hwalk
  · intro hpos
    rw [if_pos hpos, if_pos hpos]
    exact ⟨rfl, rfl⟩
  · intro hpos
    rw [if_neg hpos, if_neg hpos]
    exact ⟨rfl, rfl⟩
  · split <;> decide

end Phase3

/-! ## Theorems: the registers across statements -/

namespace Phase4

/-- In a context with a free register, `generate_statement` returns with the
register array as it was. -/
theorem generate_statement_usage (ctx : CodeGenContext)
    (hfree : ∃ i, i < 8 ∧ ctx.register_usage.getD i 0 = 0) (node : ASTNode) :
    (generate_statement ctx node).register_usage = ctx.register_usage := by
  cases node with
  | null => rfl
  | mk type node_type_str line_number data =>
    by_cases h2 : type = 2
    · subst h2
      have hstatement : generate_statement ctx (ASTNode.mk 2 node_type_str line_number data)
          = generate_assignment ctx (ASTNode.mk 2 node_type_str line_number data) := by
        simp [generate_statement]
      rw [hstatement]
      cases hvar : data.get_variable with
      | none =>
        have : generate_assignment ctx (ASTNode.mk 2 node_type_str line_number data) = ctx := by
          simp [generate_assignment, hvar]
        rw [this]
      | some var_name =>
        obtain ⟨husage, _, _⟩ := add_symbol_usage ctx var_name
        obtain ⟨_, hexpr_usage, _, _⟩ :=
          generate_expression_appends (value_context ctx var_name) data.get_value
            (value_register ctx var_name)
        rcases allocate_register_cases
            (if symbol_exists ctx var_name then ctx else add_symbol ctx var_name 1) with
          ⟨_, hbusy⟩ | ⟨k, hk, hkfree, hresult⟩
        · obtain ⟨i, hi, hifree⟩ := hfree
          rw [husage] at hbusy
          exact absurd hifree (hbusy i hi)
        · rw [husage] at hkfree
          have hregk : value_register ctx var_name = Register.cast k := by
            unfold value_register
            rw [hresult]
          have hctx_usage : (value_context ctx var_name).register_usage
              = ctx.register_usage.set k 1 := by
            unfold value_context
            rw [hresult]
            simp only []
            rw [husage]
          rw [generate_assignment_eq ctx 2 node_type_str line_number data var_name hvar]
          unfold free_register
          rw [if_pos (by rw [hregk, toNat_cast hk]; exact hk)]
          simp only []
          rw [hexpr_usage, hctx_usage, hregk, toNat_cast hk, set_set_of_free _ _ hkfree]
    · by_cases h3 : type = 3
      · subst h3
        rcases allocate_register_cases ctx with ⟨_, hbusy⟩ | ⟨k, hk, hkfree, hresult⟩
        · obtain ⟨i, hi, hifree⟩ := hfree
          exact absurd hifree (hbusy i hi)
        · rw [generate_statement_expression, hresult]
          unfold free_register
          simp only []
          rw [if_pos (by rw [toNat_cast hk]; exact hk), toNat_cast hk]
          simp only []
          exact set_set_of_free _ _ hkfree
      · have : generate_statement ctx (ASTNode.mk type node_type_str line_number data) = ctx := by
          simp [generate_statement, h2, h3]
        rw [this]

theorem foldl_generate_statement_usage (statements : List ASTNode) :
    ∀ ctx : CodeGenContext, (∃ i, i < 8 ∧ ctx.register_usage.getD i 0 = 0) →
      (statements.foldl generate_statement ctx).register_usage = ctx.register_usage := by
  induction statements with
  | nil =>
    intro ctx _
    rfl
  | cons statement rest ih =>
    intro ctx hfree
    rw [List.foldl_cons, ih (generate_statement ctx statement)
      (by rw [generate_statement_usage ctx hfree statement]; exact hfree),
      generate_statement_usage ctx hfree statement]

theorem all_free_has_free (ctx : CodeGenContext)
    (hfree : ctx.register_usage = List.replicate 8 0) :
    ∃ i, i < 8 ∧ ctx.register_usage.getD i 0 = 0 :=
  ⟨0, by decide, by rw [hfree]; rfl⟩

theorem is_register_free_all_free (ctx : CodeGenContext)
    (hfree : ctx.register_usage = List.replicate 8 0) (reg : Register)
    (hreg : reg ≠ Register.REG_COUNT) : is_register_free ctx reg = true := by
  unfold is_register_free
  rw [hfree]
  cases reg <;> first | rfl | exact absurd rfl hreg

/-- C37: from a context in which all eight registers are free,
`generate_program` on any program node returns with every register free
again; the register array is all-free before and after every statement (after
any number of the statements of the program), because each call of
`generate_statement` in a context with a free register returns with the
register array as it was at the call, the register it allocated released. -/
theorem C37_registers_free_again (ctx : CodeGenContext)
    (hfree : ctx.register_usage = List.replicate 8 0) (node_type_str : String)
    (line_number : Int) (data : NodeData) :
    (generate_program ctx (ASTNode.mk 1 node_type_str line_number data)).register_usage
      = List.replicate 8 0 ∧
    (∀ reg : Register, reg ≠ Register.REG_COUNT →
      is_register_free (generate_program ctx (ASTNode.mk 1 node_type_str line_number data)) reg
        = true) ∧
    (∀ k : Nat, ((data.get_statements.take k).foldl generate_statement ctx).register_usage
      = List.replicate 8 0) ∧
    (∀ (before : CodeGenContext) (statement : ASTNode),
      (∃ i, i < 8 ∧ before.register_usage.getD i 0 = 0) →
      (generate_statement before statement).register_usage = before.register_usage) := by
  have hprogram : (generate_program ctx
      (ASTNode.mk 1 node_type_str line_number data)).register_usage = List.replicate 8 0 := by
    have : (generate_program ctx (ASTNode.mk 1 node_type_str line_number data)).register_usage
        = (data.get_statements.foldl generate_statement ctx).register_usage := by
      simp [generate_program, emit_comment, emit_instruction]
    rw [this, foldl_generate_statement_usage _ ctx (all_free_has_free ctx hfree), hfree]
  refine ⟨hprogram, ?_, ?_, ?_⟩
  · intro reg hreg
    exact is_register_free_all_free _ hprogram reg hreg
  · intro k
    rw [foldl_generate_statement_usage _ ctx (all_free_has_free ctx hfree), hfree]
  · intro before statement hbefore
    exact generate_statement_usage before hbefore statement

theorem C37_registers_free_again_witness :
    (create_codegen_context TargetArch.TARGET_X86_64).register_usage = List.replicate 8 0 ∧
    (generate_program (create_codegen_context TargetArch.TARGET_X86_64)
      (ASTNode.mk 1 "PROGRAM" 1
        (NodeData.program
          [ASTNode.mk 2 "ASSIGNMENT" 1
             (NodeData.assignment (some "B") (ASTNode.mk 5 "BOOLEAN" 1 (NodeData.bool_literal 1))),
           ASTNode.mk 3 "EXPRESSION_STMT" 3 NodeData.zero]))).register_usage
      = List.replicate 8 0 :=
  ⟨rfl, (C37_registers_free_again (create_codegen_context TargetArch.TARGET_X86_64) rfl
    "PROGRAM" 1 _).1⟩

end Phase4

/-! ## Theorems: the registers that the generated code writes -/

namespace Phase4

theorem generate_binary_op_steps (ctx : CodeGenContext) (node : ASTNode)
    (result_reg : Register) :
    generate_binary_op ctx node result_reg
      = emit_comment
          (emit_instruction (binary_op_third ctx) InstructionType.INST_OR 2
            [Operand.register Register.REG_RAX, Operand.register Register.REG_RBX])
          "B OR C (result in RAX)" := rfl

theorem allocate_register_all_free (ctx : CodeGenContext)
    (hfree : ctx.register_usage = List.replicate 8 0) :
    allocate_register ctx
      = ({ ctx with register_usage := 1 :: List.replicate 7 0 }, Register.REG_RAX) := by
  unfold allocate_register allocate_register_from
  rw [if_pos (by rw [hfree]; rfl), hfree]
  rfl

/-- The instructions that `generate_expression` emits write the result
register; those of the fixed code for an `OR` node write `RAX` and `RBX`. -/
theorem generate_expression_written (ctx : CodeGenContext) (node : ASTNode)
    (result_reg : Register) :
    ∀ inst ∈ emitted ctx (generate_expression ctx node result_reg),
      inst.written = some result_reg ∨ inst ∈ or_code := by
  cases node with
  | null =>
    intro inst hinst
    simp [generate_expression, emitted] at hinst
  | mk type node_type_str line_number data =>
    unfold generate_expression
    simp only []
    split
    · cases hname : data.get_identifier with
      | none =>
        intro inst hinst
        simp [emitted] at hinst
      | some name =>
        simp only []
        rw [generate_identifier_eq]
        intro inst hinst
        rw [emitted_of_append rfl, List.mem_singleton] at hinst
        left
        rw [hinst]
        rfl
    · split
      · rw [emit_comment_emit]
        intro inst hinst
        rw [emitted_of_append rfl, List.mem_singleton] at hinst
        left
        rw [hinst]
        rfl
      · split
        · rw [generate_binary_op_eq]
          intro inst hinst
          rw [emitted_of_append rfl] at hinst
          exact Or.inr hinst
        · intro inst hinst
          simp [emitted] at hinst

/-- C36 fails as stated: in the context that `create_codegen_context` makes,
`generate_statement` on an expression statement allocates `RAX`, and the
second instruction it emits, the Move of 0 into `RBX`, is emitted in a context
in which `RBX` is marked free: `RBX` is written without having been obtained
from `allocate_register`. -/
theorem C36_counterexample :
    generate_statement (create_codegen_context TargetArch.TARGET_X86_64)
        (ASTNode.mk 3 "EXPRESSION_STMT" 3 NodeData.zero)
      = free_register
          (emit_comment
            (emit_instruction
              (binary_op_third
                (allocate_register (create_codegen_context TargetArch.TARGET_X86_64)).1)
              InstructionType.INST_OR 2
              [Operand.register Register.REG_RAX, Operand.register Register.REG_RBX])
            "B OR C (result in RAX)")
          (allocate_register (create_codegen_context TargetArch.TARGET_X86_64)).2 ∧
    (allocate_register (create_codegen_context TargetArch.TARGET_X86_64)).2
      = Register.REG_RAX ∧
    is_register_free
        (binary_op_second (allocate_register (create_codegen_context TargetArch.TARGET_X86_64)).1)
        Register.REG_RBX = true ∧
    (emitted (create_codegen_context TargetArch.TARGET_X86_64)
        (generate_statement (create_codegen_context TargetArch.TARGET_X86_64)
          (ASTNode.mk 3 "EXPRESSION_STMT" 3 NodeData.zero)))[1]?
      = some { type := InstructionType.INST_MOV,
               operands := [Operand.register Register.REG_RBX, Operand.immediate 0],
               operand_count := 2, comment := some "Load C = FALSE" } ∧
    Instruction.written
        { type := InstructionType.INST_MOV,
          operands := [Operand.register Register.REG_RBX, Operand.immediate 0],
          operand_count := 2, comment := some "Load C = FALSE" }
      = some Register.REG_RBX := by
  refine ⟨rfl, by decide, by decide, by decide, by decide⟩

/-- C36, amended: from a context in which all eight registers are free,
`allocate_register` returns `RAX` and marks it, and nothing but
`allocate_register` and `free_register` changes the register array. On an
expression statement `generate_statement` emits its three instructions between
the allocation and the release: the first and the third write `RAX`, which is
marked in use when they are emitted; the second writes `RBX`, which is marked
free when it is emitted. On an assignment with a variable the value is
generated into `RAX`, marked in use, and every instruction emitted for the
value writes `RAX` or belongs to the fixed code of an `OR` value, which writes
`RBX` as well. Every instruction that `generate_statement` emits writes `RAX`,
`RBX` or no register. -/
theorem C36_written_registers (ctx : CodeGenContext)
    (hfree : ctx.register_usage = List.replicate 8 0) (node_type_str : String)
    (line_number : Int) (data : NodeData) :
    allocate_register ctx
      = ({ ctx with register_usage := 1 :: List.replicate 7 0 }, Register.REG_RAX) ∧
    ((∀ (before : CodeGenContext) (type : InstructionType) (operand_count : Int)
        (args : List Operand),
        (emit_instruction before type operand_count args).register_usage
          = before.register_usage) ∧
      (∀ (before : CodeGenContext) (comment : String),
        (emit_comment before comment).register_usage = before.register_usage) ∧
      (∀ (before : CodeGenContext) (node : ASTNode) (result_reg : Register),
        (generate_expression before node result_reg).register_usage
          = before.register_usage)) ∧
    (generate_statement ctx (ASTNode.mk 3 node_type_str line_number data)
        = free_register
            (emit_comment
              (emit_instruction (binary_op_third (allocate_register ctx).1)
                InstructionType.INST_OR 2
                [Operand.register Register.REG_RAX, Operand.register Register.REG_RBX])
              "B OR C (result in RAX)")
            Register.REG_RAX ∧
      is_register_free (allocate_register ctx).1 Register.REG_RAX = false ∧
      is_register_free (binary_op_second (allocate_register ctx).1) Register.REG_RBX = true ∧
      is_register_free (binary_op_third (allocate_register ctx).1) Register.REG_RAX = false) ∧
    (∀ var_name : String, data.get_variable = some var_name →
      value_register ctx var_name = Register.REG_RAX ∧
      is_register_free (value_context ctx var_name) Register.REG_RAX = false ∧
      is_register_free (value_context ctx var_name) Register.REG_RBX = true ∧
      (∀ inst ∈ emitted (value_context ctx var_name)
          (generate_expression (value_context ctx var_name) data.get_value Register.REG_RAX),
        inst.written = some Register.REG_RAX ∨ inst ∈ or_code)) ∧
    (∀ type : Int, ∀ inst ∈ emitted ctx
        (generate_statement ctx (ASTNode.mk type node_type_str line_number data)),
      inst.written = none ∨ inst.written = some Register.REG_RAX ∨
        inst.written = some Register.REG_RBX) := by
  have halloc := allocate_register_all_free ctx hfree
  have hvalue : ∀ var_name : String,
      value_register ctx var_name = Register.REG_RAX ∧
      (value_context ctx var_name).register_usage = 1 :: List.replicate 7 0 ∧
      (value_context ctx var_name).instructions = ctx.instructions := by
    intro var_name
    obtain ⟨husage, hinstructions, _⟩ := add_symbol_usage ctx var_name
    have h := allocate_register_all_free
      (if symbol_exists ctx var_name then ctx else add_symbol ctx var_name 1)
      (husage.trans hfree)
    unfold value_register value_context
    rw [h]
    exact ⟨rfl, rfl, hinstructions⟩
  have hor : ∀ inst ∈ or_code, inst.written = some Register.REG_RAX ∨
      inst.written = some Register.REG_RBX := by
    decide
  refine ⟨halloc, ⟨fun _ _ _ _ => rfl, fun _ _ => rfl,
    fun before node result_reg => (generate_expression_appends before node result_reg).2.1⟩,
    ⟨?_, ?_, ?_, ?_⟩, ?_, ?_⟩
  · rw [halloc]
    simp only [generate_statement]
    rw [if_pos trivial, halloc]
    rfl
  · rw [halloc]
    rfl
  · rw [halloc]
    rfl
  · rw [halloc]
    rfl
  · intro var_name _
    obtain ⟨hreg, husage, _⟩ := hvalue var_name
    refine ⟨hreg, ?_, ?_, ?_⟩
    · unfold is_register_free
      rw [husage]
      rfl
    · unfold is_register_free
      rw [husage]
      rfl
    · exact generate_expression_written _ _ _
  · intro type inst hinst
    by_cases h2 : type = 2
    · subst h2
      have hstatement : generate_statement ctx (ASTNode.mk 2 node_type_str line_number data)
          = generate_assignment ctx (ASTNode.mk 2 node_type_str line_number data) := by
        simp [generate_statement]
      rw [hstatement] at hinst
      cases hvar : data.get_variable with
      | none =>
        have hsame : generate_assignment ctx (ASTNode.mk 2 node_type_str line_number data)
            = ctx := by
          simp [generate_assignment, hvar]
        rw [hsame] at hinst
        simp [emitted] at hinst
      | some var_name =>
        obtain ⟨hreg, _, hinstructions⟩ := hvalue var_name
        obtain ⟨⟨code, hcode, _⟩, _, _, _⟩ :=
          generate_expression_appends (value_context ctx var_name) data.get_value
            (value_register ctx var_name)
        have hwritten := generate_expression_written (value_context ctx var_name)
          data.get_value (value_register ctx var_name)
        rw [emitted_of_append hcode] at hwritten
        rw [generate_assignment_eq ctx 2 node_type_str line_number data var_name hvar] at hinst
        have hfields := free_register_fields
          { generate_expression (value_context ctx var_name) data.get_value
              (value_register ctx var_name) with
            instructions :=
              (generate_expression (value_context ctx var_name) data.get_value
                (value_register ctx var_name)).instructions ++
              [{ type := InstructionType.INST_MOV,
                 operands :=
                   [Operand.memory Register.REG_RBX
                      (-get_symbol_offset
                        (generate_expression (value_context ctx var_name) data.get_value
                          (value_register ctx var_name)) var_name),
                    Operand.register (value_register ctx var_name)],
                 operand_count := 2, comment := some var_name }]
            instruction_count :=
              (generate_expression (value_context ctx var_name) data.get_value
                (value_register ctx var_name)).instruction_count + 1 }
          (value_register ctx var_name)
        unfold emitted at hinst
        rw [hfields.1] at hinst
        simp only [] at hinst
        rw [hcode, hinstructions, List.append_assoc, List.drop_left, List.mem_append,
          List.mem_singleton] at hinst
        rcases hinst with hinst | hinst
        · rcases hwritten inst hinst with h | h
          · rw [hreg] at h
            exact Or.inr (Or.inl h)
          · exact Or.inr (hor inst h)
        · left
          rw [hinst]
          rfl
    · by_cases h3 : type = 3
      · subst h3
        have hinstructions := (generate_statement_expression ctx node_type_str line_number data)
        rw [hinstructions] at hinst
        have hfields := free_register_fields
          { (allocate_register ctx).1 with
            instructions := ctx.instructions ++ or_code
            instruction_count := ctx.instruction_count + 3 }
          (allocate_register ctx).2
        unfold emitted at hinst
        rw [hfields.1] at hinst
        simp only [] at hinst
        rw [List.drop_left] at hinst
        exact Or.inr (hor inst hinst)
      · have hsame : generate_statement ctx (ASTNode.mk type node_type_str line_number data)
            = ctx := by
          simp [generate_statement, h2, h3]
        rw [hsame] at hinst
        simp [emitted] at hinst

theorem C36_written_registers_witness :
    (create_codegen_context TargetArch.TARGET_X86_64).register_usage = List.replicate 8 0 ∧
    allocate_register (create_codegen_context TargetArch.TARGET_X86_64)
      = ({ (create_codegen_context TargetArch.TARGET_X86_64) with
            register_usage := 1 :: List.replicate 7 0 }, Register.REG_RAX) :=
  ⟨rfl, (C36_written_registers (create_codegen_context TargetArch.TARGET_X86_64) rfl
    "EXPRESSION_STMT" 3 NodeData.zero).1⟩

end Phase4

/-! ## Theorems: the node made from a header -/

namespace Codec

open Phase3 (strstr strchr isspace isdigit trim_whitespace trim_whitespace_buffer
  parse_node_type load_line fgets_lines load_ast_from_file LoaderState scan_digits sscanf_line
  parse_ast_line attach_node append_statement init_program extract_node_data create_ast_node)
open Phase2 (print_int print_indent print_line_marker print_ast print_statements
  print_ast_to_file)

/-- The loop body of `load_ast_from_file` attaches the node of the text of the
line. -/
theorem load_line_node (state : LoaderState) (line node_info : List Char) (indent : Nat)
    (hskip : ¬ (line.head? = some '#' ∨ line.head? = some '\n'
      ∨ (trim_whitespace line).length = 0))
    (hparse : parse_ast_line (trim_whitespace_buffer line) = (true, node_info, indent))
    (htype : parse_node_type node_info > 0) :
    load_line state line
      = { root := attach_node state.root (node_of_info node_info) (parse_node_type node_info)
          nodes_loaded := state.nodes_loaded + 1 } := by
  unfold load_line
  rw [if_neg hskip, hparse]
  simp only []
  rw [if_pos htype]
  rfl

theorem header_shape (keyword : List Char) (n : Int) :
    keyword ++ " (line ".toList ++ print_int n ++ [')']
      = keyword ++ " (line ".toList ++ print_int n ++ ')' :: [] := rfl

theorem node_of_info_line (keyword : List Char) (n : Int) (hparen : '(' ∉ keyword) :
    node_of_info (keyword ++ " (line ".toList ++ print_int n ++ [')'])
      = extract_node_data
          (create_ast_node (parse_node_type (keyword ++ " (line ".toList ++ print_int n ++ [')']))
            (keyword ++ " (line ".toList ++ print_int n ++ [')']) n)
          (keyword ++ " (line ".toList ++ print_int n ++ [')']) := by
  unfold node_of_info
  rw [line_num_header keyword [] n hparen]

theorem strchr_of_not_mem (a b : List Char) (c : Char) (h : c ∉ a) :
    strchr (a ++ c :: b) c = some (c :: b) := by
  induction a with
  | nil => simp [strchr]
  | cons x a ih =>
    rw [List.cons_append, strchr, if_neg (fun hx : x = c => h (hx ▸ List.mem_cons_self _ _)),
      ih (fun hmem => h (List.mem_cons_of_mem _ hmem))]

theorem takeWhile_of_not_mem (a b : List Char) (c : Char) (h : c ∉ a) :
    (a ++ c :: b).takeWhile (fun d => d ≠ c) = a := by
  induction a with
  | nil => simp
  | cons x a ih =>
    have hx : x ≠ c := fun hx => h (hx ▸ List.mem_cons_self _ _)
    rw [List.cons_append, List.takeWhile_cons, if_pos (by simpa using hx),
      ih (fun hmem => h (List.mem_cons_of_mem _ hmem))]

/-- The tag of an identifier header whose name has none of the keywords that
are looked for first. -/
theorem parse_node_type_identifier (x : List Char) (n : Int) (hfree : header_keyword_free x) :
    parse_node_type ("IDENTIFIER: ".toList ++ x ++ " (line ".toList ++ print_int n ++ [')'])
      = 4 := by
  have hkey : ∀ (pat : List Char) (p : Char) (tail : List Char), pat = p :: tail →
      ' ' ∉ pat → ¬ pat <:+: "IDENTIFIER:".toList → ¬ pat <:+: x →
      isdigit p = false → p ≠ '-' → p ≠ ')' → ¬ pat <:+: "(line".toList →
      ¬ (strstr ("IDENTIFIER: ".toList ++ x ++ " (line ".toList ++ print_int n ++ [')'])
          pat).isSome = true := by
    intro pat p tail hpat hspace hhead hx hdigit hminus hparen hline hsome
    rw [strstr_isSome_iff, header_infix_iff pat _ n p tail hpat hspace hdigit hminus hparen hline]
      at hsome
    have hshape : "IDENTIFIER: ".toList ++ x = "IDENTIFIER:".toList ++ ' ' :: x := by simp
    rw [hshape, infix_append_cons_iff _ _ _ _ hspace] at hsome
    rcases hsome with h | h
    · exact hhead h
    · exact hx h
  unfold parse_node_type
  rw [if_neg (hkey "PROGRAM".toList 'P' "ROGRAM".toList rfl (by decide) (by decide) hfree.1
      (by decide) (by decide) (by decide) (by decide)),
    if_neg (hkey "ASSIGNMENT".toList 'A' "SSIGNMENT".toList rfl (by decide) (by decide)
      hfree.2.1 (by decide) (by decide) (by decide) (by decide)),
    if_neg (hkey "EXPRESSION_STMT".toList 'E' "XPRESSION_STMT".toList rfl (by decide)
      (by decide) hfree.2.2 (by decide) (by decide) (by decide) (by decide)),
    if_pos ((strstr_isSome_iff _ _).2
      ⟨[], ':' :: ' ' :: (x ++ " (line ".toList ++ print_int n ++ [')']), by simp⟩)]

theorem node_of_info_identifier (x : List Char) (n : Int) (hne : x ≠ [])
    (hspace : ' ' ∉ x) (hparen : '(' ∉ x) (hfree : header_keyword_free x) :
    node_of_info ("IDENTIFIER: ".toList ++ x ++ " (line ".toList ++ print_int n ++ [')'])
      = Phase3.ASTNode.mk 4
          (String.mk ("IDENTIFIER: ".toList ++ x ++ " (line ".toList ++ print_int n ++ [')']))
          n Phase3.SymbolType.SYM_UNKNOWN 0 0
          (Phase3.NodeData.identifier (some (String.mk x))) := by
  have hkeyword : '(' ∉ "IDENTIFIER: ".toList ++ x := by
    intro hmem
    rcases List.mem_append.1 hmem with h | h
    · revert h; decide
    · exact hparen h
  rw [node_of_info_line _ n hkeyword, parse_node_type_identifier x n hfree]
  obtain ⟨first, rest, hx⟩ := List.exists_cons_of_ne_nil hne
  have hfirst : first ≠ ' ' := fun h => hspace (by rw [hx, h]; exact List.mem_cons_self _ _)
  have hcolon : strchr ("IDENTIFIER: ".toList ++ x ++ " (line ".toList ++ print_int n ++ [')'])
      ':' = some (':' :: ' ' :: (x ++ ' ' :: ("(line ".toList ++ print_int n ++ [')']))) := by
    have hshape : "IDENTIFIER: ".toList ++ x ++ " (line ".toList ++ print_int n ++ [')']
        = "IDENTIFIER".toList ++ ':' :: ' ' :: (x ++ ' ' :: ("(line ".toList ++ print_int n
            ++ [')'])) := by
      simp
    rw [hshape, strchr_of_not_mem _ _ ':' (by decide)]
  have hstart : ((':' :: ' ' :: (x ++ ' ' :: ("(line ".toList ++ print_int n ++ [')']))).drop
      1).dropWhile (fun c => c = ' ')
      = x ++ ' ' :: ("(line ".toList ++ print_int n ++ [')']) := by
    rw [List.drop_one, List.tail_cons, List.dropWhile_cons, if_pos (by simp), hx,
      List.cons_append, List.dropWhile_cons, if_neg (by simpa using hfirst)]
  unfold extract_node_data create_ast_node
  simp only []
  rw [if_pos trivial, hcolon]
  simp only []
  rw [hstart, strchr_of_not_mem x _ ' ' hspace]
  simp only []
  rw [takeWhile_of_not_mem x _ ' ' hspace]

theorem node_of_info_boolean (n : Int) :
    node_of_info ("BOOLEAN: TRUE".toList ++ " (line ".toList ++ print_int n ++ [')'])
      = Phase3.ASTNode.mk 5
          (String.mk ("BOOLEAN: TRUE".toList ++ " (line ".toList ++ print_int n ++ [')']))
          n Phase3.SymbolType.SYM_UNKNOWN 1 1 (Phase3.NodeData.bool_literal 1) ∧
    node_of_info ("BOOLEAN: FALSE".toList ++ " (line ".toList ++ print_int n ++ [')'])
      = Phase3.ASTNode.mk 5
          (String.mk ("BOOLEAN: FALSE".toList ++ " (line ".toList ++ print_int n ++ [')']))
          n Phase3.SymbolType.SYM_UNKNOWN 1 0 (Phase3.NodeData.bool_literal 0) := by
  obtain ⟨_, _, htrue, hfalse, _⟩ := parse_node_type_kinds n
  constructor
  · rw [node_of_info_line _ n (by decide), htrue]
    unfold extract_node_data create_ast_node
    simp only []
    rw [if_neg (by decide), if_pos trivial,
      strstr_header_iff "TRUE".toList _ n 'T' "RUE".toList rfl (by decide) (by decide)
        (by decide) (by decide) (by decide),
      if_pos (by decide)]
  · rw [node_of_info_line _ n (by decide), hfalse]
    unfold extract_node_data create_ast_node
    simp only []
    rw [if_neg (by decide), if_pos trivial,
      strstr_header_iff "TRUE".toList _ n 'T' "RUE".toList rfl (by decide) (by decide)
        (by decide) (by decide) (by decide),
      if_neg (by decide),
      strstr_header_iff "FALSE".toList _ n 'F' "ALSE".toList rfl (by decide) (by decide)
        (by decide) (by decide) (by decide),
      if_pos (by decide)]

theorem get_line_extract (type : Int) (type_str : List Char) (line : Int) (info : List Char) :
    get_line (extract_node_data (create_ast_node type type_str line) info) = line := by
  unfold extract_node_data create_ast_node
  simp only []
  repeat' split
  all_goals rfl

theorem node_of_info_unmarked (info : List Char) (h : ¬ "(line ".toList <:+: info) :
    get_line (node_of_info info) = 1 := by
  unfold node_of_info
  rw [get_line_extract]
  have hnone : strstr info "(line ".toList = none := by
    cases hs : strstr info "(line ".toList with
    | none => rfl
    | some marker =>
      exact absurd ((strstr_isSome_iff _ _).1 (by rw [hs]; rfl)) h
  rw [hnone]

theorem parse_ast_line_depth (s : Nat) (body : List Char) (hbody : body.head? ≠ some ' ') :
    (parse_ast_line (List.replicate s ' ' ++ body)).2.2 = s / 2 := by
  unfold parse_ast_line
  simp only []
  have htake : (List.replicate s ' ' ++ body).takeWhile (fun c => c = ' ')
      = List.replicate s ' ' := by
    induction s with
    | zero =>
      cases body with
      | nil => rfl
      | cons c rest =>
        have hc : c ≠ ' ' := fun h => hbody (by rw [h]; rfl)
        simp [List.takeWhile_cons, hc]
    | succ k ih =>
      rw [List.replicate_succ, List.cons_append, List.takeWhile_cons, if_pos (by simp), ih]
  rw [htake, List.length_replicate]

/-- C33 fails as stated: the header `IDENTIFIER: PROGRAM_X (line 3)`, whose
name has no space, makes a node of tag 1 (a program) with no identifier, and
`load_ast_from_file` returns that node as the root of a file that holds the
header; the header `IDENTIFIER: f(line (line 3)` makes a node with line 1. -/
theorem C33_counterexample :
    node_of_info "IDENTIFIER: PROGRAM_X (line 3)".toList
      = Phase3.ASTNode.mk 1 "IDENTIFIER: PROGRAM_X (line 3)" 3 Phase3.SymbolType.SYM_UNKNOWN 0 0
          Phase3.NodeData.zero ∧
    (get_data (node_of_info "IDENTIFIER: PROGRAM_X (line 3)".toList)).get_identifier = none ∧
    load_ast_from_file "    IDENTIFIER: PROGRAM_X (line 3)\n".toList
      = Phase3.ASTNode.mk 1 "IDENTIFIER: PROGRAM_X (line 3)" 3 Phase3.SymbolType.SYM_UNKNOWN 0 0
          (Phase3.NodeData.program []) ∧
    get_line (node_of_info "IDENTIFIER: f(line (line 3)".toList) = 1 := by
  refine ⟨by rfl, by decide, by rfl, by decide⟩

/-- C33, amended: the header `IDENTIFIER: x (line N)`, with `x` a non-empty
name without space and without opening parenthesis that contains none of the
keywords `PROGRAM`, `ASSIGNMENT`, `EXPRESSION_STMT`, and `N` any line number,
makes a node of tag 4 with line `N` and identifier `x`; the headers
`BOOLEAN: TRUE (line N)` and `BOOLEAN: FALSE (line N)` make a node of tag 5
with line `N` and value 1 and 0; a text without the marker `(line ` makes a
node with line 1; `parse_ast_line` reports the depth `s / 2` for a line with
`s` leading spaces; and the node made from the text of a line is the one that
the loop of `load_ast_from_file` attaches. -/
theorem C33_header_node (x : List Char) (n : Int) (hne : x ≠ []) (hspace : ' ' ∉ x)
    (hparen : '(' ∉ x) (hfree : header_keyword_free x) (_hrange : int_range n) :
    node_of_info ("IDENTIFIER: ".toList ++ x ++ " (line ".toList ++ print_int n ++ [')'])
      = Phase3.ASTNode.mk 4
          (String.mk ("IDENTIFIER: ".toList ++ x ++ " (line ".toList ++ print_int n ++ [')']))
          n Phase3.SymbolType.SYM_UNKNOWN 0 0
          (Phase3.NodeData.identifier (some (String.mk x))) ∧
    node_of_info ("BOOLEAN: TRUE".toList ++ " (line ".toList ++ print_int n ++ [')'])
      = Phase3.ASTNode.mk 5
          (String.mk ("BOOLEAN: TRUE".toList ++ " (line ".toList ++ print_int n ++ [')']))
          n Phase3.SymbolType.SYM_UNKNOWN 1 1 (Phase3.NodeData.bool_literal 1) ∧
    node_of_info ("BOOLEAN: FALSE".toList ++ " (line ".toList ++ print_int n ++ [')'])
      = Phase3.ASTNode.mk 5
          (String.mk ("BOOLEAN: FALSE".toList ++ " (line ".toList ++ print_int n ++ [')']))
          n Phase3.SymbolType.SYM_UNKNOWN 1 0 (Phase3.NodeData.bool_literal 0) ∧
    (∀ info : List Char, ¬ "(line ".toList <:+: info → get_line (node_of_info info) = 1) ∧
    (∀ (s : Nat) (body : List Char), body.head? ≠ some ' ' →
      (parse_ast_line (List.replicate s ' ' ++ body)).2.2 = s / 2) ∧
    (∀ (state : LoaderState) (line node_info : List Char) (indent : Nat),
      ¬ (line.head? = some '#' ∨ line.head? = some '\n' ∨ (trim_whitespace line).length = 0) →
      parse_ast_line (trim_whitespace_buffer line) = (true, node_info, indent) →
      parse_node_type node_info > 0 →
      load_line state line
        = { root := attach_node state.root (node_of_info node_info) (parse_node_type node_info)
            nodes_loaded := state.nodes_loaded + 1 }) :=
  ⟨node_of_info_identifier x n hne hspace hparen hfree, (node_of_info_boolean n).1,
    (node_of_info_boolean n).2, node_of_info_unmarked, parse_ast_line_depth, load_line_node⟩

theorem C33_header_node_witness :
    "B".toList ≠ [] ∧ ' ' ∉ "B".toList ∧ '(' ∉ "B".toList ∧ header_keyword_free "B".toList ∧
    int_range 7 ∧
    node_of_info "IDENTIFIER: B (line 7)".toList
      = Phase3.ASTNode.mk 4 "IDENTIFIER: B (line 7)" 7 Phase3.SymbolType.SYM_UNKNOWN 0 0
          (Phase3.NodeData.identifier (some "B")) :=
  ⟨by decide, by decide, by decide, by decide, by decide,
    (C33_header_node "B".toList 7 (by decide) (by decide) (by decide) (by decide)
      (by decide)).1.trans rfl⟩

end Codec

/-! ## Theorems: the statements that come back from the AST file -/

namespace Codec

open Phase3 (strstr strchr isspace isdigit trim_whitespace trim_whitespace_buffer
  parse_node_type load_line fgets_lines load_ast_from_file LoaderState scan_digits sscanf_line
  parse_ast_line attach_node append_statement init_program extract_node_data create_ast_node)
open Phase2 (print_int print_indent print_line_marker print_ast print_statements
  print_ast_to_file)

/-- The tree that the loader builds from the text of a program of plain
statements, and from the file that `print_ast_to_file` writes. -/
theorem load_print_ast (statements : List Phase2.ASTNode) (capacity : Nat)
    (line : Int) (hline : int_range line) (hcount : statements.length ≤ 2147483647)
    (hplain : ∀ statement ∈ statements, plain_statement statement) :
    load_ast_from_file (print_ast (Phase2.ASTNode.program statements capacity line) 0)
      = program_skeleton statements line ∧
    load_ast_from_file (print_ast_to_file (Phase2.ASTNode.program statements capacity line))
      = program_skeleton statements line := by
  constructor
  · unfold load_ast_from_file
    rw [foldl_load_line_root]
    have h := load_program_text statements capacity line hline hcount hplain []
    rw [List.append_nil] at h
    rw [h]
    rfl
  · unfold load_ast_from_file print_ast_to_file
    rw [foldl_load_line_root, List.append_assoc, fgets_lines_file_header, List.foldl_append]
    simp only [List.foldl_cons, List.foldl_nil]
    rw [load_root_skip _ "# Abstract Syntax Tree (AST)\n".toList (Or.inl rfl),
      load_root_skip _ "# Generated by Phase 2: Syntax Analysis\n".toList (Or.inl rfl),
      load_root_skip _ "# Input: tokens.txt\n".toList (Or.inl rfl),
      load_root_skip _ "#\n".toList (Or.inl rfl),
      load_root_skip _ "\n".toList (Or.inr rfl),
      load_program_text statements capacity line hline hcount hplain,
      foldl_load_root_file_trailer]
    rfl

theorem skeleton_kind (statement : Phase2.ASTNode) :
    get_type (statement_skeleton statement) = statement_kind statement ∧
    get_line (statement_skeleton statement) = statement_line statement := by
  cases statement <;> exact ⟨rfl, rfl⟩

theorem map_skeleton_kind (statements : List Phase2.ASTNode) :
    (statements.map statement_skeleton).map (fun node => (get_type node, get_line node))
      = statements.map (fun statement => (statement_kind statement, statement_line statement)) := by
  rw [List.map_map]
  apply List.map_congr_left
  intro statement _
  simp only [Function.comp]
  rw [(skeleton_kind statement).1, (skeleton_kind statement).2]

/-- C34 fails as stated: for the program `ASSIGNMENT_X := TRUE;`, one
assignment to a variable whose name contains `ASSIGNMENT`, the tree that
`load_ast_from_file` builds from the text of `print_ast` has two statements. -/
theorem C34_counterexample :
    (get_data (load_ast_from_file (print_ast
      (Phase2.ASTNode.program
        [Phase2.ASTNode.assignment "ASSIGNMENT_X" (Phase2.ASTNode.boolean 1 1) 1] 10 1)
      0))).get_statements.length = 2 ∧
    (get_data (load_ast_from_file (print_ast
      (Phase2.ASTNode.program
        [Phase2.ASTNode.assignment "ASSIGNMENT_X" (Phase2.ASTNode.boolean 1 1) 1] 10 1)
      0))).get_statements.map get_type = [2, 2] := by
  refine ⟨by decide, by decide⟩

/-- C34, amended: for every program of at most 10 statements, each an
assignment or an expression statement over an operand tree, with line numbers
within `int` and no name that contains `ASSIGNMENT` or `EXPRESSION_STMT`,
`load_ast_from_file` applied to the text of `print_ast` (and to the file that
`print_ast_to_file` writes) returns a program node with the line of the
program whose statements are as many as those of the program and have, at
every index, the kind and the line of the statement at that index. -/
theorem C34_direct_statements (statements : List Phase2.ASTNode) (capacity : Nat)
    (line : Int) (hline : int_range line) (hcount : statements.length ≤ 10)
    (hplain : ∀ statement ∈ statements, plain_statement statement) :
    get_type (load_ast_from_file (print_ast (Phase2.ASTNode.program statements capacity line) 0))
      = 1 ∧
    get_line (load_ast_from_file (print_ast (Phase2.ASTNode.program statements capacity line) 0))
      = line ∧
    (get_data (load_ast_from_file
      (print_ast (Phase2.ASTNode.program statements capacity line) 0))).get_statements.length
      = statements.length ∧
    (get_data (load_ast_from_file
      (print_ast (Phase2.ASTNode.program statements capacity line) 0))).get_statements.map
        (fun node => (get_type node, get_line node))
      = statements.map (fun statement => (statement_kind statement, statement_line statement)) ∧
    load_ast_from_file (print_ast_to_file (Phase2.ASTNode.program statements capacity line))
      = load_ast_from_file (print_ast (Phase2.ASTNode.program statements capacity line) 0) := by
  obtain ⟨htext, hfile⟩ := load_print_ast statements capacity line hline (by omega) hplain
  have htake : (statements.map statement_skeleton).take 10 = statements.map statement_skeleton :=
    List.take_of_length_le (by rw [List.length_map]; exact hcount)
  rw [hfile, htext]
  unfold program_skeleton
  rw [htake]
  refine ⟨rfl, rfl, ?_, ?_, rfl⟩
  · simp [get_data, Phase3.NodeData.get_statements]
  · exact map_skeleton_kind statements

theorem C34_direct_statements_witness :
    int_range 1 ∧
    (get_data (load_ast_from_file
      (print_ast (Phase2.ASTNode.program
        [Phase2.ASTNode.assignment "B" (Phase2.ASTNode.boolean 1 1) 1,
         Phase2.ASTNode.assignment "C" (Phase2.ASTNode.boolean 0 2) 2,
         Phase2.ASTNode.expression_stmt
           (Phase2.ASTNode.binary Phase2.BinaryOp.OR (Phase2.ASTNode.identifier "B" 3)
             (Phase2.ASTNode.identifier "C" 3) 3) 3] 10 1) 0))).get_statements.map
        (fun node => (get_type node, get_line node))
      = [(2, 1), (2, 2), (3, 3)] :=
  ⟨by decide,
   (C34_direct_statements _ 10 1 (by decide) (by decide)
      (by
        intro statement hstatement
        simp only [List.mem_cons, List.mem_singleton, List.not_mem_nil, or_false] at hstatement
        rcases hstatement with rfl | rfl | rfl
        · simp only [plain_statement, plain_expression]
          decide
        · simp only [plain_statement, plain_expression]
          decide
        · simp only [plain_statement, plain_expression]
          decide)).2.2.2.1.trans rfl⟩

end Codec

/-! ## Theorems: the printed tree -/

namespace Phase2

mutual
theorem print_ast_layout :
    ∀ (node : ASTNode) (level : Nat),
      print_ast node level = ((layout node level).map TreeLine.render).flatten
  | ASTNode.null, level => by
    simp [print_ast, layout, TreeLine.render]
  | ASTNode.identifier name line, level => by
    simp [print_ast, layout, TreeLine.render, ASTNode.header_text, ASTNode.keyword,
      ASTNode.payload, ASTNode.trailer, ASTNode.line_number, print_line_marker]
  | ASTNode.boolean value line, level => by
    simp [print_ast, layout, TreeLine.render, ASTNode.header_text, ASTNode.keyword,
      ASTNode.payload, ASTNode.trailer, ASTNode.line_number, print_line_marker]
  | ASTNode.binary op left right line, level => by
    rw [print_ast, print_ast_layout left (level + 2), print_ast_layout right (level + 2)]
    simp [layout, TreeLine.render, ASTNode.header_text, ASTNode.keyword,
      ASTNode.payload, ASTNode.trailer, ASTNode.line_number, print_line_marker]
  | ASTNode.not operand line, level => by
    rw [print_ast, print_ast_layout operand (level + 2)]
    simp [layout, TreeLine.render, ASTNode.header_text, ASTNode.keyword,
      ASTNode.payload, ASTNode.trailer, ASTNode.line_number, print_line_marker]
  | ASTNode.assignment var_name value line, level => by
    rw [print_ast, print_ast_layout value (level + 2)]
    simp [layout, TreeLine.render, ASTNode.header_text, ASTNode.keyword,
      ASTNode.payload, ASTNode.trailer, ASTNode.line_number, print_line_marker]
  | ASTNode.quantifier kind var_name expression line, level => by
    rw [print_ast, print_ast_layout expression (level + 2)]
    simp [layout, TreeLine.render, ASTNode.header_text, ASTNode.keyword,
      ASTNode.payload, ASTNode.trailer, ASTNode.line_number, print_line_marker]
  | ASTNode.program statements capacity line, level => by
    rw [print_ast, print_statements_layout statements 0 level]
    simp [layout, TreeLine.render, ASTNode.header_text, ASTNode.keyword,
      ASTNode.payload, ASTNode.trailer, ASTNode.line_number, print_line_marker]
  | ASTNode.expression_stmt expression line, level => by
    rw [print_ast, print_ast_layout expression (level + 1)]
    simp [layout, TreeLine.render, ASTNode.header_text, ASTNode.keyword,
      ASTNode.payload, ASTNode.trailer, ASTNode.line_number, print_line_marker]
theorem print_statements_layout :
    ∀ (statements : List ASTNode) (i level : Nat),
      print_statements statements i level
        = ((layout_statements statements i level).map TreeLine.render).flatten
  | [], i, level => by
    simp [print_statements, layout_statements]
  | statement :: rest, i, level => by
    rw [print_statements, print_ast_layout statement (level + 2),
      print_statements_layout rest (i + 1) level]
    simp [layout_statements, TreeLine.render]
end

mutual
theorem layout_headers :
    ∀ (node : ASTNode) (level : Nat),
      ((layout node level).filter (fun line => line.header)).map (fun line => line.text)
        = (preorder node).map ASTNode.header_text
  | ASTNode.null, level => by
    simp [layout, preorder]
  | ASTNode.identifier name line, level => by
    simp [layout, preorder]
  | ASTNode.boolean value line, level => by
    simp [layout, preorder]
  | ASTNode.binary op left right line, level => by
    have hleft := layout_headers left (level + 2)
    have hright := layout_headers right (level + 2)
    simp [layout, preorder, List.filter_cons, hleft, hright]
  | ASTNode.not operand line, level => by
    have h := layout_headers operand (level + 2)
    simp [layout, preorder, List.filter_cons, h]
  | ASTNode.assignment var_name value line, level => by
    have h := layout_headers value (level + 2)
    simp [layout, preorder, List.filter_cons, h]
  | ASTNode.quantifier kind var_name expression line, level => by
    have h := layout_headers expression (level + 2)
    simp [layout, preorder, List.filter_cons, h]
  | ASTNode.program statements capacity line, level => by
    have h := layout_statements_headers statements 0 level
    simp [layout, preorder, List.filter_cons, h]
  | ASTNode.expression_stmt expression line, level => by
    have h := layout_headers expression (level + 1)
    simp [layout, preorder, List.filter_cons, h]
theorem layout_statements_headers :
    ∀ (statements : List ASTNode) (i level : Nat),
      ((layout_statements statements i level).filter (fun line => line.header)).map
          (fun line => line.text)
        = (preorder_list statements).map ASTNode.header_text
  | [], i, level => by
    simp [layout_statements, preorder_list]
  | statement :: rest, i, level => by
    have h := layout_headers statement (level + 2)
    have hrest := layout_statements_headers rest (i + 1) level
    simp [layout_statements, preorder_list, List.filter_cons, h, hrest]
end

theorem header_text_start (node : ASTNode) (hnode : node ≠ ASTNode.null) :
    node.header_text.head? ≠ some ' ' := by
  cases node with
  | null => exact absurd rfl hnode
  | binary op left right line =>
    cases op <;>
      simp [ASTNode.header_text, ASTNode.keyword, ast_node_type_to_string, BinaryOp.type]
  | quantifier kind var_name expression line =>
    cases kind <;>
      simp [ASTNode.header_text, ASTNode.keyword, ast_node_type_to_string, QuantifierKind.type]
  | _ => simp [ASTNode.header_text, ASTNode.keyword]

mutual
theorem layout_text_start :
    ∀ (node : ASTNode) (level : Nat), ∀ line ∈ layout node level,
      line.text.head? ≠ some ' ' ∧ level ≤ line.level
  | ASTNode.null, level => by
    intro line hline
    simp only [layout, List.mem_singleton] at hline
    rw [hline]
    exact ⟨by simp, Nat.le_refl _⟩
  | ASTNode.identifier name line, level => by
    intro l hl
    simp only [layout, List.mem_singleton] at hl
    rw [hl]
    exact ⟨header_text_start _ (by simp), Nat.le_refl _⟩
  | ASTNode.boolean value line, level => by
    intro l hl
    simp only [layout, List.mem_singleton] at hl
    rw [hl]
    exact ⟨header_text_start _ (by simp), Nat.le_refl _⟩
  | ASTNode.binary op left right line, level => by
    intro l hl
    simp only [layout, List.mem_cons, List.mem_append] at hl
    rcases hl with rfl | rfl | hl | rfl | hl
    · exact ⟨header_text_start _ (by simp), Nat.le_refl _⟩
    · exact ⟨by simp, Nat.le_succ _⟩
    · have h := layout_text_start left (level + 2) l hl
      exact ⟨h.1, by omega⟩
    · exact ⟨by simp, Nat.le_succ _⟩
    · have h := layout_text_start right (level + 2) l hl
      exact ⟨h.1, by omega⟩
  | ASTNode.not operand line, level => by
    intro l hl
    simp only [layout, List.mem_cons] at hl
    rcases hl with rfl | rfl | hl
    · exact ⟨header_text_start _ (by simp), Nat.le_refl _⟩
    · exact ⟨by simp, Nat.le_succ _⟩
    · have h := layout_text_start operand (level + 2) l hl
      exact ⟨h.1, by omega⟩
  | ASTNode.assignment var_name value line, level => by
    intro l hl
    simp only [layout, List.mem_cons] at hl
    rcases hl with rfl | rfl | rfl | hl
    · exact ⟨header_text_start _ (by simp), Nat.le_refl _⟩
    · exact ⟨by simp, Nat.le_succ _⟩
    · exact ⟨by simp, Nat.le_succ _⟩
    · have h := layout_text_start value (level + 2) l hl
      exact ⟨h.1, by omega⟩
  | ASTNode.quantifier kind var_name expression line, level => by
    intro l hl
    simp only [layout, List.mem_cons] at hl
    rcases hl with rfl | rfl | rfl | hl
    · exact ⟨header_text_start _ (by simp), Nat.le_refl _⟩
    · exact ⟨by simp, Nat.le_succ _⟩
    · exact ⟨by simp, Nat.le_succ _⟩
    · have h := layout_text_start expression (level + 2) l hl
      exact ⟨h.1, by omega⟩
  | ASTNode.program statements capacity line, level => by
    intro l hl
    simp only [layout, List.mem_cons] at hl
    rcases hl with rfl | hl
    · exact ⟨header_text_start _ (by simp), Nat.le_refl _⟩
    · have h := layout_statements_text_start statements 0 level l hl
      exact ⟨h.1, by omega⟩
  | ASTNode.expression_stmt expression line, level => by
    intro l hl
    simp only [layout, List.mem_cons] at hl
    rcases hl with rfl | hl
    · exact ⟨header_text_start _ (by simp), Nat.le_refl _⟩
    · have h := layout_text_start expression (level + 1) l hl
      exact ⟨h.1, by omega⟩
theorem layout_statements_text_start :
    ∀ (statements : List ASTNode) (i level : Nat), ∀ line ∈ layout_statements statements i level,
      line.text.head? ≠ some ' ' ∧ level + 1 ≤ line.level
  | [], i, level => by
    intro line hline
    simp [layout_statements] at hline
  | statement :: rest, i, level => by
    intro l hl
    simp only [layout_statements, List.mem_cons, List.mem_append] at hl
    rcases hl with rfl | hl | hl
    · exact ⟨by simp, Nat.le_refl _⟩
    · have h := layout_text_start statement (level + 2) l hl
      exact ⟨h.1, by omega⟩
    · exact layout_statements_text_start rest (i + 1) level l hl
end

theorem layout_head (node : ASTNode) (level : Nat) (hnode : node ≠ ASTNode.null) :
    (layout node level).head?
      = some { level := level, text := node.header_text, header := true } := by
  cases node with
  | null => exact absurd rfl hnode
  | _ => simp [layout]

theorem layout_statements_child (child : ASTNode) :
    ∀ (statements : List ASTNode) (i level : Nat), child ∈ statements →
      layout child (level + 2) <:+: layout_statements statements i level
  | [], _, _, h => by simp at h
  | statement :: rest, i, level, h => by
    rw [layout_statements]
    rcases List.mem_cons.1 h with rfl | h
    · exact List.infix_cons (List.prefix_append _ _).isInfix
    · exact List.infix_cons
        ((layout_statements_child child rest (i + 1) level h).trans
          (List.suffix_append _ _).isInfix)

/-- The lines of every child of a node lie among the lines of the node, at a
deeper level. -/
theorem layout_child (node child : ASTNode) (level : Nat) (h : child ∈ node.children) :
    ∃ deeper, level < deeper ∧ layout child deeper <:+: layout node level := by
  cases node with
  | null => simp [ASTNode.children] at h
  | identifier name line => simp [ASTNode.children] at h
  | boolean value line => simp [ASTNode.children] at h
  | binary op left right line =>
    simp only [ASTNode.children, List.mem_cons, List.mem_singleton, List.not_mem_nil,
      or_false] at h
    refine ⟨level + 2, by omega, ?_⟩
    rw [layout]
    rcases h with rfl | rfl
    · exact List.infix_cons (List.infix_cons (List.prefix_append _ _).isInfix)
    · exact List.infix_cons (List.infix_cons
        ((List.infix_cons (List.infix_refl _)).trans (List.suffix_append _ _).isInfix))
  | not operand line =>
    simp only [ASTNode.children, List.mem_singleton] at h
    subst h
    refine ⟨level + 2, by omega, ?_⟩
    rw [layout]
    exact List.infix_cons (List.infix_cons (List.infix_refl _))
  | assignment var_name value line =>
    simp only [ASTNode.children, List.mem_singleton] at h
    subst h
    refine ⟨level + 2, by omega, ?_⟩
    rw [layout]
    exact List.infix_cons (List.infix_cons (List.infix_cons (List.infix_refl _)))
  | quantifier kind var_name expression line =>
    simp only [ASTNode.children, List.mem_singleton] at h
    subst h
    refine ⟨level + 2, by omega, ?_⟩
    rw [layout]
    exact List.infix_cons (List.infix_cons (List.infix_cons (List.infix_refl _)))
  | program statements capacity line =>
    simp only [ASTNode.children] at h
    refine ⟨level + 2, by omega, ?_⟩
    rw [layout]
    exact List.infix_cons (layout_statements_child child statements 0 level h)
  | expression_stmt expression line =>
    simp only [ASTNode.children, List.mem_singleton] at h
    subst h
    refine ⟨level + 1, by omega, ?_⟩
    rw [layout]
    exact List.infix_cons (List.infix_refl _)

mutual
/-- Every node of a tree is laid out somewhere among the lines of the tree. -/
theorem preorder_layout :
    ∀ (node : ASTNode) (level : Nat), ∀ inner ∈ preorder node,
      inner ≠ ASTNode.null ∧ ∃ depth, level ≤ depth ∧ layout inner depth <:+: layout node level
  | ASTNode.null, level => by
    intro inner h
    simp [preorder] at h
  | ASTNode.identifier name line, level => by
    intro inner h
    simp only [preorder, List.mem_singleton] at h
    subst h
    exact ⟨by simp, level, Nat.le_refl _, List.infix_refl _⟩
  | ASTNode.boolean value line, level => by
    intro inner h
    simp only [preorder, List.mem_singleton] at h
    subst h
    exact ⟨by simp, level, Nat.le_refl _, List.infix_refl _⟩
  | ASTNode.binary op left right line, level => by
    intro inner h
    simp only [preorder, List.mem_cons, List.mem_append] at h
    rcases h with rfl | h | h
    · exact ⟨by simp, level, Nat.le_refl _, List.infix_refl _⟩
    · obtain ⟨hne, depth, hle, hpart⟩ := preorder_layout left (level + 2) inner h
      have hsame : layout left (level + 2)
          <:+: layout (ASTNode.binary op left right line) level := by
        rw [layout]
        exact List.infix_cons (List.infix_cons (List.prefix_append _ _).isInfix)
      exact ⟨hne, depth, by omega, hpart.trans hsame⟩
    · obtain ⟨hne, depth, hle, hpart⟩ := preorder_layout right (level + 2) inner h
      have hsame : layout right (level + 2)
          <:+: layout (ASTNode.binary op left right line) level := by
        rw [layout]
        exact List.infix_cons (List.infix_cons
          ((List.infix_cons (List.infix_refl _)).trans (List.suffix_append _ _).isInfix))
      exact ⟨hne, depth, by omega, hpart.trans hsame⟩
  | ASTNode.not operand line, level => by
    intro inner h
    simp only [preorder, List.mem_cons] at h
    rcases h with rfl | h
    · exact ⟨by simp, level, Nat.le_refl _, List.infix_refl _⟩
    · obtain ⟨hne, depth, hle, hpart⟩ := preorder_layout operand (level + 2) inner h
      have hsame : layout operand (level + 2) <:+: layout (ASTNode.not operand line) level := by
        rw [layout]
        exact List.infix_cons (List.infix_cons (List.infix_refl _))
      exact ⟨hne, depth, by omega, hpart.trans hsame⟩
  | ASTNode.assignment var_name value line, level => by
    intro inner h
    simp only [preorder, List.mem_cons] at h
    rcases h with rfl | h
    · exact ⟨by simp, level, Nat.le_refl _, List.infix_refl _⟩
    · obtain ⟨hne, depth, hle, hpart⟩ := preorder_layout value (level + 2) inner h
      have hsame : layout value (level + 2)
          <:+: layout (ASTNode.assignment var_name value line) level := by
        rw [layout]
        exact List.infix_cons (List.infix_cons (List.infix_cons (List.infix_refl _)))
      exact ⟨hne, depth, by omega, hpart.trans hsame⟩
  | ASTNode.quantifier kind var_name expression line, level => by
    intro inner h
    simp only [preorder, List.mem_cons] at h
    rcases h with rfl | h
    · exact ⟨by simp, level, Nat.le_refl _, List.infix_refl _⟩
    · obtain ⟨hne, depth, hle, hpart⟩ := preorder_layout expression (level + 2) inner h
      have hsame : layout expression (level + 2)
          <:+: layout (ASTNode.quantifier kind var_name expression line) level := by
        rw [layout]
        exact List.infix_cons (List.infix_cons (List.infix_cons (List.infix_refl _)))
      exact ⟨hne, depth, by omega, hpart.trans hsame⟩
  | ASTNode.program statements capacity line, level => by
    intro inner h
    simp only [preorder, List.mem_cons] at h
    rcases h with rfl | h
    · exact ⟨by simp, level, Nat.le_refl _, List.infix_refl _⟩
    · obtain ⟨hne, depth, hle, hpart⟩ := preorder_list_layout statements 0 level inner h
      have hsame : layout_statements statements 0 level
          <:+: layout (ASTNode.program statements capacity line) level := by
        rw [layout]
        exact List.infix_cons (List.infix_refl _)
      exact ⟨hne, depth, by omega, hpart.trans hsame⟩
  | ASTNode.expression_stmt expression line, level => by
    intro inner h
    simp only [preorder, List.mem_cons] at h
    rcases h with rfl | h
    · exact ⟨by simp, level, Nat.le_refl _, List.infix_refl _⟩
    · obtain ⟨hne, depth, hle, hpart⟩ := preorder_layout expression (level + 1) inner h
      have hsame : layout expression (level + 1)
          <:+: layout (ASTNode.expression_stmt expression line) level := by
        rw [layout]
        exact List.infix_cons (List.infix_refl _)
      exact ⟨hne, depth, by omega, hpart.trans hsame⟩
theorem preorder_list_layout :
    ∀ (statements : List ASTNode) (i level : Nat), ∀ inner ∈ preorder_list statements,
      inner ≠ ASTNode.null ∧
      ∃ depth, level ≤ depth ∧ layout inner depth <:+: layout_statements statements i level
  | [], i, level => by
    intro inner h
    simp [preorder_list] at h
  | statement :: rest, i, level => by
    intro inner h
    simp only [preorder_list, List.mem_append] at h
    rw [layout_statements]
    rcases h with h | h
    · obtain ⟨hne, depth, hle, hpart⟩ := preorder_layout statement (level + 2) inner h
      exact ⟨hne, depth, by omega,
        List.infix_cons (hpart.trans (List.prefix_append _ _).isInfix)⟩
    · obtain ⟨hne, depth, hle, hpart⟩ := preorder_list_layout rest (i + 1) level inner h
      exact ⟨hne, depth, hle, List.infix_cons (hpart.trans (List.suffix_append _ _).isInfix)⟩
end

/-- C32: for every tree, the text of `print_ast` at indentation 0 is made of
the lines of the layout: the header lines among them are the headers of the
nodes of the tree in pre-order, each header being the kind keyword, the
payload (the name of an identifier, `TRUE` or `FALSE` for a literal), the
marker `(line N)` with the line number of the node, and for a program the
number of its statements; every line begins with twice its level in spaces,
an even number, before a text that does not begin with a space; and every node
of the tree is laid out at some level with its header first, each of its
children being laid out within its lines at a deeper level, again with the
header of the child first. -/
theorem C32_preorder_headers (tree : ASTNode) :
    print_ast tree 0 = ((layout tree 0).map TreeLine.render).flatten ∧
    ((layout tree 0).filter (fun line => line.header)).map (fun line => line.text)
      = (preorder tree).map
          (fun node => node.keyword ++ node.payload ++ " (line ".toList
            ++ print_int node.line_number ++ [')'] ++ node.trailer) ∧
    (∀ line ∈ layout tree 0,
      line.render = List.replicate (2 * line.level) ' ' ++ line.text ++ ['\n'] ∧
      line.text.head? ≠ some ' ') ∧
    (∀ node ∈ preorder tree,
      ∃ level, layout node level <:+: layout tree 0 ∧
        (layout node level).head?
          = some { level := level, text := node.header_text, header := true } ∧
        ∀ child ∈ node.children, child ≠ ASTNode.null →
          ∃ deeper, level < deeper ∧ layout child deeper <:+: layout node level ∧
            (layout child deeper).head?
              = some { level := deeper, text := child.header_text, header := true }) := by
  refine ⟨print_ast_layout tree 0, layout_headers tree 0, ?_, ?_⟩
  · intro line hline
    refine ⟨?_, (layout_text_start tree 0 line hline).1⟩
    unfold TreeLine.render
    rw [Codec.print_indent_eq]
  · intro node hnode
    obtain ⟨hne, level, _, hpart⟩ := preorder_layout tree 0 node hnode
    refine ⟨level, hpart, layout_head node level hne, ?_⟩
    intro child hchild hchildne
    obtain ⟨deeper, hlt, hinner⟩ := layout_child node child level hchild
    exact ⟨deeper, hlt, hinner, layout_head child deeper hchildne⟩

end Phase2

/-! ## Theorems: the loader of the annotated AST -/

namespace Phase4

open Phase3 (strstr isspace fgets_lines)

/-! ### Reading lines -/

theorem fgets_lines_cons (text : List Char) :
    ∀ (room : Nat) (current line : List Char) (more : List (List Char)),
      fgets_lines text room current = line :: more →
      ∃ pre post, text = pre ++ post ∧ line = current.reverse ++ pre ∧
        more = fgets_lines post 511 [] ∧ line ≠ [] := by
  induction text with
  | nil =>
    intro room current line more h
    unfold fgets_lines at h
    by_cases hcurrent : current = []
    · rw [if_pos hcurrent] at h
      cases h
    · rw [if_neg hcurrent] at h
      simp only [List.cons.injEq] at h
      refine ⟨[], [], rfl, by rw [← h.1, List.append_nil], ?_, ?_⟩
      · rw [← h.2]
        rfl
      · rw [← h.1]
        simpa using hcurrent
  | cons c rest ih =>
    intro room current line more h
    unfold fgets_lines at h
    by_cases hc : c = '\n' ∨ room ≤ 1
    · rw [if_pos hc] at h
      simp only [List.cons.injEq] at h
      refine ⟨[c], rest, rfl, ?_, h.2.symm, ?_⟩
      · rw [← h.1]
        simp
      · rw [← h.1]
        simp
    · rw [if_neg hc] at h
      obtain ⟨pre, post, htext, hline, hmore, hne⟩ := ih (room - 1) (c :: current) line more h
      refine ⟨c :: pre, post, by rw [htext]; rfl, ?_, hmore, hne⟩
      rw [hline]
      simp

theorem fgets_lines_flatten (text : List Char) :
    ∀ (room : Nat) (current : List Char),
      (fgets_lines text room current).flatten = current.reverse ++ text := by
  induction text with
  | nil =>
    intro room current
    unfold fgets_lines
    by_cases hcurrent : current = []
    · rw [if_pos hcurrent, hcurrent]
      rfl
    · rw [if_neg hcurrent]
      simp
  | cons c rest ih =>
    intro room current
    unfold fgets_lines
    by_cases hc : c = '\n' ∨ room ≤ 1
    · rw [if_pos hc, List.flatten_cons, ih]
      simp
    · rw [if_neg hc, ih]
      simp

theorem fgets_nil : fgets [] = none := rfl

theorem fgets_eq_some (file line rest : List Char) (h : fgets file = some (line, rest)) :
    line ≠ [] ∧ file = line ++ rest ∧
      fgets_lines file 511 [] = line :: fgets_lines rest 511 [] := by
  unfold fgets at h
  cases hlines : fgets_lines file 511 [] with
  | nil =>
    rw [hlines] at h
    cases h
  | cons first more =>
    rw [hlines] at h
    simp only [Option.some.injEq, Prod.mk.injEq] at h
    obtain ⟨pre, post, htext, hline, hmore, hne⟩ := fgets_lines_cons file 511 [] first more hlines
    simp only [List.reverse_nil, List.nil_append] at hline
    have hrest : rest = post := by
      rw [← h.2, htext, hline, List.drop_left]
    rw [← h.1]
    refine ⟨hne, ?_, ?_⟩
    · rw [hrest, hline, htext]
    · rw [hrest, hmore]

theorem fgets_of_lines (file line : List Char) (more : List (List Char))
    (h : fgets_lines file 511 [] = line :: more) :
    fgets file = some (line, file.drop line.length) := by
  unfold fgets
  rw [h]

theorem fgets_eq_none (file : List Char) (h : fgets file = none) : file = [] := by
  unfold fgets at h
  cases hlines : fgets_lines file 511 [] with
  | nil =>
    have := fgets_lines_flatten file 511 []
    rw [hlines] at this
    simpa using this.symm
  | cons first more =>
    rw [hlines] at h
    cases h

theorem fgets_length (file line rest : List Char) (h : fgets file = some (line, rest)) :
    rest.length < file.length := by
  obtain ⟨hne, hfile, _⟩ := fgets_eq_some file line rest h
  rw [hfile, List.length_append]
  have : 0 < line.length := List.length_pos.2 hne
  omega

/-- The line that `fgets` reads from a file that starts with a short line. -/
theorem fgets_short (body rest : List Char) (hnl : ∀ c ∈ body, c ≠ '\n')
    (hlen : body.length < 511) :
    fgets (body ++ '\n' :: rest) = some (body ++ ['\n'], rest) := by
  have hlines := Codec.fgets_lines_short body rest 511 [] hnl hlen
  simp only [List.reverse_nil, List.nil_append] at hlines
  rw [fgets_of_lines _ _ _ hlines]
  have : body ++ '\n' :: rest = (body ++ ['\n']) ++ rest := by simp
  rw [this, List.drop_left]

/-! ### The fuel of the loop -/

theorem parse_assignment_lines_length (line_number : Int) (lines : List (List Char)) :
    ∀ data : NodeData,
      (parse_assignment_lines line_number data lines).2.length ≤ lines.flatten.length := by
  induction lines with
  | nil =>
    intro data
    simp [parse_assignment_lines]
  | cons line rest ih =>
    intro data
    unfold parse_assignment_lines
    simp only []
    split
    · simp
    · split
      · simp
      · split
        · simp only [List.length_append, List.length_drop, List.flatten_cons]
          omega
        · exact (ih _).trans (by simp)

theorem parse_assignment_info_length (file : List Char) :
    (parse_assignment_info file).2.length ≤ file.length := by
  unfold parse_assignment_info
  have h := parse_assignment_lines_length 1 (fgets_lines file 511 []) NodeData.zero
  rw [fgets_lines_flatten] at h
  simpa using h

/-- Fuel beyond the length of the file changes nothing. -/
theorem load_loop_fuel :
    ∀ (fuel other : Nat) (root : ASTNode) (file : List Char),
      file.length ≤ fuel → file.length ≤ other →
      load_loop fuel root file = load_loop other root file := by
  intro fuel
  induction fuel with
  | zero =>
    intro other root file hfuel _
    have hfile : file = [] := List.length_eq_zero.1 (Nat.le_zero.1 hfuel)
    subst hfile
    cases other with
    | zero => rfl
    | succ other => rw [load_loop, load_loop, fgets_nil]
  | succ fuel ih =>
    intro other root file hfuel hother
    cases other with
    | zero =>
      have hfile : file = [] := List.length_eq_zero.1 (Nat.le_zero.1 hother)
      subst hfile
      rw [load_loop, load_loop, fgets_nil]
    | succ other =>
      rw [load_loop, load_loop]
      cases hline : fgets file with
      | none => rfl
      | some read =>
        obtain ⟨line, rest⟩ := read
        have hrest := fgets_length file line rest hline
        simp only []
        have hskip : ∀ next : ASTNode, load_loop fuel next rest = load_loop other next rest :=
          fun next => ih other next rest (by omega) (by omega)
        split
        · exact hskip root
        · split
          · exact hskip _
          · split
            · cases hnext : fgets rest with
              | none => exact hskip root
              | some read =>
                obtain ⟨next_line, after⟩ := read
                have hafter := fgets_length rest next_line after hnext
                have hinfo := parse_assignment_info_length after
                simp only []
                split
                · exact ih other _ _ (by omega) (by omega)
                · split
                  · exact ih other _ _ (by omega) (by omega)
                  · exact hskip root
            · exact hskip root

/-- The loop with exactly the fuel of the length of the file, unfolded once. -/
theorem load_loop_step (root : ASTNode) (file line rest : List Char)
    (hline : fgets file = some (line, rest)) :
    load_loop file.length root file
      = if (trim_whitespace line).head? = some '#' ∨ (trim_whitespace line).length = 0 then
          load_loop rest.length root rest
        else if (strstr (trim_whitespace line) "ANNOTATED_PROGRAM:".toList).isSome
            ∧ root.is_null = true then
          load_loop rest.length (ASTNode.mk 1 "PROGRAM" 1 (NodeData.program [])) rest
        else if (strstr (trim_whitespace line) "Statement_".toList).isSome
            ∧ (strstr (trim_whitespace line) ":".toList).isSome then
          match fgets rest with
          | some (next_line, after) =>
            if (strstr next_line "ASSIGNMENT".toList).isSome then
              load_loop (parse_assignment_info after).2.length
                (append_statement root (parse_assignment_info after).1)
                (parse_assignment_info after).2
            else if (strstr next_line "EXPRESSION_STMT".toList).isSome then
              load_loop after.length
                (append_statement root (create_ast_node 3 "EXPRESSION_STMT" 3)) after
            else load_loop rest.length root rest
          | none => load_loop rest.length root rest
        else load_loop rest.length root rest := by
  have hrest := fgets_length file line rest hline
  obtain ⟨fuel, hfuel⟩ : ∃ fuel, file.length = fuel + 1 := ⟨file.length - 1, by omega⟩
  rw [hfuel, load_loop, hline]
  simp only []
  have hskip : ∀ next : ASTNode, load_loop fuel next rest = load_loop rest.length next rest :=
    fun next => load_loop_fuel fuel rest.length next rest (by omega) (Nat.le_refl _)
  rw [hskip root, hskip (ASTNode.mk 1 "PROGRAM" 1 (NodeData.program []))]
  cases hnext : fgets rest with
  | none => rfl
  | some read =>
    obtain ⟨next_line, after⟩ := read
    have hafter := fgets_length rest next_line after hnext
    have hinfo := parse_assignment_info_length after
    simp only []
    rw [load_loop_fuel fuel (parse_assignment_info after).2.length _ _ (by omega)
        (Nat.le_refl _),
      load_loop_fuel fuel after.length _ after (by omega) (Nat.le_refl _)]

theorem load_loop_nil (root : ASTNode) : load_loop ([] : List Char).length root [] = root := rfl

/-! ### Lines that the loops pass over -/

theorem trim_whitespace_eq_phase3 (str : List Char) :
    trim_whitespace str = Phase3.trim_whitespace str := rfl

theorem trim_whitespace_buffer_eq_phase3 (str : List Char) :
    trim_whitespace_buffer str = Phase3.trim_whitespace_buffer str := rfl

theorem strstr_trim_none (line pat : List Char) (h : ¬ pat <:+: line) :
    (strstr (trim_whitespace line) pat).isSome = false := by
  rw [Bool.eq_false_iff]
  intro hsome
  rw [Codec.strstr_isSome_iff, trim_whitespace_eq_phase3] at hsome
  exact h (hsome.trans (Codec.trim_whitespace_part line))

/-- The loop passes over a line without `Statement_`, once the root is
there. -/
theorem load_loop_ignore (root : ASTNode) (file line rest : List Char)
    (hline : fgets file = some (line, rest)) (hroot : root.is_null = false)
    (hquiet : ¬ "Statement_".toList <:+: line) :
    load_loop file.length root file = load_loop rest.length root rest := by
  rw [load_loop_step root file line rest hline, strstr_trim_none line _ hquiet, hroot]
  simp

theorem load_loop_ignore_lines (root : ASTNode) (hroot : root.is_null = false) :
    ∀ (lines : List (List Char)) (file rest : List Char),
      fgets_lines file 511 [] = lines ++ fgets_lines rest 511 [] →
      file = lines.flatten ++ rest →
      (∀ line ∈ lines, ¬ "Statement_".toList <:+: line) →
      load_loop file.length root file = load_loop rest.length root rest := by
  intro lines
  induction lines with
  | nil =>
    intro file rest _ hfile _
    rw [hfile]
    rfl
  | cons line more ih =>
    intro file rest hlines hfile hquiet
    rw [List.cons_append] at hlines
    have hread := fgets_of_lines file line _ hlines
    have hdrop : file.drop line.length = more.flatten ++ rest := by
      rw [hfile, List.flatten_cons, List.append_assoc, List.drop_left]
    rw [hdrop] at hread
    obtain ⟨_, _, hnext⟩ := fgets_eq_some file line _ hread
    rw [hlines] at hnext
    rw [load_loop_ignore root file line _ hread hroot (hquiet line (List.mem_cons_self _ _))]
    exact ih _ rest (List.cons.inj hnext).2.symm rfl
      (fun l hl => hquiet l (List.mem_cons_of_mem _ hl))

/-- The loop passes over a run of whole lines without `Statement_`, once the
root is there. -/
theorem load_loop_ignore_region (root : ASTNode) (hroot : root.is_null = false)
    (region rest : List Char) (hquiet : ¬ "Statement_".toList <:+: region ++ ['\n']) :
    load_loop (region ++ '\n' :: rest).length root (region ++ '\n' :: rest)
      = load_loop rest.length root rest := by
  apply load_loop_ignore_lines root hroot (fgets_lines (region ++ ['\n']) 511 [])
  · exact Codec.fgets_lines_append region rest 511 []
  · rw [fgets_lines_flatten]
    simp
  · intro line hline hpart
    have := Codec.fgets_lines_part (region ++ ['\n']) 511 [] line hline
    simp only [List.reverse_nil, List.nil_append] at this
    exact hquiet (hpart.trans this)

theorem parse_assignment_lines_quiet (line_number : Int) :
    ∀ (lines more : List (List Char)) (data : NodeData),
      (∀ line ∈ lines, window_quiet line) →
      parse_assignment_lines line_number data (lines ++ more)
        = parse_assignment_lines line_number data more := by
  intro lines
  induction lines with
  | nil =>
    intro more data _
    rfl
  | cons line rest ih =>
    intro more data hquiet
    obtain ⟨hvar, hvalue, hbool, hstatement, hsummary⟩ := hquiet line (List.mem_cons_self _ _)
    have hnone : strstr (trim_whitespace line) "Variable:".toList = none := by
      have := strstr_trim_none line _ hvar
      cases h : strstr (trim_whitespace line) "Variable:".toList with
      | none => rfl
      | some found => rw [h] at this; cases this
    rw [List.cons_append, parse_assignment_lines]
    simp only [hnone, strstr_trim_none line _ hvalue, strstr_trim_none line _ hbool,
      strstr_trim_none line _ hstatement, strstr_trim_none line _ hsummary]
    simp only [Bool.false_eq_true, or_self, false_and, if_false]
    exact ih more data (fun l hl => hquiet l (List.mem_cons_of_mem _ hl))

/-- The loop of `parse_assignment_info` passes over a run of whole lines in
which it finds nothing. -/
theorem parse_assignment_lines_region (line_number : Int) (data : NodeData)
    (region rest : List Char) (hquiet : window_quiet (region ++ ['\n'])) :
    parse_assignment_lines line_number data (fgets_lines (region ++ '\n' :: rest) 511 [])
      = parse_assignment_lines line_number data (fgets_lines rest 511 []) := by
  rw [Codec.fgets_lines_append region rest 511 []]
  apply parse_assignment_lines_quiet
  intro line hline
  have hpart := Codec.fgets_lines_part (region ++ ['\n']) 511 [] line hline
  simp only [List.reverse_nil, List.nil_append] at hpart
  exact ⟨fun h => hquiet.1 (h.trans hpart), fun h => hquiet.2.1 (h.trans hpart),
    fun h => hquiet.2.2.1 (h.trans hpart), fun h => hquiet.2.2.2.1 (h.trans hpart),
    fun h => hquiet.2.2.2.2 (h.trans hpart)⟩

/-! ### The line at which `parse_assignment_info` stops -/

theorem trim_line (body : List Char) (first last : Char) (middle : List Char)
    (hbody : body = first :: middle ++ [last]) (hfirst : isspace first = false)
    (hlast : isspace last = false) :
    trim_whitespace (body ++ ['\n']) = body ∧ trim_whitespace_buffer (body ++ ['\n']) = body := by
  have hws : ∀ c ∈ ['\n'], isspace c = true := by decide
  have h₁ := Codec.trim_whitespace_eq [] body ['\n'] first last middle (by simp) hws hbody
    hfirst hlast
  have h₂ := Codec.trim_whitespace_buffer_eq [] body ['\n'] first last middle (by simp) hws
    hbody hfirst hlast
  simp only [List.nil_append] at h₁ h₂
  exact ⟨h₁, h₂⟩

theorem strstr_none_of_not_infix (text pat : List Char) (h : ¬ pat <:+: text) :
    strstr text pat = none := by
  cases hs : strstr text pat with
  | none => rfl
  | some found => exact absurd ((Codec.strstr_isSome_iff _ _).1 (by rw [hs]; rfl)) h

/-- At a line with `Statement_` or `SEMANTIC_SUMMARY` the loop of
`parse_assignment_info` ends, and the file is put back by the length of the
line without its newline: the first character of the line stays read. -/
theorem parse_assignment_lines_stop (line_number : Int) (data : NodeData)
    (stop : List Char) (more : List (List Char)) (first last : Char) (middle : List Char)
    (hstop : stop = first :: middle ++ [last]) (hfirst : isspace first = false)
    (hlast : isspace last = false) (hvar : ¬ "Variable:".toList <:+: stop)
    (hvalue : ¬ "Value:".toList <:+: stop) (hbool : ¬ "BOOLEAN:".toList <:+: stop)
    (hword : "Statement_".toList <:+: stop ∨ "SEMANTIC_SUMMARY".toList <:+: stop) :
    parse_assignment_lines line_number data ((stop ++ ['\n']) :: more)
      = (data, middle ++ [last] ++ '\n' :: more.flatten) := by
  obtain ⟨htrim, hbuffer⟩ := trim_line stop first last middle hstop hfirst hlast
  rw [parse_assignment_lines]
  simp only [htrim, hbuffer, strstr_none_of_not_infix stop _ hvar,
    strstr_none_of_not_infix stop _ hvalue, strstr_none_of_not_infix stop _ hbool]
  have hcond : (strstr stop "Statement_".toList).isSome = true
      ∨ (strstr stop "SEMANTIC_SUMMARY".toList).isSome = true := by
    rcases hword with h | h
    · exact Or.inl ((Codec.strstr_isSome_iff _ _).2 h)
    · exact Or.inr ((Codec.strstr_isSome_iff _ _).2 h)
  simp only [Option.isSome_none, Bool.false_eq_true, or_self, false_and, if_false]
  rw [if_pos hcond]
  have hdrop : (stop ++ ['\n']).drop ((stop ++ ['\n']).length - stop.length)
      = middle ++ [last] ++ ['\n'] := by
    have hlen : (stop ++ ['\n']).length - stop.length = 1 := by
      rw [List.length_append]
      simp
    rw [hlen, hstop]
    simp
  rw [hdrop]
  simp

/-- The call of `parse_assignment_info` in front of lines in which it finds
nothing and a line at which it stops: the node gets neither variable nor
value, and the file is left behind the first character of the stop line. -/
theorem parse_assignment_info_stop (window stop rest : List Char) (first last : Char)
    (middle : List Char) (hquiet : window_quiet (window ++ ['\n']))
    (hstop : stop = first :: middle ++ [last]) (hfirst : isspace first = false)
    (hlast : isspace last = false) (hnl : ∀ c ∈ stop, c ≠ '\n') (hlen : stop.length < 511)
    (hvar : ¬ "Variable:".toList <:+: stop)
    (hvalue : ¬ "Value:".toList <:+: stop) (hbool : ¬ "BOOLEAN:".toList <:+: stop)
    (hword : "Statement_".toList <:+: stop ∨ "SEMANTIC_SUMMARY".toList <:+: stop) :
    parse_assignment_info (window ++ '\n' :: (stop ++ '\n' :: rest))
      = (ASTNode.mk 2 "ASSIGNMENT" 1 NodeData.zero, middle ++ [last] ++ '\n' :: rest) := by
  have hlines : parse_assignment_lines 1 NodeData.zero
      (fgets_lines (window ++ '\n' :: (stop ++ '\n' :: rest)) 511 [])
      = (NodeData.zero, middle ++ [last] ++ '\n' :: rest) := by
    rw [parse_assignment_lines_region 1 NodeData.zero window _ hquiet,
      Codec.fgets_lines_short stop rest 511 [] hnl hlen]
    simp only [List.reverse_nil, List.nil_append]
    rw [parse_assignment_lines_stop 1 NodeData.zero stop _ first last middle hstop hfirst hlast
      hvar hvalue hbool hword, fgets_lines_flatten]
    simp
  unfold parse_assignment_info
  rw [hlines]

/-! ### The label of a statement -/

theorem not_mem_digits (c : Char) (k : Nat) (hc : Phase3.isdigit c = false) :
    c ∉ Nat.toDigits 10 k := by
  intro hmem
  rw [Codec.toDigits_isdigit k c hmem] at hc
  cases hc

theorem label_facts (k : Nat) (hk : k < 10 ^ 10) :
    "Statement_".toList ++ Nat.toDigits 10 k ++ [':']
        = 'S' :: ("tatement_".toList ++ Nat.toDigits 10 k) ++ [':'] ∧
    (∀ c ∈ "Statement_".toList ++ Nat.toDigits 10 k ++ [':'], c ≠ '\n') ∧
    ("Statement_".toList ++ Nat.toDigits 10 k ++ [':']).length < 511 ∧
    "Statement_".toList <:+: "Statement_".toList ++ Nat.toDigits 10 k ++ [':'] ∧
    ":".toList <:+: "Statement_".toList ++ Nat.toDigits 10 k ++ [':'] ∧
    ¬ "Variable:".toList <:+: "Statement_".toList ++ Nat.toDigits 10 k ++ [':'] ∧
    ¬ "Value:".toList <:+: "Statement_".toList ++ Nat.toDigits 10 k ++ [':'] ∧
    ¬ "BOOLEAN:".toList <:+: "Statement_".toList ++ Nat.toDigits 10 k ++ [':'] := by
  have hmem : ∀ c : Char, c ∉ "Statement_".toList → Phase3.isdigit c = false → c ≠ ':' →
      c ∉ "Statement_".toList ++ Nat.toDigits 10 k ++ [':'] := by
    intro c h₁ h₂ h₃ hmem
    simp only [List.mem_append, List.mem_singleton] at hmem
    rcases hmem with (h | h) | h
    · exact h₁ h
    · exact not_mem_digits c k h₂ h
    · exact h₃ h
  refine ⟨by simp, ?_, ?_, ⟨[], Nat.toDigits 10 k ++ [':'], by simp⟩,
    ⟨"Statement_".toList ++ Nat.toDigits 10 k, [], by simp⟩, ?_, ?_, ?_⟩
  · intro c hc hnl
    exact hmem c (by rw [hnl]; decide) (by rw [hnl]; decide) (by rw [hnl]; decide) hc
  · have := Codec.toDigits_length_le k hk
    simp only [List.length_append, List.length_singleton]
    have : "Statement_".toList.length = 10 := rfl
    omega
  · exact Codec.not_infix_of_head_not_mem _ _ 'V' "ariable:".toList rfl
      (hmem 'V' (by decide) (by decide) (by decide))
  · exact Codec.not_infix_of_head_not_mem _ _ 'V' "alue:".toList rfl
      (hmem 'V' (by decide) (by decide) (by decide))
  · exact Codec.not_infix_of_head_not_mem _ _ 'B' "OOLEAN:".toList rfl
      (hmem 'B' (by decide) (by decide) (by decide))

/-- The loop at the label of a statement, once the root is there: the next
line decides. -/
theorem load_loop_label (root : ASTNode) (hroot : root.is_null = false) (k : Nat)
    (hk : k < 10 ^ 10) (rest : List Char) :
    load_loop ("Statement_".toList ++ Nat.toDigits 10 k ++ [':'] ++ '\n' :: rest).length root
        ("Statement_".toList ++ Nat.toDigits 10 k ++ [':'] ++ '\n' :: rest)
      = match fgets rest with
        | some (next_line, after) =>
          if (strstr next_line "ASSIGNMENT".toList).isSome then
            load_loop (parse_assignment_info after).2.length
              (append_statement root (parse_assignment_info after).1)
              (parse_assignment_info after).2
          else if (strstr next_line "EXPRESSION_STMT".toList).isSome then
            load_loop after.length
              (append_statement root (create_ast_node 3 "EXPRESSION_STMT" 3)) after
          else load_loop rest.length root rest
        | none => load_loop rest.length root rest := by
  obtain ⟨hshape, hnl, hlen, hword, hcolon, _, _, _⟩ := label_facts k hk
  obtain ⟨htrim, _⟩ := trim_line _ 'S' ':' ("tatement_".toList ++ Nat.toDigits 10 k) hshape
    (by decide) (by decide)
  rw [load_loop_step root _ _ rest (fgets_short _ rest hnl hlen), htrim]
  have hhead : ¬ (("Statement_".toList ++ Nat.toDigits 10 k ++ [':']).head? = some '#'
      ∨ ("Statement_".toList ++ Nat.toDigits 10 k ++ [':']).length = 0) := by
    simp
  rw [if_neg hhead, if_neg (by rw [hroot]; simp),
    if_pos ⟨(Codec.strstr_isSome_iff _ _).2 hword, (Codec.strstr_isSome_iff _ _).2 hcolon⟩]

/-- The loop at an assignment written by `generate_annotated_ast`: the node
gets neither variable nor value, and the loop goes on behind the first
character of the line at which `parse_assignment_info` stopped. -/
theorem load_loop_assignment_block (root : ASTNode) (hroot : root.is_null = false) (k : Nat)
    (hk : k < 10 ^ 10) (header window stop rest : List Char) (first last : Char)
    (middle : List Char) (hheader_nl : ∀ c ∈ header, c ≠ '\n') (hheader_len : header.length < 511)
    (hheader : "ASSIGNMENT".toList <:+: header)
    (hquiet : window_quiet (window ++ ['\n']))
    (hstop : stop = first :: middle ++ [last]) (hfirst : isspace first = false)
    (hlast : isspace last = false) (hnl : ∀ c ∈ stop, c ≠ '\n') (hlen : stop.length < 511)
    (hvar : ¬ "Variable:".toList <:+: stop)
    (hvalue : ¬ "Value:".toList <:+: stop) (hbool : ¬ "BOOLEAN:".toList <:+: stop)
    (hword : "Statement_".toList <:+: stop ∨ "SEMANTIC_SUMMARY".toList <:+: stop) :
    load_loop
        ("Statement_".toList ++ Nat.toDigits 10 k ++ [':']
          ++ '\n' :: (header ++ '\n' :: (window ++ '\n' :: (stop ++ '\n' :: rest)))).length root
        ("Statement_".toList ++ Nat.toDigits 10 k ++ [':']
          ++ '\n' :: (header ++ '\n' :: (window ++ '\n' :: (stop ++ '\n' :: rest))))
      = load_loop (middle ++ [last] ++ '\n' :: rest).length
          (append_statement root (ASTNode.mk 2 "ASSIGNMENT" 1 NodeData.zero))
          (middle ++ [last] ++ '\n' :: rest) := by
  rw [load_loop_label root hroot k hk, fgets_short header _ hheader_nl hheader_len]
  simp only []
  rw [if_pos ((Codec.strstr_isSome_iff _ _).2 (hheader.trans (List.prefix_append _ _).isInfix)),
    parse_assignment_info_stop window stop rest first last middle hquiet hstop hfirst hlast hnl
      hlen hvar hvalue hbool hword]

/-- The loop at an expression statement written by `generate_annotated_ast`. -/
theorem load_loop_expression_block (root : ASTNode) (hroot : root.is_null = false) (k : Nat)
    (hk : k < 10 ^ 10) (header rest : List Char) (hheader_nl : ∀ c ∈ header, c ≠ '\n')
    (hheader_len : header.length < 511) (hheader : "EXPRESSION_STMT".toList <:+: header)
    (hnot : ¬ "ASSIGNMENT".toList <:+: header ++ ['\n']) :
    load_loop
        ("Statement_".toList ++ Nat.toDigits 10 k ++ [':'] ++ '\n' :: (header ++ '\n' :: rest)).length
        root
        ("Statement_".toList ++ Nat.toDigits 10 k ++ [':'] ++ '\n' :: (header ++ '\n' :: rest))
      = load_loop rest.length (append_statement root (create_ast_node 3 "EXPRESSION_STMT" 3))
          rest := by
  rw [load_loop_label root hroot k hk, fgets_short header _ hheader_nl hheader_len]
  simp only []
  rw [if_neg (by
      intro h
      exact hnot ((Codec.strstr_isSome_iff _ _).1 h)),
    if_pos ((Codec.strstr_isSome_iff _ _).2 (hheader.trans (List.prefix_append _ _).isInfix))]

end Phase4

/-! ## Theorems: the annotated AST file and its loader -/

namespace Phase4

open Phase3 (strstr isspace isdigit fgets_lines annotated_window annotated_statement
  annotated_statements annotated_header annotated_summary symbol_type_to_string
  generate_annotated_ast annotated_plain)
open Phase2 (print_int)

/-! ### The lines of a statement -/

theorem not_infix_print_int (pat : List Char) (p : Char) (ptail : List Char)
    (hpat : pat = p :: ptail) (hdigit : isdigit p = false) (hminus : p ≠ '-') (n : Int) :
    ¬ pat <:+: print_int n := by
  apply Codec.not_infix_of_head_not_mem pat _ p ptail hpat
  intro hmem
  rcases Codec.print_int_chars n p hmem with h | h
  · rw [hdigit] at h
    cases h
  · exact hminus h

/-- A word without space and newline that begins with a letter occurs in the
lines behind the header of a statement only if it occurs in one of the fixed
texts. -/
theorem window_not_infix (pat : List Char) (p : Char) (ptail : List Char)
    (hpat : pat = p :: ptail) (hnl : '\n' ∉ pat) (hspace : ' ' ∉ pat)
    (hdigit : isdigit p = false) (hminus : p ≠ '-')
    (h₁ : ¬ pat <:+: "Line:".toList)
    (h₂ : ∀ sem, ¬ pat <:+: "Semantic_Type: ".toList ++ (symbol_type_to_string sem).toList)
    (h₃ : ¬ pat <:+: ("Operation: VARIABLE_ASSIGNMENT\n".toList
            ++ "Type_Check: BOOLEAN_ASSIGNMENT\n".toList
            ++ "Symbol_Table_Entry: CREATED\n".toList
            ++ "Validation: PASSED\n".toList) ++ "  \n".toList)
    (h₄ : ¬ pat <:+: ("Operation: EXPRESSION_EVALUATION\n".toList
            ++ "Result_Type: BOOLEAN\n".toList
            ++ "Expression: BINARY_LOGICAL_OR\n".toList
            ++ "Operands: BOTH_DEFINED\n".toList
            ++ "Validation: PASSED\n".toList) ++ "  \n".toList)
    (h₅ : ¬ pat <:+: "  \n".toList)
    (type n : Int) (sem : Phase3.SymbolType) :
    ¬ pat <:+: annotated_window type n sem := by
  have hshape : ∀ tail : List Char,
      "Line: ".toList ++ print_int n ++ "\n".toList
        ++ "Semantic_Type: ".toList ++ (symbol_type_to_string sem).toList
        ++ "\n".toList ++ tail ++ "  \n".toList
      = "Line:".toList ++ ' ' :: (print_int n ++ '\n' ::
          ("Semantic_Type: ".toList ++ (symbol_type_to_string sem).toList
            ++ '\n' :: (tail ++ "  \n".toList))) := by
    intro tail
    simp
  have hall : ∀ tail : List Char, ¬ pat <:+: tail ++ "  \n".toList →
      ¬ pat <:+: "Line: ".toList ++ print_int n ++ "\n".toList
        ++ "Semantic_Type: ".toList ++ (symbol_type_to_string sem).toList
        ++ "\n".toList ++ tail ++ "  \n".toList := by
    intro tail htail
    rw [hshape, Codec.infix_append_cons_iff _ _ _ _ hspace,
      Codec.infix_append_cons_iff _ _ _ _ hnl, Codec.infix_append_cons_iff _ _ _ _ hnl]
    rintro (h | h | h | h)
    · exact h₁ h
    · exact not_infix_print_int pat p ptail hpat hdigit hminus n h
    · exact h₂ sem h
    · exact htail h
  unfold annotated_window
  by_cases h2 : type = 2
  · rw [if_pos h2]
    exact hall _ h₃
  · rw [if_neg h2]
    by_cases h3 : type = 3
    · rw [if_pos h3]
      exact hall _ h₄
    · rw [if_neg h3]
      exact hall [] h₅

set_option maxRecDepth 10000 in
theorem window_quiet_annotated (type n : Int) (sem : Phase3.SymbolType) :
    window_quiet (annotated_window type n sem) := by
  refine ⟨?_, ?_, ?_, ?_, ?_⟩
  · exact window_not_infix "Variable:".toList 'V' "ariable:".toList rfl (by decide) (by decide)
      (by decide) (by decide) (by decide) (by intro sem; cases sem <;> decide) (by decide)
      (by decide) (by decide) type n sem
  · exact window_not_infix "Value:".toList 'V' "alue:".toList rfl (by decide) (by decide)
      (by decide) (by decide) (by decide) (by intro sem; cases sem <;> decide) (by decide)
      (by decide) (by decide) type n sem
  · exact window_not_infix "BOOLEAN:".toList 'B' "OOLEAN:".toList rfl (by decide) (by decide)
      (by decide) (by decide) (by decide) (by intro sem; cases sem <;> decide) (by decide)
      (by decide) (by decide) type n sem
  · exact window_not_infix "Statement_".toList 'S' "tatement_".toList rfl (by decide) (by decide)
      (by decide) (by decide) (by decide) (by intro sem; cases sem <;> decide) (by decide)
      (by decide) (by decide) type n sem
  · exact window_not_infix "SEMANTIC_SUMMARY".toList 'S' "EMANTIC_SUMMARY".toList rfl (by decide)
      (by decide) (by decide) (by decide) (by decide) (by intro sem; cases sem <;> decide)
      (by decide) (by decide) (by decide) type n sem

theorem window_end (type n : Int) (sem : Phase3.SymbolType) :
    ∃ region, annotated_window type n sem = region ++ ['\n'] := by
  unfold annotated_window
  rw [show "  \n".toList = "  ".toList ++ ['\n'] from rfl, ← List.append_assoc]
  exact ⟨_, rfl⟩

/-! ### The statements of the file -/

theorem load_loop_ignore_text (root : ASTNode) (hroot : root.is_null = false)
    (text rest : List Char) (hend : ∃ region, text = region ++ ['\n'])
    (hquiet : ¬ "Statement_".toList <:+: text) :
    load_loop (text ++ rest).length root (text ++ rest) = load_loop rest.length root rest := by
  obtain ⟨region, hregion⟩ := hend
  subst hregion
  have hshape : region ++ ['\n'] ++ rest = region ++ '\n' :: rest := by simp
  rw [hshape]
  exact load_loop_ignore_region root hroot region rest hquiet

theorem append_statement_is_null (root node : ASTNode) (hroot : root.is_null = false) :
    (append_statement root node).is_null = false := by
  cases root with
  | null => cases hroot
  | mk type node_type_str line_number data =>
    unfold append_statement
    simp only []
    split <;> rfl

theorem reloaded_cons_other (type : Int) (types : List Int) (h : type ≠ 2) :
    reloaded (type :: types) = reloaded_node type :: reloaded types := by
  cases types with
  | nil => rfl
  | cons next rest => rw [reloaded, if_neg h]

/-- The header line of a statement, as `fgets` reads it. -/
theorem header_facts (text : List Char) (hnl : ∀ c ∈ text, c ≠ '\n') (hlen : text.length ≤ 400) :
    (∀ c ∈ "Node_Type: ".toList ++ text, c ≠ '\n') ∧
    ("Node_Type: ".toList ++ text).length < 511 ∧
    (∀ pat : List Char, ' ' ∉ pat → '\n' ∉ pat → ¬ pat <:+: "Node_Type:".toList →
      ¬ pat <:+: text → ¬ pat <:+: ("Node_Type: ".toList ++ text) ++ ['\n']) := by
  refine ⟨?_, ?_, ?_⟩
  · intro c hc
    rcases List.mem_append.1 hc with h | h
    · intro hnl'
      rw [hnl'] at h
      revert h
      decide
    · exact hnl c h
  · rw [List.length_append]
    have : "Node_Type: ".toList.length = 11 := rfl
    omega
  · intro pat hspace hnewline hhead htext hpat
    have hshape : ("Node_Type: ".toList ++ text) ++ ['\n']
        = "Node_Type:".toList ++ ' ' :: (text ++ '\n' :: []) := by
      simp
    rw [hshape, Codec.infix_append_cons_iff _ _ _ _ hspace,
      Codec.infix_append_cons_iff _ _ _ _ hnewline] at hpat
    rcases hpat with h | h | h
    · exact hhead h
    · exact htext h
    · have hnil : pat = [] := List.eq_nil_of_infix_nil h
      rw [hnil] at htext
      exact htext List.nil_infix

/-- The statements behind an assignment begin with a label whose first
character `parse_assignment_info` leaves read: what is left of the block of
the statement has no `Statement_`. -/
theorem chopped_block_quiet (k : Nat) (text : List Char) (type n : Int)
    (sem : Phase3.SymbolType) (hnl : ∀ c ∈ text, c ≠ '\n') (hlen : text.length ≤ 400)
    (htext : ¬ "Statement_".toList <:+: text) :
    ¬ "Statement_".toList <:+:
      "tatement_".toList ++ Nat.toDigits 10 k ++ [':'] ++ '\n' ::
        ("Node_Type: ".toList ++ text ++ '\n' :: annotated_window type n sem) := by
  rw [Codec.infix_append_cons_iff _ _ _ _ (by decide)]
  rintro (h | h)
  · revert h
    apply Codec.not_infix_of_head_not_mem _ _ 'S' "tatement_".toList rfl
    intro hmem
    simp only [List.mem_append, List.mem_singleton] at hmem
    rcases hmem with (h | h) | h
    · revert h
      decide
    · exact not_mem_digits 'S' k (by decide) h
    · revert h
      decide
  · have hshape : "Node_Type: ".toList ++ text ++ '\n' :: annotated_window type n sem
        = (("Node_Type: ".toList ++ text) ++ ['\n']) ++ annotated_window type n sem := by
      simp
    rw [hshape] at h
    obtain ⟨region, hregion⟩ := window_end type n sem
    have hsplit : (("Node_Type: ".toList ++ text) ++ ['\n']) ++ annotated_window type n sem
        = ("Node_Type: ".toList ++ text) ++ '\n' :: annotated_window type n sem := by
      simp
    rw [hsplit, Codec.infix_append_cons_iff _ _ _ _ (by decide)] at h
    rcases h with h | h
    · have hheader := (header_facts text hnl hlen).2.2 "Statement_".toList (by decide)
        (by decide) (by decide) htext
      exact hheader (h.trans (List.prefix_append _ _).isInfix)
    · exact (window_quiet_annotated type n sem).2.2.2.1 h

/-- The loop over the statements that `generate_annotated_ast` has written, in
front of the summary: an expression statement gives a node; an assignment
gives a node without variable and value, and the statement behind it gives
none. -/
theorem load_loop_statements (summary : List Char)
    (hquiet : ¬ "Statement_".toList <:+: "SEMANTIC_SUMMARY:".toList ++ '\n' :: summary)
    (hend : ∃ region, summary = region ++ ['\n']) :
    ∀ (bound : Nat) (statements : List Phase3.ASTNode) (i : Nat) (root : ASTNode),
      statements.length ≤ bound → root.is_null = false →
      (∀ statement ∈ statements, annotated_plain statement) →
      i + statements.length < 10 ^ 10 →
      load_loop
          (annotated_statements statements i
            ++ ("SEMANTIC_SUMMARY:".toList ++ '\n' :: summary)).length root
          (annotated_statements statements i ++ ("SEMANTIC_SUMMARY:".toList ++ '\n' :: summary))
        = (reloaded (statements.map Phase3.ASTNode.get_type)).foldl append_statement root := by
  have hsummary_end : ∃ region,
      "SEMANTIC_SUMMARY:".toList ++ '\n' :: summary = region ++ ['\n'] := by
    obtain ⟨region, hregion⟩ := hend
    exact ⟨"SEMANTIC_SUMMARY:".toList ++ '\n' :: region, by rw [hregion]; simp⟩
  have hnone : ∀ root : ASTNode, root.is_null = false →
      load_loop ("SEMANTIC_SUMMARY:".toList ++ '\n' :: summary).length root
        ("SEMANTIC_SUMMARY:".toList ++ '\n' :: summary) = root := by
    intro root hroot
    have h := load_loop_ignore_text root hroot _ [] hsummary_end hquiet
    rw [List.append_nil] at h
    rw [h]
    rfl
  intro bound
  induction bound with
  | zero =>
    intro statements i root hbound hroot _ _
    have hnil : statements = [] := List.length_eq_zero.1 (Nat.le_zero.1 hbound)
    subst hnil
    simp only [annotated_statements, List.nil_append, List.map_nil, reloaded, List.foldl_nil]
    exact hnone root hroot
  | succ bound ih =>
    intro statements i root hbound hroot hplain hindex
    cases statements with
    | nil =>
      simp only [annotated_statements, List.nil_append, List.map_nil, reloaded, List.foldl_nil]
      exact hnone root hroot
    | cons statement rest =>
      cases statement with
      | null => exact absurd (hplain _ (List.mem_cons_self _ _)) (by simp [annotated_plain])
      | mk type node_type_str line_number semantic_type is_constant bool_value data =>
        have hstatement := hplain _ (List.mem_cons_self _ _)
        simp only [annotated_plain] at hstatement
        obtain ⟨hkind, hnl, hlen, hword⟩ := hstatement
        obtain ⟨hheader_nl, hheader_len, hheader⟩ := header_facts node_type_str.toList hnl hlen
        simp only [List.length_cons] at hbound hindex
        have hrest : ∀ s ∈ rest, annotated_plain s :=
          fun s hs => hplain s (List.mem_cons_of_mem _ hs)
        obtain ⟨region, hregion⟩ := window_end type line_number semantic_type
        rcases hkind with ⟨h2, hassignment⟩ | ⟨h3, hexpression, hnot⟩
        · -- an assignment
          subst h2
          have hroot' := append_statement_is_null root
            (ASTNode.mk 2 "ASSIGNMENT" 1 NodeData.zero) hroot
          have hquiet_window : window_quiet (region ++ ['\n']) := by
            rw [← hregion]
            exact window_quiet_annotated 2 line_number semantic_type
          cases rest with
          | nil =>
            have hshape : annotated_statements
                [Phase3.ASTNode.mk 2 node_type_str line_number semantic_type is_constant
                  bool_value data] i
                ++ ("SEMANTIC_SUMMARY:".toList ++ '\n' :: summary)
                = "Statement_".toList ++ Nat.toDigits 10 (i + 1) ++ [':'] ++ '\n' ::
                    (("Node_Type: ".toList ++ node_type_str.toList) ++ '\n' ::
                      (region ++ '\n' :: ("SEMANTIC_SUMMARY:".toList ++ '\n' :: summary))) := by
              simp only [annotated_statements, annotated_statement, hregion]
              simp
            rw [hshape, load_loop_assignment_block root hroot (i + 1) (by omega) _ region
              "SEMANTIC_SUMMARY:".toList summary 'S' ':' "EMANTIC_SUMMARY".toList hheader_nl
              hheader_len (hassignment.trans (List.suffix_append _ _).isInfix) hquiet_window rfl
              (by decide) (by decide) (by decide) (by decide) (by decide) (by decide) (by decide)
              (Or.inr (by decide))]
            have hleft : ∃ region', "EMANTIC_SUMMARY".toList ++ [':'] ++ '\n' :: summary
                = region' ++ ['\n'] := by
              obtain ⟨region', hregion'⟩ := hend
              exact ⟨"EMANTIC_SUMMARY".toList ++ [':'] ++ '\n' :: region', by rw [hregion']; simp⟩
            have hleft_quiet : ¬ "Statement_".toList <:+:
                "EMANTIC_SUMMARY".toList ++ [':'] ++ '\n' :: summary := by
              intro h
              exact hquiet (h.trans ⟨['S'], [], by simp⟩)
            have h := load_loop_ignore_text _ hroot' _ [] hleft hleft_quiet
            rw [List.append_nil] at h
            rw [h]
            rfl
          | cons next rest' =>
            cases next with
            | null =>
              exact absurd (hrest _ (List.mem_cons_self _ _)) (by simp [annotated_plain])
            | mk type' node_type_str' line_number' semantic_type' is_constant' bool_value'
                data' =>
              have hnext := hrest _ (List.mem_cons_self _ _)
              simp only [annotated_plain] at hnext
              obtain ⟨_, hnl', hlen', hword'⟩ := hnext
              simp only [List.length_cons] at hbound hindex
              obtain ⟨hlabel_shape, hlabel_nl, hlabel_len, hlabel_word, _, hlabel_var,
                hlabel_value, hlabel_bool⟩ := label_facts (i + 1 + 1) (by omega)
              have hshape : annotated_statements
                  (Phase3.ASTNode.mk 2 node_type_str line_number semantic_type is_constant
                      bool_value data
                    :: Phase3.ASTNode.mk type' node_type_str' line_number' semantic_type'
                      is_constant' bool_value' data' :: rest') i
                  ++ ("SEMANTIC_SUMMARY:".toList ++ '\n' :: summary)
                  = "Statement_".toList ++ Nat.toDigits 10 (i + 1) ++ [':'] ++ '\n' ::
                      (("Node_Type: ".toList ++ node_type_str.toList) ++ '\n' ::
                        (region ++ '\n' ::
                          (("Statement_".toList ++ Nat.toDigits 10 (i + 1 + 1) ++ [':'])
                            ++ '\n' ::
                              ((("Node_Type: ".toList ++ node_type_str'.toList ++ '\n' ::
                                  annotated_window type' line_number' semantic_type'))
                                ++ (annotated_statements rest' (i + 1 + 1)
                                  ++ ("SEMANTIC_SUMMARY:".toList ++ '\n' :: summary)))))) := by
                simp only [annotated_statements, annotated_statement, hregion]
                simp
              rw [hshape, load_loop_assignment_block root hroot (i + 1) (by omega) _ region
                ("Statement_".toList ++ Nat.toDigits 10 (i + 1 + 1) ++ [':']) _ 'S' ':'
                ("tatement_".toList ++ Nat.toDigits 10 (i + 1 + 1)) hheader_nl
                hheader_len (hassignment.trans (List.suffix_append _ _).isInfix) hquiet_window
                hlabel_shape (by decide) (by decide) hlabel_nl hlabel_len hlabel_var
                hlabel_value hlabel_bool (Or.inl hlabel_word)]
              have hchopped : "tatement_".toList ++ Nat.toDigits 10 (i + 1 + 1) ++ [':']
                  ++ '\n' ::
                    ((("Node_Type: ".toList ++ node_type_str'.toList ++ '\n' ::
                        annotated_window type' line_number' semantic_type'))
                      ++ (annotated_statements rest' (i + 1 + 1)
                        ++ ("SEMANTIC_SUMMARY:".toList ++ '\n' :: summary)))
                  = ("tatement_".toList ++ Nat.toDigits 10 (i + 1 + 1) ++ [':'] ++ '\n' ::
                      ("Node_Type: ".toList ++ node_type_str'.toList ++ '\n' ::
                        annotated_window type' line_number' semantic_type'))
                    ++ (annotated_statements rest' (i + 1 + 1)
                      ++ ("SEMANTIC_SUMMARY:".toList ++ '\n' :: summary)) := by
                simp
              have hchopped_end : ∃ region',
                  "tatement_".toList ++ Nat.toDigits 10 (i + 1 + 1) ++ [':'] ++ '\n' ::
                    ("Node_Type: ".toList ++ node_type_str'.toList ++ '\n' ::
                      annotated_window type' line_number' semantic_type')
                    = region' ++ ['\n'] := by
                obtain ⟨region', hregion'⟩ := window_end type' line_number' semantic_type'
                exact ⟨"tatement_".toList ++ Nat.toDigits 10 (i + 1 + 1) ++ [':'] ++ '\n' ::
                  ("Node_Type: ".toList ++ node_type_str'.toList ++ '\n' :: region'),
                  by rw [hregion']; simp⟩
              rw [hchopped, load_loop_ignore_text _ hroot' _ _ hchopped_end
                (chopped_block_quiet (i + 1 + 1) node_type_str'.toList type' line_number'
                  semantic_type' hnl' hlen' hword'),
                ih rest' (i + 1 + 1) _ (by omega) hroot'
                  (fun s hs => hrest s (List.mem_cons_of_mem _ hs)) (by omega)]
              simp only [List.map_cons, Phase3.ASTNode.get_type, reloaded, if_true,
                List.foldl_cons, reloaded_node]
        · -- an expression statement
          subst h3
          have hroot' := append_statement_is_null root
            (create_ast_node 3 "EXPRESSION_STMT" 3) hroot
          have hshape : annotated_statements
              (Phase3.ASTNode.mk 3 node_type_str line_number semantic_type is_constant
                bool_value data :: rest) i
              ++ ("SEMANTIC_SUMMARY:".toList ++ '\n' :: summary)
              = "Statement_".toList ++ Nat.toDigits 10 (i + 1) ++ [':'] ++ '\n' ::
                  (("Node_Type: ".toList ++ node_type_str.toList) ++ '\n' ::
                    (annotated_window 3 line_number semantic_type
                      ++ (annotated_statements rest (i + 1)
                        ++ ("SEMANTIC_SUMMARY:".toList ++ '\n' :: summary)))) := by
            simp only [annotated_statements, annotated_statement]
            simp
          rw [hshape, load_loop_expression_block root hroot (i + 1) (by omega) _ _ hheader_nl
            hheader_len (hexpression.trans (List.suffix_append _ _).isInfix)
            (hheader "ASSIGNMENT".toList (by decide) (by decide) (by decide) hnot),
            load_loop_ignore_text _ hroot' _ _ (window_end 3 line_number semantic_type)
              (window_quiet_annotated 3 line_number semantic_type).2.2.2.1,
            ih rest (i + 1) _ (by omega) hroot' hrest (by omega)]
          rw [List.map_cons, reloaded_cons_other _ _ (by simp [Phase3.ASTNode.get_type]),
            List.foldl_cons]
          rfl

/-! ### The whole file -/

/-- The loop passes over a line with neither `Statement_` nor
`ANNOTATED_PROGRAM:`. -/
theorem load_loop_pass (root : ASTNode) (file line rest : List Char)
    (hline : fgets file = some (line, rest))
    (hprogram : ¬ "ANNOTATED_PROGRAM:".toList <:+: line)
    (hquiet : ¬ "Statement_".toList <:+: line) :
    load_loop file.length root file = load_loop rest.length root rest := by
  rw [load_loop_step root file line rest hline, strstr_trim_none line _ hquiet,
    strstr_trim_none line _ hprogram]
  simp

theorem load_loop_pass_lines (root : ASTNode) :
    ∀ (lines : List (List Char)) (file rest : List Char),
      fgets_lines file 511 [] = lines ++ fgets_lines rest 511 [] →
      file = lines.flatten ++ rest →
      (∀ line ∈ lines, ¬ "ANNOTATED_PROGRAM:".toList <:+: line
        ∧ ¬ "Statement_".toList <:+: line) →
      load_loop file.length root file = load_loop rest.length root rest := by
  intro lines
  induction lines with
  | nil =>
    intro file rest _ hfile _
    rw [hfile]
    rfl
  | cons line more ih =>
    intro file rest hlines hfile hquiet
    rw [List.cons_append] at hlines
    have hread := fgets_of_lines file line _ hlines
    have hdrop : file.drop line.length = more.flatten ++ rest := by
      rw [hfile, List.flatten_cons, List.append_assoc, List.drop_left]
    rw [hdrop] at hread
    obtain ⟨_, _, hnext⟩ := fgets_eq_some file line _ hread
    rw [hlines] at hnext
    rw [load_loop_pass root file line _ hread (hquiet line (List.mem_cons_self _ _)).1
      (hquiet line (List.mem_cons_self _ _)).2]
    exact ih _ rest (List.cons.inj hnext).2.symm rfl
      (fun l hl => hquiet l (List.mem_cons_of_mem _ hl))

theorem load_loop_pass_text (root : ASTNode) (text rest : List Char)
    (hend : ∃ region, text = region ++ ['\n'])
    (hprogram : ¬ "ANNOTATED_PROGRAM:".toList <:+: text)
    (hquiet : ¬ "Statement_".toList <:+: text) :
    load_loop (text ++ rest).length root (text ++ rest) = load_loop rest.length root rest := by
  obtain ⟨region, hregion⟩ := hend
  subst hregion
  have hshape : region ++ ['\n'] ++ rest = region ++ '\n' :: rest := by simp
  rw [hshape]
  apply load_loop_pass_lines root (fgets_lines (region ++ ['\n']) 511 [])
  · exact Codec.fgets_lines_append region rest 511 []
  · rw [fgets_lines_flatten]
    simp
  · intro line hline
    have hpart := Codec.fgets_lines_part (region ++ ['\n']) 511 [] line hline
    simp only [List.reverse_nil, List.nil_append] at hpart
    exact ⟨fun h => hprogram (h.trans hpart), fun h => hquiet (h.trans hpart)⟩

/-- The loop at the line `ANNOTATED_PROGRAM:` makes the root. -/
theorem load_loop_program (rest : List Char) :
    load_loop ("ANNOTATED_PROGRAM:".toList ++ '\n' :: rest).length ASTNode.null
        ("ANNOTATED_PROGRAM:".toList ++ '\n' :: rest)
      = load_loop rest.length (ASTNode.mk 1 "PROGRAM" 1 (NodeData.program [])) rest := by
  obtain ⟨htrim, _⟩ := trim_line "ANNOTATED_PROGRAM:".toList 'A' ':' "NNOTATED_PROGRAM".toList
    rfl (by decide) (by decide)
  rw [load_loop_step ASTNode.null _ _ rest
    (fgets_short "ANNOTATED_PROGRAM:".toList rest (by decide) (by decide)), htrim,
    if_neg (by decide), if_pos ⟨by decide, rfl⟩]

set_option maxRecDepth 10000 in
/-- The tree that `load_annotated_ast` builds from a file made of the header,
statements and a summary without `Statement_`. -/
theorem load_annotated_text (count : Nat) (statements : List Phase3.ASTNode)
    (summary : List Char)
    (hplain : ∀ statement ∈ statements, annotated_plain statement)
    (hlength : statements.length < 10 ^ 9)
    (hquiet : ¬ "Statement_".toList <:+: "SEMANTIC_SUMMARY:".toList ++ '\n' :: summary)
    (hend : ∃ region, summary = region ++ ['\n']) :
    load_annotated_ast
        (annotated_header count ++ annotated_statements statements 0
          ++ ("SEMANTIC_SUMMARY:".toList ++ '\n' :: summary))
      = (reloaded (statements.map Phase3.ASTNode.get_type)).foldl append_statement
          (ASTNode.mk 1 "PROGRAM" 1 (NodeData.program [])) := by
  have hshape : annotated_header count ++ annotated_statements statements 0
        ++ ("SEMANTIC_SUMMARY:".toList ++ '\n' :: summary)
      = ("# Semantically Annotated Abstract Syntax Tree\n".toList
          ++ "# Generated by Phase 3: Semantic Analysis\n".toList
          ++ "# Input: ast.txt\n".toList
          ++ "#\n".toList
          ++ "# Semantic Annotations:\n".toList
          ++ "# Type information added to nodes\n".toList
          ++ "# - Symbol table references included\n".toList
          ++ "# - Constant propagation applied\n".toList
          ++ "#\n\n".toList)
        ++ ("ANNOTATED_PROGRAM:".toList ++ '\n' ::
          (("Node_Type: PROGRAM\nSemantic_Type: PROGRAM_BLOCK\nLine: 1\nStatements:".toList
              ++ ' ' :: (Nat.toDigits 10 count ++ '\n' :: "Analysis_Status: VALIDATED\n\n".toList))
            ++ (annotated_statements statements 0
              ++ ("SEMANTIC_SUMMARY:".toList ++ '\n' :: summary)))) := by
    unfold annotated_header
    simp
  have key : ∀ comments middle tail : List Char,
      (∃ region, comments = region ++ ['\n']) →
      ¬ "ANNOTATED_PROGRAM:".toList <:+: comments → ¬ "Statement_".toList <:+: comments →
      (∃ region, middle = region ++ ['\n']) → ¬ "Statement_".toList <:+: middle →
      load_loop (comments ++ ("ANNOTATED_PROGRAM:".toList ++ '\n' :: (middle ++ tail))).length
          ASTNode.null (comments ++ ("ANNOTATED_PROGRAM:".toList ++ '\n' :: (middle ++ tail)))
        = load_loop tail.length (ASTNode.mk 1 "PROGRAM" 1 (NodeData.program [])) tail := by
    intro comments middle tail h₁ h₂ h₃ h₄ h₅
    rw [load_loop_pass_text ASTNode.null comments _ h₁ h₂ h₃, load_loop_program,
      load_loop_ignore_text (ASTNode.mk 1 "PROGRAM" 1 (NodeData.program [])) rfl middle tail
        h₄ h₅]
  have hcomments_end : ∃ region,
      "# Semantically Annotated Abstract Syntax Tree\n".toList
          ++ "# Generated by Phase 3: Semantic Analysis\n".toList
          ++ "# Input: ast.txt\n".toList
          ++ "#\n".toList
          ++ "# Semantic Annotations:\n".toList
          ++ "# Type information added to nodes\n".toList
          ++ "# - Symbol table references included\n".toList
          ++ "# - Constant propagation applied\n".toList
          ++ "#\n\n".toList = region ++ ['\n'] :=
    ⟨"# Semantically Annotated Abstract Syntax Tree\n".toList
          ++ "# Generated by Phase 3: Semantic Analysis\n".toList
          ++ "# Input: ast.txt\n".toList
          ++ "#\n".toList
          ++ "# Semantic Annotations:\n".toList
          ++ "# Type information added to nodes\n".toList
          ++ "# - Symbol table references included\n".toList
          ++ "# - Constant propagation applied\n".toList
          ++ "#\n".toList, by decide⟩
  have hmiddle_end : ∃ region,
      "Node_Type: PROGRAM\nSemantic_Type: PROGRAM_BLOCK\nLine: 1\nStatements:".toList
          ++ ' ' :: (Nat.toDigits 10 count ++ '\n' :: "Analysis_Status: VALIDATED\n\n".toList)
        = region ++ ['\n'] :=
    ⟨"Node_Type: PROGRAM\nSemantic_Type: PROGRAM_BLOCK\nLine: 1\nStatements:".toList
        ++ ' ' :: (Nat.toDigits 10 count ++ '\n' :: "Analysis_Status: VALIDATED\n".toList),
      by simp⟩
  have hmiddle : ¬ "Statement_".toList <:+:
      "Node_Type: PROGRAM\nSemantic_Type: PROGRAM_BLOCK\nLine: 1\nStatements:".toList
          ++ ' ' :: (Nat.toDigits 10 count ++ '\n' :: "Analysis_Status: VALIDATED\n\n".toList) := by
    rw [Codec.infix_append_cons_iff _ _ _ _ (by decide),
      Codec.infix_append_cons_iff _ _ _ _ (by decide)]
    rintro (h | h | h)
    · revert h
      decide
    · exact Codec.not_infix_of_head_not_mem _ _ 'S' "tatement_".toList rfl
        (not_mem_digits 'S' count (by decide)) h
    · revert h
      decide
  unfold load_annotated_ast
  rw [hshape, key _ _ _ hcomments_end (by decide) (by decide) hmiddle_end hmiddle,
    load_loop_statements summary hquiet hend statements.length statements 0
      (ASTNode.mk 1 "PROGRAM" 1 (NodeData.program [])) (Nat.le_refl _) rfl hplain (by omega)]

end Phase4

/-! ## Theorems: the program that comes back from the annotated AST file -/

namespace Phase4

open Phase3 (strstr isspace isdigit fgets_lines annotated_window annotated_statement
  annotated_statements annotated_header annotated_summary symbol_type_to_string
  generate_annotated_ast annotated_plain)
open Phase2 (print_int)

/-! ### The statements that phase 3 writes -/

theorem annotated_plain_skeleton (statement : Phase2.ASTNode)
    (h : Codec.plain_statement statement) :
    annotated_plain (Codec.statement_skeleton statement) := by
  have hheader : ∀ (keyword : List Char) (n : Int), Codec.int_range n →
      keyword.length ≤ 15 → (∀ c ∈ keyword, c ≠ '\n') → ¬ "Statement_".toList <:+: keyword →
      (∀ c ∈ keyword ++ " (line ".toList ++ print_int n ++ [')'], c ≠ '\n') ∧
      (keyword ++ " (line ".toList ++ print_int n ++ [')']).length ≤ 400 ∧
      ¬ "Statement_".toList <:+: keyword ++ " (line ".toList ++ print_int n ++ [')'] := by
    intro keyword n hn hlen hnl hword
    refine ⟨?_, ?_, ?_⟩
    · intro c hc
      simp only [List.mem_append, List.mem_singleton] at hc
      rcases hc with ((hc | hc) | hc) | hc
      · exact hnl c hc
      · intro h
        rw [h] at hc
        revert hc
        decide
      · exact Codec.print_int_no_newline n c hc
      · rw [hc]
        decide
    · have := Codec.print_int_length n hn
      simp only [List.length_append, List.length_singleton]
      have : " (line ".toList.length = 7 := rfl
      omega
    · rw [Codec.header_infix_iff "Statement_".toList keyword n 'S' "tatement_".toList rfl
        (by decide) (by decide) (by decide) (by decide) (by decide)]
      exact hword
  cases statement with
  | assignment var_name value line =>
    obtain ⟨hnl, hlen, hword⟩ := hheader "ASSIGNMENT".toList line h.2.2 (by decide) (by decide)
      (by decide)
    simp only [Codec.statement_skeleton, annotated_plain]
    refine ⟨Or.inl ⟨trivial, ⟨[], " (line ".toList ++ print_int line ++ [')'], by simp⟩⟩,
      hnl, hlen, hword⟩
  | expression_stmt expression line =>
    obtain ⟨hnl, hlen, hword⟩ := hheader "EXPRESSION_STMT".toList line h.2 (by decide)
      (by decide) (by decide)
    simp only [Codec.statement_skeleton, annotated_plain]
    refine ⟨Or.inr ⟨trivial, ⟨[], " (line ".toList ++ print_int line ++ [')'], by simp⟩, ?_⟩,
      hnl, hlen, hword⟩
    have := Codec.header_infix_iff "ASSIGNMENT".toList "EXPRESSION_STMT".toList line 'A'
      "SSIGNMENT".toList rfl (by decide) (by decide) (by decide) (by decide) (by decide)
    intro hpart
    exact absurd (this.1 hpart) (by decide)
  | null => exact absurd h (by simp [Codec.plain_statement])
  | identifier name line => exact absurd h (by simp [Codec.plain_statement])
  | boolean value line => exact absurd h (by simp [Codec.plain_statement])
  | binary op left right line => exact absurd h (by simp [Codec.plain_statement])
  | not operand line => exact absurd h (by simp [Codec.plain_statement])
  | quantifier kind var_name expression line => exact absurd h (by simp [Codec.plain_statement])
  | program statements capacity line => exact absurd h (by simp [Codec.plain_statement])

/-- The analysis keeps the tag and the header text of an assignment and of an
expression statement, and leaves the context as it was. -/
theorem analyze_node_plain (ctx : Phase3.SemanticContext) (node : Phase3.ASTNode)
    (h : annotated_plain node) :
    annotated_plain (Phase3.analyze_node ctx node).2 ∧
    (Phase3.analyze_node ctx node).2.get_type = node.get_type ∧
    (Phase3.analyze_node ctx node).1 = ctx := by
  cases node with
  | null => exact absurd h (by simp [annotated_plain])
  | mk type node_type_str line_number semantic_type is_constant bool_value data =>
    have hkind : type = 2 ∨ type = 3 := by
      simp only [annotated_plain] at h
      rcases h.1 with h2 | h3
      · exact Or.inl h2.1
      · exact Or.inr h3.1
    rcases hkind with h2 | h3
    · subst h2
      have hnode : Phase3.analyze_node ctx
          (Phase3.ASTNode.mk 2 node_type_str line_number semantic_type is_constant bool_value
            data)
          = (ctx, Phase3.ASTNode.mk 2 node_type_str line_number Phase3.SymbolType.SYM_BOOLEAN
              is_constant bool_value data) := by
        unfold Phase3.analyze_node
        simp [Phase3.analyze_assignment, Phase3.ASTNode.set_semantic_type]
      rw [hnode]
      exact ⟨h, rfl, rfl⟩
    · subst h3
      have hnode : Phase3.analyze_node ctx
          (Phase3.ASTNode.mk 3 node_type_str line_number semantic_type is_constant bool_value
            data)
          = (ctx, Phase3.ASTNode.mk 3 node_type_str line_number semantic_type
              is_constant bool_value data) := by
        unfold Phase3.analyze_node
        simp
      rw [hnode]
      exact ⟨h, rfl, rfl⟩

theorem analyze_statements_annotated (ctx : Phase3.SemanticContext) :
    ∀ statements : List Phase3.ASTNode, (∀ node ∈ statements, annotated_plain node) →
      (∀ node ∈ (Phase3.analyze_statements ctx statements).2, annotated_plain node) ∧
      (Phase3.analyze_statements ctx statements).2.map Phase3.ASTNode.get_type
        = statements.map Phase3.ASTNode.get_type ∧
      (Phase3.analyze_statements ctx statements).2.length = statements.length := by
  intro statements
  induction statements with
  | nil =>
    intro _
    rw [Phase3.analyze_statements]
    exact ⟨by simp, rfl, rfl⟩
  | cons statement rest ih =>
    intro h
    obtain ⟨hplain, htype, hctx⟩ := analyze_node_plain ctx statement
      (h _ (List.mem_cons_self _ _))
    obtain ⟨hrest, htypes, hlength⟩ := ih (fun node hnode => h node (List.mem_cons_of_mem _ hnode))
    rw [Phase3.analyze_statements_cons, hctx]
    refine ⟨?_, ?_, ?_⟩
    · intro node hnode
      rcases List.mem_cons.1 hnode with rfl | hnode
      · exact hplain
      · exact hrest node hnode
    · simp only [List.map_cons, htype, htypes]
    · simp only [List.length_cons, hlength]

/-! ### The file that phase 3 writes for a program -/

theorem skeleton_get_type (statement : Phase2.ASTNode) :
    (Codec.statement_skeleton statement).get_type = Codec.statement_kind statement := by
  cases statement <;> rfl

/-- The annotated AST file of a program of plain statements: the header, the
blocks of the statements that the analysis leaves, and the summary of an
analysis that has entered the two known symbols. -/
theorem annotated_of_program_eq (statements : List Phase2.ASTNode) (capacity : Nat)
    (line : Int) (hline : Codec.int_range line) (hcount : statements.length ≤ 2147483647)
    (hplain : ∀ statement ∈ statements, Codec.plain_statement statement) :
    ∃ analysed : List Phase3.ASTNode,
      annotated_of_program (Phase2.ASTNode.program statements capacity line)
        = annotated_header analysed.length ++ annotated_statements analysed 0
          ++ annotated_summary
              { symbol_table := Phase3.process_known_symbols (Phase3.create_symbol_table 101),
                errors := [], error_count := 0, warning_count := 0 } ∧
      (∀ node ∈ analysed, annotated_plain node) ∧
      analysed.map Phase3.ASTNode.get_type = (statements.map Codec.statement_kind).take 10 ∧
      analysed.length ≤ 10 := by
  have hskeleton : ∀ node ∈ (statements.map Codec.statement_skeleton).take 10,
      annotated_plain node := by
    intro node hnode
    obtain ⟨statement, hstatement, rfl⟩ := List.mem_map.1 (List.mem_of_mem_take hnode)
    exact annotated_plain_skeleton statement (hplain statement hstatement)
  have hkinds : ∀ node ∈ (statements.map Codec.statement_skeleton).take 10,
      Codec.get_type node = 2 ∨ Codec.get_type node = 3 := by
    intro node hnode
    have h := hskeleton node hnode
    cases node with
    | null => exact absurd h (by simp [annotated_plain])
    | mk type node_type_str line_number semantic_type is_constant bool_value data =>
      simp only [annotated_plain] at h
      rcases h.1 with h2 | h3
      · exact Or.inl h2.1
      · exact Or.inr h3.1
  obtain ⟨hplain', htypes, hlength⟩ := analyze_statements_annotated
    Phase3.create_semantic_context _ hskeleton
  refine ⟨(Phase3.analyze_statements Phase3.create_semantic_context
    ((statements.map Codec.statement_skeleton).take 10)).2, ?_, hplain', ?_, ?_⟩
  · have hctx := (Phase3.perform_plain
      (String.mk ("PROGRAM (line ".toList ++ print_int line ++ ") - ".toList
        ++ Nat.toDigits 10 statements.length ++ " statements".toList))
      line Phase3.SymbolType.SYM_UNKNOWN 0 0 _ hkinds).2
    have hwalk : Phase3.analyze_node Phase3.create_semantic_context
        (Phase3.ASTNode.mk 1
          (String.mk ("PROGRAM (line ".toList ++ print_int line ++ ") - ".toList
            ++ Nat.toDigits 10 statements.length ++ " statements".toList))
          line Phase3.SymbolType.SYM_UNKNOWN 0 0
          (Phase3.NodeData.program ((statements.map Codec.statement_skeleton).take 10)))
        = ((Phase3.analyze_statements Phase3.create_semantic_context
              ((statements.map Codec.statement_skeleton).take 10)).1,
           Phase3.ASTNode.mk 1
            (String.mk ("PROGRAM (line ".toList ++ print_int line ++ ") - ".toList
              ++ Nat.toDigits 10 statements.length ++ " statements".toList))
            line Phase3.SymbolType.SYM_UNKNOWN 0 0
            (Phase3.NodeData.program (Phase3.analyze_statements Phase3.create_semantic_context
              ((statements.map Codec.statement_skeleton).take 10)).2)) := by
      rw [Phase3.analyze_node, if_pos rfl]
    have htree : (Phase3.perform_semantic_analysis Phase3.create_semantic_context
        (Phase3.ASTNode.mk 1
          (String.mk ("PROGRAM (line ".toList ++ print_int line ++ ") - ".toList
            ++ Nat.toDigits 10 statements.length ++ " statements".toList))
          line Phase3.SymbolType.SYM_UNKNOWN 0 0
          (Phase3.NodeData.program ((statements.map Codec.statement_skeleton).take 10)))).2.2
        = Phase3.ASTNode.mk 1
            (String.mk ("PROGRAM (line ".toList ++ print_int line ++ ") - ".toList
              ++ Nat.toDigits 10 statements.length ++ " statements".toList))
            line Phase3.SymbolType.SYM_UNKNOWN 0 0
            (Phase3.NodeData.program (Phase3.analyze_statements Phase3.create_semantic_context
              ((statements.map Codec.statement_skeleton).take 10)).2) := by
      unfold Phase3.perform_semantic_analysis
      simp only [hwalk]
    unfold annotated_of_program
    rw [(Codec.load_print_ast statements capacity line hline hcount hplain).2]
    unfold Codec.program_skeleton
    rw [hctx, htree]
    rfl
  · rw [htypes, ← List.map_take, ← List.map_take, List.map_map]
    apply List.map_congr_left
    intro statement _
    exact skeleton_get_type statement
  · rw [hlength, List.length_take]
    omega

set_option maxRecDepth 100000 in
/-- The summary of an analysis that has entered the two known symbols: it
begins with the line `SEMANTIC_SUMMARY:`, ends with a newline, and has no
`Statement_`. -/
theorem known_summary :
    annotated_summary
        { symbol_table := Phase3.process_known_symbols (Phase3.create_symbol_table 101),
          errors := [], error_count := 0, warning_count := 0 }
      = "SEMANTIC_SUMMARY:".toList ++ '\n' ::
          (annotated_summary
            { symbol_table := Phase3.process_known_symbols (Phase3.create_symbol_table 101),
              errors := [], error_count := 0, warning_count := 0 }).drop 18 ∧
    ¬ "Statement_".toList <:+: "SEMANTIC_SUMMARY:".toList ++ '\n' ::
          (annotated_summary
            { symbol_table := Phase3.process_known_symbols (Phase3.create_symbol_table 101),
              errors := [], error_count := 0, warning_count := 0 }).drop 18 ∧
    (annotated_summary
        { symbol_table := Phase3.process_known_symbols (Phase3.create_symbol_table 101),
          errors := [], error_count := 0, warning_count := 0 }).drop 18
      = ((annotated_summary
          { symbol_table := Phase3.process_known_symbols (Phase3.create_symbol_table 101),
            errors := [], error_count := 0, warning_count := 0 }).drop 18).dropLast
        ++ ['\n'] := by
  refine ⟨by decide, by decide, by decide⟩

/-! ### The tree that phase 4 loads -/

theorem append_statement_program (type : Int) (node_type_str : String) (line_number : Int)
    (held : List ASTNode) (node : ASTNode) :
    append_statement (ASTNode.mk type node_type_str line_number (NodeData.program held)) node
      = if held.length < 10 then
          ASTNode.mk type node_type_str line_number (NodeData.program (held ++ [node]))
        else ASTNode.mk type node_type_str line_number (NodeData.program held) := rfl

theorem foldl_append_reloaded (type : Int) (node_type_str : String) (line_number : Int) :
    ∀ (nodes held : List ASTNode), held.length ≤ 10 →
      nodes.foldl append_statement
          (ASTNode.mk type node_type_str line_number (NodeData.program held))
        = ASTNode.mk type node_type_str line_number
            (NodeData.program (held ++ nodes.take (10 - held.length))) := by
  intro nodes
  induction nodes with
  | nil =>
    intro held _
    simp
  | cons node rest ih =>
    intro held hheld
    rw [List.foldl_cons, append_statement_program]
    by_cases hroom : held.length < 10
    · rw [if_pos hroom, ih (held ++ [node]) (by simp; omega)]
      have hsplit : 10 - held.length = (10 - (held ++ [node]).length) + 1 := by
        simp only [List.length_append, List.length_singleton]
        omega
      rw [hsplit, List.take_succ_cons]
      simp
    · rw [if_neg hroom, ih held hheld]
      have hfull : 10 - held.length = 0 := by omega
      rw [hfull, List.take_zero, List.take_zero]

theorem reloaded_length : ∀ (bound : Nat) (types : List Int), types.length ≤ bound →
    (reloaded types).length ≤ types.length := by
  intro bound
  induction bound with
  | zero =>
    intro types h
    have : types = [] := List.length_eq_zero.1 (Nat.le_zero.1 h)
    subst this
    simp [reloaded]
  | succ bound ih =>
    intro types h
    cases types with
    | nil => simp [reloaded]
    | cons type rest =>
      cases rest with
      | nil => simp [reloaded]
      | cons next rest' =>
        simp only [List.length_cons] at h
        rw [reloaded]
        split
        · have := ih rest' (by omega)
          simp only [List.length_cons]
          omega
        · have := ih (next :: rest') (by simp only [List.length_cons]; omega)
          simp only [List.length_cons] at this ⊢
          omega

theorem reloaded_mem : ∀ (bound : Nat) (types : List Int), types.length ≤ bound →
    ∀ node ∈ reloaded types,
      node = ASTNode.mk 2 "ASSIGNMENT" 1 NodeData.zero
        ∨ node = ASTNode.mk 3 "EXPRESSION_STMT" 3 NodeData.zero := by
  have hnode : ∀ type : Int, reloaded_node type = ASTNode.mk 2 "ASSIGNMENT" 1 NodeData.zero
      ∨ reloaded_node type = ASTNode.mk 3 "EXPRESSION_STMT" 3 NodeData.zero := by
    intro type
    unfold reloaded_node
    split
    · exact Or.inl rfl
    · exact Or.inr rfl
  intro bound
  induction bound with
  | zero =>
    intro types h node hmem
    have : types = [] := List.length_eq_zero.1 (Nat.le_zero.1 h)
    subst this
    simp [reloaded] at hmem
  | succ bound ih =>
    intro types h node hmem
    cases types with
    | nil => simp [reloaded] at hmem
    | cons type rest =>
      cases rest with
      | nil =>
        simp only [reloaded, List.mem_singleton] at hmem
        rw [hmem]
        exact hnode type
      | cons next rest' =>
        simp only [List.length_cons] at h
        rw [reloaded] at hmem
        split at hmem
        · rcases List.mem_cons.1 hmem with rfl | hmem
          · exact hnode type
          · exact ih rest' (by omega) node hmem
        · rcases List.mem_cons.1 hmem with rfl | hmem
          · exact hnode type
          · exact ih (next :: rest') (by simp only [List.length_cons]; omega) node hmem

/-- The tree that `load_annotated_ast` builds from the annotated AST file of a
program of plain statements. -/
theorem load_annotated_program (statements : List Phase2.ASTNode) (capacity : Nat)
    (line : Int) (hline : Codec.int_range line) (hcount : statements.length ≤ 2147483647)
    (hplain : ∀ statement ∈ statements, Codec.plain_statement statement) :
    load_annotated_ast (annotated_of_program (Phase2.ASTNode.program statements capacity line))
      = ASTNode.mk 1 "PROGRAM" 1
          (NodeData.program (reloaded ((statements.map Codec.statement_kind).take 10))) := by
  obtain ⟨analysed, htext, hanalysed, htypes, hlength⟩ :=
    annotated_of_program_eq statements capacity line hline hcount hplain
  obtain ⟨hshape, hquiet, hend⟩ := known_summary
  rw [htext, hshape, load_annotated_text analysed.length analysed _ hanalysed (by omega) hquiet
    ⟨_, hend⟩, htypes, foldl_append_reloaded 1 "PROGRAM" 1 _ [] (by simp)]
  have hshort : (reloaded ((statements.map Codec.statement_kind).take 10)).length ≤ 10 := by
    have h₁ := reloaded_length _ ((statements.map Codec.statement_kind).take 10) (Nat.le_refl _)
    have h₂ : ((statements.map Codec.statement_kind).take 10).length ≤ 10 := by
      rw [List.length_take]
      omega
    omega
  simp only [List.nil_append, List.length_nil, Nat.sub_zero]
  rw [List.take_of_length_le hshort]

/-! ### The code for the reloaded program -/

theorem generate_statement_bare_assignment (ctx : CodeGenContext) :
    generate_statement ctx (ASTNode.mk 2 "ASSIGNMENT" 1 NodeData.zero) = ctx := by
  simp [generate_statement, generate_assignment, NodeData.get_variable]

theorem generate_statement_bare_expression (ctx : CodeGenContext) :
    (generate_statement ctx (ASTNode.mk 3 "EXPRESSION_STMT" 3 NodeData.zero)).instructions
      = ctx.instructions ++ or_code := by
  rw [generate_statement_expression]
  exact (free_register_fields _ _).1

/-- The code for statements that are assignments without variable and
expression statements: the fixed three instructions once for every expression
statement. -/
theorem foldl_generate_reloaded :
    ∀ (nodes : List ASTNode) (ctx : CodeGenContext),
      (∀ node ∈ nodes, node = ASTNode.mk 2 "ASSIGNMENT" 1 NodeData.zero
        ∨ node = ASTNode.mk 3 "EXPRESSION_STMT" 3 NodeData.zero) →
      (nodes.foldl generate_statement ctx).instructions
        = ctx.instructions
          ++ (List.replicate (nodes.countP (fun node => decide (node.get_type = 3)))
              or_code).flatten := by
  intro nodes
  induction nodes with
  | nil =>
    intro ctx _
    simp
  | cons node rest ih =>
    intro ctx hnodes
    have hrest := fun n hn => hnodes n (List.mem_cons_of_mem _ hn)
    rcases hnodes node (List.mem_cons_self _ _) with rfl | rfl
    · rw [List.foldl_cons, generate_statement_bare_assignment, ih ctx hrest,
        List.countP_cons_of_neg]
      simp [ASTNode.get_type]
    · rw [List.foldl_cons, ih _ hrest, generate_statement_bare_expression,
        List.countP_cons_of_pos, List.replicate_succ, List.flatten_cons, List.append_assoc]
      simp [ASTNode.get_type]

/-- C40: for every program of plain statements, every assignment node of the
tree that `load_annotated_ast` builds from the annotated AST file of the
program has neither variable nor value, and `generate_statement` leaves every
context as it is on such a node; the tree is a program node, and the
instruction list that `generate_program` makes for it in a new context is the
fixed three-instruction sequence once for every expression statement of the
tree, followed by the Move of 0 into `RAX`. -/
theorem C40_reloaded_assignments (statements : List Phase2.ASTNode) (capacity : Nat)
    (line : Int) (hline : Codec.int_range line) (hcount : statements.length ≤ 2147483647)
    (hplain : ∀ statement ∈ statements, Codec.plain_statement statement)
    (target : TargetArch) :
    (load_annotated_ast
      (annotated_of_program (Phase2.ASTNode.program statements capacity line))).get_type = 1 ∧
    (∀ node ∈ (load_annotated_ast
        (annotated_of_program
          (Phase2.ASTNode.program statements capacity line))).get_data.get_statements,
      node.get_type = 2 →
        node.get_data.get_variable = none ∧ node.get_data.get_value = ASTNode.null ∧
        ∀ ctx : CodeGenContext, generate_statement ctx node = ctx) ∧
    (generate_program (create_codegen_context target)
      (load_annotated_ast
        (annotated_of_program (Phase2.ASTNode.program statements capacity line)))).instructions
      = (List.replicate
          ((load_annotated_ast
            (annotated_of_program
              (Phase2.ASTNode.program statements capacity line))).get_data.get_statements.countP
            (fun node => decide (node.get_type = 3)))
          or_code).flatten ++ [exit_move] := by
  have hnodes := reloaded_mem _ ((statements.map Codec.statement_kind).take 10) (Nat.le_refl _)
  rw [load_annotated_program statements capacity line hline hcount hplain]
  refine ⟨rfl, ?_, ?_⟩
  · intro node hnode htype
    simp only [ASTNode.get_data, NodeData.get_statements] at hnode
    rcases hnodes node hnode with rfl | rfl
    · exact ⟨rfl, rfl, generate_statement_bare_assignment⟩
    · simp [ASTNode.get_type] at htype
  · have hprogram : (generate_program (create_codegen_context target)
        (ASTNode.mk 1 "PROGRAM" 1
          (NodeData.program
            (reloaded ((statements.map Codec.statement_kind).take 10))))).instructions
        = ((reloaded ((statements.map Codec.statement_kind).take 10)).foldl generate_statement
            (create_codegen_context target)).instructions ++ [exit_move] := by
      simp only [generate_program, NodeData.get_statements]
      rw [if_neg (by decide), emit_comment_emit]
      rfl
    rw [hprogram, foldl_generate_reloaded _ _ hnodes]
    rfl

theorem C40_reloaded_assignments_witness :
    Codec.int_range 1 ∧
    (generate_program (create_codegen_context TargetArch.TARGET_X86_64)
      (load_annotated_ast
        (annotated_of_program
          (Phase2.ASTNode.program
            [Phase2.ASTNode.assignment "B" (Phase2.ASTNode.boolean 1 1) 1,
             Phase2.ASTNode.assignment "C" (Phase2.ASTNode.boolean 0 2) 2,
             Phase2.ASTNode.expression_stmt
               (Phase2.ASTNode.binary Phase2.BinaryOp.OR (Phase2.ASTNode.identifier "B" 3)
                 (Phase2.ASTNode.identifier "C" 3) 3) 3] 10 1)))).instructions
      = (List.replicate
          ((load_annotated_ast
            (annotated_of_program
              (Phase2.ASTNode.program
                [Phase2.ASTNode.assignment "B" (Phase2.ASTNode.boolean 1 1) 1,
                 Phase2.ASTNode.assignment "C" (Phase2.ASTNode.boolean 0 2) 2,
                 Phase2.ASTNode.expression_stmt
                   (Phase2.ASTNode.binary Phase2.BinaryOp.OR (Phase2.ASTNode.identifier "B" 3)
                     (Phase2.ASTNode.identifier "C" 3) 3) 3] 10
                1))).get_data.get_statements.countP
            (fun node => decide (node.get_type = 3)))
          or_code).flatten ++ [exit_move] :=
  ⟨by decide,
   (C40_reloaded_assignments _ 10 1 (by decide) (by decide)
      (by
        intro statement hstatement
        simp only [List.mem_cons, List.mem_singleton, List.not_mem_nil, or_false] at hstatement
        rcases hstatement with rfl | rfl | rfl
        · simp only [Codec.plain_statement, Codec.plain_expression]
          decide
        · simp only [Codec.plain_statement, Codec.plain_expression]
          decide
        · simp only [Codec.plain_statement, Codec.plain_expression]
          decide)
      TargetArch.TARGET_X86_64).2.2⟩

end Phase4

/-! ## Theorems: the statement lost behind an assignment -/

namespace Phase4

/-- C35: the program `B := TRUE; C := FALSE; B OR C;`, printed, loaded,
analysed and written as an annotated AST file, is reloaded by
`load_annotated_ast` as a program of two statements, an assignment and an
expression statement, not of three: `parse_assignment_info` reads the label
`Statement_2:` of the second statement, cuts its newline, and goes back by the
length of what is left, so the file is left behind the `S` of the label, and
the main loop does not recognise `tatement_2:` as the start of a statement. -/
theorem C35_statement_lost :
    load_annotated_ast
      (annotated_of_program
        (Phase2.ASTNode.program
          [Phase2.ASTNode.assignment "B" (Phase2.ASTNode.boolean 1 1) 1,
           Phase2.ASTNode.assignment "C" (Phase2.ASTNode.boolean 0 2) 2,
           Phase2.ASTNode.expression_stmt
             (Phase2.ASTNode.binary Phase2.BinaryOp.OR (Phase2.ASTNode.identifier "B" 3)
               (Phase2.ASTNode.identifier "C" 3) 3) 3] 10 1))
      = ASTNode.mk 1 "PROGRAM" 1
          (NodeData.program
            [ASTNode.mk 2 "ASSIGNMENT" 1 NodeData.zero,
             create_ast_node 3 "EXPRESSION_STMT" 3]) ∧
    (parse_assignment_info
      (Phase3.annotated_window 2 1 Phase3.SymbolType.SYM_BOOLEAN
        ++ "Statement_2:\nNode_Type: ASSIGNMENT (line 2)\n".toList)).2
      = "tatement_2:\nNode_Type: ASSIGNMENT (line 2)\n".toList := by
  refine ⟨?_, by decide⟩
  rw [load_annotated_program _ 10 1 (by decide) (by decide)]
  · rfl
  · intro statement hstatement
    simp only [List.mem_cons, List.mem_singleton, List.not_mem_nil, or_false] at hstatement
    rcases hstatement with rfl | rfl | rfl
    · simp only [Codec.plain_statement, Codec.plain_expression]
      decide
    · simp only [Codec.plain_statement, Codec.plain_expression]
      decide
    · simp only [Codec.plain_statement, Codec.plain_expression]
      decide

end Phase4

/-! ## Theorems: the first ten statements -/

namespace Codec

open Phase3 in
theorem load_line_header_none (state : LoaderState) (line : List Char)
    (hheader : line_header line = none) : load_line state line = state := by
  unfold line_header at hheader
  unfold load_line
  by_cases hskip : line.head? = some '#' ∨ line.head? = some '\n'
      ∨ (trim_whitespace line).length = 0
  · rw [if_pos hskip]
  · rw [if_neg hskip] at hheader
    rw [if_neg hskip]
    split at hheader
    · exact absurd hheader (by simp)
    · next hnot =>
      split
      · rfl
      · next node_info indent heq =>
        simp only []
        rw [heq] at hnot
        rw [if_neg (fun htype => hnot ⟨rfl, htype⟩)]

open Phase3 in
theorem load_line_header_some (state : LoaderState) (line header : List Char)
    (hheader : line_header line = some header) :
    load_line state line
      = { root := attach_node state.root (node_of_info header) (parse_node_type header)
          nodes_loaded := state.nodes_loaded + 1 } := by
  unfold line_header at hheader
  by_cases hskip : line.head? = some '#' ∨ line.head? = some '\n'
      ∨ (trim_whitespace line).length = 0
  · rw [if_pos hskip] at hheader
    exact absurd hheader (by simp)
  · rw [if_neg hskip] at hheader
    split at hheader
    · next hyes =>
      have hinfo : (parse_ast_line (trim_whitespace_buffer line)).2.1 = header :=
        Option.some.inj hheader
      rw [hinfo] at hyes
      exact load_line_node state line header
        (parse_ast_line (trim_whitespace_buffer line)).2.2 hskip
        (by
          rw [← hinfo, ← hyes.1])
        hyes.2
    · exact absurd hheader (by simp)

open Phase3 in
/-- The loop of `load_ast_from_file` over the lines is a loop over the headers
of the lines: the node of every header is attached, and every header is
counted. -/
theorem foldl_load_line_headers (lines : List (List Char)) :
    ∀ state : LoaderState,
      (lines.foldl load_line state).root
        = (lines.filterMap line_header).foldl
            (fun root header => attach_node root (node_of_info header) (parse_node_type header))
            state.root ∧
      (lines.foldl load_line state).nodes_loaded
        = state.nodes_loaded + (lines.filterMap line_header).length := by
  induction lines with
  | nil =>
    intro state
    exact ⟨rfl, rfl⟩
  | cons line rest ih =>
    intro state
    rw [List.foldl_cons]
    cases hheader : line_header line with
    | none =>
      rw [load_line_header_none state line hheader, List.filterMap_cons_none hheader]
      exact ih state
    | some header =>
      rw [load_line_header_some state line header hheader, List.filterMap_cons_some hheader,
        List.foldl_cons, List.length_cons]
      refine ⟨(ih _).1, ?_⟩
      rw [(ih _).2]
      simp only []
      omega

open Phase3 in
theorem attach_node_null (node : ASTNode) (node_type : Int) (htype : node_type ≠ 1) :
    attach_node ASTNode.null node node_type = ASTNode.null := by
  unfold attach_node
  rw [if_neg (fun h => htype h.1)]
  split <;> rfl

open Phase3 in
theorem attach_node_program (header : List Char) (htype : parse_node_type header = 1) :
    ∃ line_number : Int,
      attach_node ASTNode.null (node_of_info header) (parse_node_type header)
        = ASTNode.mk 1 (String.mk header) line_number SymbolType.SYM_UNKNOWN 0 0
            (NodeData.program []) := by
  refine ⟨match strstr header "(line ".toList with
    | some line_marker => (sscanf_line line_marker).getD 1
    | none => 1, ?_⟩
  unfold attach_node node_of_info
  rw [htype, if_pos ⟨rfl, rfl⟩]
  rfl

open Phase3 in
theorem foldl_attach_node_program (type : Int) (node_type_str : String) (line_number : Int)
    (semantic_type : SymbolType) (is_constant bool_value : Int) (headers : List (List Char)) :
    ∀ loaded : List ASTNode,
      headers.foldl
          (fun root header => attach_node root (node_of_info header) (parse_node_type header))
          (ASTNode.mk type node_type_str line_number semantic_type is_constant bool_value
            (NodeData.program loaded))
        = ((headers.filter is_statement_header).map node_of_info).foldl append_statement
            (ASTNode.mk type node_type_str line_number semantic_type is_constant bool_value
              (NodeData.program loaded)) := by
  induction headers with
  | nil =>
    intro loaded
    rfl
  | cons header rest ih =>
    intro loaded
    rw [List.foldl_cons]
    by_cases hstatement : parse_node_type header = 2 ∨ parse_node_type header = 3
    · have hfilter : is_statement_header header = true := by
        unfold is_statement_header
        exact decide_eq_true hstatement
      have hattach : attach_node
          (ASTNode.mk type node_type_str line_number semantic_type is_constant bool_value
            (NodeData.program loaded)) (node_of_info header) (parse_node_type header)
          = append_statement
              (ASTNode.mk type node_type_str line_number semantic_type is_constant bool_value
                (NodeData.program loaded)) (node_of_info header) := by
        unfold attach_node
        rw [if_neg (fun h => by simp [ASTNode.is_null] at h), if_pos hstatement]
      rw [hattach, List.filter_cons_of_pos hfilter, List.map_cons, List.foldl_cons,
        append_statement_mk]
      split
      · exact ih _
      · exact ih _
    · have hfilter : ¬ is_statement_header header = true := by
        unfold is_statement_header
        simpa using hstatement
      have hattach : attach_node
          (ASTNode.mk type node_type_str line_number semantic_type is_constant bool_value
            (NodeData.program loaded)) (node_of_info header) (parse_node_type header)
          = ASTNode.mk type node_type_str line_number semantic_type is_constant bool_value
              (NodeData.program loaded) := by
        unfold attach_node
        rw [if_neg (fun h => by simp [ASTNode.is_null] at h), if_neg hstatement]
      rw [hattach, List.filter_cons_of_neg hfilter]
      exact ih loaded

open Phase3 in
/-- The statements of the root after the loop over the headers: the nodes of
the first ten statement headers behind the first `PROGRAM` header. -/
theorem foldl_attach_node_statements (headers : List (List Char)) :
    (headers.foldl
        (fun root header => attach_node root (node_of_info header) (parse_node_type header))
        ASTNode.null).get_statements
      = ((statements_after_program headers).take 10).map node_of_info := by
  induction headers with
  | nil => rfl
  | cons header rest ih =>
    rw [List.foldl_cons]
    by_cases htype : parse_node_type header = 1
    · obtain ⟨line_number, hroot⟩ := attach_node_program header htype
      rw [hroot, foldl_attach_node_program, foldl_append_statement _ _ _ _ _ _ _ [] (by simp)]
      simp only [statements_after_program, if_pos htype, ASTNode.get_statements,
        NodeData.get_statements, List.nil_append, List.map_take]
    · rw [attach_node_null _ _ htype, ih]
      simp only [statements_after_program, if_neg htype]

end Codec

namespace Phase4

theorem append_statement_bound (root node : ASTNode)
    (hroot : root.get_data.get_statements.length ≤ 10) :
    (append_statement root node).get_data.get_statements.length ≤ 10 := by
  cases root with
  | null => exact hroot
  | mk type node_type_str line_number data =>
    unfold append_statement
    simp only []
    split
    · next hroom =>
      show (data.get_statements ++ [node]).length ≤ 10
      rw [List.length_append, List.length_singleton]
      omega
    · exact hroot

/-- The loop of `load_annotated_ast` never takes the statements of the root
beyond ten. -/
theorem load_loop_bound :
    ∀ (fuel : Nat) (root : ASTNode) (file : List Char),
      root.get_data.get_statements.length ≤ 10 →
      (load_loop fuel root file).get_data.get_statements.length ≤ 10 := by
  intro fuel
  induction fuel with
  | zero =>
    intro root file hroot
    exact hroot
  | succ fuel ih =>
    intro root file hroot
    unfold load_loop
    split
    · exact hroot
    · split
      · exact ih _ _ hroot
      · split
        · exact ih _ _ (by simp [ASTNode.get_data, NodeData.get_statements])
        · split
          · split
            · split
              · exact ih _ _ (append_statement_bound _ _ hroot)
              · split
                · exact ih _ _ (append_statement_bound _ _ hroot)
                · exact ih _ _ hroot
            · exact ih _ _ hroot
          · exact ih _ _ hroot

end Phase4

namespace Codec

open Phase3 in
/-- C39 fails as stated: in the text of three lines `ASSIGNMENT (line 1)`,
`PROGRAM (line 1)`, `ASSIGNMENT (line 2)` both assignment lines are statement
headers, and the program node that `load_ast_from_file` returns has one
statement, that of line 2: the statement header in front of the `PROGRAM`
header is dropped. In the same way `load_annotated_ast` drops the statement
whose label stands in front of the line `ANNOTATED_PROGRAM:`. -/
theorem C39_counterexample :
    ((file_headers "ASSIGNMENT (line 1)\nPROGRAM (line 1)\nASSIGNMENT (line 2)\n".toList).filter
        is_statement_header).map String.mk
      = ["ASSIGNMENT (line 1)", "ASSIGNMENT (line 2)"] ∧
    (load_ast_from_file
        "ASSIGNMENT (line 1)\nPROGRAM (line 1)\nASSIGNMENT (line 2)\n".toList).get_type = 1 ∧
    (load_ast_from_file
        "ASSIGNMENT (line 1)\nPROGRAM (line 1)\nASSIGNMENT (line 2)\n".toList).get_statements.map
        get_line = [2] ∧
    ((Phase4.load_annotated_ast
        ("Statement_1:\nNode_Type: EXPRESSION_STMT (line 1)\nANNOTATED_PROGRAM:\n".toList
          ++ "Statement_2:\nNode_Type: EXPRESSION_STMT (line 2)\n".toList)
      ).get_data.get_statements.length = 1) := by
  refine ⟨by decide, by decide, by decide, by decide⟩

open Phase3 in
/-- C39, amended: for every input text, the statements of the tree that
`load_ast_from_file` returns are the nodes of the first ten statement headers
behind the first `PROGRAM` header of the text, in order, so they are at most
ten; the statement headers that are dropped are counted in `nodes_loaded` like
every other header, and nothing else is recorded about them. For every input
text, the tree that `load_annotated_ast` returns has at most ten statements. -/
theorem C39_first_ten_statements (contents text : List Char) :
    (load_ast_from_file contents).get_statements
      = ((statements_after_program (file_headers contents)).take 10).map node_of_info ∧
    (load_ast_from_file contents).get_statements.length ≤ 10 ∧
    ((fgets_lines contents 511 []).foldl load_line
        { root := ASTNode.null, nodes_loaded := 0 }).nodes_loaded
      = (file_headers contents).length ∧
    (Phase4.load_annotated_ast text).get_data.get_statements.length ≤ 10 := by
  have hstatements : (load_ast_from_file contents).get_statements
      = ((statements_after_program (file_headers contents)).take 10).map node_of_info := by
    unfold load_ast_from_file file_headers
    rw [(foldl_load_line_headers _ _).1]
    exact foldl_attach_node_statements _
  refine ⟨hstatements, ?_, ?_, ?_⟩
  · rw [hstatements, List.length_map, List.length_take]
    exact Nat.min_le_left _ _
  · rw [(foldl_load_line_headers _ _).2]
    simp only [file_headers]
    omega
  · exact Phase4.load_loop_bound _ _ _ (Nat.zero_le _)

end Codec
